import Mathlib

/-!
# TRAD back office: the column / query-plan engine

A shallow embedding of the list helpers of the TRAD back office
(`src/helper/overdue.helper.js`, `src/helper/task.helper.js`,
`src/routes/overdue.risk.route.js`, `src/routes/client.risk.route.js`,
`src/routes/task.risk.route.js`, `src/routes/document.risk.js`).

* JavaScript values and MongoDB documents are terms of `Value`.
* Aggregation pipelines are terms of `Stage`, built by Lean functions that
  follow the JavaScript builders statement by statement.
* The stages are given their MongoDB meaning by `runStage` / `runPipeline`.
-/

set_option autoImplicit false

namespace Trad

/-! ## Values -/

/-- JavaScript / BSON values. `undefined` is the JavaScript value of that name, which is also
what a missing document field reads as; `oid` is an ObjectId. Numbers are the
integers, which is all the embedded code computes with, `nan` (the result of a
failed `parseInt`) and the two infinities (the result of a `parseInt` beyond the
range of doubles). -/
inductive Value where
  | undefined
  | null
  | bool (b : Bool)
  | num (n : Int)
  | nan
  | inf (negative : Bool)
  | str (s : String)
  | oid (n : Nat)
  | arr (xs : List Value)
  | obj (fs : List (String × Value))
  deriving Repr, Inhabited

mutual
/-- Structural equality of values, as a Boolean test. -/
def Value.beq : Value → Value → Bool
  | .undefined, .undefined => true
  | .null, .null => true
  | .nan, .nan => true
  | .inf a, .inf b => a == b
  | .bool a, .bool b => a == b
  | .num a, .num b => a == b
  | .str a, .str b => a == b
  | .oid a, .oid b => a == b
  | .arr a, .arr b => Value.beqList a b
  | .obj a, .obj b => Value.beqFields a b
  | _, _ => false
/-- Equality of arrays, element by element. -/
def Value.beqList : List Value → List Value → Bool
  | [], [] => true
  | a :: as, b :: bs => Value.beq a b && Value.beqList as bs
  | _, _ => false
/-- Equality of objects, binding by binding. -/
def Value.beqFields : List (String × Value) → List (String × Value) → Bool
  | [], [] => true
  | (k, a) :: as, (l, b) :: bs => k == l && Value.beq a b && Value.beqFields as bs
  | _, _ => false
end

/-- Association-list lookup: the value stored under `k`, `undefined` when absent. -/
def lookupField : List (String × Value) → String → Value
  | [], _ => .undefined
  | (k, v) :: fs, k2 => if k = k2 then v else lookupField fs k2

/-- Own-property test on an association list. -/
def hasField : List (String × Value) → String → Bool
  | [], _ => false
  | (k, _) :: fs, k2 => if k = k2 then true else hasField fs k2

/-- Remove every binding of `k`. -/
def eraseField : List (String × Value) → String → List (String × Value)
  | [], _ => []
  | (k, v) :: fs, k2 => if k = k2 then eraseField fs k2 else (k, v) :: eraseField fs k2

/-- Assignment `o[k] = v`: overwrite in place when the key exists, append otherwise. -/
def assignField {α : Type} : List (String × α) → String → α → List (String × α)
  | [], k2, v2 => [(k2, v2)]
  | (k, v) :: fs, k2, v2 => if k = k2 then (k, v2) :: fs else (k, v) :: assignField fs k2 v2

/-- JavaScript property read `v[k]` for a plain property name `k` (not `length`,
not an index): only plain objects carry such a property. -/
def Value.prop : Value → String → Value
  | .obj fs, k => lookupField fs k
  | _, _ => .undefined

/-- JavaScript `hasOwnProperty`. -/
def Value.hasOwnProperty : Value → String → Bool
  | .obj fs, k => hasField fs k
  | _, _ => false

/-- JavaScript truthiness. -/
def Value.truthy : Value → Bool
  | .undefined => false
  | .null => false
  | .bool b => b
  | .num n => n != 0
  | .nan => false
  | .inf _ => true
  | .str s => s != ""
  | .oid _ => true
  | .arr _ => true
  | .obj _ => true

/-- JavaScript `a || b`. -/
def Value.or (a b : Value) : Value := if a.truthy then a else b

/-! ## Strings -/

/-- The regular-expression class `\w`: ASCII letters, digits and underscore. -/
def isWordChar (c : Char) : Bool :=
  let n := c.toNat
  (97 ≤ n && n ≤ 122) || (65 ≤ n && n ≤ 90) || (48 ≤ n && n ≤ 57) || n == 95

/-- The regular-expression class `\s` (its complement is `\S`): the ECMAScript
white space and line terminator code points. -/
def isSpaceChar (c : Char) : Bool :=
  let n := c.toNat
  n == 9 || n == 10 || n == 11 || n == 12 || n == 13 || n == 32 || n == 160 ||
  n == 5760 || (8192 ≤ n && n ≤ 8202) || n == 8232 || n == 8233 || n == 8239 ||
  n == 8287 || n == 12288 || n == 65279

/-- The two case conversions of `String.prototype`, which the embedded code calls
but does not define. They act on whole strings. -/
structure CaseOps where
  toUpperCase : List Char → List Char
  toLowerCase : List Char → List Char

/-- The case conversions restricted to ASCII letters, the alphabet of the status
and overdue-type enumerations. -/
def asciiCase : CaseOps where
  toUpperCase := List.map Char.toUpper
  toLowerCase := List.map Char.toLower

/-- The first `replace` of the label chain, `.replace(/_/g, ' ')`. -/
def replaceUnderscores (s : List Char) : List Char :=
  s.map (fun c => if c = '_' then ' ' else c)

/-- The replacement callback of the label chain:
`txt.charAt(0).toUpperCase() + txt.substr(1).toLowerCase()`, for a match `txt`
whose first character is `c` and whose remainder is `rest`. -/
def capitalize (ops : CaseOps) (c : Char) (rest : List Char) : List Char :=
  ops.toUpperCase [c] ++ ops.toLowerCase rest

/-- The second `replace` of the label chain, `.replace(/\w\S*/g, fn)`, as a
left-to-right scan. `cur = none`: no match is open, a `\w` character opens one
and any other character is copied. `cur = some (c, acc)`: a match that began
with `c` is open and `acc` holds, reversed, what `\S*` has consumed so far; the
match is closed, and the callback result emitted, at the first `\s` character or
at the end of the input. -/
def replaceWords (ops : CaseOps) : Option (Char × List Char) → List Char → List Char
  | none, [] => []
  | some (c, acc), [] => capitalize ops c acc.reverse
  | none, x :: xs =>
      if isWordChar x then replaceWords ops (some (x, [])) xs
      else x :: replaceWords ops none xs
  | some (c, acc), x :: xs =>
      if isSpaceChar x then capitalize ops c acc.reverse ++ x :: replaceWords ops none xs
      else replaceWords ops (some (c, x :: acc)) xs

/-- The label chain of `getDrawerDetails` (lines 97-99) and of the post-processing
of `getOverdueList` (lines 294-303):
`value.replace(/_/g, ' ').replace(/\w\S*/g, fn)`. -/
def formatLabel (ops : CaseOps) (s : String) : String :=
  String.mk (replaceWords ops none (replaceUnderscores s.toList))

/-- The label wording of the specification, as a relation between a text and its
rewriting: characters outside words are kept; a word is a run that starts at a
word character and extends to the next white space (or to the end of the text),
and it is rewritten with its first character upper-cased and the rest
lower-cased. -/
inductive TitleCased (ops : CaseOps) : List Char → List Char → Prop
  | done : TitleCased ops [] []
  | keep (c : Char) (s t : List Char) :
      isWordChar c = false → TitleCased ops s t → TitleCased ops (c :: s) (c :: t)
  | word (c : Char) (w s t : List Char) :
      isWordChar c = true → (∀ x ∈ w, isSpaceChar x = false) →
      (∀ x, s.head? = some x → isSpaceChar x = true) →
      TitleCased ops s t →
      TitleCased ops (c :: (w ++ s)) (ops.toUpperCase [c] ++ ops.toLowerCase w ++ t)

/-- The label of the specification for a raw enumerated value: every underscore
becomes a space, then every word is title-cased. -/
def SpecLabel (ops : CaseOps) (s label : String) : Prop :=
  TitleCased ops (s.toList.map (fun c => if c = '_' then ' ' else c)) label.toList

/-! ## JavaScript conversions -/

/-- The value of a digit character in the given radix, if it is one. -/
def digitVal (radix : Nat) (c : Char) : Option Nat :=
  let n := c.toNat
  let d : Option Nat :=
    if 48 ≤ n ∧ n ≤ 57 then some (n - 48)
    else if 97 ≤ n ∧ n ≤ 122 then some (n - 87)
    else if 65 ≤ n ∧ n ≤ 90 then some (n - 55)
    else none
  match d with
  | some v => if v < radix then some v else none
  | none => none

/-- The longest prefix of digits of the given radix, as digit values. -/
def digitsPrefix (radix : Nat) : List Char → List Nat
  | [] => []
  | c :: cs =>
    match digitVal radix c with
    | some d => d :: digitsPrefix radix cs
    | none => []

/-- A number as `parseInt` and the arithmetic on its results give it: `NaN`, an
infinity, or an integer that a double holds. -/
inductive JsNumber where
  | nan
  | inf (negative : Bool)
  | int (n : Int)
  deriving Repr, DecidableEq

/-- The double nearest to an integer, ties to the even significand: an integer
below 2^53 in magnitude is held as it is; a larger one is cut to 53 significant
bits; one that rounds to 2^1024 or beyond is an infinity. -/
def roundDouble (n : Int) : JsNumber :=
  if n.natAbs < 9007199254740992 then .int n
  else
    let e := Nat.log2 n.natAbs - 52
    let q := n.natAbs / 2 ^ e
    let r := n.natAbs % 2 ^ e
    let q2 := if 2 ^ (e - 1) < r ∨ (r = 2 ^ (e - 1) ∧ q % 2 = 1) then q + 1 else q
    if 2 ^ 1024 ≤ q2 * 2 ^ e then .inf (decide (n < 0))
    else .int (if n < 0 then -((q2 * 2 ^ e : Nat) : Int) else ((q2 * 2 ^ e : Nat) : Int))

/-- The integer of a number that is one: `NaN` and the infinities have none. A
stage argument and a field of a JSON answer tell no `NaN` from an infinity:
MongoDB rejects both, and both are sent as `null`. -/
def JsNumber.finite : JsNumber → Option Int
  | .int n => some n
  | _ => none

/-- The difference `x - 1`. -/
def JsNumber.minusOne : JsNumber → JsNumber
  | .int n => roundDouble (n - 1)
  | x => x

/-- The product `x * y`. -/
def JsNumber.times : JsNumber → JsNumber → JsNumber
  | .nan, _ => .nan
  | _, .nan => .nan
  | .int a, .int b => roundDouble (a * b)
  | .inf s, .int b => if b = 0 then .nan else .inf (s != decide (b < 0))
  | .int a, .inf s => if a = 0 then .nan else .inf (s != decide (a < 0))
  | .inf s, .inf t => .inf (s != t)

/-- JavaScript `parseInt(s)` with no radix argument: leading white space is
skipped, a sign is read, a `0x` / `0X` marker selects radix 16 (radix 10
otherwise), and the longest digit prefix is the value, as the double nearest to
the integer it denotes; without a digit the result is `NaN`. -/
def parseInt (s : String) : JsNumber :=
  let t := s.toList.dropWhile isSpaceChar
  let signed : Bool × List Char :=
    match t with
    | '-' :: r => (true, r)
    | '+' :: r => (false, r)
    | r => (false, r)
  let based : Nat × List Char :=
    match signed.2 with
    | '0' :: 'x' :: r => (16, r)
    | '0' :: 'X' :: r => (16, r)
    | r => (10, r)
  match digitsPrefix based.1 based.2 with
  | [] => .nan
  | d :: ds =>
    let n : Nat := (d :: ds).foldl (fun a x => a * based.1 + x) 0
    roundDouble (if signed.1 then -(n : Int) else (n : Int))

/-- JavaScript `Number.isSafeInteger` on an integer: at most 2^53 - 1 in magnitude,
the range in which the arithmetic of doubles is the arithmetic of integers. -/
def isSafeInteger (n : Int) : Bool := decide (n.natAbs ≤ 9007199254740991)

/-- The 24 hexadecimal digits of an ObjectId. -/
def hex24 (n : Nat) : String :=
  let ds := Nat.toDigits 16 n
  String.mk (List.replicate (24 - ds.length) '0' ++ ds)

mutual
/-- JavaScript `ToString`. -/
def Value.jsToString : Value → String
  | .undefined => "undefined"
  | .null => "null"
  | .bool true => "true"
  | .bool false => "false"
  | .num n => toString n
  | .nan => "NaN"
  | .inf true => "-Infinity"
  | .inf false => "Infinity"
  | .str s => s
  | .oid n => hex24 n
  | .arr xs => Value.jsJoin xs
  | .obj _ => "[object Object]"
/-- The text of `Array.prototype.join(',')`: `null` and `undefined` elements are
empty. -/
def Value.jsJoin : List Value → String
  | [] => ""
  | [x] => Value.jsElem x
  | x :: y :: ys => Value.jsElem x ++ "," ++ Value.jsJoin (y :: ys)
/-- One element of a joined array. -/
def Value.jsElem : Value → String
  | .undefined => ""
  | .null => ""
  | .bool true => "true"
  | .bool false => "false"
  | .num n => toString n
  | .nan => "NaN"
  | .inf true => "-Infinity"
  | .inf false => "Infinity"
  | .str s => s
  | .oid n => hex24 n
  | .arr xs => Value.jsJoin xs
  | .obj _ => "[object Object]"
end

/-! ## `getDrawerDetails` (overdue.helper.js, lines 44-113) -/

/-- A column descriptor `{ name, label, type }`. -/
structure Column where
  name : String
  label : String
  type : String
  deriving Repr, DecidableEq

/-- The constant `overdueColumns` of `getDrawerDetails`. -/
def overdueColumns : List Column :=
  [ ⟨"status", "Status", "status"⟩,
    ⟨"month", "Month-Year", "string"⟩,
    ⟨"clientId", "Client Name", "string"⟩,
    ⟨"debtorId", "Debtor Name", "string"⟩,
    ⟨"acn", "ACN", "string"⟩,
    ⟨"dateOfInvoice", "Date of Invoice", "date"⟩,
    ⟨"overdueType", "Overdue Type", "string"⟩,
    ⟨"insurerId", "Insurer Name", "string"⟩,
    ⟨"currentAmount", "Current", "dollar"⟩,
    ⟨"thirtyDaysAmount", "30 days", "dollar"⟩,
    ⟨"sixtyDaysAmount", "60 days", "dollar"⟩,
    ⟨"ninetyDaysAmount", "90 days", "dollar"⟩,
    ⟨"ninetyPlusDaysAmount", "90+ days", "dollar"⟩,
    ⟨"outstandingAmount", "Outstanding Amounts", "dollar"⟩,
    ⟨"clientComment", "Client Comment", "string"⟩,
    ⟨"analystComment", "Analyst Comment", "string"⟩ ]

/-- The constant `monthString` of `getDrawerDetails`, read at `parseInt(...)`:
`undefined` for `NaN`, for an infinity and for every key outside 1..12. -/
def monthString : Option Int → Value
  | some 1 => .str "Jan"
  | some 2 => .str "Feb"
  | some 3 => .str "Mar"
  | some 4 => .str "Apr"
  | some 5 => .str "May"
  | some 6 => .str "Jun"
  | some 7 => .str "Jul"
  | some 8 => .str "Aug"
  | some 9 => .str "Sep"
  | some 10 => .str "Oct"
  | some 11 => .str "Nov"
  | some 12 => .str "Dec"
  | _ => .undefined

/-- A `{ label, value, type }` triple of the drawer response. -/
structure Triple where
  label : String
  value : Value
  type : String
  deriving Repr

/-- The value computed for one column in the `forEach` body (lines 85-100).
`none` is the `TypeError` of calling `.replace` on a value that is not a string. -/
def drawerValue (ops : CaseOps) (overdue : Value) (name : String) : Option Value :=
  let value0 : Value :=
    if (name = "insurerId" ∨ name = "clientId" ∨ name = "debtorId") ∧
        (overdue.prop name).truthy = true
    then (overdue.prop name).prop "name"
    else (overdue.prop name).or (.str "")
  let value1 : Value :=
    if name = "month" then
      .str ((monthString (parseInt (overdue.prop "month").jsToString).finite).jsToString ++ "-"
        ++ (overdue.prop "year").jsToString)
    else value0
  if name = "overdueType" ∨ name = "status" then
    match value1 with
    | .str s => some (.str (formatLabel ops s))
    | _ => none
  else some value1

/-- The `forEach` over the columns (lines 83-107): a column contributes a triple
when the record has it as an own property; an exception abandons the loop. -/
def drawerLoop (ops : CaseOps) (overdue : Value) : List Column → Option (List Triple)
  | [] => some []
  | c :: cs =>
    if overdue.hasOwnProperty c.name then
      match drawerValue ops overdue c.name with
      | none => none
      | some v =>
        match drawerLoop ops overdue cs with
        | none => none
        | some rest => some (⟨c.label, v, c.type⟩ :: rest)
    else drawerLoop ops overdue cs

/-- The function `getDrawerDetails({ overdue })`. `none` is the `undefined` returned
after the `catch` block. -/
def getDrawerDetails (ops : CaseOps) (overdue : Value) : Option (List Triple) :=
  match overdue with
  | .undefined => none
  | .null => none
  | o => drawerLoop ops o overdueColumns

/-! ## Post-processing of `getOverdueList` (overdue.helper.js, lines 291-306) -/

/-- The body of the inner `forEach` (lines 294-303) on one debtor summary `j`. -/
def shapeDebtor (ops : CaseOps) (j : Value) : Option Value :=
  match j with
  | .obj fs =>
    match lookupField fs "overdueType" with
    | .str t =>
      let fs1 := assignField fs "overdueType" (.str (formatLabel ops t))
      match lookupField fs1 "status" with
      | .str s => some (.obj (assignField fs1 "status" (.str (formatLabel ops s))))
      | _ => none
    | _ => none
  | _ => none

/-- The inner `forEach` over `i.debtors`. -/
def shapeDebtors (ops : CaseOps) : List Value → Option (List Value)
  | [] => some []
  | j :: js =>
    match shapeDebtor ops j with
    | none => none
    | some j2 =>
      match shapeDebtors ops js with
      | none => none
      | some rest => some (j2 :: rest)

/-- The body of the outer `forEach` (lines 292-305) on one group `i`. -/
def shapeGroup (ops : CaseOps) (i : Value) : Option Value :=
  match i with
  | .obj fs =>
    match lookupField fs "debtors" with
    | .arr [] => some (.obj fs)
    | .str "" => some (.obj fs)
    | .arr (j :: js) =>
      match shapeDebtors ops (j :: js) with
      | none => none
      | some ds => some (.obj (assignField fs "debtors" (.arr ds)))
    | _ => none
  | _ => none

/-! ## MongoDB: documents, queries, expressions, stages

Throughout, a result `none` stands for an operation that MongoDB rejects with an
error, or that leaves the fragment of the query language given a meaning here. -/

/-- A database: the documents of each named collection. -/
abbrev Db := String → List Value

/-- Map a function that may fail over a list; the result is `none` as soon as
one application fails. -/
def mapOpt {α β : Type} (f : α → Option β) : List α → Option (List β)
  | [] => some []
  | x :: xs =>
    match f x, mapOpt f xs with
    | some y, some ys => some (y :: ys)
    | _, _ => none

mutual
/-- One step of a field path: the field `k` of a document; through an array, the
array of what the step yields on its elements, those that yield nothing left out. -/
def Value.step : Value → String → Value
  | .obj fs, k => lookupField fs k
  | .arr xs, k => .arr (Value.stepAll xs k)
  | _, _ => .undefined
/-- The path step mapped over the elements of an array. -/
def Value.stepAll : List Value → String → List Value
  | [], _ => []
  | .obj fs :: xs, k =>
    match lookupField fs k with
    | .undefined => Value.stepAll xs k
    | v => v :: Value.stepAll xs k
  | .arr ys :: xs, k => .arr (Value.stepAll ys k) :: Value.stepAll xs k
  | _ :: xs, k => Value.stepAll xs k
end

/-- The value at a field path, as the expression `$a.b.c` reads it. -/
def getPath (v : Value) (path : List String) : Value :=
  path.foldl Value.step v

/-- Split a dotted key such as `assigneeId.name` into its components. -/
def splitDots : List Char → List Char → List String
  | acc, [] => [String.mk acc.reverse]
  | acc, c :: cs => if c = '.' then String.mk acc.reverse :: splitDots [] cs else splitDots (c :: acc) cs

/-- The components of a dotted key. -/
def keyPath (k : String) : List String := splitDots [] k.toList

/-- Comparison operators of the query language. -/
inductive CmpOp where
  | gt | gte | lt | lte
  deriving Repr, DecidableEq

/-- Whether a value is a number: an integer, an infinity or `NaN`. -/
def Value.isNumber : Value → Bool
  | .num _ => true
  | .inf _ => true
  | .nan => true
  | _ => false

/-- The place of a number other than `NaN` on the number line: the infinities
at its ends. -/
def numberKey : Value → Option (Int × Int)
  | .num n => some (0, n)
  | .inf true => some (-1, 0)
  | .inf false => some (1, 0)
  | _ => none

/-- A comparison of the query language: values of different types never compare;
numbers compare by value, strings by code points. `NaN` is equal to `NaN` and
compares with nothing else. -/
def cmpValues (op : CmpOp) (a b : Value) : Option Bool :=
  match a, b with
  | .num x, .num y =>
    some (match op with
      | .gt => decide (x > y) | .gte => decide (x ≥ y) | .lt => decide (x < y) | .lte => decide (x ≤ y))
  | .str x, .str y =>
    some (match op with
      | .gt => decide (x > y) | .gte => decide (x ≥ y) | .lt => decide (x < y) | .lte => decide (x ≤ y))
  | .num _, .str _ => some false
  | .str _, .num _ => some false
  | .undefined, .num _ => some false
  | .undefined, .str _ => some false
  | .null, .num _ => some false
  | .null, .str _ => some false
  | .nan, .nan =>
    some (match op with
      | .gt => false | .gte => true | .lt => false | .lte => true)
  | .arr _, _ => none
  | .obj _, _ => none
  | _, .arr _ => none
  | _, .obj _ => none
  | x, y =>
    match numberKey x, numberKey y with
    | some (i, m), some (j, n) =>
      some (match op with
        | .gt => decide (i > j ∨ (i = j ∧ m > n)) | .gte => decide (i > j ∨ (i = j ∧ m ≥ n))
        | .lt => decide (i < j ∨ (i = j ∧ m < n)) | .lte => decide (i < j ∨ (i = j ∧ m ≤ n)))
    | _, _ =>
      if y.isNumber then some false
      else match x.isNumber, y with
        | true, .str _ => some false
        | _, _ => none

/-- Query equality `{ field: v }` against the value `x` found at the field: `null`
also matches a missing field, and an array field matches when it has `v` as an
element (or is `v`). -/
def queryEq (x v : Value) : Bool :=
  match v, x with
  | .null, .undefined => true
  | _, .arr xs => Value.beq (.arr xs) v || xs.any (fun e => Value.beq e v)
  | _, _ => Value.beq x v

/-- A comparison against the value found at a field; an array field satisfies it
when one of its elements does. -/
def queryCmp (op : CmpOp) (x v : Value) : Option Bool :=
  match x with
  | .arr xs => (mapOpt (fun e => cmpValues op e v) xs).map (fun bs => bs.any id)
  | _ => cmpValues op x v

/-- The operator object `{ $in: [...], $gte: v, ... }` under a field, against the
value `x` found at that field. -/
def queryOps (x : Value) : List (String × Value) → Option Bool
  | [] => some true
  | (op, v) :: rest =>
    let here : Option Bool :=
      if op = "$in" then
        match v with
        | .arr vs => some (vs.any (fun w => queryEq x w))
        | _ => none
      else if op = "$eq" then some (queryEq x v)
      else if op = "$gte" then queryCmp .gte x v
      else if op = "$gt" then queryCmp .gt x v
      else if op = "$lte" then queryCmp .lte x v
      else if op = "$lt" then queryCmp .lt x v
      else none
    match here, queryOps x rest with
    | some a, some b => some (a && b)
    | _, _ => none

/-- Whether the value under a query key is an operator object (its first key
begins with a dollar sign). -/
def isOperatorObject : Value → Bool
  | .obj ((k, _) :: _) => k.toList.head? == some '$'
  | _ => false

mutual
/-- Whether a document satisfies a query object: every key must hold. -/
def matchesFields (doc : Value) : List (String × Value) → Option Bool
  | [] => some true
  | (k, c) :: rest =>
    match matchesEntry doc k c, matchesFields doc rest with
    | some a, some b => some (a && b)
    | _, _ => none
/-- One key of a query object: the keys `$or` and `$and` take an array of
queries; any other key is a field path, tested by an operator object or by
equality. -/
def matchesEntry (doc : Value) (k : String) : Value → Option Bool
  | .arr qs =>
    if k = "$or" then matchesAny doc qs
    else if k = "$and" then matchesAll doc qs
    else some (queryEq (getPath doc (keyPath k)) (.arr qs))
  | .obj os =>
    if k = "$or" then none
    else if k = "$and" then none
    else if isOperatorObject (.obj os) then queryOps (getPath doc (keyPath k)) os
    else some (queryEq (getPath doc (keyPath k)) (.obj os))
  | c =>
    if k = "$or" then none
    else if k = "$and" then none
    else some (queryEq (getPath doc (keyPath k)) c)
/-- Some query of the list holds (`$or`). -/
def matchesAny (doc : Value) : List Value → Option Bool
  | [] => some false
  | q :: qs =>
    match matchesValue doc q, matchesAny doc qs with
    | some a, some b => some (a || b)
    | _, _ => none
/-- Every query of the list holds (`$and`). -/
def matchesAll (doc : Value) : List Value → Option Bool
  | [] => some true
  | q :: qs =>
    match matchesValue doc q, matchesAll doc qs with
    | some a, some b => some (a && b)
    | _, _ => none
/-- Whether a document satisfies a query. -/
def matchesValue (doc : Value) : Value → Option Bool
  | .obj fs => matchesFields doc fs
  | _ => none
end

/-- Whether a document satisfies a query. -/
def matchesQuery (query doc : Value) : Option Bool := matchesValue doc query

/-- The documents of a list that satisfy a query, in order. -/
def filterQuery (query : Value) : List Value → Option (List Value)
  | [] => some []
  | d :: ds =>
    match matchesQuery query d, filterQuery query ds with
    | some b, some rest => some (if b then d :: rest else rest)
    | _, _ => none

/-- The result of `Model.find(query)` on a collection. -/
def find (db : Db) (coll : String) (query : Value) : Option (List Value) :=
  filterQuery query (db coll)

/-- Aggregation expressions. `field ["a", "b"]` is the JavaScript string
`'$a.b'`, `var "x"` is `'$$x'`, and `lit` is a constant. -/
inductive Expr where
  | field (path : List String)
  | var (name : String)
  | lit (v : Value)
  | object (fs : List (String × Expr))
  | cond (c t e : Expr)
  | eq (a b : Expr)
  | gt (a b : Expr)
  | toInt (e : Expr)
  | arrayElemAt (a i : Expr)
  | concat (es : List Expr)
  | letIn (vars : List (String × Expr)) (body : Expr)
  deriving Repr, Inhabited

/-- Accumulators of the `$group` stage. -/
inductive Acc where
  | sum (e : Expr)
  | push (e : Expr)
  deriving Repr, Inhabited

/-- Pipeline stages. `skip` and `limit` carry what JavaScript computed for them,
`none` being `NaN` or an infinity. -/
inductive Stage where
  | matchQ (query : Value)
  | lookup (coll : String) (localField : List String) (foreignField : String) (as : String)
  | unwind (field : String)
  | addFields (fs : List (String × Expr))
  | project (spec : List (String × Expr))
  | sort (spec : List (String × Int))
  | group (key : Expr) (accs : List (String × Acc))
  | skip (n : Option Int)
  | limit (n : Option Int)
  | count (name : String)
  | facet (subs : List (String × List Stage))
  deriving Repr, Inhabited

/-- Truth of a value in `$cond`: `false`, `null`, a missing value and `0` are
false, every other value is true. -/
def Value.condTrue : Value → Bool
  | .undefined => false
  | .null => false
  | .bool b => b
  | .num n => n != 0
  | _ => true

/-- The strict decimal reading of `$toInt` on a string: an optional minus sign
and one or more digits. -/
def toIntString (s : String) : Option Int :=
  let signed : Bool × List Char :=
    match s.toList with
    | '-' :: r => (true, r)
    | r => (false, r)
  if signed.2 ≠ [] ∧ (digitsPrefix 10 signed.2).length = signed.2.length then
    let n : Nat := (digitsPrefix 10 signed.2).foldl (fun a x => a * 10 + x) 0
    some (if signed.1 then -(n : Int) else (n : Int))
  else none

/-- The expression `$toInt`. -/
def toIntValue : Value → Option Value
  | .num n => some (.num n)
  | .bool true => some (.num 1)
  | .bool false => some (.num 0)
  | .null => some .null
  | .undefined => some .null
  | .str s => (toIntString s).map Value.num
  | _ => none

/-- The expression `$arrayElemAt`: an index past either end yields a missing
value; a negative index counts from the end. -/
def arrayElemAtValue : Value → Value → Option Value
  | .arr xs, .num i =>
    if 0 ≤ i then some ((xs.get? i.toNat).getD .undefined)
    else if i.natAbs ≤ xs.length then some ((xs.get? (xs.length - i.natAbs)).getD .undefined)
    else some .undefined
  | .null, _ => some .null
  | .undefined, _ => some .null
  | _, .null => some .null
  | _, .undefined => some .null
  | _, _ => none

/-- One argument `v` of `$concat` in front of the result `r` for the arguments
after it: a string is prepended to a string, `null` and a missing value make the
result `null`, any other argument is an error. -/
def concatStep (v r : Value) : Option Value :=
  match v with
  | .str a =>
    match r with
    | .str b => some (.str (a ++ b))
    | _ => some r
  | .null => some .null
  | .undefined => some .null
  | _ => none

/-- The expression `$concat`: the concatenation of strings, `null` as soon as
an argument is `null` or missing, an error on any other argument. -/
def concatValues : List Value → Option Value
  | [] => some (.str "")
  | v :: vs =>
    match concatValues vs with
    | none => none
    | some r => concatStep v r

mutual
/-- The value of an expression on a document, with the variables bound by
enclosing `$let`. -/
def evalExpr (vars : List (String × Value)) (doc : Value) : Expr → Option Value
  | .field path => some (getPath doc path)
  | .var name => some (lookupField vars name)
  | .lit v => some v
  | .object fs => (evalFields vars doc fs).map Value.obj
  | .cond c t e =>
    match evalExpr vars doc c with
    | none => none
    | some b => if b.condTrue then evalExpr vars doc t else evalExpr vars doc e
  | .eq a b =>
    match evalExpr vars doc a, evalExpr vars doc b with
    | some x, some y => some (.bool (Value.beq x y))
    | _, _ => none
  | .gt a b =>
    match evalExpr vars doc a, evalExpr vars doc b with
    | some (.num x), some (.num y) => some (.bool (decide (x > y)))
    | _, _ => none
  | .toInt e =>
    match evalExpr vars doc e with
    | none => none
    | some v => toIntValue v
  | .arrayElemAt a i =>
    match evalExpr vars doc a, evalExpr vars doc i with
    | some x, some y => arrayElemAtValue x y
    | _, _ => none
  | .concat es =>
    match evalExprs vars doc es with
    | none => none
    | some vs => concatValues vs
  | .letIn bound body =>
    match evalFields vars doc bound with
    | none => none
    | some bs => evalExpr (bs ++ vars) doc body
/-- The values of a list of expressions. -/
def evalExprs (vars : List (String × Value)) (doc : Value) : List Expr → Option (List Value)
  | [] => some []
  | e :: es =>
    match evalExpr vars doc e, evalExprs vars doc es with
    | some v, some vs => some (v :: vs)
    | _, _ => none
/-- The bindings of an object expression; a binding whose value is missing is
left out. -/
def evalFields (vars : List (String × Value)) (doc : Value) :
    List (String × Expr) → Option (List (String × Value))
  | [] => some []
  | (k, e) :: fs =>
    match evalExpr vars doc e, evalFields vars doc fs with
    | some .undefined, some rest => some rest
    | some v, some rest => some ((k, v) :: rest)
    | _, _ => none
end

/-- The keys a `$lookup` matches on: the elements of an array local value, `null`
for a missing one, the value itself otherwise. -/
def lookupKeys : Value → List Value
  | .arr xs => xs
  | .undefined => [.null]
  | v => [v]

/-- Whether a foreign document joins: its foreign field (a missing one reads as
`null`) equals one of the local keys. -/
def joins (keys : List Value) (foreignField : String) (f : Value) : Bool :=
  let fv := match f.prop foreignField with
    | .undefined => Value.null
    | v => v
  keys.any (fun k => Value.beq fv k)

/-- The array a `$lookup` stores under `as` for one input document. -/
def lookupDocs (db : Db) (coll : String) (localField : List String) (foreignField : String)
    (doc : Value) : List Value :=
  (db coll).filter (joins (lookupKeys (getPath doc localField)) foreignField)

/-- Set a top-level field of a document; `none` when the value is not a document. -/
def setField (doc : Value) (k : String) (v : Value) : Option Value :=
  match doc with
  | .obj fs => some (.obj (assignField fs k v))
  | _ => none

/-- The stage `$unwind` on one document: one output per element of the array,
none for a missing, `null` or empty field, the document itself when the field is
not an array. -/
def unwindDoc (field : String) (doc : Value) : Option (List Value) :=
  match doc with
  | .obj fs =>
    match lookupField fs field with
    | .arr xs => some (xs.map (fun x => .obj (assignField fs field x)))
    | .undefined => some []
    | .null => some []
    | _ => some [doc]
  | _ => none

/-- Store one computed field of `$addFields`; a missing value removes the field. -/
def storeField (fs : List (String × Value)) (k : String) (v : Value) : List (String × Value) :=
  match v with
  | .undefined => eraseField fs k
  | _ => assignField fs k v

/-- Store the computed fields of `$addFields`, in order. -/
def storeFields (fs : List (String × Value)) : List (String × Value) → List (String × Value)
  | [] => fs
  | (k, v) :: rest => storeFields (storeField fs k v) rest

/-- The values of the field expressions of `$addFields`, each on the input
document, missing values included. -/
def evalAdded (doc : Value) : List (String × Expr) → Option (List (String × Value))
  | [] => some []
  | (k, e) :: rest =>
    match evalExpr [] doc e, evalAdded doc rest with
    | some v, some vs => some ((k, v) :: vs)
    | _, _ => none

/-- The stage `$addFields` on one document. -/
def addFieldsDoc (spec : List (String × Expr)) (doc : Value) : Option Value :=
  match doc with
  | .obj fs => (evalAdded doc spec).map (fun vs => .obj (storeFields fs vs))
  | _ => none

/-- The first component of a key of a specification. -/
def headOf (k : String) : String := (keyPath k).headD ""

/-- The paths of a list that begin with the component `h`, without that
component. -/
def tailsOf (h : String) (paths : List (List String)) : List (List String) :=
  paths.filterMap (fun p =>
    match p with
    | k :: rest => if k = h then some rest else none
    | [] => none)

/-- Whether two paths of a specification collide, one being the beginning of the
other: MongoDB rejects such a specification. -/
def pathCollision (paths : List (List String)) : Bool :=
  paths.any (fun p => paths.any (fun q => p != q && p.isPrefixOf q))

/-- Whether the keys of a `$project` specification collide. -/
def specCollides (spec : List (String × Expr)) : Bool :=
  pathCollision (spec.map (fun p => keyPath p.1))

mutual
/-- The inclusion of the given paths in a value: of a document, the fields that a
path names, those that a longer path enters cut down in turn; of an array, its
elements cut down, those that are neither documents nor arrays left out. A
value that is neither has no part to include, and the field that holds it is
left out (`none`). -/
def includeValue (paths : List (List String)) : Value → Option Value
  | .obj fs => some (.obj (includeFields paths fs))
  | .arr xs => some (.arr (includeElems paths xs))
  | _ => none
/-- The inclusion of the given paths in the fields of a document. -/
def includeFields (paths : List (List String)) : List (String × Value) → List (String × Value)
  | [] => []
  | (k, v) :: rest =>
    if (tailsOf k paths).isEmpty then includeFields paths rest
    else if (tailsOf k paths).contains [] then (k, v) :: includeFields paths rest
    else
      match includeValue (tailsOf k paths) v with
      | some w => (k, w) :: includeFields paths rest
      | none => includeFields paths rest
/-- The inclusion of the given paths in the elements of an array. -/
def includeElems (paths : List (List String)) : List Value → List Value
  | [] => []
  | x :: xs =>
    match includeValue paths x with
    | some w => w :: includeElems paths xs
    | none => includeElems paths xs
end

/-- The stage `$project` on one document, key by key: `1` keeps a field, `_id: 0`
drops the identifier (kept otherwise), any other expression computes a field.
A dotted key with the value `1` keeps the part of the field that its path
names; the field is put out where the first key that enters it stands, with the
parts that all the keys of the specification `all` name in it. A dotted key
with another value, with an empty component or into `_id` is given no meaning
here (`none`). -/
def projectFields (doc : Value) (fs : List (String × Value)) (all : List (String × Expr)) :
    List (String × Expr) → Option (List (String × Value))
  | [] => some []
  | (k, e) :: rest =>
    if '.' ∈ k.toList then
      match e with
      | .lit (.num 1) =>
        if headOf k = "_id" ∨ "" ∈ keyPath k then none
        else
          match projectFields doc fs all rest with
          | none => none
          | some out =>
            if (all.find? (fun p => headOf p.1 == headOf k)).map Prod.fst = some k then
              match includeValue (tailsOf (headOf k) (all.map (fun p => keyPath p.1)))
                  (lookupField fs (headOf k)) with
              | some w => some ((headOf k, w) :: out)
              | none => some out
            else some out
      | _ => none
    else
      match projectFields doc fs all rest with
      | none => none
      | some out =>
        match e with
        | .lit (.num 1) =>
          if k = "_id" then some out
          else match lookupField fs k with
            | .undefined => some out
            | v => some ((k, v) :: out)
        | .lit (.num 0) => if k = "_id" then some out else none
        | _ =>
          match evalExpr [] doc e with
          | none => none
          | some .undefined => some out
          | some v => some ((k, v) :: out)

/-- Whether a projection drops the identifier (`_id: 0`). -/
def dropsId : List (String × Expr) → Bool
  | [] => false
  | (k, .lit (.num 0)) :: rest => k = "_id" || dropsId rest
  | _ :: rest => dropsId rest

/-- The stage `$project` on one document. MongoDB rejects a specification without
a key and one with colliding paths. -/
def projectDoc (spec : List (String × Expr)) (doc : Value) : Option Value :=
  match doc, spec with
  | _, [] => none
  | .obj fs, _ =>
    if specCollides spec then none
    else
      match projectFields doc fs spec spec with
      | none => none
      | some out =>
        match dropsId spec, lookupField fs "_id" with
        | true, _ => some (.obj out)
        | false, .undefined => some (.obj out)
        | false, v => some (.obj (("_id", v) :: out))
  | _, _ => none

/-- The place of a scalar in the order in which MongoDB compares values of
different types: `null` and a missing field first, then numbers, strings,
ObjectIds and booleans. Documents and arrays are compared by their contents,
which is given no meaning here (`none`). -/
def sortRank : Value → Option Nat
  | .undefined => some 1
  | .null => some 1
  | .nan => some 2
  | .num _ => some 2
  | .inf _ => some 2
  | .str _ => some 3
  | .oid _ => some 4
  | .bool _ => some 5
  | .arr _ => none
  | .obj _ => none

/-- Whether the scalar `a` sorts strictly before the scalar `b`: within a type by
value (`NaN` before every number, strings by code points, `false` before
`true`), across types by rank. -/
def sortLt (a b : Value) : Bool :=
  match a, b with
  | .nan, .num _ => true
  | .nan, .inf _ => true
  | .num x, .num y => decide (x < y)
  | .inf true, .num _ => true
  | .num _, .inf false => true
  | .inf true, .inf false => true
  | .inf _, .inf _ => false
  | .num _, .inf true => false
  | .inf false, .num _ => false
  | .str x, .str y => decide (x < y)
  | .oid x, .oid y => decide (x < y)
  | .bool x, .bool y => !x && y
  | _, _ =>
    match sortRank a, sortRank b with
    | some r, some s => decide (r < s)
    | _, _ => false

/-- The sort keys of a document: for each key of the specification, its direction
and the value at its path. `none` when a direction is neither 1 nor -1, which
MongoDB rejects, or when a value is a document or an array. -/
def sortKeys (spec : List (String × Int)) (doc : Value) : Option (List (Int × Value)) :=
  mapOpt (fun (kd : String × Int) =>
    if kd.2 = 1 ∨ kd.2 = -1 then
      match sortRank (getPath doc (keyPath kd.1)) with
      | some _ => some (kd.2, getPath doc (keyPath kd.1))
      | none => none
    else none) spec

/-- Lexicographic order on key lists, each key compared in its direction. -/
def lexLe : List (Int × Value) → List (Int × Value) → Bool
  | [], _ => true
  | _ :: _, [] => false
  | (d, a) :: as, (_, b) :: bs =>
    (if d < 0 then sortLt b a else sortLt a b) ||
      (!(if d < 0 then sortLt a b else sortLt b a) && lexLe as bs)

/-- The stage `$sort`: a stable insertion sort on the keys. MongoDB rejects a
specification without a key. -/
def sortDocs (spec : List (String × Int)) (docs : List Value) : Option (List Value) :=
  match spec with
  | [] => none
  | _ :: _ =>
    match mapOpt (fun d => (sortKeys spec d).map (fun ks => (ks, d))) docs with
    | none => none
    | some keyed =>
      some ((keyed.insertionSort (fun a b => lexLe a.1 b.1 = true)).map Prod.snd)

/-- The distinct values of a list, each at its first occurrence. -/
def distinctValues : List Value → List Value
  | [] => []
  | v :: vs => v :: (distinctValues vs).filter (fun w => !Value.beq w v)

/-- The value of one accumulator over the documents of a group. -/
def accumulate (docs : List Value) : Acc → Option Value
  | .sum e =>
    (mapOpt (fun d => evalExpr [] d e) docs).map (fun vs =>
      .num ((vs.map (fun v => match v with
        | .num n => n
        | _ => 0)).sum))
  | .push e =>
    (mapOpt (fun d => evalExpr [] d e) docs).map (fun vs =>
      .arr (vs.filter (fun v => !Value.beq v .undefined)))

/-- The accumulated fields of a group. -/
def accumulateAll (docs : List Value) : List (String × Acc) → Option (List (String × Value))
  | [] => some []
  | (k, a) :: rest =>
    match accumulate docs a, accumulateAll docs rest with
    | some v, some vs => some ((k, v) :: vs)
    | _, _ => none

/-- The key a document is grouped under: a missing key groups with `null`. -/
def groupKey : Value → Value
  | .undefined => .null
  | v => v

/-- The stage `$group`: one output document per distinct key, in order of first
occurrence, accumulated over the input documents that have this key. A missing
key groups with `null`. -/
def groupDocs (key : Expr) (accs : List (String × Acc)) (docs : List Value) :
    Option (List Value) :=
  match mapOpt (fun d => (evalExpr [] d key).map (fun k => (groupKey k, d))) docs with
  | none => none
  | some keyed =>
    mapOpt (fun k =>
      (accumulateAll ((keyed.filter (fun kd => Value.beq kd.1 k)).map Prod.snd) accs).map
        (fun vs => Value.obj (("_id", k) :: vs)))
      (distinctValues (keyed.map Prod.fst))

/-- Apply a per-document stage to every document and concatenate the outputs. -/
def eachDoc (f : Value → Option (List Value)) : List Value → Option (List Value)
  | [] => some []
  | d :: ds =>
    match f d, eachDoc f ds with
    | some a, some b => some (a ++ b)
    | _, _ => none

mutual
/-- The meaning of one stage on the stream of documents. -/
def runStage (db : Db) : Stage → List Value → Option (List Value)
  | .matchQ q, docs => filterQuery q docs
  | .lookup coll lf ff as, docs =>
    eachDoc (fun d => (setField d as (.arr (lookupDocs db coll lf ff d))).map (fun x => [x])) docs
  | .unwind f, docs => eachDoc (unwindDoc f) docs
  | .addFields spec, docs => eachDoc (fun d => (addFieldsDoc spec d).map (fun x => [x])) docs
  | .project spec, docs => eachDoc (fun d => (projectDoc spec d).map (fun x => [x])) docs
  | .sort spec, docs => sortDocs spec docs
  | .group key accs, docs => groupDocs key accs docs
  | .skip n, docs =>
    match n with
    | some k => if 0 ≤ k then some (docs.drop k.toNat) else none
    | none => none
  | .limit n, docs =>
    match n with
    | some k => if 0 < k then some (docs.take k.toNat) else none
    | none => none
  | .count name, docs =>
    match docs with
    | [] => some []
    | _ :: _ => some [.obj [(name, .num docs.length)]]
  | .facet subs, docs => (runFacets db subs docs).map (fun fs => [.obj fs])
/-- The meaning of a pipeline: its stages in order. -/
def runPipeline (db : Db) : List Stage → List Value → Option (List Value)
  | [], docs => some docs
  | s :: ss, docs =>
    match runStage db s docs with
    | none => none
    | some out => runPipeline db ss out
/-- The fields of the single document a `$facet` stage emits. -/
def runFacets (db : Db) : List (String × List Stage) → List Value →
    Option (List (String × Value))
  | [], _ => some []
  | (name, sub) :: rest, docs =>
    match runPipeline db sub docs, runFacets db rest docs with
    | some out, some fs => some ((name, .arr out) :: fs)
    | _, _ => none
end

/-- The result of `Model.aggregate(pipeline)` on a collection. -/
def aggregate (db : Db) (coll : String) (pipeline : List Stage) : Option (List Value) :=
  runPipeline db pipeline (db coll)

/-! ## JavaScript helpers of the builders -/

/-- The value that a number is. -/
def numberOf : JsNumber → Value
  | .int n => .num n
  | .inf s => .inf s
  | .nan => .nan

/-- The call `parseInt(v)`: the argument is first converted to a string. -/
def parseNumber (v : Value) : JsNumber := parseInt v.jsToString

/-- The call `parseInt(v)` where its result is a stage argument or a field of the
answer: the integer, `none` for `NaN` and for an infinity. -/
def parseIntValue (v : Value) : Option Int := (parseNumber v).finite

/-- The UTF-16 code units of a string: what JavaScript counts with `length` and
reads with `charCodeAt`. -/
def utf16Units (s : String) : List Nat :=
  (s.toList.map (fun c =>
    if c.toNat < 65536 then [c.toNat]
    else [55296 + (c.toNat - 65536) / 1024, 56320 + (c.toNat - 65536) % 1024])).flatten

/-- The 24 hexadecimal digits of an ObjectId string, as a number. -/
def hexValue (s : String) : Option Nat :=
  if s.length = 24 ∧ (digitsPrefix 16 s.toList).length = 24 then
    some ((digitsPrefix 16 s.toList).foldl (fun a x => a * 16 + x) 0)
  else none

/-- The identifier that the ObjectId constructor makes of a string: a string of
24 hexadecimal digits gives the identifier with these digits, any other string
of 12 code units gives the identifier whose 12 bytes are the low bytes of its
code units, and every other string is refused (`none`). -/
def objectIdOfString (s : String) : Option Value :=
  match hexValue s with
  | some n => some (.oid n)
  | none =>
    if (utf16Units s).length = 12 then
      some (.oid ((utf16Units s).foldl (fun a u => a * 256 + u % 256) 0))
    else none

/-- The call `mongoose.Types.ObjectId(v)`. An ObjectId is returned as it is and a
string is converted; for `null`, `undefined` and a number the constructor
generates an identifier, and `generate v` is that identifier: the generator
reads the clock and a counter, which lie outside the embedding; every other
argument is refused (`none`). -/
def objectId (generate : Value → Nat) : Value → Option Value
  | .oid n => some (.oid n)
  | .str s => objectIdOfString s
  | .undefined => some (.oid (generate .undefined))
  | .null => some (.oid (generate .null))
  | .num n => some (.oid (generate (.num n)))
  | .nan => some (.oid (generate .nan))
  | .inf b => some (.oid (generate (.inf b)))
  | _ => none

/-- The cast of the identifier of a query such as `Model.findById(v)`: an ObjectId,
`null` and `undefined` pass as they are, and any other value is converted to a
string and handed to the ObjectId constructor; `none` is the cast error. -/
def castObjectId : Value → Option Value
  | .oid n => some (.oid n)
  | .undefined => some .undefined
  | .null => some .null
  | v => objectIdOfString v.jsToString

/-- A generator for the sample runs, none of which generates an identifier. -/
def sampleIds : Value → Nat := fun _ => 0

/-- The test `list.includes(x)` on strings. -/
def includes (list : List String) (x : String) : Bool := list.contains x

/-- The array index that a property name is, when it is one: the name is the
decimal numeral, without superfluous zeros, of a number below 2^32 - 1. -/
def arrayIndex (k : String) : Option Nat :=
  match k.toList with
  | [] => none
  | ['0'] => some 0
  | '0' :: _ => none
  | cs =>
    if cs.all (fun c => decide (48 ≤ c.toNat ∧ c.toNat ≤ 57)) then
      (if cs.foldl (fun a c => a * 10 + (c.toNat - 48)) 0 < 4294967295
        then some (cs.foldl (fun a c => a * 10 + (c.toNat - 48)) 0) else none)
    else none

/-- Where a new array-index property goes among the properties of an object:
behind the array indices below it, before everything else. -/
def insertIndex {α : Type} (n : Nat) (k : String) (v : α) :
    List (String × α) → List (String × α)
  | [] => [(k, v)]
  | (k1, v1) :: fs =>
    match arrayIndex k1 with
    | some m => if n < m then (k, v) :: (k1, v1) :: fs else (k1, v1) :: insertIndex n k v fs
    | none => (k, v) :: (k1, v1) :: fs

/-- The assignment `obj[k] = v` on an object that began as `{}`, for a property
name that a request or a stored preference supplies. The name `__proto__`
reaches the accessor of `Object.prototype` and leaves the own properties as
they are; a name the object has is overwritten in place; a new array index is
listed with the array indices, in ascending order and before the other names;
any other new name is listed last. -/
def setProperty {α : Type} (obj : List (String × α)) (k : String) (v : α) :
    List (String × α) :=
  if k = "__proto__" then obj
  else if obj.any (fun p => p.1 == k) then assignField obj k v
  else
    match arrayIndex k with
    | some n => insertIndex n k v obj
    | none => assignField obj k v

/-- The object built by `fields.reduce((obj, [key, val]) => ...)`: each key
assigned `1`, in order. -/
def projectionOf (keys : List String) : List (String × Expr) :=
  keys.foldl (fun obj key => setProperty obj key (Expr.lit (.num 1))) []

/-- The object `sortingOptions` after the one assignment
`sortingOptions[key] = direction`. -/
def sortingOptionsOf (key : String) (direction : Int) : List (String × Int) :=
  setProperty [] key direction

/-- The product `(parseInt(page) - 1) * parseInt(limit)` as a stage argument,
`none` being `NaN` or an infinity. -/
def skipOf (page limit : Value) : Option Int :=
  ((parseNumber page).minusOne.times (parseNumber limit)).finite

/-- The direction `sortOrder === 'desc' ? -1 : 1`. -/
def sortDirection (sortOrder : Value) : Int :=
  if Value.beq sortOrder (.str "desc") then -1 else 1

/-! ## `getOverdueList` (overdue.helper.js, lines 115-338) -/

/-- The ids `clients.map((i) => i._id)` of the clients the caller is the risk
analyst or the service manager of (lines 129-134). -/
def overdueClientIds (db : Db) (userId : Value) : Option (List Value) :=
  (find db "clients"
    (.obj [("$or", .arr [.obj [("riskAnalystId", userId)],
                          .obj [("serviceManagerId", userId)]])])).map
    (fun clients => clients.map (fun i => i.prop "_id"))

/-- The object `queryFilter` of `getOverdueList` as it stands at line 159.
`newDate` is the `Date` constructor. -/
def overdueQueryFilter (generate : Value → Nat) (newDate : Value → Value) (db : Db)
    (requestedQuery : Value)
    (isForRisk hasFullAccess : Bool) (clientId userId : Value) : Option Value :=
  let q0 : List (String × Value) := []
  (if !isForRisk then
      (objectId generate clientId).map (fun c => assignField q0 "clientId" c)
    else if isForRisk && !hasFullAccess then
      (overdueClientIds db userId).map (fun clientIds =>
        assignField q0 "clientId" (.obj [("$in", .arr clientIds)]))
    else some q0).bind fun q1 =>
  (if (requestedQuery.prop "debtorId").truthy then
      (objectId generate (requestedQuery.prop "debtorId")).map (fun d => assignField q1 "debtorId" d)
    else some q1).bind fun q2 =>
  let q3 :=
    if (requestedQuery.prop "minOutstandingAmount").truthy then
      assignField q2 "outstandingAmount"
        (.obj [("$gte", numberOf (parseNumber (requestedQuery.prop "minOutstandingAmount")))])
    else q2
  let q4 :=
    if (requestedQuery.prop "maxOutstandingAmount").truthy then
      assignField q3 "outstandingAmount"
        (.obj [("$lte", numberOf (parseNumber (requestedQuery.prop "maxOutstandingAmount")))])
    else q3
  let q5 :=
    if (requestedQuery.prop "startDate").truthy then
      assignField q4 "dateOfInvoice" (.obj [("$gte", newDate (requestedQuery.prop "startDate"))])
    else q4
  let q6 :=
    if (requestedQuery.prop "endDate").truthy then
      assignField q5 "dateOfInvoice" (.obj [("$lt", newDate (requestedQuery.prop "endDate"))])
    else q5
  some (.obj q6)

/-- The expression `$cond: [{ $eq: ['$status', s] }, 1, 0]` of the group counters. -/
def statusIs (s : String) : Expr :=
  .cond (.eq (.field ["status"]) (.lit (.str s))) (.lit (.num 1)) (.lit (.num 0))

/-- The field of the first `$addFields` (lines 170-186): the rank of the status. -/
def overdueRankFields : List (String × Expr) :=
  [("statusNumber",
    .cond (.eq (.field ["status"]) (.lit (.str "SUBMITTED"))) (.lit (.num 1))
      (.cond (.eq (.field ["status"]) (.lit (.str "PENDING"))) (.lit (.num 2))
        (.cond (.eq (.field ["status"]) (.lit (.str "NOT_REPORTABLE")))
          (.lit (.num 3)) (.lit (.num 4)))))]

/-- The `_id` of the `$group` stage (lines 190-193). -/
def overdueGroupKey : Expr :=
  .object [("month", .field ["month"]), ("year", .field ["year"])]

/-- The summary pushed to `debtors` for each record (lines 197-204). -/
def overdueDebtorSummary : Expr :=
  .object
    [ ("_id", .field ["_id"]),
      ("name", .field ["debtorId", "entityName"]),
      ("acn", .field ["acn"]),
      ("overdueType", .field ["overdueType"]),
      ("status", .field ["status"]),
      ("amount", .field ["outstandingAmount"]) ]

/-- The accumulators of the `$group` stage (lines 194-219). -/
def overdueAccumulators : List (String × Acc) :=
  [ ("debtorCount", .sum (.lit (.num 1))),
    ("amounts", .sum (.field ["outstandingAmount"])),
    ("debtors", .push overdueDebtorSummary),
    ("submitted", .sum (statusIs "SUBMITTED")),
    ("pending", .sum (statusIs "PENDING")),
    ("notReportable", .sum (statusIs "NOT_REPORTABLE")),
    ("reportedToInsurer", .sum (statusIs "REPORTED_TO_INSURER")) ]

/-- The expression of the derived `status` (lines 225-233). -/
def overdueStatusExpr : Expr :=
  .cond (.gt (.field ["submitted"]) (.lit (.num 0))) (.lit (.str "Submitted"))
    (.cond (.gt (.field ["pending"]) (.lit (.num 0))) (.lit (.str "Pending"))
      (.lit (.str "Process")))

/-- The expression of the derived `month` (lines 234-257). -/
def overdueMonthExpr : Expr :=
  .letIn
    [("monthsInString", .lit (.arr
      [ .str "", .str "January", .str "February", .str "March", .str "April",
        .str "May", .str "June", .str "July", .str "August", .str "September",
        .str "October", .str "November", .str "December" ]))]
    (.arrayElemAt (.var "monthsInString") (.toInt (.field ["_id", "month"])))

/-- The fields of the second `$addFields` (lines 224-258): the status of the
group and the name of its month. -/
def overdueLabelFields : List (String × Expr) :=
  [ ("status", overdueStatusExpr), ("month", overdueMonthExpr) ]

/-- The stages of `query` from the `$lookup` to the `$addFields` that derives
`status` and `month` (lines 161-259). -/
def overdueGroupStages : List Stage :=
  [ .lookup "debtors" ["debtorId"] "_id" "debtorId",
    .unwind "debtorId",
    .addFields overdueRankFields,
    .sort [("statusNumber", 1)],
    .group overdueGroupKey overdueAccumulators,
    .sort [("submitted", -1), ("pending", -1), ("notReportable", -1)],
    .addFields overdueLabelFields ]

/-- The specification of the `$project` stage of `query` (lines 261-268). -/
def overdueProjection : List (String × Expr) :=
  [ ("monthString", .concat [.field ["month"], .lit (.str " "), .field ["_id", "year"]]),
    ("debtorCount", .lit (.num 1)),
    ("amounts", .lit (.num 1)),
    ("debtors", .lit (.num 1)),
    ("status", .lit (.num 1)),
    ("_id", .lit (.num 0)) ]

/-- The `$project` stage of `query` (lines 260-269). -/
def overdueProjectStage : Stage := .project overdueProjection

/-- The `$facet` stage of `query` (lines 270-286), with the defaults of lines
124-125 applied to `page` and `limit`. -/
def overdueFacetStage (requestedQuery : Value) : Stage :=
  let page := (requestedQuery.prop "page").or (.num 1)
  let limit := (requestedQuery.prop "limit").or (.num 5)
  .facet
    [ ("paginatedResult", [.skip (skipOf page limit), .limit (parseIntValue limit)]),
      ("totalCount", [.count "count"]) ]

/-- The pipeline `query` of `getOverdueList` after `query.unshift` (line 288). -/
def overdueListQuery (generate : Value → Nat) (newDate : Value → Value) (db : Db)
    (requestedQuery : Value)
    (isForRisk hasFullAccess : Bool) (clientId userId : Value) : Option (List Stage) :=
  (overdueQueryFilter generate newDate db requestedQuery isForRisk hasFullAccess clientId userId).map
    (fun queryFilter =>
      .matchQ queryFilter :: (overdueGroupStages ++ [overdueProjectStage,
        overdueFacetStage requestedQuery]))

/-- The outer `forEach` over `overdueList[0].paginatedResult` (lines 291-306). -/
def shapeGroups (ops : CaseOps) : List Value → Option (List Value)
  | [] => some []
  | i :: is =>
    match shapeGroup ops i, shapeGroups ops is with
    | some g, some gs => some (g :: gs)
    | _, _ => none

/-- The constant `headers` of `getOverdueList`. -/
def overdueListHeaders : List Column :=
  [ ⟨"monthString", "Month", "string"⟩, ⟨"debtorCount", "Debtor", "string"⟩,
    ⟨"status", "Status", "string"⟩, ⟨"amounts", "Amounts", "string"⟩ ]

/-- The value `getOverdueList` returns: the shaped groups of the page, the total
and the headers. -/
structure OverdueListResult where
  paginatedResult : List Value
  total : Value
  headers : List Column

/-- The function `getOverdueList`. `none` is the `undefined` returned after the
`catch` block. -/
def getOverdueList (generate : Value → Nat) (ops : CaseOps) (newDate : Value → Value) (db : Db)
    (requestedQuery : Value)
    (isForRisk hasFullAccess : Bool) (clientId userId : Value) : Option OverdueListResult :=
  (overdueListQuery generate newDate db requestedQuery isForRisk hasFullAccess clientId userId).bind
    fun query =>
  (aggregate db "overdues" query).bind fun overdueList =>
  match overdueList with
  | [facets] =>
    match facets.prop "paginatedResult", facets.prop "totalCount" with
    | .arr page, .arr counts =>
      (shapeGroups ops page).map fun shaped =>
        ⟨shaped,
         match counts with
          | [] => Value.num 0
          | c :: _ => c.prop "count",
         overdueListHeaders⟩
    | _, _ => none
  | _ => none

/-! ## `aggregationQuery` (task.helper.js, lines 166-519) -/

/-- The expression `$cond: [{ $eq: ['$' + typeField, tag] }, '$' + idField, null]`. -/
def idWhen (typeField tag idField : String) : Expr :=
  .cond (.eq (.field [typeField]) (.lit (.str tag))) (.field [idField]) (.lit .null)

/-- The object `{ name: '$' + slot + '.' + nameField, _id: '$' + slot + '._id',
type: '$entityType' }`. -/
def entityRecord (slot nameField : String) : Expr :=
  .object [("name", .field [slot, nameField]), ("_id", .field [slot, "_id"]),
    ("type", .field ["entityType"])]

/-- The fields of the first `$addFields` of the entity block (lines 210-234):
the reference is copied to the slot of its discriminator, the other slots are
`null`. -/
def entitySlots : List (String × Expr) :=
  [ ("userId", idWhen "entityType" "user" "entityId"),
    ("clientId", idWhen "entityType" "client" "entityId"),
    ("clientUserId", idWhen "entityType" "client-user" "entityId"),
    ("debtorId", idWhen "entityType" "debtor" "entityId"),
    ("applicationId", idWhen "entityType" "application" "entityId") ]

/-- The stages pushed when `entityId` is a selected column (lines 208-339). -/
def entityStages : List Stage :=
  [ .addFields entitySlots,
    .lookup "users" ["userId"] "_id" "userId",
    .lookup "clients" ["clientId"] "_id" "clientId",
    .lookup "client-users" ["clientUserId"] "_id" "clientUserId",
    .lookup "client-debtors" ["debtorId"] "_id" "debtorId",
    .lookup "debtors" ["debtorId", "debtorId"] "_id" "debtorId",
    .lookup "applications" ["applicationId"] "_id" "applicationId",
    .addFields
      [ ("entityId",
          .cond (.eq (.field ["entityType"]) (.lit (.str "client")))
            (entityRecord "clientId" "name")
            (.cond (.eq (.field ["entityType"]) (.lit (.str "debtor")))
              (entityRecord "debtorId" "entityName")
              (.cond (.eq (.field ["entityType"]) (.lit (.str "application")))
                (entityRecord "applicationId" "applicationId")
                (.cond (.eq (.field ["entityType"]) (.lit (.str "client-user")))
                  (entityRecord "clientUserId" "name")
                  (.cond (.eq (.field ["entityType"]) (.lit (.str "user")))
                    (entityRecord "userId" "name")
                    (.lit .null)))))) ] ]

/-- The stage pushed by the first branch of lines 342-359 and 414-431: a join of
the users collection on the reference itself. -/
def directUserLookup (idField : String) : List Stage :=
  [ .lookup "users" [idField] "_id" idField ]

/-- The stages pushed by the `else` branch of lines 360-404 and 432-480: the
reference is routed by its type field to the users or the client-users
collection, and the names found are merged back. -/
def typedUserStages (typeField idField : String) : List Stage :=
  [ .addFields
      [ ("clientUserId", idWhen typeField "client-user" idField),
        ("userId", idWhen typeField "user" idField) ],
    .lookup "users" ["userId"] "_id" "userId",
    .lookup "client-users" ["clientUserId"] "_id" "clientUserId",
    .addFields
      [ (idField,
          .cond (.eq (.field [typeField]) (.lit (.str "client-user")))
            (.field ["clientUserId", "name"])
            (.field ["userId", "name"])) ] ]

/-- The object `queryFilter` of `aggregationQuery` as it stands at line 204. -/
def taskQueryFilter (generate : Value → Nat) (ops : CaseOps) (requestedQuery : Value)
    (hasFullAccess : Bool)
    (userId : Value) : Option Value :=
  let q0 : List (String × Value) := [("isDeleted", .bool false)]
  let listCreatedBy : Value :=
    if (requestedQuery.prop "listCreatedBy").truthy then requestedQuery.prop "listCreatedBy"
    else .bool false
  (if (requestedQuery.prop "requestedEntityId").truthy then
      (objectId generate (requestedQuery.prop "requestedEntityId")).map
        (fun e => assignField q0 "entityId" e)
    else some q0).bind fun q1 =>
  (if !hasFullAccess && !listCreatedBy.truthy then
      (objectId generate userId).map (fun u => assignField q1 "assigneeId" u)
    else some q1).bind fun q2 =>
  (if listCreatedBy.truthy then
      (objectId generate userId).map (fun u => assignField q2 "createdById" u)
    else some q2).bind fun q3 =>
  (if (requestedQuery.prop "priority").truthy then
      match requestedQuery.prop "priority" with
      | .str p => some (assignField q3 "priority" (.str (String.mk (ops.toUpperCase p.toList))))
      | _ => none
    else some q3).bind fun q4 =>
  let q5 :=
    if (requestedQuery.prop "isCompleted").truthy then
      assignField q4 "isCompleted" (requestedQuery.prop "isCompleted")
    else q4
  let q6 :=
    if (requestedQuery.prop "startDate").truthy && (requestedQuery.prop "endDate").truthy then
      assignField q5 "dueDate"
        (.obj [("$gte", requestedQuery.prop "startDate"), ("$lt", requestedQuery.prop "endDate")])
    else q5
  some (.obj q6)

/-- The stages pushed by the `if` / `else` of lines 342-404 for the assignee. -/
def assigneeStages (taskColumn : List String) (requestedQuery : Value)
    (isForRisk hasFullAccess : Bool) : List Stage :=
  if (includes taskColumn "assigneeId" || (requestedQuery.prop "assigneeId").truthy) &&
      !hasFullAccess && isForRisk
  then directUserLookup "assigneeId"
  else typedUserStages "assigneeType" "assigneeId"

/-- The stages pushed by the `if` / `else` of lines 414-480 for the creator. -/
def createdByStages (taskColumn : List String) (requestedQuery : Value)
    (isForRisk hasFullAccess : Bool) : List Stage :=
  if (includes taskColumn "createdById" || (requestedQuery.prop "createdById").truthy) &&
      !hasFullAccess && isForRisk
  then directUserLookup "createdById"
  else typedUserStages "createdByType" "createdById"

/-- The stages pushed before the `$project` (lines 207-488). -/
def taskJoinStages (taskColumn : List String) (requestedQuery : Value)
    (isForRisk hasFullAccess : Bool) : List Stage :=
  (if includes taskColumn "entityId" then entityStages else []) ++
  assigneeStages taskColumn requestedQuery isForRisk hasFullAccess ++
  (if (requestedQuery.prop "assigneeId").truthy then
    [.matchQ (.obj [("assigneeId.name", requestedQuery.prop "assigneeId")])] else []) ++
  createdByStages taskColumn requestedQuery isForRisk hasFullAccess ++
  (if (requestedQuery.prop "createdById").truthy then
    [.matchQ (.obj [("createdById.name", requestedQuery.prop "createdById")])] else [])

/-- The stages pushed from the `$project` on (lines 490-507). -/
def taskTailStages (taskColumn : List String) (requestedQuery : Value) : List Stage :=
  [.project (projectionOf taskColumn)] ++
  (if (requestedQuery.prop "sortBy").truthy && (requestedQuery.prop "sortOrder").truthy then
    [.sort (sortingOptionsOf (requestedQuery.prop "sortBy").jsToString
      (sortDirection (requestedQuery.prop "sortOrder")))] else []) ++
  [ .skip (skipOf (requestedQuery.prop "page") (requestedQuery.prop "limit")),
    .limit (parseIntValue (requestedQuery.prop "limit")) ]

/-- The array `query` of `aggregationQuery` as it stands at line 507, before the
`$match` on `queryFilter` is put in front. -/
def taskStages (taskColumn : List String) (requestedQuery : Value)
    (isForRisk hasFullAccess : Bool) : List Stage :=
  taskJoinStages taskColumn requestedQuery isForRisk hasFullAccess ++
  taskTailStages taskColumn requestedQuery

/-- The function `aggregationQuery`: the pair `{ query, queryFilter }`. `none` is
the `undefined` returned after the `catch` block. -/
def aggregationQuery (generate : Value → Nat) (ops : CaseOps) (taskColumn : List String)
    (requestedQuery : Value)
    (isForRisk hasFullAccess : Bool) (userId : Value) : Option (List Stage × Value) :=
  (taskQueryFilter generate ops requestedQuery hasFullAccess userId).map (fun queryFilter =>
    (.matchQ queryFilter :: taskStages taskColumn requestedQuery isForRisk hasFullAccess,
      queryFilter))

/-! ## Access decisions of the list routes -/

/-- The test `req.accessTypes.indexOf('full-access') === -1`. -/
def lacksFullAccess (accessTypes : List String) : Bool := !accessTypes.contains "full-access"

/-- The flag `hasFullAccess` of the task list route (task.risk.route.js, lines
284-287); `none` is a request that carries no `accessTypes`. -/
def taskListHasFullAccess (accessTypes : Option (List String)) : Bool :=
  match accessTypes with
  | some ts => if !lacksFullAccess ts then true else false
  | none => false

/-- The flag `hasFullAccess` of the client list route (client.risk.route.js, lines
747-750). -/
def clientListHasFullAccess (accessTypes : Option (List String)) : Bool :=
  match accessTypes with
  | some ts => if lacksFullAccess ts then false else true
  | none => true

/-! ## Overdue risk list, `router.get('/')` (overdue.risk.route.js, lines 96-292) -/

/-- The ids of the clients found at lines 102-111: not deleted, and the caller is
their risk analyst or their service manager. -/
def riskClientIds (db : Db) (userId : Value) : Option (List Value) :=
  (find db "clients"
    (.obj [ ("isDeleted", .bool false),
            ("$or", .arr [.obj [("riskAnalystId", userId)],
                          .obj [("serviceManagerId", userId)]]) ])).map
    (fun clients => clients.map (fun i => i.prop "_id"))

/-- The object `queryFilter` of the overdue risk list (lines 112-120). -/
def overdueRiskQueryFilter (clientIds : List Value) (accessTypes : Option (List String)) :
    Value :=
  match accessTypes with
  | some ts =>
    if lacksFullAccess ts then
      .obj [("isDeleted", .bool false), ("clientId", .obj [("$in", .arr clientIds)])]
    else .obj [("isDeleted", .bool false)]
  | none => .obj [("isDeleted", .bool false)]

/-- The renaming of a selected column in the `map` callback (lines 203-217). -/
def renameColumn (i : String) : String :=
  let i1 := if i = "clientId" then i ++ ".name" else i
  let i2 := if i1 = "debtorId" then i1 ++ ".entityName" else i1
  let i3 := if i2 = "clientDebtorId" then i2 ++ ".creditLimit" else i2
  let i4 := if i3 = "entityType" then "debtorId." ++ i3 else i3
  i4

/-- The value of `req.query.sortBy` after the four renaming statements of lines
225-236; `===` holds only for a string. -/
def renameSortBy (sortBy : Value) : Value :=
  let s1 := if Value.beq sortBy (.str "clientId") then .str (sortBy.jsToString ++ ".name")
    else sortBy
  let s2 := if Value.beq s1 (.str "debtorId") then .str (s1.jsToString ++ ".entityName") else s1
  let s3 := if Value.beq s2 (.str "clientDebtorId") then .str (s2.jsToString ++ ".creditLimit")
    else s2
  let s4 := if Value.beq s3 (.str "entityType") then .str ("debtorId." ++ s3.jsToString) else s3
  s4

/-- The `$lookup` and `$unwind` pair pushed for a relation column. -/
def joinStages (coll field : String) : List Stage :=
  [ .lookup coll [field] "_id" field, .unwind field ]

/-- The stages pushed before the `$project` (lines 124-201): for each relation,
the join when it is filtered on or selected, then the filter. -/
def overdueRiskJoinStages (columns : List String) (query : Value) : List Stage :=
  (if (query.prop "clientId").truthy || includes columns "clientId"
    then joinStages "clients" "clientId" else []) ++
  (if (query.prop "clientId").truthy
    then [.matchQ (.obj [("clientId.name", query.prop "clientId")])] else []) ++
  (if (query.prop "debtorId").truthy || includes columns "debtorId"
    then joinStages "debtors" "debtorId" else []) ++
  (if (query.prop "debtorId").truthy
    then [.matchQ (.obj [("debtorId.name", query.prop "debtorId")])] else []) ++
  (if (query.prop "clientDebtorId").truthy || includes columns "clientDebtorId"
    then joinStages "client-debtors" "clientDebtorId" else []) ++
  (if (query.prop "clientDebtorId").truthy
    then [.matchQ (.obj [("clientDebtorId.creditLimit", query.prop "clientDebtorId")])]
    else [])

/-- The stages pushed from the `$project` on (lines 203-245). -/
def overdueRiskTailStages (columns : List String) (query : Value) : List Stage :=
  [.project (projectionOf (columns.map renameColumn))] ++
  (if (query.prop "sortBy").truthy && (query.prop "sortOrder").truthy then
    [.sort (sortingOptionsOf (renameSortBy (query.prop "sortBy")).jsToString
      (sortDirection (query.prop "sortOrder")))] else []) ++
  [ .skip (skipOf (query.prop "page") (query.prop "limit")),
    .limit (parseIntValue (query.prop "limit")) ]

/-- The array `aggregationQuery` of the overdue risk list as it stands at line
245, before the `$match` on `queryFilter` is put in front. -/
def overdueRiskStages (columns : List String) (query : Value) : List Stage :=
  overdueRiskJoinStages columns query ++ overdueRiskTailStages columns query

/-- The pipeline the overdue risk list runs (line 252) and the filter it counts
with (line 253). -/
def overdueRiskPlan (db : Db) (userId : Value) (accessTypes : Option (List String))
    (columns : List String) (query : Value) : Option (List Stage × Value) :=
  (riskClientIds db userId).map (fun clientIds =>
    let queryFilter := overdueRiskQueryFilter clientIds accessTypes
    (.matchQ queryFilter :: overdueRiskStages columns query, queryFilter))

/-- The rename map of the specification for the overdue risk list. -/
def specRename : String → String
  | "clientId" => "clientId.name"
  | "debtorId" => "debtorId.entityName"
  | "clientDebtorId" => "clientDebtorId.creditLimit"
  | "entityType" => "debtorId.entityType"
  | other => other

/-- Recognises a `$project` stage. -/
def Stage.isProject : Stage → Bool
  | .project _ => true
  | _ => false

/-- Recognises a `$sort` stage. -/
def Stage.isSort : Stage → Bool
  | .sort _ => true
  | _ => false

/-- Recognises a `$lookup` stage. -/
def Stage.isLookup : Stage → Bool
  | .lookup _ _ _ _ => true
  | _ => false

/-- Recognises a `$lookup` stage that resolves the given reference: it joins on
the reference itself, or on a field that an earlier `$addFields` of the pipeline
copied from the reference. -/
def Stage.joinsOn (sources : List String) : Stage → Bool
  | .lookup _ (f :: _) _ _ => sources.contains f
  | _ => false

/-! ## Document list, `router.get('/:entityId')` (document.risk.js, lines 238-282) -/

/-- The stages pushed when `uploadById` is a selected column. -/
def uploadedByStages : List Stage :=
  [ .addFields
      [ ("clientUserId", idWhen "uploadByType" "client-user" "uploadById"),
        ("userId", idWhen "uploadByType" "user" "uploadById") ],
    .lookup "users" ["userId"] "_id" "userId",
    .lookup "client-users" ["clientUserId"] "_id" "clientUserId",
    .addFields
      [ ("uploadById",
          .cond (.eq (.field ["createdByType"]) (.lit (.str "client-user")))
            (.field ["clientUserId", "name"])
            (.field ["userId", "name"])) ] ]

/-- The array `aggregationQuery` of the document list up to its `$project`
stage (lines 238-322), before the `$match` is put in front. -/
def documentStages (columns : List String) (query : Value) : List Stage :=
  (if includes columns "uploadById" then uploadedByStages else []) ++
  (if includes columns "documentTypeId" || (query.prop "search").truthy
    then [ .lookup "document-types" ["documentTypeId"] "_id" "documentTypeId",
           .unwind "documentTypeId" ]
    else []) ++
  (if (query.prop "search").truthy then
    [.matchQ (.obj [("documentTypeId.documentTitle",
      .obj [("$regex", .str (query.prop "search").jsToString), ("$options", .str "i")])])]
    else []) ++
  [.project (projectionOf (columns.map (fun i =>
    if i = "documentTypeId" then i ++ ".documentTitle" else i)))]

/-- The stages of a pipeline that come before its first `$project`. -/
def beforeProject : List Stage → List Stage
  | [] => []
  | s :: ss => if s.isProject then [] else s :: beforeProject ss

/-- A pipeline read on one row: the stages that rewrite a document (`$lookup`,
`$addFields`) are applied, those that select, order or window rows leave the
row as it is. `$unwind`, `$group`, `$project`, `$facet` and `$count` are not
read row-wise. -/
def rowThrough (db : Db) : List Stage → Value → Option Value
  | [], d => some d
  | .lookup coll lf ff as :: ss, d =>
    match setField d as (.arr (lookupDocs db coll lf ff d)) with
    | none => none
    | some d2 => rowThrough db ss d2
  | .addFields spec :: ss, d =>
    match addFieldsDoc spec d with
    | none => none
    | some d2 => rowThrough db ss d2
  | .matchQ _ :: ss, d => rowThrough db ss d
  | .sort _ :: ss, d => rowThrough db ss d
  | .skip _ :: ss, d => rowThrough db ss d
  | .limit _ :: ss, d => rowThrough db ss d
  | _ :: _, _ => none

/-- A stage list that, read on one row, always yields a row and leaves every
field outside `keys` as it was. -/
def RowTouches (db : Db) (stages : List Stage) (keys : List String) : Prop :=
  ∀ fs, ∃ fs2, rowThrough db stages (.obj fs) = some (.obj fs2) ∧
    ∀ k, k ∉ keys → lookupField fs2 k = lookupField fs k

/-! ## Resolution of typed references, in the words of the specification -/

/-- The documents of a collection whose `_id` is the reference `x`. -/
def joined (db : Db) (coll : String) (x : Value) : List Value :=
  (db coll).filter (joins (lookupKeys x) "_id")

/-- The record `{ name, _id, type }` read off the joined documents: the names
and the ids found, and the discriminator. -/
def resolvedRecord (docs : List Value) (nameField : String) (type : Value) : Value :=
  .obj [ ("name", .arr (Value.stepAll docs nameField)),
         ("_id", .arr (Value.stepAll docs "_id")),
         ("type", type) ]

/-- The debtors a client-debtor reference leads to: the debtors whose `_id` is
the `debtorId` of a client-debtor record with the referenced `_id`. -/
def joinedDebtors (db : Db) (x : Value) : List Value :=
  (db "debtors").filter (joins (Value.stepAll (joined db "client-debtors" x) "debtorId") "_id")

/-- The entity a task refers to, by the discriminator `type` and the reference
`x`: the record taken from the collection of the discriminator, `null` for any
other discriminator. -/
def resolvedEntity (db : Db) (type x : Value) : Value :=
  if Value.beq type (.str "user") then resolvedRecord (joined db "users" x) "name" type
  else if Value.beq type (.str "client") then resolvedRecord (joined db "clients" x) "name" type
  else if Value.beq type (.str "client-user") then
    resolvedRecord (joined db "client-users" x) "name" type
  else if Value.beq type (.str "debtor") then
    resolvedRecord (joinedDebtors db x) "entityName" type
  else if Value.beq type (.str "application") then
    resolvedRecord (joined db "applications" x) "applicationId" type
  else .null

/-- The names a typed user reference resolves to: those found in the
client-users collection for the discriminator `client-user`, those found in the
users collection for the discriminator `user`. -/
def resolvedUserNames (db : Db) (type x : Value) : Value :=
  if Value.beq type (.str "client-user") then
    .arr (Value.stepAll (joined db "client-users" x) "name")
  else if Value.beq type (.str "user") then
    .arr (Value.stepAll (joined db "users" x) "name")
  else .arr (Value.stepAll (joined db "users" .null) "name")

/-! ## The overdue rollup, in the words of the specification -/

/-- The rank `statusNumber` the plan gives a status (lines 171-185). -/
def statusNumber (status : Value) : Int :=
  if Value.beq status (.str "SUBMITTED") then 1
  else if Value.beq status (.str "PENDING") then 2
  else if Value.beq status (.str "NOT_REPORTABLE") then 3
  else 4

/-- An overdue record as it leaves the `$lookup` stage: the joined debtors under
`debtorId`. -/
def overdueLooked (db : Db) (d : Value) : Value :=
  match d with
  | .obj fs => .obj (assignField fs "debtorId" (.arr (lookupDocs db "debtors" ["debtorId"] "_id" d)))
  | _ => d

/-- An overdue record as it leaves the `$unwind` stage when a debtor joins: the
debtor under `debtorId`. -/
def overdueUnwound (db : Db) (d : Value) : Value :=
  match d with
  | .obj fs =>
    match lookupDocs db "debtors" ["debtorId"] "_id" d with
    | deb :: _ => .obj (assignField fs "debtorId" deb)
    | [] => d
  | _ => d

/-- An overdue record as it leaves the `$lookup`, `$unwind` and first
`$addFields` stages when exactly one debtor joins: the debtor under `debtorId`,
the rank under `statusNumber`. -/
def overdueJoined (db : Db) (d : Value) : Value :=
  match d with
  | .obj fs =>
    match lookupDocs db "debtors" ["debtorId"] "_id" d with
    | deb :: _ =>
      .obj (assignField (assignField fs "debtorId" deb) "statusNumber"
        (.num (statusNumber (lookupField fs "status"))))
    | [] => d
  | _ => d

/-- An overdue record the grouping plan can process and keeps: a document whose
`debtorId` joins exactly one debtor, whose `month` is a decimal string and whose
`year` is a string. -/
def WellFormedOverdue (db : Db) (d : Value) : Prop :=
  ∃ fs deb mm yy k, d = .obj fs ∧ lookupDocs db "debtors" ["debtorId"] "_id" d = [deb] ∧
    lookupField fs "month" = .str mm ∧ lookupField fs "year" = .str yy ∧
    toIntString mm = some k

/-- Whether a record has the given status. -/
def hasStatus (s : String) (d : Value) : Bool := Value.beq (d.prop "status") (.str s)

/-- The sum the `amounts` accumulator forms over the records of a group. -/
def amountsOf (ms : List Value) : Int :=
  ((ms.map (fun d => getPath d ["outstandingAmount"])).map (fun v =>
    match v with
    | .num n => n
    | _ => 0)).sum

/-- The summaries the `debtors` accumulator pushes for the records of a group. -/
def debtorsOf (ms : List Value) : List Value :=
  (ms.map (fun d => (evalExpr [] d overdueDebtorSummary).getD .null)).filter
    (fun v => !Value.beq v .undefined)

/-- The group the `$group` stage emits for the key `k` and the records `ms` of
that key. -/
def overdueGroup (k : Value) (ms : List Value) : Value :=
  .obj [ ("_id", k),
         ("debtorCount", .num ms.length),
         ("amounts", .num (amountsOf ms)),
         ("debtors", .arr (debtorsOf ms)),
         ("submitted", .num (ms.countP (hasStatus "SUBMITTED"))),
         ("pending", .num (ms.countP (hasStatus "PENDING"))),
         ("notReportable", .num (ms.countP (hasStatus "NOT_REPORTABLE"))),
         ("reportedToInsurer", .num (ms.countP (hasStatus "REPORTED_TO_INSURER"))) ]

/-- The status of a group by priority: submitted, then pending, then process. -/
def groupStatus (submitted pending : Nat) : String :=
  if 0 < submitted then "Submitted" else if 0 < pending then "Pending" else "Process"

/-- The group as it leaves the second `$addFields`, with the value `month`
found for its month name. -/
def overdueGroupLabelled (k : Value) (ms : List Value) (month : Value) : Value :=
  .obj (storeField
    [ ("_id", k),
      ("debtorCount", .num ms.length),
      ("amounts", .num (amountsOf ms)),
      ("debtors", .arr (debtorsOf ms)),
      ("submitted", .num (ms.countP (hasStatus "SUBMITTED"))),
      ("pending", .num (ms.countP (hasStatus "PENDING"))),
      ("notReportable", .num (ms.countP (hasStatus "NOT_REPORTABLE"))),
      ("reportedToInsurer", .num (ms.countP (hasStatus "REPORTED_TO_INSURER"))),
      ("status", .str (groupStatus (ms.countP (hasStatus "SUBMITTED"))
        (ms.countP (hasStatus "PENDING")))) ]
    "month" month)

/-- The document the `$project` stage emits for a group, with the value
`monthString` computed for it. -/
def overdueGroupProjected (ms : List Value) (monthString : Value) : Value :=
  .obj [ ("monthString", monthString),
         ("debtorCount", .num ms.length),
         ("amounts", .num (amountsOf ms)),
         ("debtors", .arr (debtorsOf ms)),
         ("status", .str (groupStatus (ms.countP (hasStatus "SUBMITTED"))
           (ms.countP (hasStatus "PENDING")))) ]

/-- The second `$addFields` on one group; the group itself where the stage fails. -/
def overdueLabelled (g : Value) : Value := (addFieldsDoc overdueLabelFields g).getD g

/-- The `$project` stage on one group; the group itself where the stage fails. -/
def overdueProjected (g : Value) : Value := (projectDoc overdueProjection g).getD g

/-- The key the `$group` stage computes for a record whose `month` and `year`
are present. -/
def overdueKey (e : Value) : Value :=
  .obj [("month", e.prop "month"), ("year", e.prop "year")]

/-- A record as the `$group` stage of the plan needs it: a document with a
decimal `month`, a string `year` and a numeric `statusNumber`. -/
def GroupReady (e : Value) : Prop :=
  ∃ fs mm yy k n, e = .obj fs ∧ lookupField fs "month" = .str mm ∧
    lookupField fs "year" = .str yy ∧ toIntString mm = some k ∧
    lookupField fs "statusNumber" = .num n

/-- The group key `{ month, year }`. -/
def monthKey (m y : String) : Value := .obj [("month", .str m), ("year", .str y)]

/-- Whether a record belongs to the month `m` of the year `y`. -/
def inMonth (m y : String) (d : Value) : Bool :=
  Value.beq (d.prop "month") (.str m) && Value.beq (d.prop "year") (.str y)

/-- The English name of the month numbered `k`, for `k` from 1 to 12. -/
def monthName (k : Int) : String :=
  if k = 1 then "January" else if k = 2 then "February" else if k = 3 then "March"
  else if k = 4 then "April" else if k = 5 then "May" else if k = 6 then "June"
  else if k = 7 then "July" else if k = 8 then "August" else if k = 9 then "September"
  else if k = 10 then "October" else if k = 11 then "November" else if k = 12 then "December"
  else ""

/-- A store with one debtor and three overdue records of March 2024, the third
of which refers to a debtor that does not exist. -/
def marchStore : Db := fun coll =>
  if coll = "debtors" then [ .obj [("_id", .oid 1), ("entityName", .str "Acme")] ]
  else if coll = "overdues" then
    [ .obj [("_id", .oid 10), ("month", .str "03"), ("year", .str "2024"),
        ("status", .str "SUBMITTED"), ("debtorId", .oid 1), ("overdueType", .str "PAID"),
        ("outstandingAmount", .num 5)],
      .obj [("_id", .oid 11), ("month", .str "03"), ("year", .str "2024"),
        ("status", .str "PENDING"), ("debtorId", .oid 1), ("overdueType", .str "PAID"),
        ("outstandingAmount", .num 5)],
      .obj [("_id", .oid 12), ("month", .str "03"), ("year", .str "2024"),
        ("status", .str "PENDING"), ("debtorId", .oid 2), ("overdueType", .str "PAID"),
        ("outstandingAmount", .num 5)] ]
  else []

/-! ## Sample stores -/

/-- A store with one debtor and two overdue records of March 2024, with the
statuses `NOT_REPORTABLE` and `reported_to_insurer`. -/
def labelStore : Db := fun coll =>
  if coll = "debtors" then [ .obj [("_id", .oid 1), ("entityName", .str "Acme")] ]
  else if coll = "overdues" then
    [ .obj [("_id", .oid 10), ("month", .str "03"), ("year", .str "2024"),
        ("status", .str "NOT_REPORTABLE"), ("debtorId", .oid 1),
        ("overdueType", .str "AMENDED_TERMS"), ("outstandingAmount", .num 5)],
      .obj [("_id", .oid 11), ("month", .str "03"), ("year", .str "2024"),
        ("status", .str "reported_to_insurer"), ("debtorId", .oid 1),
        ("overdueType", .str "PAID"), ("outstandingAmount", .num 7)] ]
  else []

/-- A store with one soft-deleted client, whose risk analyst is user 100, and one
soft-deleted overdue record of that client. -/
def deletedStore : Db := fun coll =>
  if coll = "clients" then
    [ .obj [("_id", .oid 7), ("name", .str "Acme"), ("riskAnalystId", .oid 100),
        ("isDeleted", .bool true)] ]
  else if coll = "overdues" then
    [ .obj [("_id", .oid 10), ("clientId", .oid 7), ("debtorId", .oid 1),
        ("month", .str "03"), ("year", .str "2024"), ("status", .str "PENDING"),
        ("overdueType", .str "PAID"), ("outstandingAmount", .num 5),
        ("isDeleted", .bool true)] ]
  else if coll = "debtors" then
    [ .obj [("_id", .oid 1), ("entityName", .str "Debtor One")] ]
  else []

/-- A store with a user, a client, a client user, a debtor, an application, and the
client-debtor 5, which links the client 7 to the debtor 1. -/
def entityStore : Db := fun coll =>
  if coll = "users" then [ .obj [("_id", .oid 2), ("name", .str "Bob")] ]
  else if coll = "clients" then [ .obj [("_id", .oid 7), ("name", .str "Acme")] ]
  else if coll = "client-users" then
    [ .obj [("_id", .oid 3), ("name", .str "Alice"), ("clientId", .oid 7)] ]
  else if coll = "debtors" then [ .obj [("_id", .oid 1), ("entityName", .str "Debtor One")] ]
  else if coll = "client-debtors" then
    [ .obj [("_id", .oid 5), ("clientId", .oid 7), ("debtorId", .oid 1)] ]
  else if coll = "applications" then
    [ .obj [("_id", .oid 20), ("applicationId", .str "APP-20"), ("debtorId", .oid 1)] ]
  else []

/-- A store with one user, one client user, and one document uploaded by the
client user. -/
def uploadStore : Db := fun coll =>
  if coll = "users" then [ .obj [("_id", .oid 2), ("name", .str "Bob")] ]
  else if coll = "client-users" then [ .obj [("_id", .oid 1), ("name", .str "Alice")] ]
  else if coll = "documents" then
    [ .obj [("_id", .oid 30), ("uploadByType", .str "client-user"), ("uploadById", .oid 1)] ]
  else if coll = "tasks" then
    [ .obj [("_id", .oid 40), ("assigneeType", .str "client-user"), ("assigneeId", .oid 1),
        ("createdByType", .str "user"), ("createdById", .oid 2)] ]
  else []


/-! ## Sample dates -/

/-- The `Date` constructor on three sample date strings and on time values; a
date is represented by its time value in milliseconds. -/
def sampleDate : Value → Value
  | .str s =>
    if s = "2024-01-15" then .num 1705276800000
    else if s = "2024-03-01" then .num 1709251200000
    else if s = "2024-04-01" then .num 1711929600000
    else .nan
  | v => v

/-! ## The module registry and the column preferences

The registry `StaticFile.modules` (static-files/moduleColumn) is not part of the
sources at hand: the handlers below take it as a parameter. -/

/-- A column descriptor of the registry, `{ name, label, type }`. `request` is the
property that the task list handler attaches to a descriptor (`none`: the
descriptor has no such property). -/
structure ColumnDescriptor where
  name : String
  label : String
  type : String
  request : Option (List (String × String))
  deriving Repr, DecidableEq

/-- A module of the registry: its name, its columns in registry order, and the
names of its default columns. -/
structure ModuleDescriptor where
  name : String
  manageColumns : List ColumnDescriptor
  defaultColumns : List String
  deriving Repr, DecidableEq

/-- One element of `manageColumns` on a user document (clientUser.model.js, lines
38-43): the columns a user has selected for a module. -/
structure Preference where
  moduleName : String
  columns : List String
  deriving Repr, DecidableEq

/-- The answer of a route handler: status 200 with its data, a 400 or 401 with
its message code (empty when the answer carries none), or status 500, sent from
the `catch` block. -/
inductive Reply (α : Type) where
  | success (data : α)
  | rejected (status : Nat) (messageCode : String)
  | failure
  deriving Repr

/-- The lookup `StaticFile.modules.find((i) => i.name === columnFor)`. -/
def findModule (modules : List ModuleDescriptor) (columnFor : Value) :
    Option ModuleDescriptor :=
  modules.find? (fun i => Value.beq (.str i.name) columnFor)

/-- The lookup `req.user.manageColumns.find((i) => i.moduleName === columnFor)`. -/
def findPreference (manageColumns : List Preference) (columnFor : Value) :
    Option Preference :=
  manageColumns.find? (fun i => Value.beq (.str i.moduleName) columnFor)

/-- The preferences written when a client user is given portal access
(client.risk.route.js, lines 1193-1199): for every module of the registry, its
default columns. -/
def seedColumns (modules : List ModuleDescriptor) : List Preference :=
  modules.map (fun m => ⟨m.name, m.defaultColumns⟩)

/-! ## Column names, `router.get('/column-name')` (task.risk.route.js, lines
32-100; overdue.risk.route.js, lines 20-91, is the same code) -/

/-- One entry of `defaultFields` or `customFields`. -/
structure Field where
  name : String
  label : String
  isChecked : Bool
  deriving Repr, DecidableEq

/-- The data of the column-name answer. -/
structure ColumnFields where
  defaultFields : List Field
  customFields : List Field
  deriving Repr, DecidableEq

/-- The test `taskColumn && taskColumn.columns.includes(name)`, where `taskColumn`
is the caller's preference for the module, if there is one. -/
def selects (taskColumn : Option Preference) (name : String) : Bool :=
  match taskColumn with
  | some p => includes p.columns name
  | none => false

/-- The `for` loop over `module.manageColumns` (lines 56-89), from the columns
still to visit and the two lists built so far. -/
def columnFieldsLoop (defaultColumns : List String) (taskColumn : Option Preference) :
    List ColumnDescriptor → ColumnFields → ColumnFields
  | [], acc => acc
  | c :: cs, acc =>
    if selects taskColumn c.name then
      if includes defaultColumns c.name then
        columnFieldsLoop defaultColumns taskColumn cs
          { acc with defaultFields := acc.defaultFields ++ [⟨c.name, c.label, true⟩] }
      else
        columnFieldsLoop defaultColumns taskColumn cs
          { acc with customFields := acc.customFields ++ [⟨c.name, c.label, true⟩] }
    else
      if includes defaultColumns c.name then
        columnFieldsLoop defaultColumns taskColumn cs
          { acc with defaultFields := acc.defaultFields ++ [⟨c.name, c.label, false⟩] }
      else
        columnFieldsLoop defaultColumns taskColumn cs
          { acc with customFields := acc.customFields ++ [⟨c.name, c.label, false⟩] }

/-- The column-name handler, for the registry, the caller's preferences and
`req.query.columnFor`. -/
def getColumnNames (modules : List ModuleDescriptor) (manageColumns : List Preference)
    (columnFor : Value) : Reply ColumnFields :=
  if !columnFor.truthy then .rejected 400 "REQUIRE_FIELD_MISSING"
  else
    match findModule modules columnFor with
    | none => .rejected 400 "BAD_REQUEST"
    | some m =>
      if m.manageColumns.isEmpty then .rejected 400 "BAD_REQUEST"
      else
        .success (columnFieldsLoop m.defaultColumns (findPreference manageColumns columnFor)
          m.manageColumns ⟨[], []⟩)

/-- The selection a column-name answer reports: the names of the fields with
`isChecked = true`, default fields first. -/
def checkedColumns (data : ColumnFields) : List String :=
  ((data.defaultFields ++ data.customFields).filter (fun f => f.isChecked)).map (fun f => f.name)

/-! ## Column update, `router.put('/column-name')` (task.risk.route.js, lines
465-517; client.risk.route.js, lines 1284-1321) -/

/-- The update `{ $set: { 'manageColumns.$.columns': columns } }` under the filter
`'manageColumns.moduleName': moduleName`: the first element for the module gets
the new list, and nothing changes when the user has no element for it. -/
def setColumns : List Preference → String → List String → List Preference
  | [], _, _ => []
  | p :: ps, moduleName, columns =>
    if p.moduleName = moduleName then { p with columns := columns } :: ps
    else p :: setColumns ps moduleName columns

/-- The module names the task route accepts (the `case` labels of lines 481-486). -/
def taskModuleNames : List String :=
  ["task", "client-task", "debtor-task", "application-task", "claim-task", "overdue-task"]

/-- The column update of the task route, for the registry, the stored preferences
of the caller and `req.body`; the result is the answer and the preferences
stored afterwards. `cast` is what the storage layer makes of a `columns` payload
for the schema type `[String]` (`none`: it rejects the payload). -/
def updateTaskColumns (cast : Value → Option (List String)) (modules : List ModuleDescriptor)
    (manageColumns : List Preference) (body : Value) : Reply Unit × List Preference :=
  if !body.hasOwnProperty "isReset" || !(body.prop "columns").truthy ||
      !(body.prop "columnFor").truthy then
    (.rejected 400 "REQUIRE_FIELD_MISSING", manageColumns)
  else
    match body.prop "columnFor" with
    | .str columnFor =>
      if taskModuleNames.contains columnFor then
        let updateColumns : Option (List String) :=
          if (body.prop "isReset").truthy then
            (findModule modules (.str columnFor)).map (fun m => m.defaultColumns)
          else cast (body.prop "columns")
        match updateColumns with
        | some columns => (.success (), setColumns manageColumns columnFor columns)
        | none => (.failure, manageColumns)
      else (.rejected 400 "BAD_REQUEST", manageColumns)
    | _ => (.rejected 400 "BAD_REQUEST", manageColumns)

/-- The column update of the client route, whose module is always `client`;
`userId` is `req.user._id`, `undefined` when the request carries no user. -/
def updateClientColumns (cast : Value → Option (List String)) (modules : List ModuleDescriptor)
    (manageColumns : List Preference) (userId body : Value) : Reply Unit × List Preference :=
  if !userId.truthy then (.rejected 401 "", manageColumns)
  else if !body.hasOwnProperty "isReset" || !(body.prop "columns").truthy then
    (.rejected 400 "", manageColumns)
  else
    let updateColumns : Option (List String) :=
      if (body.prop "isReset").truthy then
        (findModule modules (.str "client")).map (fun m => m.defaultColumns)
      else cast (body.prop "columns")
    match updateColumns with
    | some columns => (.success (), setColumns manageColumns "client" columns)
    | none => (.failure, manageColumns)

/-! ## Task list, `router.get('/')` (task.risk.route.js, lines 261-377) -/

/-- The read `v[0]` on a value that is neither `null` nor `undefined`: the first
element of an array, the first character of a string, the property `0` of an
object. -/
def Value.first : Value → Value
  | .arr (x :: _) => x
  | .str s =>
    match s.toList with
    | c :: _ => .str (String.mk [c])
    | [] => .undefined
  | .obj fs => lookupField fs "0"
  | _ => .undefined

/-- The read `v.length` on a value that is neither `null` nor `undefined`. -/
def Value.lengthOf : Value → Value
  | .arr xs => .num xs.length
  | .str s => .num s.length
  | .obj fs => lookupField fs "length"
  | _ => .undefined

/-- The first header of the task list (lines 296-303). -/
def isCompletedHeader : ColumnDescriptor :=
  ⟨"isCompleted", "Completed", "boolean", some [("method", "PUT"), ("url", "task")]⟩

/-- The object assigned to the `request` property of the `entityId` descriptor
(lines 307-316). -/
def entityRequest : List (String × String) :=
  [ ("method", "GET"), ("user", "user"), ("client", "client/details"),
    ("client-user", "client/user-details"), ("debtor", "debtor/drawer"),
    ("application", "application/drawer-details"), ("claim", "claim"),
    ("overdue", "overdue") ]

/-- The `for` loop of lines 304-320 over `module.manageColumns`: the descriptors
as the loop leaves them in the registry, and the headers it pushed. -/
def taskHeaderLoop (columns : List String) :
    List ColumnDescriptor → List ColumnDescriptor × List ColumnDescriptor
  | [] => ([], [])
  | c :: cs =>
    let rest := taskHeaderLoop columns cs
    if includes columns c.name then
      let c1 : ColumnDescriptor :=
        if c.name = "entityId" then { c with request := some entityRequest } else c
      (c1 :: rest.1, c1 :: rest.2)
    else (c :: rest.1, rest.2)

/-- The registry after the descriptors of the module found under `name` were
written to: the first module of that name carries the new descriptors. -/
def replaceColumns : List ModuleDescriptor → String → List ColumnDescriptor →
    List ModuleDescriptor
  | [], _, _ => []
  | m :: ms, name, descriptors =>
    if m.name = name then { m with manageColumns := descriptors } :: ms
    else m :: replaceColumns ms name descriptors

/-- The statement `taskColumn.columns.push(x)` on the preferences held in
`req.user`: the first element for the module gets one more column. -/
def pushColumn : List Preference → Value → String → List Preference
  | [], _, _ => []
  | p :: ps, columnFor, x =>
    if Value.beq (.str p.moduleName) columnFor then { p with columns := p.columns ++ [x] } :: ps
    else p :: pushColumn ps columnFor x

/-- The callback of `response.forEach` (lines 326-351) on one row, with the
columns of the caller as they then stand. `none`: the callback throws. Rows of an
aggregation are documents; for any other value the result is `none`. -/
def shapeTask (ops : CaseOps) (columns : List String) : Value → Option Value
  | .obj fs0 =>
    (if (lookupField fs0 "entityType").truthy then
        match lookupField fs0 "entityType" with
        | .str s =>
          match s.toList with
          | c :: rest =>
            some (assignField fs0 "entityType" (.str (String.mk (ops.toUpperCase [c] ++ rest))))
          | [] => some fs0
        | _ => none
      else some fs0).bind fun fs1 =>
    let fs2 :=
      if includes columns "assigneeId" then
        assignField fs1 "assigneeId"
          (if (lookupField fs1 "assigneeId").truthy &&
              ((lookupField fs1 "assigneeId").prop "name").truthy
            then (lookupField fs1 "assigneeId").prop "name" else .str "")
      else fs1
    let fs3 :=
      if includes columns "entityId" then
        assignField fs2 "entityId"
          (if (lookupField fs2 "entityId").truthy &&
              ((lookupField fs2 "entityId").prop "name").truthy &&
              ((lookupField fs2 "entityId").prop "_id").truthy
            then .obj [ ("_id", ((lookupField fs2 "entityId").prop "_id").first),
                        ("value", ((lookupField fs2 "entityId").prop "name").first),
                        ("type", (lookupField fs2 "entityId").prop "type") ]
            else .str "")
      else fs2
    if includes columns "createdById" then
      match lookupField fs3 "createdById" with
      | .undefined => none
      | .null => none
      | created =>
        some (.obj (assignField fs3 "createdById"
          (if created.first.truthy && (created.first.prop "name").truthy
            then created.first.prop "name" else .str "")))
    else some (.obj fs3)
  | _ => none

/-- The rows `response` of lines 321-352, shaped: those under `paginatedResult`
of the first result when that property is truthy, the results themselves
otherwise. `none`: the statements throw. -/
def taskResponse (ops : CaseOps) (columns : List String) (tasks : List Value) :
    Option (List Value) :=
  match tasks with
  | [] => some []
  | .undefined :: _ => none
  | .null :: _ => none
  | t :: ts =>
    if (t.prop "paginatedResult").truthy then
      match t.prop "paginatedResult" with
      | .arr rows => mapOpt (shapeTask ops columns) rows
      | _ => none
    else mapOpt (shapeTask ops columns) (t :: ts)

/-- The constant `total` of lines 353-358. `none`: the expression throws. -/
def taskTotal (tasks : List Value) : Option Value :=
  match tasks with
  | [] => some (.num 0)
  | .undefined :: _ => none
  | .null :: _ => none
  | t :: _ =>
    if (t.prop "totalCount").truthy &&
        !Value.beq (t.prop "totalCount").lengthOf (.num 0) then
      match (t.prop "totalCount").first with
      | .undefined => none
      | .null => none
      | c => some (c.prop "count")
    else some (.num 0)

/-- The number `Math.ceil(total / limit)` for a total that is a count of
documents. `none`: the result is not a finite number (it is sent as `null`), or
the total is not a number. -/
def pagesOf (total : Value) (limit : JsNumber) : Option Int :=
  match total, limit with
  | .num t, .int l => if l = 0 then none else some (-(Int.fdiv (-t) l))
  | .num _, .inf _ => some 0
  | _, _ => none

/-- The data of the task list answer. -/
structure TaskListData where
  docs : List Value
  headers : List ColumnDescriptor
  total : Value
  page : Option Int
  limit : Option Int
  pages : Option Int
  deriving Repr

/-- What the task list handler leaves behind: its answer, the registry, and the
preferences held in `req.user`, the latter two as the handler's assignments
left them. -/
structure TaskListOutcome where
  reply : Reply TaskListData
  modules : List ModuleDescriptor
  manageColumns : List Preference

/-- The task list handler. `exec` is `Task.aggregate(query).allowDiskUse(true)`
as a function of the value `query` that `aggregationQuery` returned, which the
handler passes on as it is (`none`: the call throws); `userId` is `req.user._id`,
`accessTypes` is `req.accessTypes` and `query` is `req.query`. -/
def taskList (generate : Value → Nat) (ops : CaseOps)
    (exec : Option (List Stage × Value) → Option (List Value))
    (modules : List ModuleDescriptor) (manageColumns : List Preference) (userId : Value)
    (accessTypes : Option (List String)) (query : Value) : TaskListOutcome :=
  if !(query.prop "columnFor").truthy then
    ⟨.rejected 400 "REQUIRE_FIELD_MISSING", modules, manageColumns⟩
  else
    match findModule modules (query.prop "columnFor") with
    | none => ⟨.rejected 400 "BAD_REQUEST", modules, manageColumns⟩
    | some m =>
      if m.manageColumns.isEmpty then ⟨.rejected 400 "BAD_REQUEST", modules, manageColumns⟩
      else
        match findPreference manageColumns (query.prop "columnFor") with
        | none => ⟨.failure, modules, manageColumns⟩
        | some taskColumn =>
          let columns := taskColumn.columns ++ ["isCompleted"]
          let pushed := pushColumn manageColumns (query.prop "columnFor") "isCompleted"
          let hasFullAccess := taskListHasFullAccess accessTypes
          match exec (aggregationQuery generate ops columns query true hasFullAccess userId) with
          | none => ⟨.failure, modules, pushed⟩
          | some tasks =>
            let loop := taskHeaderLoop columns m.manageColumns
            let registry := replaceColumns modules m.name loop.1
            match taskResponse ops columns tasks, taskTotal tasks with
            | some docs, some total =>
              ⟨.success ⟨docs, isCompletedHeader :: loop.2, total,
                  parseIntValue (query.prop "page"), parseIntValue (query.prop "limit"),
                  pagesOf total (parseNumber (query.prop "limit"))⟩, registry, pushed⟩
            | _, _ => ⟨.failure, registry, pushed⟩

/-- The call `Task.aggregate(query).allowDiskUse(true)` of the handler, as Mongoose
answers it. `Model.aggregate` takes an array of stages; the handler hands it
what `aggregationQuery` returned, which is the object `{ query, queryFilter }`
or `undefined`. Mongoose refuses a plain object when the call is made and an
empty pipeline when it is run, so the call throws whatever the plan and the
store are. -/
def taskAggregate : Option (List Stage × Value) → Option (List Value) :=
  fun _ => none

/-- What the call would give if the handler handed `Task.aggregate` the array
found under `query.query`: the stages run on the tasks collection. The handler
does not do so (see `taskAggregate`); this execution shows what the rest of the
handler makes of the rows of the plan. -/
def runTaskPlan (db : Db) : Option (List Stage × Value) → Option (List Value)
  | some plan => aggregate db "tasks" plan.1
  | none => none

/-! ## Overdue risk list: the answer (overdue.risk.route.js, lines 251-284) -/

/-- The result of `Model.countDocuments(filter)` on a collection. -/
def countDocuments (db : Db) (coll : String) (filter : Value) : Option Nat :=
  (find db coll filter).map List.length

/-- The `for` loop of lines 256-260: the descriptors of the selected columns, in
registry order. -/
def selectedHeaders (columns : List String) (descriptors : List ColumnDescriptor) :
    List ColumnDescriptor :=
  descriptors.filter (fun c => includes columns c.name)

/-- The assignment `application[field] = application[field][name]` of lines
263-271, made when `field` is a selected column. `none`: the read throws, the
row holding nothing under `field`. -/
def flattenField (columns : List String) (field name : String)
    (fs : List (String × Value)) : Option (List (String × Value)) :=
  if includes columns field then
    match lookupField fs field with
    | .undefined => none
    | .null => none
    | v => some (assignField fs field (v.prop name))
  else some fs

/-- The callback of `overdueList.forEach` (lines 262-272) on one row. -/
def shapeOverdueRow (columns : List String) : Value → Option Value
  | .obj fs =>
    (flattenField columns "clientId" "name" fs).bind fun fs1 =>
    (flattenField columns "debtorId" "entityName" fs1).bind fun fs2 =>
    (flattenField columns "clientDebtorId" "creditLimit" fs2).map Value.obj
  | _ => none

/-- The data of the overdue risk list answer. -/
structure OverdueRiskData where
  docs : List Value
  headers : List ColumnDescriptor
  total : Nat
  page : Option Int
  limit : Option Int
  pages : Option Int
  deriving Repr

/-- The overdue risk list handler, `router.get('/')` of overdue.risk.route.js:
the pipeline and the count run on the overdues collection, and the answer is put
together from them. -/
def overdueRiskList (db : Db) (modules : List ModuleDescriptor)
    (manageColumns : List Preference) (userId : Value) (accessTypes : Option (List String))
    (query : Value) : Reply OverdueRiskData :=
  match findPreference manageColumns (.str "overdue"),
      findModule modules (.str "overdue") with
  | some overdueColumn, some m =>
    match overdueRiskPlan db userId accessTypes overdueColumn.columns query with
    | none => .failure
    | some plan =>
      match aggregate db "overdues" plan.1, countDocuments db "overdues" plan.2 with
      | some overdueList, some total =>
        match mapOpt (shapeOverdueRow overdueColumn.columns) overdueList with
        | some docs =>
          .success ⟨docs, selectedHeaders overdueColumn.columns m.manageColumns, total,
            parseIntValue (query.prop "page"), parseIntValue (query.prop "limit"),
            pagesOf (.num total) (parseNumber (query.prop "limit"))⟩
        | none => .failure
      | _, _ => .failure
  | _, _ => .failure

/-- The stages of a plan that come before its `$skip`: the part of the plan that
decides which records the list holds. -/
def beforeSkip : List Stage → List Stage
  | [] => []
  | .skip _ :: _ => []
  | s :: rest => s :: beforeSkip rest

/-- A registry with the task module and the overdue module. -/
def sampleModules : List ModuleDescriptor :=
  [ ⟨"task",
      [ ⟨"title", "Title", "string", none⟩, ⟨"dueDate", "Due Date", "date", none⟩,
        ⟨"priority", "Priority", "string", none⟩, ⟨"entityId", "Linked To", "string", none⟩ ],
      ["title", "dueDate"]⟩,
    ⟨"overdue",
      [ ⟨"clientId", "Client Name", "string", none⟩, ⟨"month", "Month", "string", none⟩,
        ⟨"outstandingAmount", "Outstanding Amount", "dollar", none⟩ ],
      ["clientId", "month"]⟩ ]

/-- A store with two clients, one overdue record of each, and two tasks assigned
to user 100. -/
def pagingStore : Db := fun coll =>
  if coll = "clients" then
    [ .obj [("_id", .oid 7), ("name", .str "Acme"), ("isDeleted", .bool false)],
      .obj [("_id", .oid 8), ("name", .str "Bolt"), ("isDeleted", .bool false)] ]
  else if coll = "overdues" then
    [ .obj [("_id", .oid 10), ("clientId", .oid 7), ("month", .str "03"),
        ("isDeleted", .bool false)],
      .obj [("_id", .oid 11), ("clientId", .oid 8), ("month", .str "03"),
        ("isDeleted", .bool false)] ]
  else if coll = "tasks" then
    [ .obj [("_id", .oid 40), ("title", .str "Call"), ("assigneeType", .str "user"),
        ("assigneeId", .oid 100), ("isDeleted", .bool false)],
      .obj [("_id", .oid 41), ("title", .str "Mail"), ("assigneeType", .str "user"),
        ("assigneeId", .oid 100), ("isDeleted", .bool false)] ]
  else []

/-- Recognises a stage that counts: `$count`, or a `$facet`. -/
def Stage.counts : Stage → Bool
  | .count _ => true
  | .facet _ => true
  | _ => false

/-! ## Dates

A `Date` is followed through its calendar fields in local time, and local time
is taken to run at a fixed offset of zero from UTC (no daylight saving). The
time of day is not represented: `setMonth` keeps it and the code below never
reads it. -/

/-- The calendar fields of a valid `Date`: `getFullYear()`, `getMonth()` (0 is
January) and `getDate()`. -/
structure CalendarDate where
  year : Int
  month : Nat
  day : Nat
  deriving Repr, DecidableEq

/-- A `Date` object: a valid date, or `Invalid Date` (time value `NaN`). -/
inductive DateValue where
  | valid (d : CalendarDate)
  | invalid
  deriving Repr, DecidableEq

/-- Leap years of the proleptic Gregorian calendar. -/
def isLeapYear (y : Int) : Bool := (y % 4 == 0 && y % 100 != 0) || y % 400 == 0

/-- The number of days of month `m` (0 is January) in year `y`. -/
def daysInMonth (y : Int) (m : Nat) : Nat :=
  if m = 1 then (if isLeapYear y then 29 else 28)
  else if m = 3 ∨ m = 5 ∨ m = 8 ∨ m = 10 then 30
  else 31

/-- The calendar fields after `date.setMonth(date.getMonth() - 1)`: the month
before (December of the year before, for January) with the day of the month
kept; a day that this month does not have runs over into the month after it.
For a calendar date (a day of at most 31) one carry is enough. -/
def previousMonth (d : CalendarDate) : CalendarDate :=
  let y : Int := if d.month = 0 then d.year - 1 else d.year
  let m : Nat := if d.month = 0 then 11 else d.month - 1
  if d.day ≤ daysInMonth y m then ⟨y, m, d.day⟩
  else ⟨y, m + 1, d.day - daysInMonth y m⟩

/-- The first day a `Date` can hold, 100 000 000 days before 1 January 1970:
20 April of the year -271821. -/
def earliestDate : CalendarDate := ⟨-271821, 3, 20⟩

/-- Whether a calendar date comes before another. -/
def CalendarDate.before (a b : CalendarDate) : Bool :=
  decide (a.year < b.year) ||
    (decide (a.year = b.year) &&
      (decide (a.month < b.month) || (decide (a.month = b.month) && decide (a.day < b.day))))

/-- The date `new Date(date.setMonth(date.getMonth() - 1))` (overdue.helper.js,
lines 16-17): a result before the first day a `Date` can hold is
`Invalid Date`, and so is every result from `Invalid Date`. -/
def setPreviousMonth : DateValue → DateValue
  | .valid d =>
    if (previousMonth d).before earliestDate then .invalid else .valid (previousMonth d)
  | .invalid => .invalid

/-- The call `s.padStart(2, '0')`. -/
def padStart2 (s : String) : String :=
  String.mk (List.replicate (2 - s.length) '0' ++ s.toList)

/-- The value assigned to `query.month` (lines 18-22):
`(getMonth() + 1).toString()`, padded when its length is not 2. -/
def monthParam (date : DateValue) : String :=
  let month : String :=
    match date with
    | .valid d => toString (d.month + 1)
    | .invalid => "NaN"
  if month.length ≠ 2 then padStart2 month else month

/-- The value assigned to `query.year` (line 19): `getFullYear().toString()`. -/
def yearParam : DateValue → String
  | .valid d => toString d.year
  | .invalid => "NaN"

/-! ## `getLastOverdueList` (overdue.helper.js, lines 14-42) -/

/-- The assignments `query.month = month; query.year = year` on the fields of
`query`. -/
def stampQuery (fs : List (String × Value)) (month year : String) : List (String × Value) :=
  assignField (assignField fs "month" (.str month)) "year" (.str year)

/-- The effect of `populate` on one path of a document: a reference that is set is
replaced by the selected fields of the document it names in the collection
`coll`, or by `null` when that collection holds no such document. -/
def populatePath (db : Db) (coll : String) (select : List String)
    (fs : List (String × Value)) (path : String) : List (String × Value) :=
  match lookupField fs path with
  | .undefined => fs
  | .null => fs
  | ref =>
    match (db coll).find? (fun d => Value.beq (d.prop "_id") ref) with
    | some (.obj gs) => assignField fs path (.obj (gs.filter (fun kv => select.contains kv.1)))
    | _ => assignField fs path .null

/-- One document of the chain `.populate({ path: 'debtorId insurerId clientId',
select: '_id name entityName' }).select({ isDeleted: 0, createdAt: 0,
updatedAt: 0, __v: 0 }).lean()` (lines 24-29). `refs` gives, for each populated
path, the collection that the overdue schema refers to. -/
def populateOverdue (refs : String → String) (db : Db) : Value → Value
  | .obj fs =>
    .obj (["isDeleted", "createdAt", "updatedAt", "__v"].foldl eraseField
      (["debtorId", "insurerId", "clientId"].foldl
        (fun gs path => populatePath db (refs path) ["_id", "name", "entityName"] gs path) fs))
  | v => v

/-- The rows `await Overdue.find(query).populate(...).select(...).lean()`.
`none`: the call throws. -/
def overdueRows (refs : String → String) (db : Db) (query : Value) : Option (List Value) :=
  (find db "overdues" query).map (fun docs => docs.map (populateOverdue refs db))

/-- What a run of `getLastOverdueList` has come to within a number of calls:
still running, returned `undefined`, or returned rows. -/
inductive Lookback where
  | unfinished
  | nothing
  | rows (overdue : List Value)
  deriving Repr

/-- The query that a call of `getLastOverdueList` issues, for the `Date` built
from its argument `date` and the fields of its argument `query`. -/
def lookbackQuery (date : DateValue) (fs : List (String × Value)) : Value :=
  .obj (stampQuery fs (monthParam (setPreviousMonth date)) (yearParam (setPreviousMonth date)))

/-- The function `getLastOverdueList`, run for at most `steps` calls of itself;
`date` is the `Date` that `new Date(date)` builds from the argument. A call
returns the rows it finds when there are some, and otherwise what the recursive
call returns when that is a non-empty list; in every other case, and after the
`catch` block, it returns `undefined`. -/
def getLastOverdueList (refs : String → String) (db : Db) :
    Nat → DateValue → Value → Lookback
  | 0, _, _ => .unfinished
  | steps + 1, date, query =>
    match query with
    | .obj fs =>
      match overdueRows refs db (lookbackQuery date fs) with
      | none => .nothing
      | some (o :: os) => .rows (o :: os)
      | some [] =>
        match getLastOverdueList refs db steps (setPreviousMonth date)
            (lookbackQuery date fs) with
        | .rows (o :: os) => .rows (o :: os)
        | .rows [] => .nothing
        | .nothing => .nothing
        | .unfinished => .unfinished
    | _ => .nothing

/-- The number `n` written with two decimal digits, in the words of the
specification: zero-padded. -/
def twoDigits (n : Nat) : String :=
  if n < 10 then "0" ++ toString n else toString n

/-- The months counted from January of the year 0: the index of the month of a
date. -/
def monthIndex (d : CalendarDate) : Int := d.year * 12 + d.month

/-- The rows that match a query in the month of index `i`: those found when
its `month` is the month number in two digits and its `year` the year in
decimal. -/
def rowsOfMonth (refs : String → String) (db : Db) (fs : List (String × Value)) (i : Int) :
    Option (List Value) :=
  overdueRows refs db (.obj (stampQuery fs (twoDigits ((i % 12).toNat + 1)) (toString (i / 12))))

/-- The collections that the populated paths of an overdue record refer to. -/
def overdueRefs : String → String
  | "debtorId" => "debtors"
  | "insurerId" => "insurers"
  | "clientId" => "clients"
  | other => other

/-- A store with one debtor and one overdue record, of January 2024. -/
def januaryStore : Db := fun coll =>
  if coll = "debtors" then [ .obj [("_id", .oid 1), ("entityName", .str "Acme")] ]
  else if coll = "overdues" then
    [ .obj [("_id", .oid 10), ("clientId", .oid 7), ("debtorId", .oid 1),
        ("month", .str "01"), ("year", .str "2024"), ("status", .str "PENDING"),
        ("isDeleted", .bool false)] ]
  else []

/-- A cast of a `columns` payload that takes an array of strings as it is and
rejects every other payload. -/
def castStrings : Value → Option (List String)
  | .arr xs =>
    mapOpt (fun x =>
      match x with
      | .str s => some s
      | _ => none) xs
  | _ => none

/-- A registry whose task module has the reference columns. -/
def taskRegistry : List ModuleDescriptor :=
  [ ⟨"task",
      [ ⟨"title", "Title", "string", none⟩, ⟨"assigneeId", "Assignee", "string", none⟩,
        ⟨"entityId", "Linked To", "string", none⟩,
        ⟨"createdById", "Created By", "string", none⟩ ],
      ["title", "assigneeId"]⟩ ]

/-- A store with the user Bob, no client, and one task: assigned to Bob, and
linked to a client that does not exist. -/
def assigneeStore : Db := fun coll =>
  if coll = "users" then [ .obj [("_id", .oid 100), ("name", .str "Bob")] ]
  else if coll = "tasks" then
    [ .obj [("_id", .oid 40), ("title", .str "Call"), ("assigneeType", .str "user"),
        ("assigneeId", .oid 100), ("entityType", .str "client"), ("entityId", .oid 9),
        ("isDeleted", .bool false)] ]
  else []

/-! ## Task details, `router.get('/details/:taskId')` (task.risk.route.js, lines
191-256) -/

/-- The result of `Model.findById(id).lean()` for an identifier as the store holds
it: the first document of the collection with that `_id`, `null` when there is
none. -/
def findById (db : Db) (coll : String) (id : Value) : Value :=
  match (db coll).find? (fun d => Value.beq (d.prop "_id") id) with
  | some d => d
  | none => .null

/-- The statement of lines 206-213 on the fields of the task: a truthy `priority`
becomes `{ value, label }`. `none`: the statement throws, the priority being no
string. -/
def detailPriority (ops : CaseOps) (fs : List (String × Value)) :
    Option (List (String × Value)) :=
  if (lookupField fs "priority").truthy then
    match lookupField fs "priority" with
    | .str s =>
      match s.toList with
      | c :: rest =>
        some (assignField fs "priority"
          (.obj [("value", .str s), ("label", .str (String.mk (capitalize ops c rest)))]))
      | [] => some fs
    | _ => none
  else some fs

/-- The statements of lines 214-222: for a truthy `assigneeId` the user is read and
the reference becomes `{ label, value }`; the result carries the variable
`value` as well. `none`: `user.name` throws, no user having that identifier. -/
def detailAssignee (db : Db) (fs : List (String × Value)) :
    Option (Value × List (String × Value)) :=
  if (lookupField fs "assigneeId").truthy then
    match findById db "users" (lookupField fs "assigneeId") with
    | .obj user =>
      some (lookupField user "name",
        assignField fs "assigneeId"
          (.obj [("label", lookupField user "name"), ("value", lookupField fs "assigneeId")]))
    | _ => none
  else some (.undefined, fs)

/-- The expression `response && response[name] ? response[name] : ''`. -/
def labelOf (response : Value) (name : String) : Value :=
  if response.truthy && (response.prop name).truthy then response.prop name else .str ""

/-- The statements of lines 223-240: for a truthy `entityId` with a truthy
`entityType` the entity is read from the collection of its type and the
reference becomes `{ value, label }`; for a type other than `client`,
`application` and `debtor` the label is what the variable `value` held
before. -/
def detailEntity (db : Db) (value : Value) (fs : List (String × Value)) :
    List (String × Value) :=
  if (lookupField fs "entityId").truthy && (lookupField fs "entityType").truthy then
    let label : Value :=
      if Value.beq (lookupField fs "entityType") (.str "client") then
        labelOf (findById db "clients" (lookupField fs "entityId")) "name"
      else if Value.beq (lookupField fs "entityType") (.str "application") then
        labelOf (findById db "applications" (lookupField fs "entityId")) "applicationId"
      else if Value.beq (lookupField fs "entityType") (.str "debtor") then
        labelOf (findById db "debtors" (lookupField fs "entityId")) "entityName"
      else value
    assignField fs "entityId" (.obj [("value", lookupField fs "entityId"), ("label", label)])
  else fs

/-- The statement of lines 241-247: a truthy `entityType` becomes
`{ value, label }`. `none`: the statement throws, the type being no string. -/
def detailEntityType (ops : CaseOps) (fs : List (String × Value)) :
    Option (List (String × Value)) :=
  if (lookupField fs "entityType").truthy then
    match lookupField fs "entityType" with
    | .str s =>
      match s.toList with
      | c :: rest =>
        some (assignField fs "entityType"
          (.obj [("value", .str s), ("label", .str (String.mk (ops.toUpperCase [c] ++ rest)))]))
      | [] => some fs
    | _ => none
  else some fs

/-- The task details handler. `taskId` is `req.params.taskId`, and `isValid` is
`mongoose.Types.ObjectId.isValid`. The task is read without the fields `__v`,
`isDeleted`, `createdAt` and `updatedAt`; when there is no such task, the first
statement of the handler throws. -/
def taskDetails (ops : CaseOps) (isValid : Value → Bool) (db : Db) (taskId : Value) :
    Reply Value :=
  if !taskId.truthy || !isValid taskId then .rejected 400 "REQUIRE_FIELD_MISSING"
  else
    match (castObjectId taskId).map (findById db "tasks") with
    | some (.obj task) =>
      match (detailPriority ops
          (["__v", "isDeleted", "createdAt", "updatedAt"].foldl eraseField task)).bind
          (detailAssignee db) with
      | some (value, fs) =>
        match detailEntityType ops (detailEntity db value fs) with
        | some shaped => .success (.obj shaped)
        | none => .failure
      | none => .failure
    | _ => .failure

/-- A store with no user and no client, and one task: assigned to a user that
does not exist, and linked to a client that does not exist. -/
def danglingStore : Db := fun coll =>
  if coll = "tasks" then
    [ .obj [("_id", .oid 40), ("title", .str "Call"), ("assigneeType", .str "user"),
        ("assigneeId", .oid 101), ("entityType", .str "client"), ("entityId", .oid 9),
        ("isDeleted", .bool false)] ]
  else []

/-! ## Insurer list, `router.get('/')` (insurer.risk.route.js, lines 417-533) -/

/-- The constant `addressFields` (lines 445-452). -/
def addressFields : List String :=
  ["fullAddress", "addressLine", "city", "state", "country", "zipCode"]

/-- The object `sortingOptions` as it stands when the `$sort` stage is pushed, for
a request whose `sortBy` and `sortOrder` are truthy: the assignment of line 432
stores the `sortOrder` of the request under `sortBy`, then `sortBy` gets the
prefix `address.` when it is an address field (lines 453-455), and the
assignment of lines 456-457 stores the direction under it. -/
def insurerSortingOptions (query : Value) : List (String × Value) :=
  let first : List (String × Value) :=
    setProperty [] (query.prop "sortBy").jsToString (query.prop "sortOrder")
  let sortBy : Value :=
    if addressFields.any (fun a => Value.beq (.str a) (query.prop "sortBy")) then
      .str ("address." ++ (query.prop "sortBy").jsToString)
    else query.prop "sortBy"
  setProperty first sortBy.jsToString (.num (sortDirection (query.prop "sortOrder")))

/-- The array `aggregationQuery` of the insurer list, by its parts: the `$match`
on `queryFilter`, the `$project`, the `$sort` when one is pushed (its object
holds whatever the code assigned), and the `$skip` and `$limit` of the
`paginatedResult` facet, next to which the `totalCount` facet counts. -/
structure InsurerPlan where
  queryFilter : Value
  projection : List (String × Expr)
  sorting : Option (List (String × Value))
  skip : Option Int
  limit : Option Int

/-- The plan of the insurer list for the columns of the caller, `address`
included, and `req.query` (lines 424-470). -/
def insurerPlan (columns : List String) (query : Value) : InsurerPlan :=
  { queryFilter :=
      if (query.prop "search").truthy then
        .obj [ ("isDeleted", .bool false),
               ("name", .obj [("$regex", query.prop "search"), ("$options", .str "i")]) ]
      else .obj [("isDeleted", .bool false)]
    projection := projectionOf columns
    sorting :=
      if (query.prop "sortBy").truthy && (query.prop "sortOrder").truthy then
        some (insurerSortingOptions query)
      else none
    skip := skipOf (query.prop "page") (query.prop "limit")
    limit := parseIntValue (query.prop "limit") }

/-- The object of a `$sort` stage as a sort specification: every value must be 1
or -1, MongoDB rejecting the stage otherwise. -/
def sortSpec : List (String × Value) → Option (List (String × Int))
  | [] => some []
  | (k, .num n) :: rest =>
    if n = 1 ∨ n = -1 then (sortSpec rest).map (fun spec => (k, n) :: spec) else none
  | _ => none

/-- The stages of an insurer plan. `none`: the `$sort` object is rejected. -/
def InsurerPlan.stages (plan : InsurerPlan) : Option (List Stage) :=
  let tail : List Stage :=
    [ .facet [ ("paginatedResult", [.skip plan.skip, .limit plan.limit]),
               ("totalCount", [.count "count"]) ] ]
  match plan.sorting with
  | none => some (.matchQ plan.queryFilter :: .project plan.projection :: tail)
  | some options =>
    (sortSpec options).map (fun spec =>
      .matchQ plan.queryFilter :: .project plan.projection :: .sort spec :: tail)

/-- An execution of the insurer plan on the insurers collection. -/
def runInsurerPlan (db : Db) (plan : InsurerPlan) : Option (List Value) :=
  plan.stages.bind (aggregate db "insurers")

/-- The call `.replace(/,,/g, ',')`, as a left-to-right scan. -/
def replaceDoubleCommas : List Char → List Char
  | [] => []
  | [c] => [c]
  | c :: d :: rest =>
    if c = ',' ∧ d = ',' then ',' :: replaceDoubleCommas rest
    else c :: replaceDoubleCommas (d :: rest)

/-- The array `Object.values(v)` for a truthy value. -/
def objectValues : Value → List Value
  | .obj fs => fs.map (fun kv => kv.2)
  | .arr xs => xs
  | .str s => s.toList.map (fun c => .str (String.mk [c]))
  | _ => []

/-- The assignment `user[field] = user.address[field]`, made when `field` is a
selected column. -/
def copyAddressField (columns : List String) (address : Value) (field : String)
    (fs : List (String × Value)) : List (String × Value) :=
  if includes columns field then assignField fs field (address.prop field) else fs

/-- The callback of `paginatedResult.forEach` (lines 486-508) on one row. -/
def shapeInsurer (columns : List String) : Value → Option Value
  | .obj fs =>
    let address := lookupField fs "address"
    let flattened : List (String × Value) :=
      if address.truthy then
        let fs1 :=
          if includes columns "fullAddress" then
            assignField fs "fullAddress"
              (.str (String.mk (replaceDoubleCommas (Value.jsJoin (objectValues address)).toList)))
          else fs
        ["addressLine", "city", "state", "country", "zipCode"].foldl
          (fun gs field => copyAddressField columns address field gs) fs1
      else fs
    some (.obj (eraseField flattened "address"))
  | _ => none

/-- The constant `total` of an answer that is read from the `totalCount` facet
without any guard (lines 510-513). `none`: the expression throws. -/
def facetTotal (first : Value) : Option Value :=
  match first.prop "totalCount" with
  | .undefined => none
  | .null => none
  | counts =>
    if Value.beq counts.lengthOf (.num 0) then some (.num 0)
    else
      match counts.first with
      | .undefined => none
      | .null => none
      | c => some (c.prop "count")

/-- The data of the insurer list answer. -/
structure InsurerListData where
  docs : List Value
  headers : List ColumnDescriptor
  total : Value
  page : Option Int
  limit : Option Int
  pages : Option Int
  deriving Repr

/-- What the insurer list handler leaves behind: its answer, the registry, in which
the handler assigns nothing, and the preferences held in `req.user` as its
`push` left them. -/
structure InsurerListOutcome where
  reply : Reply InsurerListData
  modules : List ModuleDescriptor
  manageColumns : List Preference

/-- The insurer list handler. `exec` is
`Insurer.aggregate(aggregationQuery).allowDiskUse(true)` as a function of the
plan (`none`: the call throws). -/
def insurerList (exec : InsurerPlan → Option (List Value)) (modules : List ModuleDescriptor)
    (manageColumns : List Preference) (query : Value) : InsurerListOutcome :=
  match findPreference manageColumns (.str "insurer") with
  | none => ⟨.failure, modules, manageColumns⟩
  | some insurerColumn =>
    let columns := insurerColumn.columns ++ ["address"]
    let pushed := pushColumn manageColumns (.str "insurer") "address"
    match exec (insurerPlan columns query), findModule modules (.str "insurer") with
    | some (.obj first :: _), some m =>
      match lookupField first "paginatedResult" with
      | .arr rows =>
        match mapOpt (shapeInsurer columns) rows, facetTotal (.obj first) with
        | some docs, some total =>
          ⟨.success ⟨docs, selectedHeaders columns m.manageColumns, total,
              parseIntValue (query.prop "page"), parseIntValue (query.prop "limit"),
              pagesOf total (parseNumber (query.prop "limit"))⟩, modules, pushed⟩
        | _, _ => ⟨.failure, modules, pushed⟩
      | _ => ⟨.failure, modules, pushed⟩
    | _, _ => ⟨.failure, modules, pushed⟩

/-- A registry with the insurer module. -/
def insurerRegistry : List ModuleDescriptor :=
  [ ⟨"insurer",
      [ ⟨"name", "Name", "string", none⟩, ⟨"city", "City", "string", none⟩,
        ⟨"contactNumber", "Contact Number", "string", none⟩ ],
      ["name", "city"]⟩ ]

/-- A store with one insurer. -/
def insurerStore : Db := fun coll =>
  if coll = "insurers" then
    [ .obj [("_id", .oid 60), ("name", .str "Zed"),
        ("address", .obj [("addressLine", .str "1 Main St"), ("city", .str "Perth")]),
        ("isDeleted", .bool false)] ]
  else []

/-! ## Client user list, `router.get('/user/:clientId')`: the rows
(client.risk.route.js, lines 336-380) -/

/-- The flag `checkForLink` after the loop of lines 338-349: a registry column
named `name` or `hasPortalAccess` is among the selected columns. -/
def checkForLink (columns : List String) (descriptors : List ColumnDescriptor) : Bool :=
  descriptors.any (fun c =>
    includes columns c.name && (c.name == "name" || c.name == "hasPortalAccess"))

/-- The statement `if (user[k] && user[k].length !== 0) { user[k] = user[k] ? 'Yes'
: 'No'; }` of lines 363-368 on the fields of a row. -/
def yesNo (fs : List (String × Value)) (k : String) : List (String × Value) :=
  if (lookupField fs k).truthy && !Value.beq (lookupField fs k).lengthOf (.num 0) then
    assignField fs k (if (lookupField fs k).truthy then .str "Yes" else .str "No")
  else fs

/-- The callback of `paginatedResult.forEach` (lines 351-369) on one row. -/
def shapeClientUser : Value → Option Value
  | .obj fs =>
    let fs1 :=
      if (lookupField fs "name").truthy &&
          !Value.beq (lookupField fs "name").lengthOf (.num 0) then
        assignField fs "name"
          (.obj [("id", lookupField fs "_id"), ("value", lookupField fs "name")])
      else fs
    let fs2 :=
      if hasField fs1 "hasPortalAccess" then
        assignField fs1 "hasPortalAccess"
          (.obj [("id", lookupField fs1 "_id"), ("value", lookupField fs1 "hasPortalAccess")])
      else fs1
    some (.obj (yesNo (yesNo fs2 "isDecisionMaker") "hasLeftCompany"))
  | _ => none

/-- The rows `docs` of the client user list, from the result `clientUsers` of
the aggregation, whose first document holds the array `paginatedResult`: the
rows are shaped when `checkForLink` is set, and sent as they are otherwise.
`none`: the statements throw, or the result has another form. -/
def clientUserDocs (columns : List String) (descriptors : List ColumnDescriptor)
    (clientUsers : List Value) : Option (List Value) :=
  match clientUsers with
  | .obj first :: _ =>
    match lookupField first "paginatedResult" with
    | .arr rows =>
      if checkForLink columns descriptors then mapOpt shapeClientUser rows else some rows
    | _ => none
  | _ => none

/-- The columns of a client user module. -/
def clientUserColumns : List ColumnDescriptor :=
  [ ⟨"name", "Name", "string", none⟩, ⟨"isDecisionMaker", "Decision Maker", "boolean", none⟩,
    ⟨"hasLeftCompany", "Left Company", "boolean", none⟩ ]

/-! ## Document list for a debtor: the base match (document.risk.js, lines
189-218) -/

/-- The object `query` of the document list for `documentFor = 'debtor'`.
`entityId` is the identifier of `req.params.entityId` and `userId` is
`req.user._id`. `none`: a statement throws (no client-debtor has the
identifier, or an identifier is rejected). -/
def documentDebtorQuery (generate : Value → Nat) (db : Db) (entityId userId : Value) :
    Option Value :=
  (objectId generate entityId).bind fun entity =>
  (find db "applications" (.obj [("debtorId", entity)])).bind fun applications =>
  match findById db "client-debtors" entity with
  | .obj debtor =>
    (objectId generate (lookupField debtor "clientId")).bind fun clientId =>
    (objectId generate userId).map fun user =>
      .obj [("$and", .arr
        [ .obj [("entityRefId", entity)],
          .obj [("entityRefId", .obj [("$in", .arr (applications.map (fun i => i.prop "_id")))])],
          .obj [("$or", .arr
            [ .obj [("uploadByType", .str "client-user"), ("uploadById", clientId)],
              .obj [("uploadByType", .str "user"), ("isPublic", .bool true)],
              .obj [("uploadByType", .str "user"), ("uploadById", user)] ])] ])]
  | _ => none

/-- A store with the client-debtor 5 of client 7, its application 20, and two
public documents uploaded by a user: one of the debtor, one of the
application. -/
def documentStore : Db := fun coll =>
  if coll = "client-debtors" then [ .obj [("_id", .oid 5), ("clientId", .oid 7)] ]
  else if coll = "applications" then [ .obj [("_id", .oid 20), ("debtorId", .oid 5)] ]
  else if coll = "documents" then
    [ .obj [("_id", .oid 30), ("entityRefId", .oid 5), ("uploadByType", .str "user"),
        ("uploadById", .oid 2), ("isPublic", .bool true)],
      .obj [("_id", .oid 31), ("entityRefId", .oid 20), ("uploadByType", .str "user"),
        ("uploadById", .oid 2), ("isPublic", .bool true)] ]
  else []

/-- A store with a client, a debtor, an insurer, and one overdue record of
January 2024 that refers to the three of them. -/
def drawerStore : Db := fun coll =>
  if coll = "clients" then [ .obj [("_id", .oid 7), ("name", .str "Client Co")] ]
  else if coll = "debtors" then [ .obj [("_id", .oid 1), ("entityName", .str "Acme")] ]
  else if coll = "insurers" then [ .obj [("_id", .oid 3), ("name", .str "Insure Ltd")] ]
  else if coll = "overdues" then
    [ .obj [("_id", .oid 10), ("clientId", .oid 7), ("debtorId", .oid 1),
        ("insurerId", .oid 3), ("month", .str "01"), ("year", .str "2024"),
        ("status", .str "PENDING"), ("isDeleted", .bool false)] ]
  else []

/-! ## Label formatting -/

theorem isWordChar_of_space (c : Char) (h : isSpaceChar c = true) : isWordChar c = false := by
  simp only [isSpaceChar, isWordChar, Bool.or_eq_true, Bool.and_eq_true, beq_iff_eq,
    decide_eq_true_eq] at h
  simp only [isWordChar, Bool.or_eq_false_iff, Bool.and_eq_false_iff, beq_eq_false_iff_ne,
    decide_eq_false_iff_not]
  omega

theorem replaceWords_open (ops : CaseOps) (c : Char) (w : List Char) :
    ∀ (acc s : List Char), (∀ x ∈ w, isSpaceChar x = false) →
      (∀ x, s.head? = some x → isSpaceChar x = true) →
      replaceWords ops (some (c, acc)) (w ++ s)
        = capitalize ops c (acc.reverse ++ w) ++ replaceWords ops none s := by
  induction w with
  | nil =>
    intro acc s _ hs
    cases s with
    | nil => simp [replaceWords]
    | cons x xs =>
      have hx : isSpaceChar x = true := hs x rfl
      simp [replaceWords, hx, isWordChar_of_space x hx]
  | cons y w ih =>
    intro acc s hw hs
    have hy : isSpaceChar y = false := hw y (List.mem_cons_self _ _)
    have hw2 : ∀ x ∈ w, isSpaceChar x = false := fun x hx => hw x (List.mem_cons_of_mem _ hx)
    simp [replaceWords, hy, ih (y :: acc) s hw2 hs]

theorem replaceWords_of_titleCased (ops : CaseOps) (s t : List Char)
    (h : TitleCased ops s t) : replaceWords ops none s = t := by
  induction h with
  | done => rfl
  | keep c s t hc _ ih => simp [replaceWords, hc, ih]
  | word c w s t hc hw hs _ ih =>
    simp [replaceWords, hc, replaceWords_open ops c w [] s hw hs, ih, capitalize]

theorem titleCased_replaceWords (ops : CaseOps) :
    ∀ (n : Nat) (s : List Char), s.length ≤ n → TitleCased ops s (replaceWords ops none s) := by
  intro n
  induction n with
  | zero =>
    intro s hs
    have : s = [] := List.length_eq_zero.mp (Nat.le_zero.mp hs)
    subst this
    exact TitleCased.done
  | succ n ih =>
    intro s hs
    cases s with
    | nil => exact TitleCased.done
    | cons c r =>
      by_cases hc : isWordChar c = true
      · have hw : ∀ x ∈ r.takeWhile (fun x => !isSpaceChar x), isSpaceChar x = false := by
          intro x hx
          have := List.mem_takeWhile_imp hx
          simpa using this
        have hd : ∀ x, (r.dropWhile (fun x => !isSpaceChar x)).head? = some x →
            isSpaceChar x = true := by
          intro x hx
          have := List.head?_dropWhile_not (fun x => !isSpaceChar x) r
          rw [hx] at this
          simpa using this
        have hlen : (r.dropWhile (fun x => !isSpaceChar x)).length ≤ n := by
          have h1 := (List.dropWhile_sublist (l := r) (fun x => !isSpaceChar x)).length_le
          simp only [List.length_cons] at hs
          omega
        have key := TitleCased.word c _ _ _ hc hw hd (ih _ hlen)
        rw [List.takeWhile_append_dropWhile] at key
        have e : replaceWords ops none (c :: r)
            = ops.toUpperCase [c] ++ ops.toLowerCase (r.takeWhile (fun x => !isSpaceChar x))
              ++ replaceWords ops none (r.dropWhile (fun x => !isSpaceChar x)) := by
          have := replaceWords_open ops c _ [] _ hw hd
          rw [List.takeWhile_append_dropWhile] at this
          simp [replaceWords, hc, this, capitalize]
        rw [e]
        exact key
      · have hc2 : isWordChar c = false := by simpa using hc
        have hlen : r.length ≤ n := by
          simp only [List.length_cons] at hs
          omega
        have := TitleCased.keep c r _ hc2 (ih r hlen)
        simpa [replaceWords, hc2] using this

theorem specLabel_iff (ops : CaseOps) (s label : String) :
    SpecLabel ops s label ↔ label = formatLabel ops s := by
  unfold SpecLabel formatLabel replaceUnderscores
  constructor
  · intro h
    have := replaceWords_of_titleCased ops _ _ h
    rw [this]
    rfl
  · intro h
    subst h
    exact titleCased_replaceWords ops _ _ (Nat.le_refl _)

theorem hasField_of_lookupField (fs : List (String × Value)) (k : String)
    (h : lookupField fs k ≠ .undefined) : hasField fs k = true := by
  induction fs with
  | nil => simp [lookupField] at h
  | cons p fs ih =>
    obtain ⟨k1, v1⟩ := p
    by_cases hk : k1 = k
    · simp [hasField, hk]
    · simp only [lookupField, hk, if_false] at h
      simp [hasField, hk, ih h]

theorem drawerLoop_some (ops : CaseOps) (overdue : Value) (cols : List Column)
    (h : ∀ c ∈ cols, overdue.hasOwnProperty c.name = true →
      ∃ v, drawerValue ops overdue c.name = some v) :
    ∃ resp, drawerLoop ops overdue cols = some resp ∧
      ∀ c ∈ cols, overdue.hasOwnProperty c.name = true →
        ∀ v, drawerValue ops overdue c.name = some v → (⟨c.label, v, c.type⟩ : Triple) ∈ resp := by
  induction cols with
  | nil => exact ⟨[], rfl, by simp⟩
  | cons c cs ih =>
    obtain ⟨rest, hrest, hmem⟩ := ih (fun d hd => h d (List.mem_cons_of_mem _ hd))
    by_cases hc : overdue.hasOwnProperty c.name = true
    · obtain ⟨v, hv⟩ := h c (List.mem_cons_self _ _) hc
      refine ⟨⟨c.label, v, c.type⟩ :: rest, by simp [drawerLoop, hc, hv, hrest], ?_⟩
      intro d hd hown w hw
      rcases List.mem_cons.mp hd with rfl | hd
      · rw [hv] at hw
        cases hw
        exact List.mem_cons_self _ _
      · exact List.mem_cons_of_mem _ (hmem d hd hown w hw)
    · refine ⟨rest, by simp [drawerLoop, hc, hrest], ?_⟩
      intro d hd hown w hw
      rcases List.mem_cons.mp hd with rfl | hd
      · exact absurd hown hc
      · exact hmem d hd hown w hw

theorem drawerValue_label (ops : CaseOps) (fs : List (String × Value)) (name s : String)
    (hn : name = "status" ∨ name = "overdueType") (hs : lookupField fs name = .str s) :
    drawerValue ops (.obj fs) name = some (.str (formatLabel ops s)) := by
  rcases hn with rfl | rfl
  · by_cases he : s = ""
    · simp [drawerValue, Value.prop, hs, Value.or, Value.truthy, he]
    · simp [drawerValue, Value.prop, hs, Value.or, Value.truthy, he]
  · by_cases he : s = ""
    · simp [drawerValue, Value.prop, hs, Value.or, Value.truthy, he]
    · simp [drawerValue, Value.prop, hs, Value.or, Value.truthy, he]

theorem drawerValue_other (ops : CaseOps) (overdue : Value) (name : String)
    (h1 : name ≠ "status") (h2 : name ≠ "overdueType") :
    ∃ v, drawerValue ops overdue name = some v := by
  simp [drawerValue, h1, h2]

theorem lookupField_assignField (fs : List (String × Value)) (k k2 : String) (v : Value) :
    lookupField (assignField fs k v) k2 = if k = k2 then v else lookupField fs k2 := by
  induction fs with
  | nil => simp [assignField, lookupField]
  | cons p fs ih =>
    obtain ⟨k1, v1⟩ := p
    by_cases h1 : k1 = k
    · subst h1
      by_cases h2 : k1 = k2 <;> simp [assignField, lookupField, h2]
    · by_cases h2 : k1 = k2
      · subst h2
        have h3 : ¬ k = k1 := fun h => h1 h.symm
        simp [assignField, lookupField, h1, h3]
      · simp [assignField, lookupField, h1, h2, ih]

theorem lookupField_of_not_hasField (fs : List (String × Value)) (k : String)
    (h : hasField fs k = false) : lookupField fs k = .undefined := by
  induction fs with
  | nil => rfl
  | cons p fs ih =>
    obtain ⟨k1, v1⟩ := p
    by_cases hk : k1 = k
    · simp [hasField, hk] at h
    · simp only [hasField, hk, if_false] at h
      simp [lookupField, hk, ih h]

theorem assignField_lookupField (fs : List (String × Value)) (k : String)
    (h : hasField fs k = true) : assignField fs k (lookupField fs k) = fs := by
  induction fs with
  | nil => simp [hasField] at h
  | cons p fs ih =>
    obtain ⟨k1, v1⟩ := p
    by_cases hk : k1 = k
    · simp [assignField, lookupField, hk]
    · simp only [hasField, hk, if_false] at h
      simp [assignField, lookupField, hk, ih h]

theorem drawerLoop_mem (ops : CaseOps) (overdue : Value) :
    ∀ (cols : List Column) (resp : List Triple), drawerLoop ops overdue cols = some resp →
      ∀ c ∈ cols, overdue.hasOwnProperty c.name = true →
        ∀ v, drawerValue ops overdue c.name = some v → (⟨c.label, v, c.type⟩ : Triple) ∈ resp := by
  intro cols
  induction cols with
  | nil => intro resp _ c hc; simp at hc
  | cons d ds ih =>
    intro resp h c hc hown v hv
    simp only [drawerLoop] at h
    by_cases hd : overdue.hasOwnProperty d.name = true
    · rw [if_pos hd] at h
      cases hdv : drawerValue ops overdue d.name with
      | none => simp [hdv] at h
      | some w =>
        cases hrest : drawerLoop ops overdue ds with
        | none => simp [hdv, hrest] at h
        | some rest =>
          simp only [hdv, hrest, Option.some.injEq] at h
          subst h
          rcases List.mem_cons.mp hc with rfl | hc
          · rw [hdv] at hv
            cases hv
            exact List.mem_cons_self _ _
          · exact List.mem_cons_of_mem _ (ih rest hrest c hc hown v hv)
    · rw [if_neg hd] at h
      rcases List.mem_cons.mp hc with rfl | hc
      · exact absurd hown hd
      · exact ih resp h c hc hown v hv

theorem drawerLoop_isSome (ops : CaseOps) (overdue : Value) :
    ∀ (cols : List Column), (drawerLoop ops overdue cols).isSome = true ↔
      ∀ c ∈ cols, overdue.hasOwnProperty c.name = true →
        (drawerValue ops overdue c.name).isSome = true := by
  intro cols
  induction cols with
  | nil => simp [drawerLoop]
  | cons d ds ih =>
    simp only [drawerLoop, List.mem_cons, forall_eq_or_imp]
    by_cases hd : overdue.hasOwnProperty d.name = true
    · rw [if_pos hd]
      cases hdv : drawerValue ops overdue d.name with
      | none => simp [hd]
      | some w =>
        cases hrest : drawerLoop ops overdue ds with
        | none =>
          rw [hrest] at ih
          simp only [Option.isSome_none, Bool.false_eq_true, false_iff] at ih
          simp [ih]
        | some rest =>
          rw [hrest] at ih
          simp only [Option.isSome_some, true_iff] at ih
          simp only [Option.isSome_some, true_iff]
          exact ⟨fun _ => trivial, ih⟩
    · rw [if_neg hd, ih]
      simp [hd]

theorem drawerValue_label_isSome (ops : CaseOps) (fs : List (String × Value)) (name : String)
    (hn : name = "status" ∨ name = "overdueType") :
    (drawerValue ops (.obj fs) name).isSome = true ↔
      ((lookupField fs name).truthy = true → ∃ a, lookupField fs name = .str a) := by
  rcases hn with rfl | rfl
  · simp only [drawerValue, Value.prop, Value.or]
    by_cases ht : (lookupField fs "status").truthy = true
    · cases hv : lookupField fs "status" <;> simp_all
    · simp [ht]
  · simp only [drawerValue, Value.prop, Value.or]
    by_cases ht : (lookupField fs "overdueType").truthy = true
    · cases hv : lookupField fs "overdueType" <;> simp_all
    · simp [ht]

theorem getDrawerDetails_isSome (ops : CaseOps) (fs : List (String × Value)) :
    (getDrawerDetails ops (.obj fs)).isSome = true ↔
      (((lookupField fs "status").truthy = true → ∃ a, lookupField fs "status" = .str a) ∧
        ((lookupField fs "overdueType").truthy = true →
          ∃ b, lookupField fs "overdueType" = .str b)) := by
  have hfalsy : ∀ k, hasField fs k = false → (lookupField fs k).truthy = false := by
    intro k hk
    rw [lookupField_of_not_hasField fs k hk]
    rfl
  simp only [getDrawerDetails]
  rw [drawerLoop_isSome]
  constructor
  · intro h
    constructor
    · intro ht
      have hown : hasField fs "status" = true := by
        by_contra hc
        have := hfalsy "status" (by simpa using hc)
        rw [this] at ht
        exact absurd ht (by simp)
      exact (drawerValue_label_isSome ops fs "status" (Or.inl rfl)).mp
        (h ⟨"status", "Status", "status"⟩ (by simp [overdueColumns]) hown) ht
    · intro ht
      have hown : hasField fs "overdueType" = true := by
        by_contra hc
        have := hfalsy "overdueType" (by simpa using hc)
        rw [this] at ht
        exact absurd ht (by simp)
      exact (drawerValue_label_isSome ops fs "overdueType" (Or.inr rfl)).mp
        (h ⟨"overdueType", "Overdue Type", "string"⟩ (by simp [overdueColumns]) hown) ht
  · rintro ⟨h1, h2⟩ c _ _
    by_cases hs : c.name = "status"
    · rw [hs]
      exact (drawerValue_label_isSome ops fs "status" (Or.inl rfl)).mpr h1
    · by_cases hu : c.name = "overdueType"
      · rw [hu]
        exact (drawerValue_label_isSome ops fs "overdueType" (Or.inr rfl)).mpr h2
      · obtain ⟨v, hv⟩ := drawerValue_other ops (.obj fs) c.name hs hu
        simp [hv]

theorem getDrawerDetails_labels (ops : CaseOps) (s : String) (fs : List (String × Value))
    (resp : List Triple) (h : getDrawerDetails ops (.obj fs) = some resp) :
    (lookupField fs "status" = .str s →
      (⟨"Status", .str (formatLabel ops s), "status"⟩ : Triple) ∈ resp) ∧
    (lookupField fs "overdueType" = .str s →
      (⟨"Overdue Type", .str (formatLabel ops s), "string"⟩ : Triple) ∈ resp) := by
  simp only [getDrawerDetails] at h
  constructor
  · intro hs
    exact drawerLoop_mem ops (.obj fs) overdueColumns resp h ⟨"status", "Status", "status"⟩
      (by simp [overdueColumns]) (hasField_of_lookupField fs "status" (by rw [hs]; simp)) _
      (drawerValue_label ops fs "status" s (Or.inl rfl) hs)
  · intro hs
    exact drawerLoop_mem ops (.obj fs) overdueColumns resp h
      ⟨"overdueType", "Overdue Type", "string"⟩ (by simp [overdueColumns])
      (hasField_of_lookupField fs "overdueType" (by rw [hs]; simp)) _
      (drawerValue_label ops fs "overdueType" s (Or.inr rfl) hs)

theorem shapeDebtor_eq (ops : CaseOps) (fs : List (String × Value)) (a b : String)
    (hs : lookupField fs "status" = .str a) (hu : lookupField fs "overdueType" = .str b) :
    shapeDebtor ops (.obj fs)
      = some (.obj (assignField (assignField fs "overdueType" (.str (formatLabel ops b)))
          "status" (.str (formatLabel ops a)))) := by
  have h1 : lookupField (assignField fs "overdueType" (.str (formatLabel ops b))) "status"
      = .str a := by
    rw [lookupField_assignField]
    simp [hs]
  simp only [shapeDebtor, hu, h1]

theorem shapeDebtor_isSome (ops : CaseOps) (fs : List (String × Value)) :
    (shapeDebtor ops (.obj fs)).isSome = true ↔
      ((∃ a, lookupField fs "status" = .str a) ∧ ∃ b, lookupField fs "overdueType" = .str b) := by
  constructor
  · intro h
    simp only [shapeDebtor] at h
    split at h
    · rename_i t ht
      have h1 : lookupField (assignField fs "overdueType" (.str (formatLabel ops t))) "status"
          = lookupField fs "status" := by
        rw [lookupField_assignField]
        simp
      simp only [h1] at h
      split at h
      · rename_i a ha
        exact ⟨⟨a, ha⟩, ⟨t, ht⟩⟩
      · simp at h
    · simp at h
  · rintro ⟨⟨a, ha⟩, ⟨b, hb⟩⟩
    rw [shapeDebtor_eq ops fs a b ha hb]
    rfl

theorem shapeDebtor_labels (ops : CaseOps) (s : String) (fs : List (String × Value))
    (j : Value) (h : shapeDebtor ops (.obj fs) = some j) :
    (lookupField fs "status" = .str s → j.prop "status" = .str (formatLabel ops s)) ∧
    (lookupField fs "overdueType" = .str s →
      j.prop "overdueType" = .str (formatLabel ops s)) := by
  obtain ⟨⟨a, ha⟩, ⟨b, hb⟩⟩ := (shapeDebtor_isSome ops fs).mp (by rw [h]; rfl)
  rw [shapeDebtor_eq ops fs a b ha hb] at h
  cases h
  constructor
  · intro hs
    rw [hs] at ha
    cases ha
    simp [Value.prop, lookupField_assignField]
  · intro hs
    rw [hs] at hb
    cases hb
    simp [Value.prop, lookupField_assignField]

theorem shapeDebtors_iff (ops : CaseOps) :
    ∀ (ds out : List Value), shapeDebtors ops ds = some out ↔
      List.Forall₂ (fun j j2 => shapeDebtor ops j = some j2) ds out := by
  intro ds
  induction ds with
  | nil =>
    intro out
    simp only [shapeDebtors, Option.some.injEq, List.forall₂_nil_left_iff]
    exact eq_comm
  | cons d ds ih =>
    intro out
    simp only [shapeDebtors]
    constructor
    · intro h
      cases hd : shapeDebtor ops d with
      | none => simp [hd] at h
      | some j2 =>
        cases hr : shapeDebtors ops ds with
        | none => simp [hd, hr] at h
        | some rest =>
          simp only [hd, hr, Option.some.injEq] at h
          subst h
          exact List.Forall₂.cons hd ((ih rest).mp hr)
    · intro h
      cases h with
      | cons h1 h2 =>
        rw [h1, (ih _).mpr h2]

theorem shapeGroups_iff (ops : CaseOps) :
    ∀ (page shaped : List Value), shapeGroups ops page = some shaped ↔
      List.Forall₂ (fun i g => shapeGroup ops i = some g) page shaped := by
  intro page
  induction page with
  | nil =>
    intro shaped
    simp only [shapeGroups, Option.some.injEq, List.forall₂_nil_left_iff]
    exact eq_comm
  | cons d ds ih =>
    intro shaped
    simp only [shapeGroups]
    constructor
    · intro h
      cases hd : shapeGroup ops d with
      | none => simp [hd] at h
      | some j2 =>
        cases hr : shapeGroups ops ds with
        | none => simp [hd, hr] at h
        | some rest =>
          simp only [hd, hr, Option.some.injEq] at h
          subst h
          exact List.Forall₂.cons hd ((ih rest).mp hr)
    · intro h
      cases h with
      | cons h1 h2 =>
        rw [h1, (ih _).mpr h2]

theorem shapeGroup_iff (ops : CaseOps) (fs : List (String × Value)) (ds : List Value)
    (g : Value) (hd : lookupField fs "debtors" = .arr ds) :
    shapeGroup ops (.obj fs) = some g ↔
      ∃ out, List.Forall₂ (fun j j2 => shapeDebtor ops j = some j2) ds out ∧
        g = .obj (assignField fs "debtors" (.arr out)) := by
  cases ds with
  | nil =>
    have hself : assignField fs "debtors" (.arr []) = fs := by
      have := assignField_lookupField fs "debtors"
        (hasField_of_lookupField fs "debtors" (by rw [hd]; simp))
      rwa [hd] at this
    simp only [shapeGroup, hd, Option.some.injEq, List.forall₂_nil_left_iff]
    constructor
    · rintro rfl
      exact ⟨[], rfl, by rw [hself]⟩
    · rintro ⟨out, rfl, rfl⟩
      rw [hself]
  | cons j js =>
    simp only [shapeGroup, hd]
    constructor
    · intro h
      cases hs : shapeDebtors ops (j :: js) with
      | none => simp [hs] at h
      | some out =>
        simp only [hs, Option.some.injEq] at h
        exact ⟨out, (shapeDebtors_iff ops _ _).mp hs, h.symm⟩
    · rintro ⟨out, hf, rfl⟩
      rw [(shapeDebtors_iff ops _ _).mpr hf]

theorem getOverdueList_shaped (generate : Value → Nat) (ops : CaseOps) (newDate : Value → Value)
    (db : Db) (rq : Value) (isForRisk hasFullAccess : Bool) (clientId userId : Value)
    (r : OverdueListResult)
    (h : getOverdueList generate ops newDate db rq isForRisk hasFullAccess clientId userId
      = some r) :
    ∃ query facets page,
      overdueListQuery generate newDate db rq isForRisk hasFullAccess clientId userId
        = some query ∧
      aggregate db "overdues" query = some [facets] ∧
      facets.prop "paginatedResult" = .arr page ∧
      shapeGroups ops page = some r.paginatedResult := by
  unfold getOverdueList at h
  obtain ⟨query, hq, h⟩ := Option.bind_eq_some.mp h
  obtain ⟨overdueList, ha, h⟩ := Option.bind_eq_some.mp h
  split at h
  · rename_i facets
    split at h
    · rename_i page counts hp hc
      obtain ⟨shaped, hs, rfl⟩ := Option.map_eq_some'.mp h
      exact ⟨query, facets, page, hq, ha, hp, hs⟩
    · simp at h
  · simp at h
set_option maxRecDepth 8000 in
/-- C1: for every status or overdueType string, the label emitted by
`getDrawerDetails` and by the post-processing of `getOverdueList` is the label of
the specification (underscores to spaces, then each word, a run from a word
character to the next white space, with its first character upper-cased and the
rest lower-cased). The drawer answers whenever `status` and `overdueType` are
each a string or falsy, and then carries the label of each that is a string;
the post-processing rewrites, in every group of the page, every debtor summary,
whose `status` and `overdueType` must both be strings, and the list it returns
holds the groups so rewritten. `NOT_REPORTABLE` gives `Not Reportable` and
`reported_to_insurer` gives `Reported To Insurer`, also in the list of a store
that holds records with these statuses. -/
theorem status_label_is_title_case (ops : CaseOps) (s : String) :
    (∀ label, SpecLabel ops s label ↔ label = formatLabel ops s) ∧
    (∀ fs resp, getDrawerDetails ops (.obj fs) = some resp →
      (lookupField fs "status" = .str s →
        (⟨"Status", .str (formatLabel ops s), "status"⟩ : Triple) ∈ resp) ∧
      (lookupField fs "overdueType" = .str s →
        (⟨"Overdue Type", .str (formatLabel ops s), "string"⟩ : Triple) ∈ resp)) ∧
    (∀ fs, (getDrawerDetails ops (.obj fs)).isSome = true ↔
      (((lookupField fs "status").truthy = true → ∃ a, lookupField fs "status" = .str a) ∧
        ((lookupField fs "overdueType").truthy = true →
          ∃ b, lookupField fs "overdueType" = .str b))) ∧
    (∀ fs j, shapeDebtor ops (.obj fs) = some j →
      (lookupField fs "status" = .str s → j.prop "status" = .str (formatLabel ops s)) ∧
      (lookupField fs "overdueType" = .str s →
        j.prop "overdueType" = .str (formatLabel ops s))) ∧
    (∀ fs, (shapeDebtor ops (.obj fs)).isSome = true ↔
      ((∃ a, lookupField fs "status" = .str a) ∧
        ∃ b, lookupField fs "overdueType" = .str b)) ∧
    (∀ fs ds g, lookupField fs "debtors" = .arr ds →
      (shapeGroup ops (.obj fs) = some g ↔
        ∃ out, List.Forall₂ (fun j j2 => shapeDebtor ops j = some j2) ds out ∧
          g = .obj (assignField fs "debtors" (.arr out)))) ∧
    (∀ page shaped, shapeGroups ops page = some shaped ↔
      List.Forall₂ (fun i g => shapeGroup ops i = some g) page shaped) ∧
    (∀ generate newDate db rq isForRisk hasFullAccess clientId userId r,
      getOverdueList generate ops newDate db rq isForRisk hasFullAccess clientId userId
        = some r →
      ∃ query facets page,
        overdueListQuery generate newDate db rq isForRisk hasFullAccess clientId userId
          = some query ∧
        aggregate db "overdues" query = some [facets] ∧
        facets.prop "paginatedResult" = .arr page ∧
        shapeGroups ops page = some r.paginatedResult) ∧
    (getOverdueList sampleIds asciiCase (fun v => v) labelStore
        (.obj [("page", .str "1"), ("limit", .str "5")]) true true .undefined (.oid 100)).map
        (fun r => r.paginatedResult)
      = some [.obj [("monthString", .str "March 2024"), ("debtorCount", .num 2),
          ("amounts", .num 12),
          ("debtors", .arr
            [ .obj [("_id", .oid 10), ("name", .str "Acme"),
                ("overdueType", .str "Amended Terms"), ("status", .str "Not Reportable"),
                ("amount", .num 5)],
              .obj [("_id", .oid 11), ("name", .str "Acme"), ("overdueType", .str "Paid"),
                ("status", .str "Reported To Insurer"), ("amount", .num 7)] ]),
          ("status", .str "Process")]] ∧
    formatLabel asciiCase "NOT_REPORTABLE" = "Not Reportable" ∧
    formatLabel asciiCase "reported_to_insurer" = "Reported To Insurer" :=
  ⟨fun label => specLabel_iff ops s label,
   fun fs resp h => getDrawerDetails_labels ops s fs resp h,
   fun fs => getDrawerDetails_isSome ops fs,
   fun fs j h => shapeDebtor_labels ops s fs j h,
   fun fs => shapeDebtor_isSome ops fs,
   fun fs ds g hd => shapeGroup_iff ops fs ds g hd,
   fun page shaped => shapeGroups_iff ops page shaped,
   fun generate newDate db rq isForRisk hasFullAccess clientId userId r h =>
     getOverdueList_shaped generate ops newDate db rq isForRisk hasFullAccess clientId userId r h,
   by with_unfolding_all rfl, by decide, by decide⟩

/-- Witness for C1: the two labels of the specification, through the
specification relation, through the drawer, and through the rewriting of a
debtor summary. -/
theorem status_label_is_title_case_witness :
    SpecLabel asciiCase "NOT_REPORTABLE" "Not Reportable" ∧
    (⟨"Status", .str (formatLabel asciiCase "NOT_REPORTABLE"), "status"⟩ : Triple) ∈
      [ (⟨"Status", .str "Not Reportable", "status"⟩ : Triple),
        ⟨"Overdue Type", .str "Reported To Insurer", "string"⟩ ] ∧
    (Value.obj [("_id", .oid 10), ("overdueType", .str "Paid"),
        ("status", .str "Reported To Insurer")]).prop "status"
      = .str (formatLabel asciiCase "reported_to_insurer") :=
  ⟨((status_label_is_title_case asciiCase "NOT_REPORTABLE").1 "Not Reportable").mpr (by decide),
   ((status_label_is_title_case asciiCase "NOT_REPORTABLE").2.1
      [("status", .str "NOT_REPORTABLE"), ("overdueType", .str "reported_to_insurer")]
      _ (by with_unfolding_all rfl)).1 rfl,
   ((status_label_is_title_case asciiCase "reported_to_insurer").2.2.2.1
      [("_id", .oid 10), ("overdueType", .str "PAID"), ("status", .str "reported_to_insurer")]
      _ (by with_unfolding_all rfl)).1 rfl⟩

/-! ## The task plan: base match -/

theorem hasField_assignField (fs : List (String × Value)) (k k2 : String) (v : Value) :
    hasField (assignField fs k v) k2 = (decide (k = k2) || hasField fs k2) := by
  induction fs with
  | nil => simp [assignField, hasField]
  | cons p fs ih =>
    obtain ⟨k1, v1⟩ := p
    by_cases h1 : k1 = k
    · subst h1
      by_cases h2 : k1 = k2 <;> simp [assignField, hasField, h2]
    · by_cases h2 : k1 = k2
      · subst h2
        simp [assignField, hasField, h1]
      · simp [assignField, hasField, h1, h2, ih]

@[simp] theorem prop_obj (fs : List (String × Value)) (k : String) :
    (Value.obj fs).prop k = lookupField fs k := rfl

@[simp] theorem hasOwnProperty_obj (fs : List (String × Value)) (k : String) :
    (Value.obj fs).hasOwnProperty k = hasField fs k := rfl

theorem aggregationQuery_filter (generate : Value → Nat) (ops : CaseOps) (taskColumn : List String) (rq : Value)
    (isForRisk hasFullAccess : Bool) (userId : Value) (query : List Stage) (qf : Value)
    (h : aggregationQuery generate ops taskColumn rq isForRisk hasFullAccess userId = some (query, qf)) :
    query.head? = some (.matchQ qf) ∧
    qf.prop "isDeleted" = .bool false ∧
    (qf.hasOwnProperty "assigneeId" = true ↔
      (hasFullAccess = false ∧ (rq.prop "listCreatedBy").truthy = false)) ∧
    (qf.hasOwnProperty "assigneeId" = true → some (qf.prop "assigneeId") = objectId generate userId) ∧
    (qf.hasOwnProperty "createdById" = true ↔ (rq.prop "listCreatedBy").truthy = true) ∧
    (qf.hasOwnProperty "createdById" = true → some (qf.prop "createdById") = objectId generate userId) := by
  simp only [aggregationQuery, Option.map_eq_some'] at h
  obtain ⟨f, hf, hq⟩ := h
  cases hq
  refine ⟨rfl, ?_⟩
  simp only [taskQueryFilter, Option.bind_eq_some] at hf
  obtain ⟨q1, h1, q2, h2, q3, h3, q4, h4, h5⟩ := hf
  have hl : (if (rq.prop "listCreatedBy").truthy = true then rq.prop "listCreatedBy"
      else Value.bool false).truthy = (rq.prop "listCreatedBy").truthy := by
    by_cases hc : (rq.prop "listCreatedBy").truthy = true
    · rw [if_pos hc]
    · rw [if_neg hc]
      have hf : (rq.prop "listCreatedBy").truthy = false := by simpa using hc
      rw [hf]
      rfl
  rw [hl] at h2 h3
  -- after the entity filter
  have a1 : lookupField q1 "isDeleted" = .bool false ∧ hasField q1 "assigneeId" = false ∧
      hasField q1 "createdById" = false := by
    by_cases hc : (rq.prop "requestedEntityId").truthy = true
    · simp only [hc, if_true, Option.map_eq_some'] at h1
      obtain ⟨e, _, rfl⟩ := h1
      simp [lookupField_assignField, hasField_assignField, lookupField, hasField]
    · simp only [hc, if_false] at h1
      cases h1
      simp [lookupField, hasField]
  -- after the assignee filter
  have a2 : lookupField q2 "isDeleted" = .bool false ∧
      (hasField q2 "assigneeId" = true ↔
        (hasFullAccess = false ∧ (rq.prop "listCreatedBy").truthy = false)) ∧
      (hasField q2 "assigneeId" = true → some (lookupField q2 "assigneeId") = objectId generate userId) ∧
      hasField q2 "createdById" = false := by
    by_cases hc : (!hasFullAccess && !(rq.prop "listCreatedBy").truthy) = true
    · simp only [hc, if_true, Option.map_eq_some'] at h2
      obtain ⟨u, hu, rfl⟩ := h2
      simp only [Bool.and_eq_true, Bool.not_eq_true'] at hc
      simp [lookupField_assignField, hasField_assignField, a1, hc, hu]
    · simp only [hc, if_false] at h2
      cases h2
      simp only [Bool.and_eq_true, Bool.not_eq_true'] at hc
      simp [a1, hc]
  have a3 : lookupField q3 "isDeleted" = .bool false ∧
      (hasField q3 "assigneeId" = true ↔
        (hasFullAccess = false ∧ (rq.prop "listCreatedBy").truthy = false)) ∧
      (hasField q3 "assigneeId" = true → some (lookupField q3 "assigneeId") = objectId generate userId) ∧
      (hasField q3 "createdById" = true ↔ (rq.prop "listCreatedBy").truthy = true) ∧
      (hasField q3 "createdById" = true → some (lookupField q3 "createdById") = objectId generate userId) := by
    by_cases hc : (rq.prop "listCreatedBy").truthy = true
    · simp only [hc, if_true, Option.map_eq_some'] at h3
      obtain ⟨u, hu, rfl⟩ := h3
      simp [lookupField_assignField, hasField_assignField, a2, hc, hu]
    · simp only [hc, if_false] at h3
      cases h3
      exact ⟨a2.1, a2.2.1, a2.2.2.1, by simp [a2.2.2.2, hc], by simp [a2.2.2.2]⟩
  have a4 : lookupField q4 "isDeleted" = .bool false ∧
      (hasField q4 "assigneeId" = true ↔
        (hasFullAccess = false ∧ (rq.prop "listCreatedBy").truthy = false)) ∧
      (hasField q4 "assigneeId" = true → some (lookupField q4 "assigneeId") = objectId generate userId) ∧
      (hasField q4 "createdById" = true ↔ (rq.prop "listCreatedBy").truthy = true) ∧
      (hasField q4 "createdById" = true → some (lookupField q4 "createdById") = objectId generate userId) := by
    by_cases hc : (rq.prop "priority").truthy = true
    · simp only [hc, if_true] at h4
      split at h4
      · cases h4
        simpa [lookupField_assignField, hasField_assignField] using a3
      · cases h4
    · simp only [hc, if_false] at h4
      cases h4
      exact a3
  cases h5
  by_cases c5 : (rq.prop "isCompleted").truthy = true <;>
    by_cases c6 : ((rq.prop "startDate").truthy && (rq.prop "endDate").truthy) = true <;>
    simpa [c5, c6, lookupField_assignField, hasField_assignField] using a4
theorem aggregationQuery_returns_iff (generate : Value → Nat) (ops : CaseOps)
    (taskColumn : List String) (rq : Value) (isForRisk hasFullAccess : Bool) (userId : Value) :
    (aggregationQuery generate ops taskColumn rq isForRisk hasFullAccess userId).isSome = true ↔
      (((rq.prop "requestedEntityId").truthy = true →
          (objectId generate (rq.prop "requestedEntityId")).isSome = true) ∧
        ((hasFullAccess = false ∨ (rq.prop "listCreatedBy").truthy = true) →
          (objectId generate userId).isSome = true) ∧
        ((rq.prop "priority").truthy = true → ∃ p, rq.prop "priority" = .str p)) := by
  have hl : (if (rq.prop "listCreatedBy").truthy = true then rq.prop "listCreatedBy"
      else Value.bool false).truthy = (rq.prop "listCreatedBy").truthy := by
    by_cases hc : (rq.prop "listCreatedBy").truthy = true
    · rw [if_pos hc]
    · rw [if_neg hc]
      have hf : (rq.prop "listCreatedBy").truthy = false := by simpa using hc
      rw [hf]
      rfl
  constructor
  · intro h
    obtain ⟨⟨query, qf⟩, h⟩ := Option.isSome_iff_exists.mp h
    simp only [aggregationQuery, Option.map_eq_some'] at h
    obtain ⟨f, hf, -⟩ := h
    simp only [taskQueryFilter, Option.bind_eq_some] at hf
    obtain ⟨q1, h1, q2, h2, q3, h3, q4, h4, -⟩ := hf
    rw [hl] at h2 h3
    refine ⟨?_, ?_, ?_⟩
    · intro c1
      rw [if_pos c1] at h1
      obtain ⟨e, he, -⟩ := Option.map_eq_some'.mp h1
      simp [he]
    · intro c
      by_cases c3 : (rq.prop "listCreatedBy").truthy = true
      · rw [if_pos c3] at h3
        obtain ⟨e, he, -⟩ := Option.map_eq_some'.mp h3
        simp [he]
      · have hfa : hasFullAccess = false := by
          rcases c with c | c
          · exact c
          · exact absurd c c3
        have c3f : (rq.prop "listCreatedBy").truthy = false := by simpa using c3
        rw [hfa, c3f] at h2
        simp only [Bool.not_false, Bool.and_self, if_true] at h2
        obtain ⟨e, he, -⟩ := Option.map_eq_some'.mp h2
        simp [he]
    · intro c4
      rw [if_pos c4] at h4
      split at h4
      · exact ⟨_, by assumption⟩
      · exact absurd h4 (by simp)
  · rintro ⟨he, hu, hp⟩
    have e1 : ∃ q1, (if (rq.prop "requestedEntityId").truthy = true then
        (objectId generate (rq.prop "requestedEntityId")).map
          (fun e => assignField [("isDeleted", Value.bool false)] "entityId" e)
        else some [("isDeleted", Value.bool false)]) = some q1 := by
      by_cases c1 : (rq.prop "requestedEntityId").truthy = true
      · obtain ⟨e, he⟩ := Option.isSome_iff_exists.mp (he c1)
        exact ⟨_, by rw [if_pos c1, he]; rfl⟩
      · exact ⟨_, by rw [if_neg c1]⟩
    obtain ⟨q1, h1⟩ := e1
    have e2 : ∀ (c : Bool) (k : String) (q : List (String × Value)),
        (c = true → hasFullAccess = false ∨ (rq.prop "listCreatedBy").truthy = true) →
        ∃ q2, (if c = true then (objectId generate userId).map (fun u => assignField q k u)
          else some q) = some q2 := by
      intro c k q hc2
      by_cases hc : c = true
      · obtain ⟨u, hu⟩ := Option.isSome_iff_exists.mp (hu (hc2 hc))
        exact ⟨_, by rw [if_pos hc, hu]; rfl⟩
      · exact ⟨_, by rw [if_neg hc]⟩
    have e4 : ∀ q : List (String × Value), ∃ q4,
        (if (rq.prop "priority").truthy = true then
          match rq.prop "priority" with
          | .str p => some (assignField q "priority" (.str (String.mk (ops.toUpperCase p.toList))))
          | _ => none
        else some q) = some q4 := by
      intro q
      by_cases c4 : (rq.prop "priority").truthy = true
      · obtain ⟨p, hp⟩ := hp c4
        exact ⟨_, by rw [if_pos c4, hp]⟩
      · exact ⟨_, by rw [if_neg c4]⟩
    rw [Option.isSome_iff_exists]
    simp only [aggregationQuery, taskQueryFilter, Option.map_eq_some', Option.bind_eq_some]
    obtain ⟨q2, h2⟩ := e2 (!hasFullAccess && !(if (rq.prop "listCreatedBy").truthy = true
      then rq.prop "listCreatedBy" else Value.bool false).truthy) "assigneeId" q1
      (by intro h; left; cases hasFullAccess <;> simp_all)
    obtain ⟨q3, h3⟩ := e2 ((if (rq.prop "listCreatedBy").truthy = true
      then rq.prop "listCreatedBy" else Value.bool false).truthy) "createdById" q2
      (by intro h; right; rw [hl] at h; exact h)
    obtain ⟨q4, h4⟩ := e4 q3
    exact ⟨_, _, ⟨q1, h1, q2, h2, q3, h3, q4, h4, rfl⟩, rfl⟩

/-- C5: the pipeline returned by the task `aggregationQuery` starts with the
`$match` on `queryFilter`; `queryFilter` holds `isDeleted = false`, holds
`assigneeId` (the caller) exactly when the caller lacks full access and
`listCreatedBy` is not requested, and holds `createdById` (the caller) exactly
when `listCreatedBy` is requested. The pipeline is returned exactly when the
ObjectId constructor accepts the identifiers that the filter takes (the
requested entity when there is one, the caller when the filter holds the
caller) and the priority, when there is one, is a string. -/
theorem task_base_match (generate : Value → Nat) (ops : CaseOps) (taskColumn : List String)
    (rq : Value) (isForRisk hasFullAccess : Bool) (userId : Value) :
    ((aggregationQuery generate ops taskColumn rq isForRisk hasFullAccess userId).isSome = true ↔
      (((rq.prop "requestedEntityId").truthy = true →
          (objectId generate (rq.prop "requestedEntityId")).isSome = true) ∧
        ((hasFullAccess = false ∨ (rq.prop "listCreatedBy").truthy = true) →
          (objectId generate userId).isSome = true) ∧
        ((rq.prop "priority").truthy = true → ∃ p, rq.prop "priority" = .str p))) ∧
    (∀ query qf,
      aggregationQuery generate ops taskColumn rq isForRisk hasFullAccess userId
        = some (query, qf) →
      query.head? = some (.matchQ qf) ∧
      qf.prop "isDeleted" = .bool false ∧
      (qf.hasOwnProperty "assigneeId" = true ↔
        (hasFullAccess = false ∧ (rq.prop "listCreatedBy").truthy = false)) ∧
      (qf.hasOwnProperty "assigneeId" = true →
        some (qf.prop "assigneeId") = objectId generate userId) ∧
      (qf.hasOwnProperty "createdById" = true ↔ (rq.prop "listCreatedBy").truthy = true) ∧
      (qf.hasOwnProperty "createdById" = true →
        some (qf.prop "createdById") = objectId generate userId)) :=
  ⟨aggregationQuery_returns_iff generate ops taskColumn rq isForRisk hasFullAccess userId,
   fun query qf h =>
     aggregationQuery_filter generate ops taskColumn rq isForRisk hasFullAccess userId query qf h⟩

/-- Witness for C5: a restricted caller listing the tasks assigned to them for an
entity named by a string of 12 characters, and the same caller listing the tasks
they created. -/
theorem task_base_match_witness :
    (aggregationQuery sampleIds asciiCase ["title"]
      (.obj [("priority", .str "high"), ("requestedEntityId", .str "abcdefghijkl")]) true false
      (.oid 5)).isSome = true ∧
    (Value.obj [("isDeleted", .bool false), ("assigneeId", .oid 5),
      ("priority", .str "HIGH")]).prop "isDeleted" = .bool false ∧
    ((Value.obj [("isDeleted", .bool false), ("createdById", .oid 5)]).hasOwnProperty
      "assigneeId" = true ↔
        (false = false ∧
          ((Value.obj [("listCreatedBy", .str "true")]).prop "listCreatedBy").truthy = false)) :=
  ⟨(task_base_match sampleIds asciiCase ["title"]
      (.obj [("priority", .str "high"), ("requestedEntityId", .str "abcdefghijkl")]) true false
      (.oid 5)).1.mpr
      ⟨fun _ => by with_unfolding_all rfl, fun _ => rfl, fun _ => ⟨"high", rfl⟩⟩,
   ((task_base_match sampleIds asciiCase ["title"] (.obj [("priority", .str "high")]) true false
      (.oid 5)).2 _ _ rfl).2.1,
   ((task_base_match sampleIds asciiCase ["title"] (.obj [("listCreatedBy", .str "true")]) true false
      (.oid 5)).2 _ _ rfl).2.2.1⟩

/-! ## Soft delete and access scope -/

/-- C3 (the code departs from the claim): for the restricted risk caller 100,
`getOverdueList` puts the soft-deleted client 7 among the visible client ids and
its base match carries no `isDeleted` condition, so the soft-deleted overdue
record 10 passes the match and is counted; the overdue risk list, on the same
store, finds no visible client. -/
theorem overdue_list_keeps_soft_deleted :
    overdueQueryFilter sampleIds id deletedStore (.obj []) true false .undefined (.oid 100)
      = some (.obj [("clientId", .obj [("$in", .arr [.oid 7])])]) ∧
    filterQuery (.obj [("clientId", .obj [("$in", .arr [.oid 7])])]) (deletedStore "overdues")
      = some (deletedStore "overdues") ∧
    (getOverdueList sampleIds asciiCase id deletedStore (.obj []) true false .undefined (.oid 100)).map
      (fun r => r.total) = some (.num 1) ∧
    riskClientIds deletedStore (.oid 100) = some [] := by
  refine ⟨?_, ?_, ?_, ?_⟩ <;> with_unfolding_all rfl

/-- C4 (the code departs from the claim): for a request that carries no
`accessTypes`, the overdue risk list builds the unrestricted base match and the
client list is called with `hasFullAccess = true`, while the task list takes
`hasFullAccess = false`; the three agree whenever `accessTypes` is present. -/
theorem access_flag_without_access_types (clientIds : List Value) :
    overdueRiskQueryFilter clientIds none = .obj [("isDeleted", .bool false)] ∧
    clientListHasFullAccess none = true ∧
    taskListHasFullAccess none = false ∧
    (∀ ts, clientListHasFullAccess (some ts) = taskListHasFullAccess (some ts)) ∧
    (∀ ts, taskListHasFullAccess (some ts) = false →
      overdueRiskQueryFilter clientIds (some ts)
        = .obj [("isDeleted", .bool false), ("clientId", .obj [("$in", .arr clientIds)])]) := by
  refine ⟨rfl, rfl, rfl, ?_, ?_⟩
  · intro ts
    cases h : lacksFullAccess ts <;> simp [clientListHasFullAccess, taskListHasFullAccess, h]
  · intro ts
    cases h : lacksFullAccess ts <;> simp [overdueRiskQueryFilter, taskListHasFullAccess, h]

/-- Witness for the C4 evaluation: a caller whose access types are `["read"]` is
restricted by all three routes. -/
theorem access_flag_without_access_types_witness :
    taskListHasFullAccess (some ["read"]) = false ∧
    overdueRiskQueryFilter [.oid 7] (some ["read"])
      = .obj [("isDeleted", .bool false), ("clientId", .obj [("$in", .arr [.oid 7])])] :=
  ⟨by decide, (access_flag_without_access_types [.oid 7]).2.2.2.2 ["read"] (by decide)⟩

/-! ## The document plan -/

/-- C8 (the code departs from the claim): the document uploaded by client user 1
("Alice") comes out of the document list plan with an empty `uploadById`: the
merging `$cond` tests `createdByType`, which the document does not have, and so
takes the users branch although `uploadByType` routed the id to the client
users. -/
theorem upload_name_lost_for_client_user :
    aggregate uploadStore "documents" (documentStages ["uploadById"] (.obj []))
      = some [.obj [("_id", .oid 30), ("uploadById", .arr [])]] ∧
    runPipeline uploadStore uploadedByStages (uploadStore "documents")
      = some [.obj [("_id", .oid 30), ("uploadByType", .str "client-user"),
          ("uploadById", .arr []),
          ("clientUserId", .arr [.obj [("_id", .oid 1), ("name", .str "Alice")]]),
          ("userId", .arr [])]] := by
  refine ⟨?_, ?_⟩ <;> with_unfolding_all rfl

/-! ## The task plan: joins -/

/-- C9 (the code departs from the claim): with only `title` selected and no
filter, the task plan still holds four `$lookup` stages, two for the assignee
and two for the creator; and for every input the plan joins the users
collection for the assignee, directly on `assigneeId` or on the `userId` copied
from it. -/
theorem task_plan_joins_unselected :
    (taskStages ["title"] (.obj []) true false).filter Stage.isLookup
      = [ .lookup "users" ["userId"] "_id" "userId",
          .lookup "client-users" ["clientUserId"] "_id" "clientUserId",
          .lookup "users" ["userId"] "_id" "userId",
          .lookup "client-users" ["clientUserId"] "_id" "clientUserId" ] ∧
    (∀ (taskColumn : List String) (rq : Value) (isForRisk hasFullAccess : Bool),
      Stage.lookup "users" ["assigneeId"] "_id" "assigneeId"
          ∈ taskStages taskColumn rq isForRisk hasFullAccess ∨
      Stage.lookup "users" ["userId"] "_id" "userId"
          ∈ taskStages taskColumn rq isForRisk hasFullAccess) := by
  refine ⟨by with_unfolding_all rfl, ?_⟩
  intro taskColumn rq isForRisk hasFullAccess
  by_cases hc : ((includes taskColumn "assigneeId" || (rq.prop "assigneeId").truthy) &&
      !hasFullAccess && isForRisk) = true
  · left
    simp [taskStages, taskJoinStages, assigneeStages, hc, directUserLookup]
  · right
    simp [taskStages, taskJoinStages, assigneeStages, hc, typedUserStages]
/-! ## Equality of values -/

mutual
theorem Value.beq_iff : ∀ (a b : Value), Value.beq a b = true ↔ a = b
  | .undefined, b => by cases b <;> simp [Value.beq]
  | .null, b => by cases b <;> simp [Value.beq]
  | .nan, b => by cases b <;> simp [Value.beq]
  | .bool x, b => by cases b <;> simp [Value.beq]
  | .num x, b => by cases b <;> simp [Value.beq]
  | .inf x, b => by cases b <;> simp [Value.beq]
  | .str x, b => by cases b <;> simp [Value.beq]
  | .oid x, b => by cases b <;> simp [Value.beq]
  | .arr xs, b => by
    cases b <;> simp [Value.beq]
    exact Value.beqList_iff xs _
  | .obj fs, b => by
    cases b <;> simp [Value.beq]
    exact Value.beqFields_iff fs _
theorem Value.beqList_iff : ∀ (a b : List Value), Value.beqList a b = true ↔ a = b
  | [], b => by cases b <;> simp [Value.beqList]
  | x :: xs, b => by
    cases b with
    | nil => simp [Value.beqList]
    | cons y ys => simp [Value.beqList, Value.beq_iff x y, Value.beqList_iff xs ys]
theorem Value.beqFields_iff :
    ∀ (a b : List (String × Value)), Value.beqFields a b = true ↔ a = b
  | [], b => by cases b <;> simp [Value.beqFields]
  | (k, x) :: xs, b => by
    cases b with
    | nil => simp [Value.beqFields]
    | cons y ys =>
      obtain ⟨l, y⟩ := y
      simp [Value.beqFields, Value.beq_iff x y, Value.beqFields_iff xs ys, and_assoc]
end

theorem Value.beq_refl (a : Value) : Value.beq a a = true := (Value.beq_iff a a).mpr rfl

theorem Value.beq_false_iff (a b : Value) : Value.beq a b = false ↔ a ≠ b := by
  rw [← Bool.not_eq_true, Value.beq_iff]

/-! ## The overdue risk list: projection and ordering -/

theorem renameColumn_eq_specRename (i : String) : renameColumn i = specRename i := by
  unfold renameColumn specRename
  by_cases h1 : i = "clientId"
  · subst h1; rfl
  · by_cases h2 : i = "debtorId"
    · subst h2; rfl
    · by_cases h3 : i = "clientDebtorId"
      · subst h3; rfl
      · by_cases h4 : i = "entityType"
        · subst h4; rfl
        · simp only [h1, h2, h3, h4, if_false]

theorem renameSortBy_str (s : String) : renameSortBy (.str s) = .str (specRename s) := by
  rw [← renameColumn_eq_specRename]
  unfold renameSortBy renameColumn
  by_cases h1 : s = "clientId"
  · subst h1; rfl
  · by_cases h2 : s = "debtorId"
    · subst h2; rfl
    · by_cases h3 : s = "clientDebtorId"
      · subst h3; rfl
      · by_cases h4 : s = "entityType"
        · subst h4; rfl
        · have e1 : Value.beq (.str s) (.str "clientId") = false := by
            rw [Value.beq_false_iff]; simpa using h1
          have e2 : Value.beq (.str s) (.str "debtorId") = false := by
            rw [Value.beq_false_iff]; simpa using h2
          have e3 : Value.beq (.str s) (.str "clientDebtorId") = false := by
            rw [Value.beq_false_iff]; simpa using h3
          have e4 : Value.beq (.str s) (.str "entityType") = false := by
            rw [Value.beq_false_iff]; simpa using h4
          simp [e1, e2, e3, e4, h1, h2, h3, h4]

theorem mem_keys_assignField {α : Type} (fs : List (String × α)) (k0 k : String) (v : α) :
    k ∈ (assignField fs k0 v).map Prod.fst ↔ k = k0 ∨ k ∈ fs.map Prod.fst := by
  induction fs with
  | nil => simp [assignField]
  | cons p fs ih =>
    obtain ⟨k1, v1⟩ := p
    by_cases h : k1 = k0
    · subst h
      simp [assignField]
    · simp only [assignField, h, if_false, List.map_cons, List.mem_cons, ih]
      tauto

theorem keys_assignField_of_not_mem {α : Type} (fs : List (String × α)) (k0 : String) (v : α)
    (h : k0 ∉ fs.map Prod.fst) : (assignField fs k0 v).map Prod.fst = fs.map Prod.fst ++ [k0] := by
  induction fs with
  | nil => simp [assignField]
  | cons p fs ih =>
    obtain ⟨k1, v1⟩ := p
    simp only [List.map_cons, List.mem_cons, not_or] at h
    have h1 : ¬ k1 = k0 := fun e => h.1 e.symm
    simp [assignField, h1, ih h.2]

theorem keys_assignField_of_mem {α : Type} (fs : List (String × α)) (k0 : String) (v : α)
    (h : k0 ∈ fs.map Prod.fst) : (assignField fs k0 v).map Prod.fst = fs.map Prod.fst := by
  induction fs with
  | nil => simp at h
  | cons p fs ih =>
    obtain ⟨k1, v1⟩ := p
    by_cases h1 : k1 = k0
    · subst h1
      simp [assignField]
    · simp only [List.map_cons, List.mem_cons] at h
      rcases h with h | h
      · exact absurd h.symm h1
      · simp [assignField, h1, ih h]

theorem nodup_keys_assignField {α : Type} (fs : List (String × α)) (k0 : String) (v : α)
    (h : (fs.map Prod.fst).Nodup) : ((assignField fs k0 v).map Prod.fst).Nodup := by
  by_cases hk : k0 ∈ fs.map Prod.fst
  · rw [keys_assignField_of_mem fs k0 v hk]
    exact h
  · rw [keys_assignField_of_not_mem fs k0 v hk]
    exact List.Nodup.append h (List.nodup_singleton _) (by simpa using hk)

theorem values_assignField {α : Type} (fs : List (String × α)) (k0 : String) (v : α)
    (P : α → Prop) (hv : P v) (h : ∀ p ∈ fs, P p.2) : ∀ p ∈ assignField fs k0 v, P p.2 := by
  induction fs with
  | nil => simpa [assignField] using hv
  | cons q fs ih =>
    obtain ⟨k1, v1⟩ := q
    by_cases h1 : k1 = k0
    · subst h1
      intro p hp
      simp only [assignField, if_true, List.mem_cons] at hp
      rcases hp with rfl | hp
      · exact hv
      · exact h p (List.mem_cons_of_mem _ hp)
    · intro p hp
      simp only [assignField, h1, if_false, List.mem_cons] at hp
      rcases hp with rfl | hp
      · exact h _ (List.mem_cons_self _ _)
      · exact ih (fun p hp => h p (List.mem_cons_of_mem _ hp)) p hp

theorem perm_keys_insertIndex {α : Type} (n : Nat) (k : String) (v : α) :
    ∀ fs : List (String × α), ((insertIndex n k v fs).map Prod.fst).Perm (k :: fs.map Prod.fst) := by
  intro fs
  induction fs with
  | nil => simp [insertIndex]
  | cons p fs ih =>
    obtain ⟨k1, v1⟩ := p
    simp only [insertIndex]
    split
    · split
      · simp
      · simp only [List.map_cons]
        exact (List.Perm.cons k1 ih).trans (List.Perm.swap k k1 _)
    · simp

theorem values_insertIndex {α : Type} (n : Nat) (k : String) (v : α) (P : α → Prop) (hv : P v) :
    ∀ fs : List (String × α), (∀ p ∈ fs, P p.2) → ∀ p ∈ insertIndex n k v fs, P p.2 := by
  intro fs
  induction fs with
  | nil =>
    intro _ p hp
    simp only [insertIndex, List.mem_singleton] at hp
    subst hp
    exact hv
  | cons q fs ih =>
    obtain ⟨k1, v1⟩ := q
    intro h p hp
    simp only [insertIndex] at hp
    split at hp
    · split at hp
      · rcases List.mem_cons.mp hp with rfl | hp
        · exact hv
        · exact h p hp
      · rcases List.mem_cons.mp hp with rfl | hp
        · exact h _ (List.mem_cons_self _ _)
        · exact ih (fun p hp => h p (List.mem_cons_of_mem _ hp)) p hp
    · rcases List.mem_cons.mp hp with rfl | hp
      · exact hv
      · exact h p hp

theorem any_key_iff {α : Type} (fs : List (String × α)) (k : String) :
    fs.any (fun p => p.1 == k) = true ↔ k ∈ fs.map Prod.fst := by
  simp only [List.any_eq_true, beq_iff_eq, List.mem_map]

theorem setProperty_plain {α : Type} (fs : List (String × α)) (k : String) (v : α)
    (h1 : k ≠ "__proto__") (h2 : arrayIndex k = none) :
    setProperty fs k v = assignField fs k v := by
  unfold setProperty
  rw [if_neg h1, h2]
  split <;> rfl

theorem mem_keys_setProperty {α : Type} (fs : List (String × α)) (k0 k : String) (v : α) :
    k ∈ (setProperty fs k0 v).map Prod.fst ↔
      (k = k0 ∧ k0 ≠ "__proto__") ∨ k ∈ fs.map Prod.fst := by
  unfold setProperty
  by_cases h1 : k0 = "__proto__"
  · rw [if_pos h1]
    constructor
    · exact Or.inr
    · rintro (⟨-, h⟩ | h)
      · exact absurd h1 h
      · exact h
  · rw [if_neg h1]
    by_cases h2 : fs.any (fun p => p.1 == k0) = true
    · rw [if_pos h2, mem_keys_assignField]
      simp [h1]
    · rw [if_neg h2]
      cases h3 : arrayIndex k0 with
      | none =>
        simp only
        rw [mem_keys_assignField]
        simp [h1]
      | some n =>
        simp only
        rw [(perm_keys_insertIndex n k0 v fs).mem_iff]
        simp [h1]

theorem nodup_keys_setProperty {α : Type} (fs : List (String × α)) (k0 : String) (v : α)
    (h : (fs.map Prod.fst).Nodup) : ((setProperty fs k0 v).map Prod.fst).Nodup := by
  unfold setProperty
  split
  · exact h
  · split
    · exact nodup_keys_assignField fs k0 v h
    · rename_i _ h2
      have hk : k0 ∉ fs.map Prod.fst := fun hm => h2 ((any_key_iff fs k0).mpr hm)
      split
      · rw [(perm_keys_insertIndex _ k0 v fs).nodup_iff]
        exact List.nodup_cons.mpr ⟨hk, h⟩
      · exact nodup_keys_assignField fs k0 v h

theorem values_setProperty {α : Type} (fs : List (String × α)) (k0 : String) (v : α)
    (P : α → Prop) (hv : P v) (h : ∀ p ∈ fs, P p.2) : ∀ p ∈ setProperty fs k0 v, P p.2 := by
  unfold setProperty
  split
  · exact h
  · split
    · exact values_assignField fs k0 v P hv h
    · split
      · exact values_insertIndex _ k0 v P hv fs h
      · exact values_assignField fs k0 v P hv h

theorem projection_fold (keys : List String) :
    ∀ (acc : List (String × Expr)), (acc.map Prod.fst).Nodup →
      (∀ p ∈ acc, p.2 = Expr.lit (.num 1)) →
      let out := keys.foldl (fun obj key => setProperty obj key (Expr.lit (.num 1))) acc
      (∀ k, k ∈ out.map Prod.fst ↔ k ∈ acc.map Prod.fst ∨ (k ∈ keys ∧ k ≠ "__proto__")) ∧
      (out.map Prod.fst).Nodup ∧ (∀ p ∈ out, p.2 = Expr.lit (.num 1)) ∧
      ((∀ k ∈ keys, k ∉ acc.map Prod.fst ∧ k ≠ "__proto__" ∧ arrayIndex k = none) →
        keys.Nodup → out.map Prod.fst = acc.map Prod.fst ++ keys) := by
  induction keys with
  | nil =>
    intro acc h1 h2
    exact ⟨fun k => by simp, h1, h2, fun _ _ => by simp⟩
  | cons k ks ih =>
    intro acc h1 h2
    have n1 := nodup_keys_setProperty acc k (Expr.lit (.num 1)) h1
    have n2 := values_setProperty acc k (Expr.lit (.num 1)) (fun e => e = Expr.lit (.num 1)) rfl h2
    obtain ⟨a, b, c, d⟩ := ih (setProperty acc k (Expr.lit (.num 1))) n1 n2
    refine ⟨?_, b, c, ?_⟩
    · intro x
      simp only [List.foldl_cons]
      rw [a x, mem_keys_setProperty]
      simp only [List.mem_cons]
      constructor
      · rintro ((⟨rfl, h⟩ | h) | ⟨h, h3⟩)
        · exact Or.inr ⟨Or.inl rfl, h⟩
        · exact Or.inl h
        · exact Or.inr ⟨Or.inr h, h3⟩
      · rintro (h | ⟨rfl | h, h3⟩)
        · exact Or.inl (Or.inr h)
        · exact Or.inl (Or.inl ⟨rfl, h3⟩)
        · exact Or.inr ⟨h, h3⟩
    · intro hk hn
      simp only [List.foldl_cons]
      obtain ⟨hk1, hk2, hk3⟩ := hk k (List.mem_cons_self _ _)
      have hn2 := List.nodup_cons.mp hn
      have hset : setProperty acc k (Expr.lit (.num 1)) = assignField acc k (Expr.lit (.num 1)) :=
        setProperty_plain acc k _ hk2 hk3
      rw [d ?_ hn2.2, hset, keys_assignField_of_not_mem acc k _ hk1]
      · simp
      · intro x hx
        refine ⟨?_, (hk x (List.mem_cons_of_mem _ hx)).2⟩
        rw [hset, mem_keys_assignField]
        rintro (rfl | h)
        · exact hn2.1 hx
        · exact (hk x (List.mem_cons_of_mem _ hx)).1 h

theorem projectionOf_keys (keys : List String) :
    (∀ k, k ∈ (projectionOf keys).map Prod.fst ↔ (k ∈ keys ∧ k ≠ "__proto__")) ∧
    ((projectionOf keys).map Prod.fst).Nodup ∧
    (∀ p ∈ projectionOf keys, p.2 = Expr.lit (.num 1)) ∧
    ((∀ k ∈ keys, k ≠ "__proto__" ∧ arrayIndex k = none) → keys.Nodup →
      (projectionOf keys).map Prod.fst = keys) := by
  obtain ⟨a, b, c, d⟩ := projection_fold keys [] (by simp) (by simp)
  refine ⟨fun k => by simpa using a k, b, c, fun hk hn => ?_⟩
  simpa using d (fun k h => ⟨by simp, hk k h⟩) hn

theorem setProperty_nil {α : Type} (key : String) (v : α) :
    setProperty [] key v = if key = "__proto__" then [] else [(key, v)] := by
  unfold setProperty
  by_cases h : key = "__proto__"
  · simp [h]
  · simp only [h, if_false, List.any_nil]
    cases arrayIndex key <;> simp [insertIndex, assignField]

theorem setProperty_same {α : Type} (key : String) (v w : α) (h : key ≠ "__proto__") :
    setProperty [(key, v)] key w = [(key, w)] := by
  simp [setProperty, h, assignField]

theorem sortingOptionsOf_eq (key : String) (direction : Int) :
    sortingOptionsOf key direction = if key = "__proto__" then [] else [(key, direction)] :=
  setProperty_nil key direction
theorem overdueRiskJoinStages_no_project (columns : List String) (query : Value) :
    (overdueRiskJoinStages columns query).filter Stage.isProject = [] ∧
    (overdueRiskJoinStages columns query).filter Stage.isSort = [] := by
  unfold overdueRiskJoinStages
  constructor <;> split_ifs <;> rfl

theorem specRename_proto (c : String) : specRename c = "__proto__" ↔ c = "__proto__" := by
  unfold specRename
  split <;> simp_all

set_option maxRecDepth 8000 in
/-- C10, as stated, fails: for the selected columns `month` and `__proto__` the
projection of the overdue risk list has the one key `month`, the assignment
`obj['__proto__'] = 1` adding no key to the object; and for `sortBy = __proto__`
the object of the sort stage has no key. -/
theorem projection_key_per_column_counterexample :
    (overdueRiskStages ["month", "__proto__"]
        (.obj [("sortBy", .str "__proto__"), ("sortOrder", .str "desc"), ("page", .str "1"),
          ("limit", .str "5")])).filter Stage.isProject
      = [.project [("month", .lit (.num 1))]] ∧
    (overdueRiskStages ["month", "__proto__"]
        (.obj [("sortBy", .str "__proto__"), ("sortOrder", .str "desc"), ("page", .str "1"),
          ("limit", .str "5")])).filter Stage.isSort
      = [.sort []] :=
  ⟨by with_unfolding_all rfl, by with_unfolding_all rfl⟩

/-- C10, amended: in the overdue risk list plan the projection has one key per
selected column other than `__proto__`, its image under the rename map, each
with value `1`, and no key for a column `__proto__`; the keys stand in the order
of the columns when no image is an array index. When `sortBy` and `sortOrder`
are supplied and `sortBy` is not `__proto__`, the sort stage has the single key
that is the image of `sortBy` under the same map, with direction `-1` for `desc`
and `1` otherwise; for `sortBy = __proto__` its object has no key. -/
theorem overdue_projection_and_sort (columns : List String) (query : Value) :
    (overdueRiskStages columns query).filter Stage.isProject
      = [.project (projectionOf (columns.map specRename))] ∧
    (∀ k, k ∈ (projectionOf (columns.map specRename)).map Prod.fst ↔
      ∃ c ∈ columns, c ≠ "__proto__" ∧ k = specRename c) ∧
    ((projectionOf (columns.map specRename)).map Prod.fst).Nodup ∧
    (∀ p ∈ projectionOf (columns.map specRename), p.2 = Expr.lit (.num 1)) ∧
    ((∀ k ∈ columns.map specRename, k ≠ "__proto__" ∧ arrayIndex k = none) →
      (columns.map specRename).Nodup →
      (projectionOf (columns.map specRename)).map Prod.fst = columns.map specRename) ∧
    (∀ s, query.prop "sortBy" = .str s → s ≠ "" → s ≠ "__proto__" →
      (query.prop "sortOrder").truthy = true →
      ∃ dir, (overdueRiskStages columns query).filter Stage.isSort
          = [.sort [(specRename s, dir)]] ∧
        (query.prop "sortOrder" = .str "desc" → dir = -1) ∧
        (query.prop "sortOrder" ≠ .str "desc" → dir = 1)) ∧
    (query.prop "sortBy" = .str "__proto__" → (query.prop "sortOrder").truthy = true →
      (overdueRiskStages columns query).filter Stage.isSort = [.sort []]) := by
  have hmap : columns.map renameColumn = columns.map specRename :=
    List.map_congr_left (fun c _ => renameColumn_eq_specRename c)
  obtain ⟨a, b, c, d⟩ := projectionOf_keys (columns.map specRename)
  obtain ⟨j1, j2⟩ := overdueRiskJoinStages_no_project columns query
  refine ⟨?_, ?_, b, c, d, ?_, ?_⟩
  · unfold overdueRiskStages overdueRiskTailStages
    rw [hmap]
    simp only [List.filter_append, j1, List.nil_append]
    split <;> rfl
  · intro k
    rw [a k]
    simp only [List.mem_map]
    constructor
    · rintro ⟨⟨c, hc, rfl⟩, hk⟩
      exact ⟨c, hc, fun h => hk ((specRename_proto c).mpr h), rfl⟩
    · rintro ⟨c, hc, hne, rfl⟩
      exact ⟨⟨c, hc, rfl⟩, fun h => hne ((specRename_proto c).mp h)⟩
  · intro s hs hne hp ho
    have ht : (Value.str s).truthy = true := by
      simpa [Value.truthy] using hne
    have hp2 : specRename s ≠ "__proto__" := fun h => hp ((specRename_proto s).mp h)
    refine ⟨sortDirection (query.prop "sortOrder"), ?_, ?_, ?_⟩
    · unfold overdueRiskStages overdueRiskTailStages
      simp only [List.filter_append, j2, List.nil_append, hs, ht, ho, Bool.and_self, if_true,
        renameSortBy_str, sortingOptionsOf_eq, Value.jsToString, hp2, if_false]
      rfl
    · intro hd
      rw [hd]
      rfl
    · intro hd
      have : Value.beq (query.prop "sortOrder") (.str "desc") = false :=
        (Value.beq_false_iff _ _).mpr hd
      simp [sortDirection, this]
  · intro hs ho
    have ht : (Value.str "__proto__").truthy = true := rfl
    unfold overdueRiskStages overdueRiskTailStages
    simp only [List.filter_append, j2, List.nil_append, hs, ht, ho, Bool.and_self, if_true,
      renameSortBy_str, sortingOptionsOf_eq, Value.jsToString]
    rfl

/-- Witness for C10: the columns `clientId`, `month`, `entityType` sorted by
`debtorId` descending. -/
theorem overdue_projection_and_sort_witness :
    (projectionOf (["clientId", "month", "entityType"].map specRename)).map Prod.fst
      = ["clientId.name", "month", "debtorId.entityType"] ∧
    (∃ dir, (overdueRiskStages ["clientId", "month", "entityType"]
        (.obj [("sortBy", .str "debtorId"), ("sortOrder", .str "desc")])).filter Stage.isSort
          = [.sort [(specRename "debtorId", dir)]] ∧
        ((Value.obj [("sortBy", .str "debtorId"), ("sortOrder", .str "desc")]).prop "sortOrder"
          = .str "desc" → dir = -1) ∧
        ((Value.obj [("sortBy", .str "debtorId"), ("sortOrder", .str "desc")]).prop "sortOrder"
          ≠ .str "desc" → dir = 1)) :=
  ⟨(overdue_projection_and_sort ["clientId", "month", "entityType"] (.obj [])).2.2.2.2.1
      (by decide) (by decide),
   (overdue_projection_and_sort ["clientId", "month", "entityType"]
      (.obj [("sortBy", .str "debtorId"), ("sortOrder", .str "desc")])).2.2.2.2.2.1
      "debtorId" rfl (by decide) (by decide) rfl⟩

/-! ## The task plan: typed references -/

theorem lookupField_eraseField (fs : List (String × Value)) (k k2 : String) :
    lookupField (eraseField fs k) k2 = if k = k2 then .undefined else lookupField fs k2 := by
  induction fs with
  | nil => simp [eraseField, lookupField]
  | cons p fs ih =>
    obtain ⟨k1, v1⟩ := p
    by_cases h1 : k1 = k
    · subst h1
      by_cases h2 : k1 = k2
      · subst h2
        simpa [eraseField] using ih
      · simp [eraseField, lookupField, h2, ih]
    · by_cases h2 : k1 = k2
      · subst h2
        have h3 : ¬ k = k1 := fun h => h1 h.symm
        simp [eraseField, lookupField, h1, h3]
      · simp [eraseField, lookupField, h1, h2, ih]

theorem lookupField_storeField (fs : List (String × Value)) (k k2 : String) (v : Value) :
    lookupField (storeField fs k v) k2 = if k = k2 then v else lookupField fs k2 := by
  unfold storeField
  split
  · rw [lookupField_eraseField]
  · rw [lookupField_assignField]

@[simp] theorem rowThrough_nil (db : Db) (d : Value) : rowThrough db [] d = some d := rfl

@[simp] theorem rowThrough_lookup (db : Db) (coll : String) (lf : List String) (ff as : String)
    (ss : List Stage) (fs : List (String × Value)) :
    rowThrough db (.lookup coll lf ff as :: ss) (.obj fs)
      = rowThrough db ss (.obj (assignField fs as (.arr (lookupDocs db coll lf ff (.obj fs))))) :=
  rfl

theorem rowThrough_addFields (db : Db) (spec : List (String × Expr)) (ss : List Stage)
    (fs vs : List (String × Value)) (h : evalAdded (.obj fs) spec = some vs) :
    rowThrough db (.addFields spec :: ss) (.obj fs)
      = rowThrough db ss (.obj (storeFields fs vs)) := by
  simp [rowThrough, addFieldsDoc, h]

theorem evalExpr_idWhen (fs : List (String × Value)) (t tag i : String) :
    evalExpr [] (.obj fs) (idWhen t tag i)
      = some (if Value.beq (lookupField fs t) (.str tag) = true then lookupField fs i
          else .null) := by
  simp only [idWhen, evalExpr, getPath, List.foldl, Value.step, Value.condTrue]
  split <;> simp_all


theorem beq_str_str (a b : String) : Value.beq (.str a) (.str b) = decide (a = b) := by
  by_cases h : a = b
  · subst h
    simp [Value.beq_refl]
  · have : Value.beq (.str a) (.str b) = false := by
      rw [Value.beq_false_iff]
      simpa using h
    simp [this, h]

theorem beq_str_of_ne (t : Value) (tag : String) (h : t ≠ .str tag) :
    Value.beq t (.str tag) = false := (Value.beq_false_iff _ _).mpr h

/-- The last `$addFields` of the entity stages, on a document whose five slots
hold the joined arrays. -/
theorem evalAdded_entityId (fs : List (String × Value)) (t : Value)
    (us cs cus ds as : List Value)
    (he : lookupField fs "entityType" = t)
    (h1 : lookupField fs "userId" = .arr us) (h2 : lookupField fs "clientId" = .arr cs)
    (h3 : lookupField fs "clientUserId" = .arr cus) (h4 : lookupField fs "debtorId" = .arr ds)
    (h5 : lookupField fs "applicationId" = .arr as) :
    evalAdded (.obj fs)
      [ ("entityId",
          .cond (.eq (.field ["entityType"]) (.lit (.str "client")))
            (entityRecord "clientId" "name")
            (.cond (.eq (.field ["entityType"]) (.lit (.str "debtor")))
              (entityRecord "debtorId" "entityName")
              (.cond (.eq (.field ["entityType"]) (.lit (.str "application")))
                (entityRecord "applicationId" "applicationId")
                (.cond (.eq (.field ["entityType"]) (.lit (.str "client-user")))
                  (entityRecord "clientUserId" "name")
                  (.cond (.eq (.field ["entityType"]) (.lit (.str "user")))
                    (entityRecord "userId" "name")
                    (.lit .null)))))) ]
      = some [("entityId",
          if Value.beq t (.str "user") = true then resolvedRecord us "name" t
          else if Value.beq t (.str "client") = true then resolvedRecord cs "name" t
          else if Value.beq t (.str "client-user") = true then resolvedRecord cus "name" t
          else if Value.beq t (.str "debtor") = true then resolvedRecord ds "entityName" t
          else if Value.beq t (.str "application") = true then
            resolvedRecord as "applicationId" t
          else .null)] := by
  by_cases c1 : t = .str "client"
  · subst c1
    simp [evalAdded, evalExpr, evalFields, entityRecord, getPath, Value.step, he, h2,
      beq_str_str, Value.condTrue, resolvedRecord]
  · by_cases c2 : t = .str "debtor"
    · subst c2
      simp [evalAdded, evalExpr, evalFields, entityRecord, getPath, Value.step, he, h4,
        beq_str_str, Value.condTrue, resolvedRecord]
    · by_cases c3 : t = .str "application"
      · subst c3
        simp [evalAdded, evalExpr, evalFields, entityRecord, getPath, Value.step, he, h5,
          beq_str_str, Value.condTrue, resolvedRecord]
      · by_cases c4 : t = .str "client-user"
        · subst c4
          simp [evalAdded, evalExpr, evalFields, entityRecord, getPath, Value.step, he, h3,
            beq_str_str, Value.condTrue, resolvedRecord]
        · by_cases c5 : t = .str "user"
          · subst c5
            simp [evalAdded, evalExpr, evalFields, entityRecord, getPath, Value.step, he, h1,
              beq_str_str, Value.condTrue, resolvedRecord]
          · simp [evalAdded, evalExpr, getPath, Value.step, he, Value.condTrue,
              beq_str_of_ne t _ c1, beq_str_of_ne t _ c2, beq_str_of_ne t _ c3,
              beq_str_of_ne t _ c4, beq_str_of_ne t _ c5]

theorem evalAdded_entitySlots (fs : List (String × Value)) (t x : Value)
    (he : lookupField fs "entityType" = t) (hx : lookupField fs "entityId" = x) :
    evalAdded (.obj fs) entitySlots
      = some [ ("userId", if Value.beq t (.str "user") = true then x else .null),
               ("clientId", if Value.beq t (.str "client") = true then x else .null),
               ("clientUserId", if Value.beq t (.str "client-user") = true then x else .null),
               ("debtorId", if Value.beq t (.str "debtor") = true then x else .null),
               ("applicationId",
                  if Value.beq t (.str "application") = true then x else .null) ] := by
  simp [entitySlots, evalAdded, evalExpr_idWhen, he, hx]

theorem lookupDocs_obj (db : Db) (coll k : String) (fs : List (String × Value)) :
    lookupDocs db coll [k] "_id" (.obj fs) = joined db coll (lookupField fs k) := rfl

theorem lookupDocs_obj2 (db : Db) (coll k1 k2 : String) (fs : List (String × Value)) :
    lookupDocs db coll [k1, k2] "_id" (.obj fs)
      = (db coll).filter (joins (lookupKeys (Value.step (lookupField fs k1) k2)) "_id") := rfl

theorem entityStages_row (db : Db) (fs : List (String × Value)) (t x : Value)
    (he : lookupField fs "entityType" = t) (hx : lookupField fs "entityId" = x) :
    ∃ fs2, rowThrough db entityStages (.obj fs) = some (.obj fs2) ∧
      lookupField fs2 "entityId" = resolvedEntity db t x ∧
      (∀ k, k ∉ ["userId", "clientId", "clientUserId", "debtorId", "applicationId",
          "entityId"] → lookupField fs2 k = lookupField fs k) := by
  unfold entityStages
  rw [rowThrough_addFields db _ _ fs _ (evalAdded_entitySlots fs t x he hx)]
  simp only [rowThrough_lookup, lookupDocs_obj, lookupDocs_obj2, lookupField_assignField,
    lookupField_storeField, storeFields, String.reduceEq, ↓reduceIte, Value.step, lookupKeys]
  rw [rowThrough_addFields db _ _ _ _ (evalAdded_entityId _ t
    (joined db "users" (if Value.beq t (.str "user") = true then x else .null))
    (joined db "clients" (if Value.beq t (.str "client") = true then x else .null))
    (joined db "client-users" (if Value.beq t (.str "client-user") = true then x else .null))
    ((db "debtors").filter (joins (Value.stepAll
      (joined db "client-debtors" (if Value.beq t (.str "debtor") = true then x else .null))
        "debtorId") "_id"))
    (joined db "applications" (if Value.beq t (.str "application") = true then x else .null))
    (by simp only [lookupField_assignField, lookupField_storeField, String.reduceEq, ↓reduceIte,
      he])
    (by simp only [lookupField_assignField, String.reduceEq, ↓reduceIte])
    (by simp only [lookupField_assignField, String.reduceEq, ↓reduceIte])
    (by simp only [lookupField_assignField, String.reduceEq, ↓reduceIte])
    (by simp only [lookupField_assignField, String.reduceEq, ↓reduceIte])
    (by simp only [lookupField_assignField, String.reduceEq, ↓reduceIte]))]
  refine ⟨_, rfl, ?_, ?_⟩
  · simp only [storeFields, lookupField_storeField, ↓reduceIte, resolvedEntity, joinedDebtors]
    by_cases c1 : Value.beq t (.str "user") = true
    · simp [c1]
    · by_cases c2 : Value.beq t (.str "client") = true
      · simp [c1, c2]
      · by_cases c3 : Value.beq t (.str "client-user") = true
        · simp [c1, c2, c3]
        · by_cases c4 : Value.beq t (.str "debtor") = true
          · simp [c1, c2, c3, c4]
          · by_cases c5 : Value.beq t (.str "application") = true
            · simp [c1, c2, c3, c4, c5]
            · simp [c1, c2, c3, c4, c5]
  · intro k hk
    simp only [List.mem_cons, List.mem_singleton, List.not_mem_nil, or_false, not_or] at hk
    obtain ⟨k1, k2, k3, k4, k5, k6⟩ := hk
    have k1 : ¬ "userId" = k := fun h => k1 h.symm
    have k2 : ¬ "clientId" = k := fun h => k2 h.symm
    have k3 : ¬ "clientUserId" = k := fun h => k3 h.symm
    have k4 : ¬ "debtorId" = k := fun h => k4 h.symm
    have k5 : ¬ "applicationId" = k := fun h => k5 h.symm
    have k6 : ¬ "entityId" = k := fun h => k6 h.symm
    simp only [storeFields, lookupField_storeField, lookupField_assignField, k1, k2, k3, k4, k5,
      k6, if_false]

theorem rowThrough_append (db : Db) (a b : List Stage) :
    ∀ d, rowThrough db (a ++ b) d = (rowThrough db a d).bind (rowThrough db b) := by
  induction a with
  | nil => intro d; rfl
  | cons s ss ih =>
    intro d
    cases s with
    | lookup coll lf ff as =>
      simp only [List.cons_append, rowThrough]
      cases setField d as (.arr (lookupDocs db coll lf ff d)) with
      | none => rfl
      | some d2 => exact ih d2
    | addFields spec =>
      simp only [List.cons_append, rowThrough]
      cases addFieldsDoc spec d with
      | none => rfl
      | some d2 => exact ih d2
    | matchQ q => simpa only [List.cons_append, rowThrough] using ih d
    | sort spec => simpa only [List.cons_append, rowThrough] using ih d
    | skip n => simpa only [List.cons_append, rowThrough] using ih d
    | limit n => simpa only [List.cons_append, rowThrough] using ih d
    | unwind f => simp [rowThrough]
    | project spec => simp [rowThrough]
    | group k accs => simp [rowThrough]
    | count n => simp [rowThrough]
    | facet subs => simp [rowThrough]

theorem beforeProject_append (a rest : List Stage) (spec : List (String × Expr))
    (h : ∀ s ∈ a, s.isProject = false) :
    beforeProject (a ++ .project spec :: rest) = a := by
  induction a with
  | nil => simp [beforeProject, Stage.isProject]
  | cons s ss ih =>
    have hs := h s (List.mem_cons_self _ _)
    simp only [List.cons_append, beforeProject, hs]
    simp [ih (fun x hx => h x (List.mem_cons_of_mem _ hx))]

theorem evalAdded_typedSlots (fs : List (String × Value)) (typeField idField : String) :
    evalAdded (.obj fs)
      [ ("clientUserId", idWhen typeField "client-user" idField),
        ("userId", idWhen typeField "user" idField) ]
      = some [ ("clientUserId",
                  if Value.beq (lookupField fs typeField) (.str "client-user") = true
                  then lookupField fs idField else .null),
               ("userId",
                  if Value.beq (lookupField fs typeField) (.str "user") = true
                  then lookupField fs idField else .null) ] := by
  simp [evalAdded, evalExpr_idWhen]

theorem typedUserStages_row (db : Db) (fs : List (String × Value)) (typeField idField : String)
    (h1 : typeField ≠ "clientUserId") (h2 : typeField ≠ "userId") :
    ∃ fs2, rowThrough db (typedUserStages typeField idField) (.obj fs) = some (.obj fs2) ∧
      lookupField fs2 idField
        = resolvedUserNames db (lookupField fs typeField) (lookupField fs idField) ∧
      (∀ k, k ∉ ["clientUserId", "userId", idField] → lookupField fs2 k = lookupField fs k) := by
  have h1b : ¬ "clientUserId" = typeField := fun h => h1 h.symm
  have h2b : ¬ "userId" = typeField := fun h => h2 h.symm
  unfold typedUserStages
  rw [rowThrough_addFields db _ _ fs _ (evalAdded_typedSlots fs typeField idField)]
  simp only [rowThrough_lookup, lookupDocs_obj, lookupField_assignField,
    lookupField_storeField, storeFields, String.reduceEq, ↓reduceIte]
  have hev : ∀ (gs : List (String × Value)) (us cus : List Value),
      lookupField gs typeField = lookupField fs typeField →
      lookupField gs "userId" = .arr us → lookupField gs "clientUserId" = .arr cus →
      evalAdded (.obj gs)
        [ (idField,
            .cond (.eq (.field [typeField]) (.lit (.str "client-user")))
              (.field ["clientUserId", "name"]) (.field ["userId", "name"])) ]
        = some [(idField,
            if Value.beq (lookupField fs typeField) (.str "client-user") = true
            then .arr (Value.stepAll cus "name") else .arr (Value.stepAll us "name"))] := by
    intro gs us cus e1 e2 e3
    by_cases c : Value.beq (lookupField fs typeField) (.str "client-user") = true
    · simp [evalAdded, evalExpr, getPath, Value.step, e1, e2, e3, c, Value.condTrue]
    · simp [evalAdded, evalExpr, getPath, Value.step, e1, e2, e3, c, Value.condTrue]
  rw [rowThrough_addFields db _ _ _ _ (hev _
    (joined db "users" (if Value.beq (lookupField fs typeField) (.str "user") = true
      then lookupField fs idField else .null))
    (joined db "client-users" (if Value.beq (lookupField fs typeField) (.str "client-user") = true
      then lookupField fs idField else .null))
    (by simp only [lookupField_assignField, lookupField_storeField, h1b, h2b, if_false])
    (by simp only [lookupField_assignField, String.reduceEq, ↓reduceIte])
    (by simp only [lookupField_assignField, String.reduceEq, ↓reduceIte]))]
  refine ⟨_, rfl, ?_, ?_⟩
  · simp only [storeFields, lookupField_storeField, ↓reduceIte, resolvedUserNames]
    by_cases c1 : Value.beq (lookupField fs typeField) (.str "client-user") = true
    · simp [c1]
    · by_cases c2 : Value.beq (lookupField fs typeField) (.str "user") = true
      · simp [c1, c2]
      · simp [c1, c2]
  · intro k hk
    simp only [List.mem_cons, List.mem_singleton, List.not_mem_nil, or_false, not_or] at hk
    obtain ⟨k1, k2, k3⟩ := hk
    have k1 : ¬ "clientUserId" = k := fun h => k1 h.symm
    have k2 : ¬ "userId" = k := fun h => k2 h.symm
    have k3 : ¬ idField = k := fun h => k3 h.symm
    simp only [storeFields, lookupField_storeField, lookupField_assignField, k1, k2, k3,
      if_false]

theorem directUserLookup_row (db : Db) (fs : List (String × Value)) (idField : String) :
    rowThrough db (directUserLookup idField) (.obj fs)
      = some (.obj (assignField fs idField (.arr (joined db "users" (lookupField fs idField))))) :=
  rfl

theorem rowTouches_nil (db : Db) (keys : List String) : RowTouches db [] keys :=
  fun fs => ⟨fs, rfl, fun _ _ => rfl⟩

theorem rowTouches_mono (db : Db) (l : List Stage) (s1 s2 : List String)
    (h : RowTouches db l s1) (hs : ∀ k ∈ s1, k ∈ s2) : RowTouches db l s2 := by
  intro fs
  obtain ⟨fs2, h1, h2⟩ := h fs
  exact ⟨fs2, h1, fun k hk => h2 k (fun hk1 => hk (hs k hk1))⟩

theorem rowTouches_append (db : Db) (a b : List Stage) (keys : List String)
    (ha : RowTouches db a keys) (hb : RowTouches db b keys) : RowTouches db (a ++ b) keys := by
  intro fs
  obtain ⟨fs2, h1, h2⟩ := ha fs
  obtain ⟨fs3, h3, h4⟩ := hb fs2
  refine ⟨fs3, ?_, fun k hk => (h4 k hk).trans (h2 k hk)⟩
  rw [rowThrough_append, h1]
  exact h3

theorem rowTouches_match (db : Db) (c : Prop) [Decidable c] (q : Value) (keys : List String) :
    RowTouches db (if c then [Stage.matchQ q] else []) keys := by
  intro fs
  split
  · exact ⟨fs, rfl, fun _ _ => rfl⟩
  · exact ⟨fs, rfl, fun _ _ => rfl⟩

theorem rowTouches_entity (db : Db) :
    RowTouches db entityStages
      ["userId", "clientId", "clientUserId", "debtorId", "applicationId", "entityId"] := by
  intro fs
  obtain ⟨fs2, h1, _, h3⟩ := entityStages_row db fs _ _ rfl rfl
  exact ⟨fs2, h1, h3⟩

theorem rowTouches_typed (db : Db) (typeField idField : String)
    (h1 : typeField ≠ "clientUserId") (h2 : typeField ≠ "userId") :
    RowTouches db (typedUserStages typeField idField) ["clientUserId", "userId", idField] := by
  intro fs
  obtain ⟨fs2, e1, _, e3⟩ := typedUserStages_row db fs typeField idField h1 h2
  exact ⟨fs2, e1, e3⟩

theorem rowTouches_direct (db : Db) (idField : String) :
    RowTouches db (directUserLookup idField) [idField] := by
  intro fs
  refine ⟨_, directUserLookup_row db fs idField, ?_⟩
  intro k hk
  have : ¬ idField = k := fun h => hk (by simp [h])
  simp only [lookupField_assignField, this, if_false]

theorem rowTouches_createdBy (db : Db) (taskColumn : List String) (rq : Value)
    (isForRisk hasFullAccess : Bool) :
    RowTouches db (createdByStages taskColumn rq isForRisk hasFullAccess)
      ["clientUserId", "userId", "createdById"] := by
  unfold createdByStages
  split
  · exact rowTouches_mono db _ _ _ (rowTouches_direct db "createdById") (by simp)
  · exact rowTouches_typed db "createdByType" "createdById" (by decide) (by decide)

theorem rowTouches_assignee (db : Db) (taskColumn : List String) (rq : Value)
    (isForRisk hasFullAccess : Bool) :
    RowTouches db (assigneeStages taskColumn rq isForRisk hasFullAccess)
      ["clientUserId", "userId", "assigneeId"] := by
  unfold assigneeStages
  split
  · exact rowTouches_mono db _ _ _ (rowTouches_direct db "assigneeId") (by simp)
  · exact rowTouches_typed db "assigneeType" "assigneeId" (by decide) (by decide)

theorem taskJoinStages_no_project (taskColumn : List String) (rq : Value)
    (isForRisk hasFullAccess : Bool) :
    ∀ s ∈ taskJoinStages taskColumn rq isForRisk hasFullAccess, s.isProject = false := by
  intro s hs
  unfold taskJoinStages assigneeStages createdByStages at hs
  simp only [List.mem_append] at hs
  rcases hs with (((hs | hs) | hs) | hs) | hs
  · split at hs
    · simp only [entityStages, List.mem_cons, List.mem_singleton, List.not_mem_nil,
        or_false] at hs
      rcases hs with rfl | rfl | rfl | rfl | rfl | rfl | rfl | rfl <;> rfl
    · simp at hs
  · split at hs
    · simp only [directUserLookup, List.mem_singleton] at hs
      subst hs
      rfl
    · simp only [typedUserStages, List.mem_cons, List.mem_singleton, List.not_mem_nil,
        or_false] at hs
      rcases hs with rfl | rfl | rfl | rfl <;> rfl
  · split at hs
    · simp only [List.mem_singleton] at hs
      subst hs
      rfl
    · simp at hs
  · split at hs
    · simp only [directUserLookup, List.mem_singleton] at hs
      subst hs
      rfl
    · simp only [typedUserStages, List.mem_cons, List.mem_singleton, List.not_mem_nil,
        or_false] at hs
      rcases hs with rfl | rfl | rfl | rfl <;> rfl
  · split at hs
    · simp only [List.mem_singleton] at hs
      subst hs
      rfl
    · simp at hs

theorem beforeProject_taskStages (taskColumn : List String) (rq : Value)
    (isForRisk hasFullAccess : Bool) :
    beforeProject (taskStages taskColumn rq isForRisk hasFullAccess)
      = taskJoinStages taskColumn rq isForRisk hasFullAccess := by
  unfold taskStages taskTailStages
  simp only [List.singleton_append, List.cons_append, List.nil_append]
  exact beforeProject_append _ _ _ (taskJoinStages_no_project taskColumn rq isForRisk hasFullAccess)

theorem resolvedEntity_cases (db : Db) (t x : Value) :
    (t = .str "user" → resolvedEntity db t x
      = resolvedRecord (joined db "users" x) "name" (.str "user")) ∧
    (t = .str "client" → resolvedEntity db t x
      = resolvedRecord (joined db "clients" x) "name" (.str "client")) ∧
    (t = .str "client-user" → resolvedEntity db t x
      = resolvedRecord (joined db "client-users" x) "name" (.str "client-user")) ∧
    (t = .str "debtor" → resolvedEntity db t x
      = resolvedRecord (joinedDebtors db x) "entityName" (.str "debtor")) ∧
    (t = .str "application" → resolvedEntity db t x
      = resolvedRecord (joined db "applications" x) "applicationId" (.str "application")) ∧
    ((∀ e ∈ ["user", "client", "client-user", "debtor", "application"], t ≠ .str e) →
      resolvedEntity db t x = .null) := by
  refine ⟨?_, ?_, ?_, ?_, ?_, ?_⟩
  · rintro rfl; simp [resolvedEntity, beq_str_str]
  · rintro rfl; simp [resolvedEntity, beq_str_str]
  · rintro rfl; simp [resolvedEntity, beq_str_str]
  · rintro rfl; simp [resolvedEntity, beq_str_str]
  · rintro rfl; simp [resolvedEntity, beq_str_str]
  · intro h
    simp [resolvedEntity, beq_str_of_ne t _ (h "user" (by simp)),
      beq_str_of_ne t _ (h "client" (by simp)), beq_str_of_ne t _ (h "client-user" (by simp)),
      beq_str_of_ne t _ (h "debtor" (by simp)), beq_str_of_ne t _ (h "application" (by simp))]

/-- C7: when `entityId` is a selected task column, the row that reaches the
projection carries, for an `entityType` among user, client, client-user, debtor
and application, the record `{ name, _id, type }` read from the join against the
collection of that type (the slot of that type received the reference, the other
four slots `null`), and `null` for every other `entityType`; the projection
keeps `entityId`. -/
theorem entity_resolution (db : Db) (taskColumn : List String) (rq : Value)
    (isForRisk hasFullAccess : Bool) (fs : List (String × Value)) (t x : Value)
    (hsel : includes taskColumn "entityId" = true)
    (ht : lookupField fs "entityType" = t) (hx : lookupField fs "entityId" = x) :
    (∃ fs1, addFieldsDoc entitySlots (.obj fs) = some (.obj fs1) ∧
      lookupField fs1 "userId" = (if Value.beq t (.str "user") = true then x else .null) ∧
      lookupField fs1 "clientId" = (if Value.beq t (.str "client") = true then x else .null) ∧
      lookupField fs1 "clientUserId"
        = (if Value.beq t (.str "client-user") = true then x else .null) ∧
      lookupField fs1 "debtorId" = (if Value.beq t (.str "debtor") = true then x else .null) ∧
      lookupField fs1 "applicationId"
        = (if Value.beq t (.str "application") = true then x else .null)) ∧
    (∃ row, rowThrough db (beforeProject (taskStages taskColumn rq isForRisk hasFullAccess))
        (.obj fs) = some row ∧
      row.prop "entityId" = resolvedEntity db t x) ∧
    "entityId" ∈ (projectionOf taskColumn).map Prod.fst ∧
    (t = .str "user" → resolvedEntity db t x
      = resolvedRecord (joined db "users" x) "name" (.str "user")) ∧
    (t = .str "client" → resolvedEntity db t x
      = resolvedRecord (joined db "clients" x) "name" (.str "client")) ∧
    (t = .str "client-user" → resolvedEntity db t x
      = resolvedRecord (joined db "client-users" x) "name" (.str "client-user")) ∧
    (t = .str "debtor" → resolvedEntity db t x
      = resolvedRecord (joinedDebtors db x) "entityName" (.str "debtor")) ∧
    (t = .str "application" → resolvedEntity db t x
      = resolvedRecord (joined db "applications" x) "applicationId" (.str "application")) ∧
    ((∀ e ∈ ["user", "client", "client-user", "debtor", "application"], t ≠ .str e) →
      resolvedEntity db t x = .null) := by
  refine ⟨?_, ?_, ?_, resolvedEntity_cases db t x⟩
  · have hadd : addFieldsDoc entitySlots (.obj fs) = some (.obj (storeFields fs
        [ ("userId", if Value.beq t (.str "user") = true then x else .null),
          ("clientId", if Value.beq t (.str "client") = true then x else .null),
          ("clientUserId", if Value.beq t (.str "client-user") = true then x else .null),
          ("debtorId", if Value.beq t (.str "debtor") = true then x else .null),
          ("applicationId",
            if Value.beq t (.str "application") = true then x else .null) ])) := by
      simp only [addFieldsDoc, evalAdded_entitySlots fs t x ht hx, Option.map_some']
    refine ⟨_, hadd, ?_, ?_, ?_, ?_, ?_⟩ <;>
      simp only [storeFields, lookupField_storeField, String.reduceEq, ↓reduceIte]
  · rw [beforeProject_taskStages]
    unfold taskJoinStages
    simp only [hsel, if_true, List.append_assoc]
    obtain ⟨fs2, e1, e2, _⟩ := entityStages_row db fs t x ht hx
    have hrest : RowTouches db
        (assigneeStages taskColumn rq isForRisk hasFullAccess ++
          ((if (rq.prop "assigneeId").truthy = true then
              [Stage.matchQ (.obj [("assigneeId.name", rq.prop "assigneeId")])] else []) ++
            (createdByStages taskColumn rq isForRisk hasFullAccess ++
              (if (rq.prop "createdById").truthy = true then
                [Stage.matchQ (.obj [("createdById.name", rq.prop "createdById")])] else []))))
        ["clientUserId", "userId", "assigneeId", "createdById"] := by
      apply rowTouches_append
      · exact rowTouches_mono db _ _ _ (rowTouches_assignee db taskColumn rq isForRisk
          hasFullAccess) (by simp)
      · apply rowTouches_append
        · exact rowTouches_match db _ _ _
        · apply rowTouches_append
          · exact rowTouches_mono db _ _ _ (rowTouches_createdBy db taskColumn rq isForRisk
              hasFullAccess) (by simp)
          · exact rowTouches_match db _ _ _
    obtain ⟨fs3, e3, e4⟩ := hrest fs2
    refine ⟨.obj fs3, ?_, ?_⟩
    · rw [rowThrough_append, e1]
      exact e3
    · rw [prop_obj, e4 "entityId" (by simp), e2]
  · rw [(projectionOf_keys taskColumn).1]
    exact ⟨by simpa [includes] using hsel, by decide⟩

set_option maxRecDepth 8000 in
/-- Witness for C7: a task linked to the client-debtor 5 in a store where the
client-debtor 5 points to the debtor 1, named Debtor One: the row reaches the
projection with the name and the identifier of that debtor. -/
theorem entity_resolution_witness :
    ∃ row, rowThrough entityStore (beforeProject (taskStages ["entityId"] (.obj []) true true))
        (.obj [("_id", .oid 40), ("entityType", .str "debtor"), ("entityId", .oid 5)])
          = some row ∧
      row.prop "entityId" = resolvedEntity entityStore (.str "debtor") (.oid 5) ∧
      row.prop "entityId"
        = .obj [("name", .arr [.str "Debtor One"]), ("_id", .arr [.oid 1]),
            ("type", .str "debtor")] := by
  obtain ⟨row, h1, h2⟩ := (entity_resolution entityStore ["entityId"] (.obj []) true true
    [("_id", .oid 40), ("entityType", .str "debtor"), ("entityId", .oid 5)] (.str "debtor")
    (.oid 5) (by decide) rfl rfl).2.1
  exact ⟨row, h1, h2, by rw [h2]; with_unfolding_all rfl⟩

set_option maxRecDepth 8000 in
/-- C6, as stated, fails: for the restricted risk caller with `assigneeId`
selected, the task assigned to client user 1 ("Alice") reaches the projection
with the `assigneeId` joined from the users collection, which is empty here, and
not with the name found in the client-users collection. -/
theorem assignee_restricted_counterexample :
    Value.stepAll (joined uploadStore "client-users" (.oid 1)) "name" = [.str "Alice"] ∧
    rowThrough uploadStore (beforeProject (taskStages ["assigneeId"] (.obj []) true false))
        (.obj [("_id", .oid 40), ("assigneeType", .str "client-user"), ("assigneeId", .oid 1)])
      = some (.obj [("_id", .oid 40), ("assigneeType", .str "client-user"),
          ("assigneeId", .arr []), ("clientUserId", .arr []), ("userId", .arr []),
          ("createdById", .arr [])]) ∧
    ¬ (∃ row, rowThrough uploadStore
          (beforeProject (taskStages ["assigneeId"] (.obj []) true false))
          (.obj [("_id", .oid 40), ("assigneeType", .str "client-user"),
            ("assigneeId", .oid 1)]) = some row ∧
        row.prop "assigneeId"
          = resolvedUserNames uploadStore (.str "client-user") (.oid 1)) := by
  have h1 : rowThrough uploadStore
      (beforeProject (taskStages ["assigneeId"] (.obj []) true false))
      (.obj [("_id", .oid 40), ("assigneeType", .str "client-user"), ("assigneeId", .oid 1)])
      = some (.obj [("_id", .oid 40), ("assigneeType", .str "client-user"),
          ("assigneeId", .arr []), ("clientUserId", .arr []), ("userId", .arr []),
          ("createdById", .arr [])]) := by
    with_unfolding_all rfl
  refine ⟨by with_unfolding_all rfl, h1, ?_⟩
  rintro ⟨row, hr, hv⟩
  rw [h1] at hr
  cases hr
  have hb : Value.beq (Value.arr [])
      (resolvedUserNames uploadStore (.str "client-user") (.oid 1)) = false := by
    with_unfolding_all rfl
  rw [Value.beq_false_iff] at hb
  exact hb hv

/-- C6, amended: for a task with `assigneeType = "client-user"` and
`assigneeId = x`, the plan resolves `assigneeId` to the names found in the
client-users collection for `x` whenever it takes the typed branch, which it does
for every caller with full access and for every plan not built for the risk
side; in the other branch (restricted risk caller, `assigneeId` selected or
filtered on) the plan joins the users collection on `assigneeId`, whatever the
`assigneeType`. -/
theorem assignee_resolution (db : Db) (taskColumn : List String) (rq : Value)
    (isForRisk hasFullAccess : Bool) (fs : List (String × Value)) (x : Value)
    (ht : lookupField fs "assigneeType" = .str "client-user")
    (hx : lookupField fs "assigneeId" = x) :
    (((includes taskColumn "assigneeId" || (rq.prop "assigneeId").truthy) &&
        !hasFullAccess && isForRisk) = false →
      ∃ row, rowThrough db (beforeProject (taskStages taskColumn rq isForRisk hasFullAccess))
          (.obj fs) = some row ∧
        row.prop "assigneeId" = .arr (Value.stepAll (joined db "client-users" x) "name")) ∧
    (((includes taskColumn "assigneeId" || (rq.prop "assigneeId").truthy) &&
        !hasFullAccess && isForRisk) = true →
      ∃ row, rowThrough db (beforeProject (taskStages taskColumn rq isForRisk hasFullAccess))
          (.obj fs) = some row ∧
        row.prop "assigneeId" = .arr (joined db "users" x)) ∧
    (hasFullAccess = true ∨ isForRisk = false →
      ((includes taskColumn "assigneeId" || (rq.prop "assigneeId").truthy) &&
        !hasFullAccess && isForRisk) = false) := by
  have hE : RowTouches db (if includes taskColumn "entityId" = true then entityStages else [])
      ["userId", "clientId", "clientUserId", "debtorId", "applicationId", "entityId"] := by
    split
    · exact rowTouches_entity db
    · exact rowTouches_nil db _
  have hrest : RowTouches db
      ((if (rq.prop "assigneeId").truthy = true then
            [Stage.matchQ (.obj [("assigneeId.name", rq.prop "assigneeId")])] else []) ++
          (createdByStages taskColumn rq isForRisk hasFullAccess ++
            (if (rq.prop "createdById").truthy = true then
              [Stage.matchQ (.obj [("createdById.name", rq.prop "createdById")])] else [])))
      ["clientUserId", "userId", "createdById"] := by
    apply rowTouches_append
    · exact rowTouches_match db _ _ _
    · apply rowTouches_append
      · exact rowTouches_createdBy db taskColumn rq isForRisk hasFullAccess
      · exact rowTouches_match db _ _ _
  obtain ⟨fs1, e1, e2⟩ := hE fs
  have ht1 : lookupField fs1 "assigneeType" = .str "client-user" := by
    rw [e2 "assigneeType" (by simp), ht]
  have hx1 : lookupField fs1 "assigneeId" = x := by
    rw [e2 "assigneeId" (by simp), hx]
  refine ⟨?_, ?_, ?_⟩
  · intro hc
    obtain ⟨fs2, e3, e4, _⟩ :=
      typedUserStages_row db fs1 "assigneeType" "assigneeId" (by decide) (by decide)
    obtain ⟨fs3, e5, e6⟩ := hrest fs2
    refine ⟨.obj fs3, ?_, ?_⟩
    · rw [beforeProject_taskStages]
      unfold taskJoinStages assigneeStages
      simp only [hc, List.append_assoc]
      rw [rowThrough_append, e1, Option.some_bind, rowThrough_append]
      simp only [Bool.false_eq_true, if_false]
      rw [e3, Option.some_bind]
      exact e5
    · rw [prop_obj, e6 "assigneeId" (by simp), e4, ht1, hx1]
      simp [resolvedUserNames, beq_str_str]
  · intro hc
    obtain ⟨fs3, e5, e6⟩ := hrest (assignField fs1 "assigneeId"
      (.arr (joined db "users" (lookupField fs1 "assigneeId"))))
    refine ⟨.obj fs3, ?_, ?_⟩
    · rw [beforeProject_taskStages]
      unfold taskJoinStages assigneeStages
      simp only [hc, if_true, List.append_assoc]
      rw [rowThrough_append, e1, Option.some_bind, rowThrough_append,
        directUserLookup_row, Option.some_bind]
      exact e5
    · rw [prop_obj, e6 "assigneeId" (by simp), lookupField_assignField, if_pos rfl, hx1]
  · rintro (h | h) <;> simp [h]

/-- Witness for C6 amended: the task of client user 1 under a caller with full
access, and under a restricted risk caller. -/
theorem assignee_resolution_witness :
    (∃ row, rowThrough uploadStore (beforeProject (taskStages ["assigneeId"] (.obj []) true true))
        (.obj [("_id", .oid 40), ("assigneeType", .str "client-user"), ("assigneeId", .oid 1)])
          = some row ∧
      row.prop "assigneeId"
        = .arr (Value.stepAll (joined uploadStore "client-users" (.oid 1)) "name")) ∧
    (∃ row, rowThrough uploadStore
        (beforeProject (taskStages ["assigneeId"] (.obj []) true false))
        (.obj [("_id", .oid 40), ("assigneeType", .str "client-user"), ("assigneeId", .oid 1)])
          = some row ∧
      row.prop "assigneeId" = .arr (joined uploadStore "users" (.oid 1))) :=
  ⟨(assignee_resolution uploadStore ["assigneeId"] (.obj []) true true
      [("_id", .oid 40), ("assigneeType", .str "client-user"), ("assigneeId", .oid 1)] (.oid 1)
      rfl rfl).1 (by decide),
   (assignee_resolution uploadStore ["assigneeId"] (.obj []) true false
      [("_id", .oid 40), ("assigneeType", .str "client-user"), ("assigneeId", .oid 1)] (.oid 1)
      rfl rfl).2.1 (by decide)⟩

/-! ## The overdue rollup -/

theorem mapOpt_eq_map {α β : Type} (f : α → Option β) (g : α → β) (l : List α)
    (h : ∀ x ∈ l, f x = some (g x)) : mapOpt f l = some (l.map g) := by
  induction l with
  | nil => rfl
  | cons x xs ih =>
    simp only [mapOpt, h x (List.mem_cons_self _ _),
      ih (fun y hy => h y (List.mem_cons_of_mem _ hy)), List.map_cons]

theorem eachDoc_eq_map (f : Value → Option (List Value)) (g : Value → Value) (l : List Value)
    (h : ∀ x ∈ l, f x = some [g x]) : eachDoc f l = some (l.map g) := by
  induction l with
  | nil => rfl
  | cons x xs ih =>
    simp only [eachDoc, h x (List.mem_cons_self _ _),
      ih (fun y hy => h y (List.mem_cons_of_mem _ hy)), List.map_cons, List.singleton_append]

theorem runPipeline_cons (db : Db) (s : Stage) (ss : List Stage) (docs out : List Value)
    (h : runStage db s docs = some out) :
    runPipeline db (s :: ss) docs = runPipeline db ss out := by
  simp only [runPipeline, h]

theorem runPipeline_append (db : Db) (a b : List Stage) :
    ∀ docs, runPipeline db (a ++ b) docs = (runPipeline db a docs).bind (runPipeline db b) := by
  induction a with
  | nil => intro docs; rfl
  | cons s ss ih =>
    intro docs
    simp only [List.cons_append, runPipeline]
    cases runStage db s docs with
    | none => rfl
    | some out => exact ih out

theorem evalAdded_statusNumber (fs : List (String × Value)) :
    evalAdded (.obj fs) overdueRankFields
      = some [("statusNumber", .num (statusNumber (lookupField fs "status")))] := by
  simp only [overdueRankFields, evalAdded, evalExpr, getPath, List.foldl, Value.step,
    Value.condTrue, statusNumber]
  by_cases c1 : Value.beq (lookupField fs "status") (.str "SUBMITTED") = true
  · simp [c1]
  · by_cases c2 : Value.beq (lookupField fs "status") (.str "PENDING") = true
    · simp [c1, c2]
    · by_cases c3 : Value.beq (lookupField fs "status") (.str "NOT_REPORTABLE") = true
      · simp [c1, c2, c3]
      · simp [c1, c2, c3]

theorem eachDoc_map_map (f : Value → Option (List Value)) (g g2 : Value → Value)
    (l : List Value) (h : ∀ x ∈ l, f (g x) = some [g2 x]) :
    eachDoc f (l.map g) = some (l.map g2) := by
  induction l with
  | nil => rfl
  | cons x xs ih =>
    simp only [List.map_cons, eachDoc, h x (List.mem_cons_self _ _),
      ih (fun y hy => h y (List.mem_cons_of_mem _ hy)), List.singleton_append]

theorem assignField_assignField {α : Type} (fs : List (String × α)) (k : String) (a b : α) :
    assignField (assignField fs k a) k b = assignField fs k b := by
  induction fs with
  | nil => simp [assignField]
  | cons p fs ih =>
    obtain ⟨k1, v1⟩ := p
    by_cases h : k1 = k
    · simp [assignField, h]
    · simp [assignField, h, ih]

/-- The first three stages of the grouping plan on well-formed records. -/
theorem overdue_join_stages (db : Db) (docs : List Value)
    (h : ∀ d ∈ docs, WellFormedOverdue db d) :
    runPipeline db (overdueGroupStages.take 3) docs = some (docs.map (overdueJoined db)) := by
  have e1 : runStage db (.lookup "debtors" ["debtorId"] "_id" "debtorId") docs
      = some (docs.map (overdueLooked db)) := by
    apply eachDoc_eq_map
    intro d hd
    obtain ⟨fs, deb, mm, yy, k, rfl, _⟩ := h d hd
    rfl
  have e2 : runStage db (.unwind "debtorId") (docs.map (overdueLooked db))
      = some (docs.map (overdueUnwound db)) := by
    apply eachDoc_map_map
    intro d hd
    obtain ⟨fs, deb, mm, yy, k, rfl, hl, _⟩ := h d hd
    simp only [overdueLooked, overdueUnwound, unwindDoc, lookupField_assignField, if_true, hl,
      List.map_cons, List.map_nil, assignField_assignField]
  have e3 : runStage db (.addFields overdueRankFields) (docs.map (overdueUnwound db))
      = some (docs.map (overdueJoined db)) := by
    apply eachDoc_map_map
    intro d hd
    obtain ⟨fs, deb, mm, yy, k, rfl, hl, _⟩ := h d hd
    simp only [overdueUnwound, overdueJoined, hl, addFieldsDoc, evalAdded_statusNumber,
      Option.map_some', storeFields, storeField, lookupField_assignField, String.reduceEq,
      ↓reduceIte]
  show runPipeline db [_, _, _] docs = _
  rw [runPipeline_cons db _ _ _ _ e1, runPipeline_cons db _ _ _ _ e2,
    runPipeline_cons db _ _ _ _ e3]
  rfl

theorem mapOpt_isSome {α β : Type} (f : α → Option β) (l : List α)
    (h : ∀ x ∈ l, ∃ y, f x = some y) : ∃ ys, mapOpt f l = some ys := by
  induction l with
  | nil => exact ⟨[], rfl⟩
  | cons x xs ih =>
    obtain ⟨y, hy⟩ := h x (List.mem_cons_self _ _)
    obtain ⟨ys, hys⟩ := ih (fun z hz => h z (List.mem_cons_of_mem _ hz))
    exact ⟨y :: ys, by simp only [mapOpt, hy, hys]⟩

theorem sortKeys_of_scalars (doc : Value) :
    ∀ (spec : List (String × Int)),
      (∀ kd ∈ spec, (kd.2 = 1 ∨ kd.2 = -1) ∧
        (sortRank (getPath doc (keyPath kd.1))).isSome = true) →
      ∃ ks, sortKeys spec doc = some ks := by
  intro spec
  induction spec with
  | nil => intro _; exact ⟨[], rfl⟩
  | cons kd rest ih =>
    intro h
    obtain ⟨ks, hks⟩ := ih (fun x hx => h x (List.mem_cons_of_mem _ hx))
    obtain ⟨hd, hr⟩ := h kd (List.mem_cons_self _ _)
    obtain ⟨r, hr⟩ := Option.isSome_iff_exists.mp hr
    unfold sortKeys at hks ⊢
    simp only [mapOpt, hd, if_true, hr, hks]
    exact ⟨_, rfl⟩

theorem sortDocs_perm (spec : List (String × Int)) (docs : List Value) (hne : spec ≠ [])
    (h : ∀ d ∈ docs, ∃ ks, sortKeys spec d = some ks) :
    ∃ out, sortDocs spec docs = some out ∧ out.Perm docs := by
  have hm : mapOpt (fun d => (sortKeys spec d).map (fun ks => (ks, d))) docs
      = some (docs.map (fun d => ((sortKeys spec d).getD [], d))) := by
    apply mapOpt_eq_map
    intro d hd
    obtain ⟨ks, hks⟩ := h d hd
    simp [hks]
  refine ⟨((docs.map (fun d => ((sortKeys spec d).getD [], d))).insertionSort
    (fun a b => lexLe a.1 b.1 = true)).map Prod.snd, ?_, ?_⟩
  · cases spec with
    | nil => exact absurd rfl hne
    | cons s ss => simp only [sortDocs, hm]
  have hp := (List.perm_insertionSort
    (fun (a b : List (Int × Value) × Value) => lexLe a.1 b.1 = true)
    (docs.map (fun d => ((sortKeys spec d).getD [], d)))).map Prod.snd
  have e : ∀ l : List Value,
      (l.map (fun d => ((sortKeys spec d).getD [], d))).map Prod.snd = l := by
    intro l
    induction l with
    | nil => rfl
    | cons x xs ih => simp only [List.map_cons, ih]
  rw [e docs] at hp
  exact hp

theorem overdueJoined_ready (db : Db) (d : Value) (h : WellFormedOverdue db d) :
    GroupReady (overdueJoined db d) ∧
    (overdueJoined db d).prop "month" = d.prop "month" ∧
    (overdueJoined db d).prop "year" = d.prop "year" ∧
    (overdueJoined db d).prop "status" = d.prop "status" := by
  obtain ⟨fs, deb, mm, yy, k, rfl, hl, hm, hy, hk⟩ := h
  simp only [overdueJoined, hl, prop_obj, lookupField_assignField, String.reduceEq, ↓reduceIte]
  refine ⟨⟨_, mm, yy, k, statusNumber (lookupField fs "status"), rfl, ?_, ?_, hk, ?_⟩,
    trivial, trivial, trivial⟩
  · simp only [lookupField_assignField, String.reduceEq, ↓reduceIte, hm]
  · simp only [lookupField_assignField, String.reduceEq, ↓reduceIte, hy]
  · simp only [lookupField_assignField, ↓reduceIte]

theorem evalExpr_overdueGroupKey (e : Value) (h : GroupReady e) :
    evalExpr [] e overdueGroupKey = some (overdueKey e) := by
  obtain ⟨fs, mm, yy, k, n, rfl, hm, hy, _, _⟩ := h
  simp [overdueGroupKey, overdueKey, evalExpr, evalFields, getPath, Value.step, hm, hy]

theorem accumulate_count_one (ms : List Value) :
    accumulate ms (.sum (.lit (.num 1))) = some (.num ms.length) := by
  have hm : mapOpt (fun d => evalExpr [] d (.lit (.num 1))) ms
      = some (ms.map (fun _ => Value.num 1)) :=
    mapOpt_eq_map _ _ _ (fun d _ => by simp [evalExpr])
  simp only [accumulate, hm, Option.map_some', List.map_map]
  congr 2
  clear hm
  induction ms with
  | nil => rfl
  | cons x xs ih =>
    simp only [List.map_cons, List.sum_cons, List.length_cons, Function.comp] at ih ⊢
    rw [ih]
    push_cast
    ring

theorem accumulate_statusIs (ms : List Value) (s : String)
    (h : ∀ e ∈ ms, ∃ fs, e = .obj fs) :
    accumulate ms (.sum (statusIs s)) = some (.num (ms.countP (hasStatus s))) := by
  have hm : mapOpt (fun d => evalExpr [] d (statusIs s)) ms
      = some (ms.map (fun d => if hasStatus s d = true then Value.num 1 else Value.num 0)) := by
    apply mapOpt_eq_map
    intro d hd
    obtain ⟨fs, rfl⟩ := h d hd
    simp only [statusIs, evalExpr, getPath, List.foldl, Value.step, Value.condTrue, hasStatus,
      prop_obj]
    split <;> simp_all
  simp only [accumulate, hm, Option.map_some', List.map_map]
  congr 2
  clear hm h
  induction ms with
  | nil => rfl
  | cons x xs ih =>
    simp only [List.map_cons, List.sum_cons, List.countP_cons, Function.comp] at ih ⊢
    rw [ih]
    by_cases hx : hasStatus s x = true
    · simp [hx]
      ring
    · simp [hx]

theorem accumulate_amounts (ms : List Value) :
    accumulate ms (.sum (.field ["outstandingAmount"])) = some (.num (amountsOf ms)) := by
  have hm : mapOpt (fun d => evalExpr [] d (.field ["outstandingAmount"])) ms
      = some (ms.map (fun d => getPath d ["outstandingAmount"])) :=
    mapOpt_eq_map _ _ _ (fun d _ => by simp only [evalExpr])
  simp only [accumulate, hm, Option.map_some', amountsOf]

theorem evalFields_fields_isSome (d : Value) (fs : List (String × List String)) :
    ∃ vs, evalFields [] d (fs.map (fun p => (p.1, Expr.field p.2))) = some vs := by
  induction fs with
  | nil => exact ⟨[], rfl⟩
  | cons p ps ih =>
    obtain ⟨vs, hvs⟩ := ih
    simp only [List.map_cons, evalFields, evalExpr, hvs]
    split <;> simp_all

theorem evalExpr_debtorSummary (d : Value) :
    ∃ v, evalExpr [] d overdueDebtorSummary = some v := by
  obtain ⟨vs, hvs⟩ := evalFields_fields_isSome d
    [("_id", ["_id"]), ("name", ["debtorId", "entityName"]), ("acn", ["acn"]),
      ("overdueType", ["overdueType"]), ("status", ["status"]),
      ("amount", ["outstandingAmount"])]
  refine ⟨.obj vs, ?_⟩
  simp only [overdueDebtorSummary, evalExpr]
  simp only [List.map_cons, List.map_nil] at hvs
  rw [hvs]
  rfl

theorem accumulate_debtors (ms : List Value) :
    accumulate ms (.push overdueDebtorSummary) = some (.arr (debtorsOf ms)) := by
  have hm : mapOpt (fun d => evalExpr [] d overdueDebtorSummary) ms
      = some (ms.map (fun d => (evalExpr [] d overdueDebtorSummary).getD .null)) := by
    apply mapOpt_eq_map
    intro d _
    obtain ⟨v, hv⟩ := evalExpr_debtorSummary d
    rw [hv]
    rfl
  simp only [accumulate, hm, Option.map_some', debtorsOf]

theorem accumulateAll_overdue (ms : List Value) (k : Value)
    (h : ∀ e ∈ ms, ∃ fs, e = .obj fs) :
    (accumulateAll ms overdueAccumulators).map (fun vs => Value.obj (("_id", k) :: vs))
      = some (overdueGroup k ms) := by
  simp only [overdueAccumulators, accumulateAll, accumulate_count_one, accumulate_statusIs ms _ h,
    accumulate_amounts, accumulate_debtors, Option.map_some', overdueGroup]
theorem filter_keyed (S : List Value) (k : Value) :
    ((S.map (fun e => (overdueKey e, e))).filter (fun kd => Value.beq kd.1 k)).map Prod.snd
      = S.filter (fun e => Value.beq (overdueKey e) k) := by
  induction S with
  | nil => rfl
  | cons x xs ih =>
    simp only [List.map_cons, List.filter_cons]
    split
    · simp only [List.map_cons, ih]
    · exact ih

theorem groupDocs_overdue (S : List Value) (h : ∀ e ∈ S, GroupReady e) :
    groupDocs overdueGroupKey overdueAccumulators S
      = some ((distinctValues (S.map overdueKey)).map
          (fun k => overdueGroup k (S.filter (fun e => Value.beq (overdueKey e) k)))) := by
  have hm : mapOpt (fun d => (evalExpr [] d overdueGroupKey).map (fun k => (groupKey k, d))) S
      = some (S.map (fun e => (overdueKey e, e))) := by
    apply mapOpt_eq_map
    intro e he
    rw [evalExpr_overdueGroupKey e (h e he)]
    rfl
  have hk : (S.map (fun e => (overdueKey e, e))).map Prod.fst = S.map overdueKey := by
    rw [List.map_map]
    rfl
  simp only [groupDocs, hm, hk, filter_keyed]
  apply mapOpt_eq_map
  intro k _
  apply accumulateAll_overdue
  intro e he
  obtain ⟨fs, _, _, _, _, rfl, _⟩ := h e (List.mem_of_mem_filter he)
  exact ⟨fs, rfl⟩

theorem sortKeys_overdueGroup (k : Value) (ms : List Value) :
    ∃ ks, sortKeys [("submitted", -1), ("pending", -1), ("notReportable", -1)]
      (overdueGroup k ms) = some ks := by
  apply sortKeys_of_scalars
  intro kd hkd
  simp only [List.mem_cons, List.mem_singleton, List.not_mem_nil, or_false] at hkd
  rcases hkd with rfl | rfl | rfl
  · exact ⟨Or.inr rfl, by with_unfolding_all rfl⟩
  · exact ⟨Or.inr rfl, by with_unfolding_all rfl⟩
  · exact ⟨Or.inr rfl, by with_unfolding_all rfl⟩

theorem monthsInString_at (kk : Int) :
    ∃ v, arrayElemAtValue (.arr
        [ .str "", .str "January", .str "February", .str "March", .str "April",
          .str "May", .str "June", .str "July", .str "August", .str "September",
          .str "October", .str "November", .str "December" ]) (.num kk) = some v ∧
      (v = .undefined ∨ ∃ s, v = .str s) ∧
      (1 ≤ kk → kk ≤ 12 → v = .str (monthName kk)) := by
  have hall : ∀ (l : List Value), (∀ x ∈ l, ∃ s, x = Value.str s) → ∀ n,
      (l.get? n).getD .undefined = .undefined ∨ ∃ s, (l.get? n).getD .undefined = .str s := by
    intro l hl n
    cases hg : l.get? n with
    | none => left; rfl
    | some x =>
      right
      obtain ⟨s, hs⟩ := hl x (List.get?_mem hg)
      exact ⟨s, by simpa using hs⟩
  have hm : ∀ x ∈ [ Value.str "", .str "January", .str "February", .str "March", .str "April",
          .str "May", .str "June", .str "July", .str "August", .str "September",
          .str "October", .str "November", .str "December" ], ∃ s, x = Value.str s := by
    intro x hx
    simp only [List.mem_cons, List.mem_singleton, List.not_mem_nil, or_false] at hx
    rcases hx with rfl | rfl | rfl | rfl | rfl | rfl | rfl | rfl | rfl | rfl | rfl | rfl | rfl <;>
      exact ⟨_, rfl⟩
  unfold arrayElemAtValue
  by_cases h0 : 0 ≤ kk
  · simp only [h0, if_true]
    refine ⟨_, rfl, hall _ hm _, ?_⟩
    intro h1 h2
    have : kk = 1 ∨ kk = 2 ∨ kk = 3 ∨ kk = 4 ∨ kk = 5 ∨ kk = 6 ∨ kk = 7 ∨ kk = 8 ∨ kk = 9 ∨
        kk = 10 ∨ kk = 11 ∨ kk = 12 := by omega
    rcases this with rfl | rfl | rfl | rfl | rfl | rfl | rfl | rfl | rfl | rfl | rfl | rfl <;> rfl
  · simp only [h0, if_false]
    split
    · exact ⟨_, rfl, hall _ hm _, fun h1 _ => absurd (by omega) h0⟩
    · exact ⟨_, rfl, Or.inl rfl, fun h1 _ => absurd (by omega) h0⟩
theorem groupStatus_cond (a b : Nat) :
    (if decide ((a : Int) > 0) = true then Value.str "Submitted"
      else if decide ((b : Int) > 0) = true then Value.str "Pending" else Value.str "Process")
      = .str (groupStatus a b) := by
  unfold groupStatus
  by_cases ha : 0 < a
  · simp [ha]
  · by_cases hb : 0 < b
    · simp [ha, hb]
    · simp [ha, hb]

theorem evalExpr_overdueStatus (k : Value) (ms : List Value) :
    evalExpr [] (overdueGroup k ms) overdueStatusExpr
      = some (.str (groupStatus (ms.countP (hasStatus "SUBMITTED"))
          (ms.countP (hasStatus "PENDING")))) := by
  simp only [overdueStatusExpr, evalExpr, overdueGroup, getPath, List.foldl, Value.step,
    lookupField, String.reduceEq, ↓reduceIte, Value.condTrue]
  rw [← groupStatus_cond]
  by_cases ha : decide ((List.countP (hasStatus "SUBMITTED") ms : Int) > 0) = true
  · simp only [ha, if_true]
  · simp only [ha, if_false]
    by_cases hb : decide ((List.countP (hasStatus "PENDING") ms : Int) > 0) = true
    · simp only [hb, if_true]
      rfl
    · simp only [hb, if_false]
      rfl

theorem evalExpr_overdueMonth (fs : List (String × Value)) (ms : List Value) (mm : String)
    (k : Int) (M : Value) (hm : lookupField fs "month" = .str mm) (hk : toIntString mm = some k)
    (hM : arrayElemAtValue (.arr
        [ .str "", .str "January", .str "February", .str "March", .str "April",
          .str "May", .str "June", .str "July", .str "August", .str "September",
          .str "October", .str "November", .str "December" ]) (.num k) = some M) :
    evalExpr [] (overdueGroup (overdueKey (.obj fs)) ms) overdueMonthExpr = some M := by
  simp only [overdueMonthExpr, evalExpr, evalFields, overdueGroup, overdueKey, getPath,
    List.foldl, Value.step, lookupField, String.reduceEq, ↓reduceIte, prop_obj, hm, toIntValue,
    hk, Option.map_some', List.append_nil, hM]

theorem label_overdueGroup (e : Value) (he : GroupReady e) (ms : List Value) :
    ∃ M, addFieldsDoc overdueLabelFields (overdueGroup (overdueKey e) ms)
        = some (overdueGroupLabelled (overdueKey e) ms M) ∧
      (M = .undefined ∨ ∃ s, M = .str s) ∧
      (∀ mm kk, e.prop "month" = .str mm → toIntString mm = some kk → 1 ≤ kk → kk ≤ 12 →
        M = .str (monthName kk)) := by
  obtain ⟨fs, mm, yy, k, n, rfl, hm, hy, hk, _⟩ := he
  obtain ⟨M, hM, hM2, hM3⟩ := monthsInString_at k
  refine ⟨M, ?_, hM2, ?_⟩
  · have hev : evalAdded (overdueGroup (overdueKey (.obj fs)) ms) overdueLabelFields
        = some [ ("status", .str (groupStatus (ms.countP (hasStatus "SUBMITTED"))
                    (ms.countP (hasStatus "PENDING")))),
                 ("month", M) ] := by
      simp only [overdueLabelFields, evalAdded, evalExpr_overdueStatus,
        evalExpr_overdueMonth fs ms mm k M hm hk hM]
    simp only [addFieldsDoc, overdueGroup] at hev ⊢
    rw [hev]
    simp only [Option.map_some', overdueGroupLabelled, storeFields, storeField, assignField,
      String.reduceEq, ↓reduceIte]
  · intro mm2 kk h1 h2 h3 h4
    rw [prop_obj, hm] at h1
    cases h1
    rw [hk] at h2
    cases h2
    exact hM3 h3 h4
theorem project_overdueGroup (e : Value) (he : GroupReady e) (ms : List Value) (M : Value)
    (hM : M = .undefined ∨ ∃ s, M = .str s) :
    ∃ X, projectDoc overdueProjection (overdueGroupLabelled (overdueKey e) ms M)
        = some (overdueGroupProjected ms X) ∧
      (∀ s yy, M = .str s → e.prop "year" = .str yy → X = .str (s ++ " " ++ yy)) := by
  obtain ⟨fs, mm, yy, k, n, rfl, hm, hy, hk, _⟩ := he
  have d1 : ¬ '.' ∈ "monthString".toList := by decide
  have d2 : ¬ '.' ∈ "debtorCount".toList := by decide
  have d3 : ¬ '.' ∈ "amounts".toList := by decide
  have d4 : ¬ '.' ∈ "debtors".toList := by decide
  have d5 : ¬ '.' ∈ "status".toList := by decide
  have d6 : ¬ '.' ∈ "_id".toList := by decide
  have d7 : specCollides
      [("monthString", Expr.concat [Expr.field ["month"], Expr.lit (Value.str " "),
          Expr.field ["_id", "year"]]),
        ("debtorCount", Expr.lit (Value.num 1)), ("amounts", Expr.lit (Value.num 1)),
        ("debtors", Expr.lit (Value.num 1)), ("status", Expr.lit (Value.num 1)),
        ("_id", Expr.lit (Value.num 0))] = false := by with_unfolding_all rfl
  rcases hM with rfl | ⟨s, rfl⟩
  · refine ⟨.null, ?_, ?_⟩
    · simp only [overdueGroupLabelled, storeField, eraseField, String.reduceEq, ↓reduceIte,
        projectDoc, overdueProjection, projectFields, d1, d2, d3, d4, d5, d6, d7, dropsId, evalExpr,
        Bool.false_eq_true, if_false,
        evalExprs, getPath, List.foldl, Value.step, lookupField, overdueKey, prop_obj, hy,
        concatValues, concatStep, Bool.true_or, decide_True, overdueGroupProjected]
    · intro s yy h
      cases h
  · refine ⟨.str (s ++ " " ++ yy), ?_, ?_⟩
    · simp only [overdueGroupLabelled, storeField, assignField, String.reduceEq, ↓reduceIte,
        projectDoc, overdueProjection, projectFields, d1, d2, d3, d4, d5, d6, d7, dropsId, evalExpr,
        Bool.false_eq_true, if_false,
        evalExprs, getPath, List.foldl, Value.step, lookupField, overdueKey, prop_obj, hy,
        concatValues, concatStep, Bool.true_or, decide_True, overdueGroupProjected,
        String.append_empty, String.append_assoc]
    · intro s2 yy2 h1 h2
      cases h1
      rw [prop_obj, hy] at h2
      cases h2
      rfl
theorem mem_distinctValues (l : List Value) (k : Value) : k ∈ distinctValues l ↔ k ∈ l := by
  induction l with
  | nil => simp [distinctValues]
  | cons v vs ih =>
    simp only [distinctValues, List.mem_cons, List.mem_filter, ih, Bool.not_eq_true',
      Value.beq_false_iff]
    constructor
    · rintro (h | ⟨h, _⟩)
      · exact Or.inl h
      · exact Or.inr h
    · intro h
      by_cases hk : k = v
      · exact Or.inl hk
      · rcases h with h | h
        · exact Or.inl h
        · exact Or.inr ⟨h, hk⟩

theorem beq_overdueKey (m y : String) (e : Value) :
    Value.beq (overdueKey e) (monthKey m y) = inMonth m y e := by
  simp [overdueKey, monthKey, inMonth, Value.beq, Value.beqFields]

theorem sortKeys_ready (e : Value) (h : GroupReady e) :
    ∃ ks, sortKeys [("statusNumber", 1)] e = some ks := by
  obtain ⟨fs, mm, yy, k, n, rfl, _, _, _, hn⟩ := h
  apply sortKeys_of_scalars
  intro kd hkd
  simp only [List.mem_singleton] at hkd
  subst hkd
  have e : getPath (.obj fs) (keyPath "statusNumber") = lookupField fs "statusNumber" := by
    with_unfolding_all rfl
  refine ⟨Or.inl rfl, ?_⟩
  rw [e, hn]
  rfl

/-- The shape of the grouping plan on well-formed records: the joined records
are ordered, grouped by key, the groups ordered, labelled and projected. -/
theorem overdue_pipeline (db : Db) (docs : List Value)
    (h : ∀ d ∈ docs, WellFormedOverdue db d) :
    ∃ S G : List Value, S.Perm (docs.map (overdueJoined db)) ∧
      (∀ g, g ∈ G ↔ ∃ e ∈ S, g = overdueGroup (overdueKey e)
        (S.filter (fun x => Value.beq (overdueKey x) (overdueKey e)))) ∧
      runPipeline db overdueGroupStages docs = some (G.map overdueLabelled) ∧
      runPipeline db (overdueGroupStages ++ [overdueProjectStage]) docs
        = some ((G.map overdueLabelled).map overdueProjected) := by
  have hready : ∀ e ∈ docs.map (overdueJoined db), GroupReady e := by
    intro e he
    obtain ⟨d, hd, rfl⟩ := List.mem_map.mp he
    exact (overdueJoined_ready db d (h d hd)).1
  obtain ⟨S, hS, hperm⟩ := sortDocs_perm [("statusNumber", 1)] (docs.map (overdueJoined db))
    (by simp) (fun e he => sortKeys_ready e (hready e he))
  have hreadyS : ∀ e ∈ S, GroupReady e := fun e he => hready e (hperm.mem_iff.mp he)
  have hgroup := groupDocs_overdue S hreadyS
  obtain ⟨G, hG, hpermG⟩ := sortDocs_perm
    [("submitted", -1), ("pending", -1), ("notReportable", -1)]
    ((distinctValues (S.map overdueKey)).map
      (fun k => overdueGroup k (S.filter (fun e => Value.beq (overdueKey e) k))))
    (by simp) (fun g hg => by
      obtain ⟨k, _, rfl⟩ := List.mem_map.mp hg
      exact sortKeys_overdueGroup _ _)
  have hmem : ∀ g, g ∈ G ↔ ∃ e ∈ S, g = overdueGroup (overdueKey e)
      (S.filter (fun x => Value.beq (overdueKey x) (overdueKey e))) := by
    intro g
    rw [hpermG.mem_iff, List.mem_map]
    constructor
    · rintro ⟨k, hk, rfl⟩
      rw [mem_distinctValues, List.mem_map] at hk
      obtain ⟨e, he, rfl⟩ := hk
      exact ⟨e, he, rfl⟩
    · rintro ⟨e, he, rfl⟩
      exact ⟨overdueKey e, (mem_distinctValues _ _).mpr (List.mem_map.mpr ⟨e, he, rfl⟩), rfl⟩
  have hlabel : runStage db (.addFields overdueLabelFields) G = some (G.map overdueLabelled) := by
    apply eachDoc_eq_map
    intro g hg
    obtain ⟨e, he, rfl⟩ := (hmem g).mp hg
    obtain ⟨M, hM, _⟩ := label_overdueGroup e (hreadyS e he)
      (S.filter (fun x => Value.beq (overdueKey x) (overdueKey e)))
    simp only [overdueLabelled, hM, Option.map_some', Option.getD_some]
  have hproj : runStage db overdueProjectStage (G.map overdueLabelled)
      = some ((G.map overdueLabelled).map overdueProjected) := by
    apply eachDoc_eq_map
    intro g hg
    obtain ⟨g1, hg1, rfl⟩ := List.mem_map.mp hg
    obtain ⟨e, he, rfl⟩ := (hmem g1).mp hg1
    obtain ⟨M, hM, hM2, _⟩ := label_overdueGroup e (hreadyS e he)
      (S.filter (fun x => Value.beq (overdueKey x) (overdueKey e)))
    obtain ⟨X, hX, _⟩ := project_overdueGroup e (hreadyS e he)
      (S.filter (fun x => Value.beq (overdueKey x) (overdueKey e))) M hM2
    simp only [overdueLabelled, hM, Option.getD_some, overdueProjected, hX, Option.map_some']
  have hmain : runPipeline db overdueGroupStages docs = some (G.map overdueLabelled) := by
    have e0 : overdueGroupStages = overdueGroupStages.take 3 ++
        [ .sort [("statusNumber", 1)], .group overdueGroupKey overdueAccumulators,
          .sort [("submitted", -1), ("pending", -1), ("notReportable", -1)],
          .addFields overdueLabelFields ] := rfl
    rw [e0, runPipeline_append, overdue_join_stages db docs h, Option.some_bind,
      runPipeline_cons db _ _ _ _ (show runStage db (.sort [("statusNumber", 1)]) _ = _ from hS),
      runPipeline_cons db _ _ _ _ (show runStage db (.group _ _) _ = _ from hgroup),
      runPipeline_cons db _ _ _ _ (show runStage db
        (.sort [("submitted", -1), ("pending", -1), ("notReportable", -1)]) _ = _ from hG),
      runPipeline_cons db _ _ _ _ hlabel]
    rfl
  refine ⟨S, G, hperm, hmem, hmain, ?_⟩
  rw [runPipeline_append, hmain, Option.some_bind, runPipeline_cons db _ _ _ _ hproj]
  rfl
theorem overdue_members (db : Db) (docs S : List Value)
    (h : ∀ d ∈ docs, WellFormedOverdue db d) (hperm : S.Perm (docs.map (overdueJoined db)))
    (m y : String) :
    (S.filter (fun x => Value.beq (overdueKey x) (monthKey m y))).length
      = docs.countP (inMonth m y) ∧
    ∀ s, (S.filter (fun x => Value.beq (overdueKey x) (monthKey m y))).countP (hasStatus s)
      = (docs.filter (inMonth m y)).countP (hasStatus s) := by
  have e1 : (fun x => Value.beq (overdueKey x) (monthKey m y)) = inMonth m y :=
    funext (beq_overdueKey m y)
  rw [e1]
  have hp := hperm.filter (inMonth m y)
  have e2 : (docs.map (overdueJoined db)).filter (inMonth m y)
      = (docs.filter (inMonth m y)).map (overdueJoined db) := by
    rw [List.filter_map]
    congr 1
    apply List.filter_congr
    intro d hd
    obtain ⟨_, h1, h2, _⟩ := overdueJoined_ready db d (h d hd)
    simp only [Function.comp, inMonth, h1, h2]
  rw [e2] at hp
  refine ⟨?_, fun s => ?_⟩
  · rw [hp.length_eq, List.length_map, List.countP_eq_length_filter]
  · rw [hp.countP_eq, List.countP_map]
    apply List.countP_congr
    intro d hd
    obtain ⟨_, _, _, h3⟩ := overdueJoined_ready db d (h d (List.mem_of_mem_filter hd))
    simp only [Function.comp, hasStatus, h3]

theorem overdueKey_eq_monthKey (e : Value) (m y : String)
    (h : overdueKey e = monthKey m y) : e.prop "month" = .str m ∧ e.prop "year" = .str y := by
  simp only [overdueKey, monthKey, Value.obj.injEq, List.cons.injEq, Prod.mk.injEq, true_and,
    and_true] at h
  exact h
/-- C2, amended: for matched overdue records whose `debtorId` each joins exactly
one debtor, whose `month` is a decimal string and whose `year` is a string, the
plan forms exactly the groups of the `(month, year)` keys present; the group of
a key `(m, y)` with `m` from 1 to 12 has `debtorCount` equal to the number of
records of that key, `submitted` and `pending` equal to the numbers of its
records with status SUBMITTED and PENDING, `status` "Submitted" if `submitted`
is positive, otherwise "Pending" if `pending` is positive, otherwise "Process",
and the month name under `month`; the projected document keeps `debtorCount` and
`status`, carries the label "name year" under `monthString`, and no longer
carries `submitted` and `pending`. -/
theorem overdue_rollup (db : Db) (docs : List Value) (m y : String) (k : Int)
    (h : ∀ d ∈ docs, WellFormedOverdue db d)
    (hk : toIntString m = some k) (hk1 : 1 ≤ k) (hk2 : k ≤ 12)
    (hne : ∃ d ∈ docs, inMonth m y d = true) :
    ∃ groups out : List Value,
      runPipeline db overdueGroupStages docs = some groups ∧
      runPipeline db (overdueGroupStages ++ [overdueProjectStage]) docs = some out ∧
      (∃ g ∈ groups, g.prop "_id" = monthKey m y) ∧
      (∀ g ∈ groups, g.prop "_id" = monthKey m y →
        g.prop "debtorCount" = .num (docs.countP (inMonth m y)) ∧
        g.prop "submitted"
          = .num ((docs.filter (inMonth m y)).countP (hasStatus "SUBMITTED")) ∧
        g.prop "pending" = .num ((docs.filter (inMonth m y)).countP (hasStatus "PENDING")) ∧
        g.prop "status"
          = .str (groupStatus ((docs.filter (inMonth m y)).countP (hasStatus "SUBMITTED"))
              ((docs.filter (inMonth m y)).countP (hasStatus "PENDING"))) ∧
        g.prop "month" = .str (monthName k)) ∧
      (∃ o ∈ out,
        o.prop "monthString" = .str (monthName k ++ " " ++ y) ∧
        o.prop "debtorCount" = .num (docs.countP (inMonth m y)) ∧
        o.prop "status"
          = .str (groupStatus ((docs.filter (inMonth m y)).countP (hasStatus "SUBMITTED"))
              ((docs.filter (inMonth m y)).countP (hasStatus "PENDING"))) ∧
        o.prop "submitted" = .undefined ∧ o.prop "pending" = .undefined) := by
  obtain ⟨S, G, hperm, hmem, hrun, hout⟩ := overdue_pipeline db docs h
  have hreadyS : ∀ e ∈ S, GroupReady e := by
    intro e he
    obtain ⟨d, hd, rfl⟩ := List.mem_map.mp (hperm.mem_iff.mp he)
    exact (overdueJoined_ready db d (h d hd)).1
  obtain ⟨hlen, hcount⟩ := overdue_members db docs S h hperm m y
  -- the group of a record of the month, labelled and projected
  have hgroup : ∀ e ∈ S, overdueKey e = monthKey m y →
      overdueLabelled (overdueGroup (overdueKey e)
          (S.filter (fun x => Value.beq (overdueKey x) (overdueKey e))))
        = overdueGroupLabelled (monthKey m y)
            (S.filter (fun x => Value.beq (overdueKey x) (monthKey m y)))
            (.str (monthName k)) ∧
      overdueProjected (overdueGroupLabelled (monthKey m y)
          (S.filter (fun x => Value.beq (overdueKey x) (monthKey m y))) (.str (monthName k)))
        = overdueGroupProjected (S.filter (fun x => Value.beq (overdueKey x) (monthKey m y)))
            (.str (monthName k ++ " " ++ y)) := by
    intro e he hkey
    obtain ⟨hm1, hy1⟩ := overdueKey_eq_monthKey e m y hkey
    obtain ⟨M, hM, hM2, hM3⟩ := label_overdueGroup e (hreadyS e he)
      (S.filter (fun x => Value.beq (overdueKey x) (overdueKey e)))
    have hMk : M = .str (monthName k) := hM3 m k hm1 hk hk1 hk2
    subst hMk
    obtain ⟨X, hX, hX2⟩ := project_overdueGroup e (hreadyS e he)
      (S.filter (fun x => Value.beq (overdueKey x) (overdueKey e))) _ hM2
    have hXv : X = .str (monthName k ++ " " ++ y) := hX2 _ _ rfl hy1
    subst hXv
    rw [hkey] at hM hX
    rw [hkey]
    exact ⟨by simp only [overdueLabelled, hM, Option.getD_some],
      by simp only [overdueProjected, hX, Option.getD_some]⟩
  -- a record of the month exists
  obtain ⟨d0, hd0, hin0⟩ := hne
  have he0 : overdueJoined db d0 ∈ S :=
    hperm.mem_iff.mpr (List.mem_map.mpr ⟨d0, hd0, rfl⟩)
  have hkey0 : overdueKey (overdueJoined db d0) = monthKey m y := by
    obtain ⟨_, h1, h2, _⟩ := overdueJoined_ready db d0 (h d0 hd0)
    simp only [inMonth, Bool.and_eq_true, Value.beq_iff] at hin0
    simp only [overdueKey, monthKey, h1, h2, hin0.1, hin0.2]
  have hg0 : overdueGroup (overdueKey (overdueJoined db d0))
      (S.filter (fun x => Value.beq (overdueKey x) (overdueKey (overdueJoined db d0)))) ∈ G :=
    (hmem _).mpr ⟨_, he0, rfl⟩
  obtain ⟨hl0, hp0⟩ := hgroup _ he0 hkey0
  refine ⟨_, _, hrun, hout, ?_, ?_, ?_⟩
  · refine ⟨_, List.mem_map.mpr ⟨_, hg0, rfl⟩, ?_⟩
    rw [hl0]
    simp only [overdueGroupLabelled, prop_obj, lookupField_storeField, String.reduceEq,
      ↓reduceIte, lookupField]
  · intro g hg hid
    obtain ⟨g1, hg1, rfl⟩ := List.mem_map.mp hg
    obtain ⟨e, he, rfl⟩ := (hmem g1).mp hg1
    obtain ⟨M, hM, _, _⟩ := label_overdueGroup e (hreadyS e he)
      (S.filter (fun x => Value.beq (overdueKey x) (overdueKey e)))
    have hkey : overdueKey e = monthKey m y := by
      simp only [overdueLabelled, hM, Option.getD_some, overdueGroupLabelled, prop_obj,
        lookupField_storeField, String.reduceEq, ↓reduceIte, lookupField] at hid
      exact hid
    rw [(hgroup e he hkey).1]
    simp only [overdueGroupLabelled, prop_obj, lookupField_storeField, String.reduceEq,
      ↓reduceIte, lookupField, hlen, hcount, and_self]
  · refine ⟨_, List.mem_map.mpr ⟨_, List.mem_map.mpr ⟨_, hg0, rfl⟩, rfl⟩, ?_⟩
    rw [hl0, hp0]
    simp only [overdueGroupProjected, prop_obj, lookupField, String.reduceEq, ↓reduceIte, hlen,
      hcount, and_self]
set_option maxRecDepth 20000 in
/-- C2, as stated, fails: of the three matched records of March 2024 in
`marchStore`, the third refers to a debtor that does not exist; `$unwind` drops
it, so the group has `debtorCount` 2 and `pending` 1, not 3 and 2; and the
projected document has no `submitted` or `pending` field. -/
theorem overdue_rollup_counterexample :
    (marchStore "overdues").countP (inMonth "03" "2024") = 3 ∧
    ((marchStore "overdues").filter (inMonth "03" "2024")).countP (hasStatus "PENDING") = 2 ∧
    (runPipeline marchStore overdueGroupStages (marchStore "overdues")).map
        (fun gs => gs.map (fun g =>
          (g.prop "_id", g.prop "debtorCount", g.prop "submitted", g.prop "pending")))
      = some [(monthKey "03" "2024", .num 2, .num 1, .num 1)] ∧
    (runPipeline marchStore (overdueGroupStages ++ [overdueProjectStage])
        (marchStore "overdues")).map
        (fun os => os.map (fun o =>
          (o.prop "monthString", o.prop "debtorCount", o.prop "status", o.prop "submitted",
            o.prop "pending")))
      = some [(.str "March 2024", .num 2, .str "Submitted", .undefined, .undefined)] ∧
    ¬ (∃ groups, runPipeline marchStore overdueGroupStages (marchStore "overdues") = some groups ∧
        ∃ g ∈ groups, g.prop "debtorCount"
          = .num ((marchStore "overdues").countP (inMonth "03" "2024"))) := by
  have h3 : (runPipeline marchStore overdueGroupStages (marchStore "overdues")).map
        (fun gs => gs.map (fun g =>
          (g.prop "_id", g.prop "debtorCount", g.prop "submitted", g.prop "pending")))
      = some [(monthKey "03" "2024", .num 2, .num 1, .num 1)] := by
    with_unfolding_all rfl
  refine ⟨by with_unfolding_all rfl, by with_unfolding_all rfl, h3, by with_unfolding_all rfl, ?_⟩
  rintro ⟨groups, hg, g, hmem, hcount⟩
  rw [hg] at h3
  simp only [Option.map_some', Option.some.injEq] at h3
  have h4 : (g.prop "_id", g.prop "debtorCount", g.prop "submitted", g.prop "pending")
      ∈ [(monthKey "03" "2024", Value.num 2, Value.num 1, Value.num 1)] := by
    rw [← h3]
    exact List.mem_map.mpr ⟨g, hmem, rfl⟩
  simp only [List.mem_singleton, Prod.mk.injEq] at h4
  rw [h4.2.1] at hcount
  have h5 : (marchStore "overdues").countP (inMonth "03" "2024") = 3 := by
    with_unfolding_all rfl
  rw [h5] at hcount
  cases hcount

set_option maxRecDepth 20000 in
/-- Witness for C2 amended: the two well-formed records of March 2024 in
`marchStore`. -/
theorem overdue_rollup_witness :
    ∃ groups out : List Value,
      runPipeline marchStore overdueGroupStages ((marchStore "overdues").take 2) = some groups ∧
      runPipeline marchStore (overdueGroupStages ++ [overdueProjectStage])
        ((marchStore "overdues").take 2) = some out ∧
      (∃ g ∈ groups, g.prop "_id" = monthKey "03" "2024") ∧
      (∀ g ∈ groups, g.prop "_id" = monthKey "03" "2024" →
        g.prop "debtorCount"
          = .num (((marchStore "overdues").take 2).countP (inMonth "03" "2024")) ∧
        g.prop "submitted"
          = .num ((((marchStore "overdues").take 2).filter (inMonth "03" "2024")).countP
              (hasStatus "SUBMITTED")) ∧
        g.prop "pending"
          = .num ((((marchStore "overdues").take 2).filter (inMonth "03" "2024")).countP
              (hasStatus "PENDING")) ∧
        g.prop "status"
          = .str (groupStatus
              ((((marchStore "overdues").take 2).filter (inMonth "03" "2024")).countP
                (hasStatus "SUBMITTED"))
              ((((marchStore "overdues").take 2).filter (inMonth "03" "2024")).countP
                (hasStatus "PENDING"))) ∧
        g.prop "month" = .str (monthName 3)) ∧
      (∃ o ∈ out,
        o.prop "monthString" = .str (monthName 3 ++ " " ++ "2024") ∧
        o.prop "debtorCount"
          = .num (((marchStore "overdues").take 2).countP (inMonth "03" "2024")) ∧
        o.prop "status"
          = .str (groupStatus
              ((((marchStore "overdues").take 2).filter (inMonth "03" "2024")).countP
                (hasStatus "SUBMITTED"))
              ((((marchStore "overdues").take 2).filter (inMonth "03" "2024")).countP
                (hasStatus "PENDING"))) ∧
        o.prop "submitted" = .undefined ∧ o.prop "pending" = .undefined) :=
  overdue_rollup marchStore ((marchStore "overdues").take 2) "03" "2024" 3
    (by
      intro d hd
      have hd2 : d = .obj [("_id", .oid 10), ("month", .str "03"), ("year", .str "2024"),
            ("status", .str "SUBMITTED"), ("debtorId", .oid 1), ("overdueType", .str "PAID"),
            ("outstandingAmount", .num 5)] ∨
          d = .obj [("_id", .oid 11), ("month", .str "03"), ("year", .str "2024"),
            ("status", .str "PENDING"), ("debtorId", .oid 1), ("overdueType", .str "PAID"),
            ("outstandingAmount", .num 5)] := by
        simpa [marchStore] using hd
      rcases hd2 with rfl | rfl
      · exact ⟨_, .obj [("_id", .oid 1), ("entityName", .str "Acme")], "03", "2024", 3, rfl,
          by with_unfolding_all rfl, rfl, rfl, by with_unfolding_all rfl⟩
      · exact ⟨_, .obj [("_id", .oid 1), ("entityName", .str "Acme")], "03", "2024", 3, rfl,
          by with_unfolding_all rfl, rfl, rfl, by with_unfolding_all rfl⟩)
    (by with_unfolding_all rfl) (by decide) (by decide)
    ⟨.obj [("_id", .oid 10), ("month", .str "03"), ("year", .str "2024"),
        ("status", .str "SUBMITTED"), ("debtorId", .oid 1), ("overdueType", .str "PAID"),
        ("outstandingAmount", .num 5)],
      by simp [marchStore], by with_unfolding_all rfl⟩
/-! ## The task plan: ordering and paging -/

theorem taskJoinStages_no_sort (taskColumn : List String) (rq : Value)
    (isForRisk hasFullAccess : Bool) :
    ∀ s ∈ taskJoinStages taskColumn rq isForRisk hasFullAccess, s.isSort = false := by
  intro s hs
  unfold taskJoinStages assigneeStages createdByStages at hs
  simp only [List.mem_append] at hs
  rcases hs with (((hs | hs) | hs) | hs) | hs
  · split at hs
    · simp only [entityStages, List.mem_cons, List.mem_singleton, List.not_mem_nil,
        or_false] at hs
      rcases hs with rfl | rfl | rfl | rfl | rfl | rfl | rfl | rfl <;> rfl
    · simp at hs
  · split at hs
    · simp only [directUserLookup, List.mem_singleton] at hs
      subst hs
      rfl
    · simp only [typedUserStages, List.mem_cons, List.mem_singleton, List.not_mem_nil,
        or_false] at hs
      rcases hs with rfl | rfl | rfl | rfl <;> rfl
  · split at hs
    · simp only [List.mem_singleton] at hs
      subst hs
      rfl
    · simp at hs
  · split at hs
    · simp only [directUserLookup, List.mem_singleton] at hs
      subst hs
      rfl
    · simp only [typedUserStages, List.mem_cons, List.mem_singleton, List.not_mem_nil,
        or_false] at hs
      rcases hs with rfl | rfl | rfl | rfl <;> rfl
  · split at hs
    · simp only [List.mem_singleton] at hs
      subst hs
      rfl
    · simp at hs

/-- C11 (the code departs from the claim): when a task list request carries no
`sortBy`, or no `sortOrder`, the pipeline that `aggregationQuery` returns holds
no `$sort` stage at all, so no descending sort on `_id` precedes its `$skip` and
`$limit`: after the `$project` stage the pipeline goes straight to paging. -/
theorem task_plan_default_sort_missing (generate : Value → Nat) (ops : CaseOps) (taskColumn : List String) (rq : Value)
    (isForRisk hasFullAccess : Bool) (userId : Value) (query : List Stage) (queryFilter : Value)
    (h : (rq.prop "sortBy").truthy = false ∨ (rq.prop "sortOrder").truthy = false)
    (hq : aggregationQuery generate ops taskColumn rq isForRisk hasFullAccess userId
      = some (query, queryFilter)) :
    query.filter Stage.isSort = [] ∧
    ∃ joins, query = .matchQ queryFilter :: (joins ++
      [ .project (projectionOf taskColumn),
        .skip (skipOf (rq.prop "page") (rq.prop "limit")),
        .limit (parseIntValue (rq.prop "limit")) ]) := by
  unfold aggregationQuery at hq
  cases hf : taskQueryFilter generate ops rq hasFullAccess userId with
  | none => simp [hf] at hq
  | some qf =>
    simp only [hf, Option.map_some', Option.some.injEq, Prod.mk.injEq] at hq
    obtain ⟨rfl, rfl⟩ := hq
    have hc : ((rq.prop "sortBy").truthy && (rq.prop "sortOrder").truthy) = false := by
      rcases h with h | h <;> simp [h]
    have htail : taskTailStages taskColumn rq =
        [ .project (projectionOf taskColumn),
          .skip (skipOf (rq.prop "page") (rq.prop "limit")),
          .limit (parseIntValue (rq.prop "limit")) ] := by
      unfold taskTailStages
      simp [hc]
    refine ⟨?_, taskJoinStages taskColumn rq isForRisk hasFullAccess, ?_⟩
    · rw [List.filter_eq_nil_iff]
      intro s hs
      simp only [List.mem_cons, taskStages, List.mem_append, htail, List.mem_singleton,
        List.not_mem_nil, or_false] at hs
      rcases hs with rfl | hs | rfl | rfl | rfl
      · simp [Stage.isSort]
      · simp [taskJoinStages_no_sort taskColumn rq isForRisk hasFullAccess s hs]
      · simp [Stage.isSort]
      · simp [Stage.isSort]
      · simp [Stage.isSort]
    · simp [taskStages, htail]

/-- Witness for C11: a restricted caller lists the columns `title` and `dueDate`,
page 1 of 5, without naming an order. -/
theorem task_plan_default_sort_missing_witness :
    ((Value.obj [("page", .str "1"), ("limit", .str "5")]).prop "sortBy").truthy = false ∧
    (∃ query queryFilter,
      aggregationQuery sampleIds asciiCase ["title", "dueDate"]
        (.obj [("page", .str "1"), ("limit", .str "5")]) true false (.oid 7)
        = some (query, queryFilter) ∧
      query.filter Stage.isSort = []) :=
  ⟨rfl, _, _, rfl,
    (task_plan_default_sort_missing sampleIds asciiCase ["title", "dueDate"]
      (.obj [("page", .str "1"), ("limit", .str "5")]) true false (.oid 7) _ _
      (Or.inl rfl) rfl).1⟩

theorem overdueListQuery_shape (generate : Value → Nat) (newDate : Value → Value) (db : Db)
    (rq : Value) (isForRisk hasFullAccess : Bool) (clientId userId : Value) (query : List Stage)
    (hq : overdueListQuery generate newDate db rq isForRisk hasFullAccess clientId userId
      = some query) :
    ∃ queryFilter,
      overdueQueryFilter generate newDate db rq isForRisk hasFullAccess clientId userId
        = some queryFilter ∧
      query = (.matchQ queryFilter :: (overdueGroupStages ++ [overdueProjectStage]))
        ++ [overdueFacetStage rq] := by
  unfold overdueListQuery at hq
  cases hf : overdueQueryFilter generate newDate db rq isForRisk hasFullAccess clientId userId with
  | none => simp [hf] at hq
  | some qf =>
    simp only [hf, Option.map_some', Option.some.injEq] at hq
    exact ⟨qf, rfl, by simp [← hq]⟩

theorem finite_eq_some (x : JsNumber) (n : Int) : x.finite = some n ↔ x = .int n := by
  cases x <;> simp [JsNumber.finite]

theorem finite_eq_none (x : JsNumber) : x.finite = none ↔ x = .nan ∨ ∃ s, x = .inf s := by
  cases x <;> simp [JsNumber.finite]

theorem parseNumber_of_value (v : Value) (n : Int) (h : parseIntValue v = some n) :
    parseNumber v = .int n :=
  (finite_eq_some _ _).mp h

theorem roundDouble_safe (n : Int) (h : isSafeInteger n = true) : roundDouble n = .int n := by
  have h2 : n.natAbs ≤ 9007199254740991 := by simpa [isSafeInteger] using h
  have h3 : n.natAbs < 9007199254740992 := by omega
  simp [roundDouble, h3]

theorem skipOf_of_safe (page limit : Value) (p l : Int)
    (hp : parseIntValue page = some p) (hl : parseIntValue limit = some l)
    (h1 : isSafeInteger (p - 1) = true) (h2 : isSafeInteger ((p - 1) * l) = true) :
    skipOf page limit = some ((p - 1) * l) := by
  simp [skipOf, parseNumber_of_value _ _ hp, parseNumber_of_value _ _ hl, JsNumber.minusOne,
    JsNumber.times, roundDouble_safe _ h1, roundDouble_safe _ h2, JsNumber.finite]

theorem skipOf_first_page (limit : Value) (l : Int) (h : parseIntValue limit = some l) :
    skipOf (.num 1) limit = some 0 := by
  have h1 : parseIntValue (.num 1) = some 1 := by decide
  have h2 := skipOf_of_safe (.num 1) limit 1 l h1 h (by decide) (by simp [isSafeInteger])
  simpa using h2

theorem taskStages_paging (taskColumn : List String) (rq : Value)
    (isForRisk hasFullAccess : Bool) :
    ∃ front, taskStages taskColumn rq isForRisk hasFullAccess
      = front ++ [.skip (skipOf (rq.prop "page") (rq.prop "limit")),
          .limit (parseIntValue (rq.prop "limit"))] := by
  unfold taskStages taskTailStages
  exact ⟨taskJoinStages taskColumn rq isForRisk hasFullAccess ++
    ([.project (projectionOf taskColumn)] ++
      if ((rq.prop "sortBy").truthy && (rq.prop "sortOrder").truthy) = true then
        [.sort (sortingOptionsOf (rq.prop "sortBy").jsToString
          (sortDirection (rq.prop "sortOrder")))]
      else []), by simp only [List.append_assoc]⟩

theorem skipOf_nan_page (page limit : Value) (h : parseIntValue page = none) :
    skipOf page limit = none := by
  have h2 : (parseNumber page).finite = none := h
  unfold skipOf
  cases hp : parseNumber page with
  | int n => simp [hp, JsNumber.finite] at h2
  | nan => simp [JsNumber.minusOne, JsNumber.times, JsNumber.finite]
  | inf s =>
    cases hl : parseNumber limit with
    | nan => simp [JsNumber.minusOne, JsNumber.times, JsNumber.finite]
    | inf t => simp [JsNumber.minusOne, JsNumber.times, JsNumber.finite]
    | int b =>
      by_cases hb : b = 0 <;> simp [JsNumber.minusOne, JsNumber.times, JsNumber.finite, hb]

theorem skipOf_nan_limit (page limit : Value) (h : parseIntValue limit = none) :
    skipOf page limit = none := by
  have h2 : (parseNumber limit).finite = none := h
  unfold skipOf
  cases hl : parseNumber limit with
  | int n => simp [hl, JsNumber.finite] at h2
  | nan => cases (parseNumber page).minusOne <;> simp [JsNumber.times, JsNumber.finite]
  | inf s =>
    cases (parseNumber page).minusOne with
    | nan => simp [JsNumber.times, JsNumber.finite]
    | inf t => simp [JsNumber.times, JsNumber.finite]
    | int b => by_cases hb : b = 0 <;> simp [JsNumber.times, JsNumber.finite, hb]

/-- C12 (the code departs from the claim): `getOverdueList` replaces `page` and
`limit` by 1 and 5 only when they are absent or otherwise falsy
(`requestedQuery.page || 1`), and the task `aggregationQuery` replaces nothing.
In the plan of `getOverdueList`, with both absent the `$skip` is 0 and the
`$limit` is 5; with only `page` absent and a `limit` that `parseInt` reads as
the number `l`, they are 0 and `l`; with only `limit` absent and a `page` that
`parseInt` reads as `p`, they are `(p - 1) * 5` and 5 when that product is a
safe integer; with both present they are what `parseInt` and the product give.
A `page` or a `limit` that is present and that `parseInt` reads as no finite
number (`NaN` or an infinity, `none`) gives no finite number for the `$skip`,
and such a `limit` gives none for the `$limit` as well: for `page = limit =
"abc"` both are `NaN`, not 0 and 5. The plan of the task `aggregationQuery`
ends with the `$skip` and the `$limit` computed from `page` and `limit` as they
came, so that a request without them gets `NaN` for both. -/
theorem paging_defaults (generate : Value → Nat) (newDate : Value → Value) (db : Db)
    (fs : List (String × Value)) (isForRisk hasFullAccess : Bool) (clientId userId : Value)
    (query : List Stage)
    (hq : overdueListQuery generate newDate db (.obj fs) isForRisk hasFullAccess clientId userId
      = some query) :
    ((lookupField fs "page").truthy = false → (lookupField fs "limit").truthy = false →
      ∃ front, query = front ++ [.facet [("paginatedResult", [.skip (some 0), .limit (some 5)]),
        ("totalCount", [.count "count"])]]) ∧
    ((lookupField fs "page").truthy = false → (lookupField fs "limit").truthy = true →
      ∀ l, parseIntValue (lookupField fs "limit") = some l →
      ∃ front, query = front ++ [.facet [("paginatedResult", [.skip (some 0), .limit (some l)]),
        ("totalCount", [.count "count"])]]) ∧
    ((lookupField fs "page").truthy = true → (lookupField fs "limit").truthy = false →
      ∀ p, parseIntValue (lookupField fs "page") = some p →
      isSafeInteger ((p - 1) * 5) = true →
      ∃ front, query = front ++ [.facet [("paginatedResult",
          [.skip (some ((p - 1) * 5)), .limit (some 5)]),
        ("totalCount", [.count "count"])]]) ∧
    ((lookupField fs "page").truthy = true → (lookupField fs "limit").truthy = true →
      ∃ front, query = front ++ [.facet [("paginatedResult",
          [.skip (skipOf (lookupField fs "page") (lookupField fs "limit")),
            .limit (parseIntValue (lookupField fs "limit"))]),
        ("totalCount", [.count "count"])]]) ∧
    ((lookupField fs "page").truthy = true → parseIntValue (lookupField fs "page") = none →
      ∃ front limit, query = front ++ [.facet [("paginatedResult", [.skip none, limit]),
        ("totalCount", [.count "count"])]]) ∧
    ((lookupField fs "limit").truthy = true → parseIntValue (lookupField fs "limit") = none →
      ∃ front, query = front ++ [.facet [("paginatedResult", [.skip none, .limit none]),
        ("totalCount", [.count "count"])]]) ∧
    (∃ front, overdueListQuery sampleIds (fun v => v) (fun _ => [])
        (.obj [("page", .str "abc"), ("limit", .str "abc")]) false false (.oid 1) (.oid 2)
      = some (front ++ [.facet [("paginatedResult", [.skip none, .limit none]),
          ("totalCount", [.count "count"])]])) ∧
    (∀ (ops : CaseOps) (taskColumn : List String) (rq : Value) (plan : List Stage)
        (queryFilter : Value),
      aggregationQuery generate ops taskColumn rq isForRisk hasFullAccess userId
        = some (plan, queryFilter) →
      ∃ front, plan = front ++ [.skip (skipOf (rq.prop "page") (rq.prop "limit")),
        .limit (parseIntValue (rq.prop "limit"))]) ∧
    (∃ front queryFilter,
      aggregationQuery sampleIds asciiCase ["title"] (.obj []) true false (.oid 2)
        = some (front ++ [.skip none, .limit none], queryFilter)) ∧
    parseNumber (.str "abc") = .nan ∧
    parseNumber .undefined = .nan := by
  obtain ⟨qf, -, rfl⟩ := overdueListQuery_shape generate newDate db (.obj fs) isForRisk
    hasFullAccess clientId userId query hq
  have h5 : parseIntValue (.num 5) = some 5 := by decide
  have h1 : parseIntValue (.num 1) = some 1 := by decide
  refine ⟨fun hp hl => ⟨.matchQ qf :: (overdueGroupStages ++ [overdueProjectStage]), ?_⟩,
    fun hp hl l hpl => ⟨.matchQ qf :: (overdueGroupStages ++ [overdueProjectStage]), ?_⟩,
    fun hp hl p hpp hs => ⟨.matchQ qf :: (overdueGroupStages ++ [overdueProjectStage]), ?_⟩,
    fun hp hl => ⟨.matchQ qf :: (overdueGroupStages ++ [overdueProjectStage]), ?_⟩,
    fun hp hpp => ⟨.matchQ qf :: (overdueGroupStages ++ [overdueProjectStage]),
      .limit (parseIntValue ((lookupField fs "limit").or (.num 5))), ?_⟩,
    fun hl hpl => ⟨.matchQ qf :: (overdueGroupStages ++ [overdueProjectStage]), ?_⟩,
    ⟨_ :: _ :: _ :: _ :: _ :: _ :: _ :: _ :: [_], rfl⟩, ?_,
    ⟨_ :: _ :: _ :: _ :: _ :: _ :: _ :: _ :: _ :: [_], _, rfl⟩, by decide, by decide⟩
  · congr 2
    simp [overdueFacetStage, Value.or, hp, hl, skipOf_first_page _ 5 h5, h5]
  · congr 2
    simp [overdueFacetStage, Value.or, hp, hl, skipOf_first_page _ l hpl, hpl]
  · congr 2
    have hs1 : isSafeInteger (p - 1) = true := by
      have h2 : ((p - 1) * 5).natAbs ≤ 9007199254740991 := by simpa [isSafeInteger] using hs
      rw [Int.natAbs_mul] at h2
      have h3 : (5 : Int).natAbs = 5 := rfl
      rw [h3] at h2
      simp only [isSafeInteger, decide_eq_true_eq]
      omega
    simp [overdueFacetStage, Value.or, hp, hl, skipOf_of_safe _ _ p 5 hpp h5 hs1 hs, h5]
  · congr 2
    simp [overdueFacetStage, Value.or, hp, hl]
  · congr 2
    simp only [overdueFacetStage, Value.or, prop_obj, hp, if_true,
      skipOf_nan_page _ _ hpp]
  · congr 2
    simp only [overdueFacetStage, Value.or, prop_obj, hl, if_true,
      skipOf_nan_limit _ _ hpl, hpl]
  · intro ops taskColumn rq plan queryFilter h
    simp only [aggregationQuery, Option.map_eq_some'] at h
    obtain ⟨f, -, h⟩ := h
    obtain ⟨front, hfront⟩ := taskStages_paging taskColumn rq isForRisk hasFullAccess
    refine ⟨.matchQ f :: front, ?_⟩
    rw [← (Prod.mk.inj h).1, hfront]
    rfl

/-- Witness for C12: a client's request with neither `page` nor `limit`. -/
theorem paging_defaults_witness :
    ∃ front, (.matchQ (.obj [("clientId", .oid 1)]) ::
        (overdueGroupStages ++ [overdueProjectStage, overdueFacetStage (.obj [])]))
      = front ++ [.facet [("paginatedResult", [.skip (some 0), .limit (some 5)]),
        ("totalCount", [.count "count"])]] :=
  (paging_defaults sampleIds (fun v => v) (fun _ => []) [] false false (.oid 1) (.oid 2) _
    rfl).1 rfl rfl

/-! ## The overdue helper: range filters -/

theorem overdueQueryFilter_ranges (generate : Value → Nat) (newDate : Value → Value) (db : Db)
    (fs : List (String × Value)) (isForRisk hasFullAccess : Bool) (clientId userId : Value)
    (queryFilter : Value)
    (hq : overdueQueryFilter generate newDate db (.obj fs) isForRisk hasFullAccess clientId userId
      = some queryFilter) :
    ((lookupField fs "maxOutstandingAmount").truthy = true →
      queryFilter.prop "outstandingAmount"
        = .obj [("$lte", numberOf (parseNumber (lookupField fs "maxOutstandingAmount")))]) ∧
    ((lookupField fs "endDate").truthy = true →
      queryFilter.prop "dateOfInvoice" = .obj [("$lt", newDate (lookupField fs "endDate"))]) := by
  unfold overdueQueryFilter at hq
  simp only [prop_obj] at hq
  generalize hA : (if (!isForRisk) = true then
      Option.map (fun c => assignField [] "clientId" c) (objectId generate clientId)
    else if (isForRisk && !hasFullAccess) = true then
      Option.map (fun clientIds => assignField [] "clientId"
        (Value.obj [("$in", Value.arr clientIds)])) (overdueClientIds db userId)
    else some []) = A at hq
  cases A with
  | none => simp at hq
  | some q1 =>
    simp only [Option.some_bind] at hq
    generalize hB : (if (lookupField fs "debtorId").truthy = true then
        Option.map (fun d => assignField q1 "debtorId" d) (objectId generate (lookupField fs "debtorId"))
      else some q1) = B at hq
    cases B with
    | none => simp at hq
    | some q2 =>
      simp only [Option.some_bind, Option.some.injEq] at hq
      subst hq
      refine ⟨fun h => ?_, fun h => ?_⟩
      · by_cases c3 : (lookupField fs "startDate").truthy = true <;>
        by_cases c4 : (lookupField fs "endDate").truthy = true <;>
        simp [h, c3, c4, lookupField_assignField]
      · simp [h, lookupField_assignField]

/-- C15 (the code departs from the claim): when a `getOverdueList` request supplies
both `minOutstandingAmount` and `maxOutstandingAmount`, the second assignment to
`queryFilter.outstandingAmount` replaces the first, so the base match keeps only
the upper bound; likewise `endDate` replaces the bound of `startDate`. With the
bounds 100 and 500 a record of amount 50 is admitted, and with the dates
2024-03-01 and 2024-04-01 a record invoiced on 2024-01-15 is admitted. -/
theorem overdue_range_filter_keeps_last_bound (generate : Value → Nat) :
    (∀ (newDate : Value → Value) (db : Db) (fs : List (String × Value))
        (isForRisk hasFullAccess : Bool) (clientId userId queryFilter : Value),
      overdueQueryFilter generate newDate db (.obj fs) isForRisk hasFullAccess clientId userId
        = some queryFilter →
      ((lookupField fs "minOutstandingAmount").truthy = true →
        (lookupField fs "maxOutstandingAmount").truthy = true →
        queryFilter.prop "outstandingAmount"
          = .obj [("$lte", numberOf (parseNumber (lookupField fs "maxOutstandingAmount")))]) ∧
      ((lookupField fs "startDate").truthy = true →
        (lookupField fs "endDate").truthy = true →
        queryFilter.prop "dateOfInvoice"
          = .obj [("$lt", newDate (lookupField fs "endDate"))])) ∧
    overdueQueryFilter sampleIds sampleDate (fun _ => [])
        (.obj [("minOutstandingAmount", .str "100"), ("maxOutstandingAmount", .str "500")])
        false false (.oid 1) (.oid 2)
      = some (.obj [("clientId", .oid 1), ("outstandingAmount", .obj [("$lte", .num 500)])]) ∧
    matchesQuery (.obj [("clientId", .oid 1), ("outstandingAmount", .obj [("$lte", .num 500)])])
        (.obj [("_id", .oid 10), ("clientId", .oid 1), ("outstandingAmount", .num 50)])
      = some true ∧
    overdueQueryFilter sampleIds sampleDate (fun _ => [])
        (.obj [("startDate", .str "2024-03-01"), ("endDate", .str "2024-04-01")])
        false false (.oid 1) (.oid 2)
      = some (.obj [("clientId", .oid 1),
          ("dateOfInvoice", .obj [("$lt", .num 1711929600000)])]) ∧
    matchesQuery (.obj [("clientId", .oid 1),
          ("dateOfInvoice", .obj [("$lt", .num 1711929600000)])])
        (.obj [("_id", .oid 11), ("clientId", .oid 1),
          ("dateOfInvoice", sampleDate (.str "2024-01-15"))])
      = some true := by
  refine ⟨?_, by with_unfolding_all rfl, by with_unfolding_all rfl, by with_unfolding_all rfl,
    by with_unfolding_all rfl⟩
  intro newDate db fs isForRisk hasFullAccess clientId userId queryFilter hq
  obtain ⟨h1, h2⟩ := overdueQueryFilter_ranges generate newDate db fs isForRisk hasFullAccess clientId
    userId queryFilter hq
  exact ⟨fun _ h => h1 h, fun _ h => h2 h⟩

/-- Witness for C15: the request with the bounds 100 and 500. -/
theorem overdue_range_filter_keeps_last_bound_witness :
    (Value.obj [("clientId", .oid 1), ("outstandingAmount", .obj [("$lte", .num 500)])]).prop
        "outstandingAmount"
      = .obj [("$lte", numberOf (parseNumber (lookupField
          [("minOutstandingAmount", .str "100"), ("maxOutstandingAmount", .str "500")]
          "maxOutstandingAmount")))] :=
  ((overdue_range_filter_keeps_last_bound sampleIds).1 sampleDate (fun _ => [])
    [("minOutstandingAmount", .str "100"), ("maxOutstandingAmount", .str "500")]
    false false (.oid 1) (.oid 2) _ (by with_unfolding_all rfl)).1 rfl rfl

/-! ## Totals of the list answers -/

theorem overdueRiskList_total (db : Db) (modules : List ModuleDescriptor)
    (manageColumns : List Preference) (userId : Value) (accessTypes : Option (List String))
    (query : Value) (data : OverdueRiskData)
    (h : overdueRiskList db modules manageColumns userId accessTypes query = .success data) :
    ∃ clientIds, riskClientIds db userId = some clientIds ∧
      countDocuments db "overdues" (overdueRiskQueryFilter clientIds accessTypes)
        = some data.total := by
  unfold overdueRiskList at h
  split at h
  · rename_i overdueColumn m _ _
    cases hc : riskClientIds db userId with
    | none => simp [overdueRiskPlan, hc] at h
    | some clientIds =>
      refine ⟨clientIds, rfl, ?_⟩
      simp only [overdueRiskPlan, hc, Option.map_some'] at h
      split at h
      · rename_i overdueList total _ ht
        split at h
        · simp only [Reply.success.injEq] at h
          rw [← h]
          exact ht
        · exact absurd h (by simp)
      · exact absurd h (by simp)
  · exact absurd h (by simp)

set_option maxRecDepth 8000 in
/-- C13 (the code departs from the claim): the total of the overdue risk list is
`countDocuments(queryFilter)`, the number of records that satisfy the first
`$match` alone, whatever the later stages of the plan drop. With one overdue
record for each of the clients Acme and Bolt and the request `clientId = Acme`, the
list holds the one record of Acme, which is the one record that passes every
stage before the `$skip`, and the total is 2. -/
theorem overdue_risk_total_ignores_filters :
    (∀ (db : Db) (modules : List ModuleDescriptor) (manageColumns : List Preference)
        (userId : Value) (accessTypes : Option (List String)) (query : Value)
        (data : OverdueRiskData),
      overdueRiskList db modules manageColumns userId accessTypes query = .success data →
      ∃ clientIds, riskClientIds db userId = some clientIds ∧
        countDocuments db "overdues" (overdueRiskQueryFilter clientIds accessTypes)
          = some data.total) ∧
    overdueRiskList pagingStore sampleModules [⟨"overdue", ["month", "outstandingAmount"]⟩]
        (.oid 100) (some ["full-access"])
        (.obj [("clientId", .str "Acme"), ("page", .str "1"), ("limit", .str "5")])
      = .success
          ⟨[.obj [("_id", .oid 10), ("month", .str "03")]],
           [⟨"month", "Month", "string", none⟩,
            ⟨"outstandingAmount", "Outstanding Amount", "dollar", none⟩],
           2, some 1, some 5, some 1⟩ ∧
    (overdueRiskPlan pagingStore (.oid 100) (some ["full-access"])
        ["month", "outstandingAmount"]
        (.obj [("clientId", .str "Acme"), ("page", .str "1"), ("limit", .str "5")])).bind
        (fun plan => aggregate pagingStore "overdues" (beforeSkip plan.1))
      = some [.obj [("_id", .oid 10), ("month", .str "03")]] :=
  ⟨overdueRiskList_total, by with_unfolding_all rfl, by with_unfolding_all rfl⟩

/-- Witness for C13: the request for the records of Acme. -/
theorem overdue_risk_total_ignores_filters_witness :
    ∃ clientIds, riskClientIds pagingStore (.oid 100) = some clientIds ∧
      countDocuments pagingStore "overdues"
        (overdueRiskQueryFilter clientIds (some ["full-access"])) = some 2 :=
  overdue_risk_total_ignores_filters.1 pagingStore sampleModules
    [⟨"overdue", ["month", "outstandingAmount"]⟩] (.oid 100) (some ["full-access"])
    (.obj [("clientId", .str "Acme"), ("page", .str "1"), ("limit", .str "5")]) _
    overdue_risk_total_ignores_filters.2.1

theorem taskJoinStages_no_count (taskColumn : List String) (rq : Value)
    (isForRisk hasFullAccess : Bool) :
    ∀ s ∈ taskJoinStages taskColumn rq isForRisk hasFullAccess, s.counts = false := by
  intro s hs
  unfold taskJoinStages assigneeStages createdByStages at hs
  simp only [List.mem_append] at hs
  rcases hs with (((hs | hs) | hs) | hs) | hs
  · split at hs
    · simp only [entityStages, List.mem_cons, List.mem_singleton, List.not_mem_nil,
        or_false] at hs
      rcases hs with rfl | rfl | rfl | rfl | rfl | rfl | rfl | rfl <;> rfl
    · simp at hs
  · split at hs
    · simp only [directUserLookup, List.mem_singleton] at hs
      subst hs
      rfl
    · simp only [typedUserStages, List.mem_cons, List.mem_singleton, List.not_mem_nil,
        or_false] at hs
      rcases hs with rfl | rfl | rfl | rfl <;> rfl
  · split at hs
    · simp only [List.mem_singleton] at hs
      subst hs
      rfl
    · simp at hs
  · split at hs
    · simp only [directUserLookup, List.mem_singleton] at hs
      subst hs
      rfl
    · simp only [typedUserStages, List.mem_cons, List.mem_singleton, List.not_mem_nil,
        or_false] at hs
      rcases hs with rfl | rfl | rfl | rfl <;> rfl
  · split at hs
    · simp only [List.mem_singleton] at hs
      subst hs
      rfl
    · simp at hs

theorem aggregationQuery_no_count (generate : Value → Nat) (ops : CaseOps) (taskColumn : List String) (rq : Value)
    (isForRisk hasFullAccess : Bool) (userId : Value) (query : List Stage) (queryFilter : Value)
    (hq : aggregationQuery generate ops taskColumn rq isForRisk hasFullAccess userId
      = some (query, queryFilter)) :
    ∀ s ∈ query, s.counts = false := by
  unfold aggregationQuery at hq
  cases hf : taskQueryFilter generate ops rq hasFullAccess userId with
  | none => simp [hf] at hq
  | some qf =>
    simp only [hf, Option.map_some', Option.some.injEq, Prod.mk.injEq] at hq
    obtain ⟨rfl, rfl⟩ := hq
    intro s hs
    simp only [List.mem_cons, taskStages, taskTailStages, List.mem_append, List.mem_singleton,
      List.not_mem_nil, or_false] at hs
    rcases hs with rfl | hs | (rfl | hs) | rfl | rfl
    · rfl
    · exact taskJoinStages_no_count taskColumn rq isForRisk hasFullAccess s hs
    · rfl
    · split at hs
      · simp only [List.mem_singleton] at hs
        subst hs
        rfl
      · simp at hs
    · rfl
    · rfl

set_option maxRecDepth 8000 in
/-- C14 (the code departs from the claim): the plan that `aggregationQuery` returns
holds no `$facet` and no `$count` stage, so its result carries no count, and the
total that the task list handler reads from `totalCount` is 0. With two tasks
that match the filter of the request, an execution that runs the stages of the
plan answers with both tasks as `docs` and with `total = 0`; the call
`Task.aggregate(query)` as Mongoose answers it refuses the object
`{ query, queryFilter }` it is handed, and the handler answers with status 500. -/
theorem task_total_not_counted (generate : Value → Nat) :
    (∀ (ops : CaseOps) (taskColumn : List String) (rq : Value) (isForRisk hasFullAccess : Bool)
        (userId : Value) (query : List Stage) (queryFilter : Value),
      aggregationQuery generate ops taskColumn rq isForRisk hasFullAccess userId
        = some (query, queryFilter) →
      ∀ s ∈ query, s.counts = false) ∧
    (taskList sampleIds asciiCase (runTaskPlan pagingStore) sampleModules [⟨"task", ["title", "dueDate"]⟩]
        (.oid 100) (some [])
        (.obj [("columnFor", .str "task"), ("page", .str "1"), ("limit", .str "5")])).reply
      = .success
          ⟨[.obj [("_id", .oid 40), ("title", .str "Call")],
            .obj [("_id", .oid 41), ("title", .str "Mail")]],
           [isCompletedHeader, ⟨"title", "Title", "string", none⟩,
            ⟨"dueDate", "Due Date", "date", none⟩],
           .num 0, some 1, some 5, some 0⟩ ∧
    ((aggregationQuery sampleIds asciiCase ["title", "dueDate", "isCompleted"]
        (.obj [("columnFor", .str "task"), ("page", .str "1"), ("limit", .str "5")])
        true false (.oid 100)).bind
        (fun plan => (filterQuery plan.2 (pagingStore "tasks")).map List.length)) = some 2 ∧
    (taskList sampleIds asciiCase taskAggregate sampleModules [⟨"task", ["title", "dueDate"]⟩]
        (.oid 100) (some [])
        (.obj [("columnFor", .str "task"), ("page", .str "1"), ("limit", .str "5")])).reply
      = .failure :=
  ⟨aggregationQuery_no_count generate, by with_unfolding_all rfl, by with_unfolding_all rfl,
    by with_unfolding_all rfl⟩

/-- Witness for C14: the plan for the columns `title`, `dueDate` and `isCompleted`. -/
theorem task_total_not_counted_witness :
    ∀ s ∈ (Stage.matchQ (.obj [("isDeleted", .bool false), ("assigneeId", .oid 100)]) ::
        taskStages ["title", "dueDate", "isCompleted"]
          (.obj [("columnFor", .str "task"), ("page", .str "1"), ("limit", .str "5")])
          true false),
      s.counts = false :=
  (task_total_not_counted sampleIds).1 asciiCase ["title", "dueDate", "isCompleted"]
    (.obj [("columnFor", .str "task"), ("page", .str "1"), ("limit", .str "5")])
    true false (.oid 100) _ _ rfl

/-! ## Column preferences -/

theorem columnFieldsLoop_eq (defaultColumns : List String) (taskColumn : Option Preference)
    (cs : List ColumnDescriptor) (acc : ColumnFields) :
    columnFieldsLoop defaultColumns taskColumn cs acc =
      ⟨acc.defaultFields ++
        (cs.filter (fun c => includes defaultColumns c.name)).map
          (fun c => ⟨c.name, c.label, selects taskColumn c.name⟩),
       acc.customFields ++
        (cs.filter (fun c => !includes defaultColumns c.name)).map
          (fun c => ⟨c.name, c.label, selects taskColumn c.name⟩)⟩ := by
  induction cs generalizing acc with
  | nil => simp [columnFieldsLoop]
  | cons c cs ih =>
    unfold columnFieldsLoop
    by_cases hd : includes defaultColumns c.name = true
    · by_cases hs : selects taskColumn c.name = true
      · simp only [hs, hd, if_true, ih, List.filter_cons, Bool.not_true, Bool.false_eq_true,
          if_false, List.map_cons, List.append_assoc, List.singleton_append]
      · simp only [Bool.not_eq_true] at hs
        simp only [hs, hd, if_true, ih, List.filter_cons, Bool.not_true, Bool.false_eq_true,
          if_false, List.map_cons, List.append_assoc, List.singleton_append]
    · simp only [Bool.not_eq_true] at hd
      by_cases hs : selects taskColumn c.name = true
      · simp only [hs, hd, if_true, ih, List.filter_cons, Bool.not_false, Bool.false_eq_true,
          if_false, List.map_cons, List.append_assoc, List.singleton_append]
      · simp only [Bool.not_eq_true] at hs
        simp only [hs, hd, if_true, ih, List.filter_cons, Bool.not_false, Bool.false_eq_true,
          if_false, List.map_cons, List.append_assoc, List.singleton_append]

theorem getColumnNames_success (modules : List ModuleDescriptor)
    (manageColumns : List Preference) (columnFor : Value) (m : ModuleDescriptor)
    (ht : columnFor.truthy = true) (hm : findModule modules columnFor = some m)
    (hne : m.manageColumns ≠ []) :
    getColumnNames modules manageColumns columnFor =
      .success (columnFieldsLoop m.defaultColumns (findPreference manageColumns columnFor)
        m.manageColumns ⟨[], []⟩) := by
  unfold getColumnNames
  have he : m.manageColumns.isEmpty = false := by
    cases hc : m.manageColumns with
    | nil => exact absurd hc hne
    | cons a l => rfl
  simp [ht, hm, he]

theorem findPreference_seedColumns (modules : List ModuleDescriptor) (columnFor : Value) :
    findPreference (seedColumns modules) columnFor =
      (findModule modules columnFor).map (fun m => ⟨m.name, m.defaultColumns⟩) := by
  unfold findPreference seedColumns findModule
  induction modules with
  | nil => rfl
  | cons m ms ih =>
    simp only [List.map_cons, List.find?_cons]
    cases h : Value.beq (.str m.name) columnFor
    · simpa using ih
    · simp

theorem checked_of_seeded (dc : List String) (cs : List ColumnDescriptor) :
    checkedColumns
      ⟨(cs.filter (fun c => includes dc c.name)).map
          (fun c => ⟨c.name, c.label, includes dc c.name⟩),
       (cs.filter (fun c => !includes dc c.name)).map
          (fun c => ⟨c.name, c.label, includes dc c.name⟩)⟩
      = (cs.map (fun c => c.name)).filter (fun n => includes dc n) := by
  unfold checkedColumns
  induction cs with
  | nil => rfl
  | cons c cs ih =>
    simp only [List.filter_append, List.map_append] at ih ⊢
    by_cases hd : includes dc c.name = true
    · simp only [List.filter_cons, hd, if_true, List.map_cons, Bool.not_true,
        Bool.false_eq_true, if_false, List.cons_append]
      rw [ih]
    · simp only [Bool.not_eq_true] at hd
      simp only [List.filter_cons, hd, Bool.false_eq_true, if_false, List.map_cons,
        Bool.not_false, if_true]
      rw [← ih]

theorem checked_of_none (dc : List String) (cs : List ColumnDescriptor) :
    checkedColumns
      ⟨(cs.filter (fun c => includes dc c.name)).map (fun c => ⟨c.name, c.label, false⟩),
       (cs.filter (fun c => !includes dc c.name)).map (fun c => ⟨c.name, c.label, false⟩)⟩
      = [] := by
  simp only [checkedColumns, List.map_eq_nil_iff, List.filter_eq_nil_iff, List.mem_append,
    List.mem_map, List.mem_filter]
  rintro a (⟨x, -, rfl⟩ | ⟨x, -, rfl⟩) <;> simp

set_option maxRecDepth 8000 in
/-- C19, as stated, fails: for the task module, whose default columns are `title`
and `dueDate`, and a user with no stored preference at all, the column-name read
reports every column with `isChecked = false`, so the selection it reports is
empty; and the task list request of that user is answered with status 500. -/
theorem default_columns_counterexample :
    getColumnNames sampleModules [] (.str "task")
      = .success ⟨[⟨"title", "Title", false⟩, ⟨"dueDate", "Due Date", false⟩],
          [⟨"priority", "Priority", false⟩, ⟨"entityId", "Linked To", false⟩]⟩ ∧
    checkedColumns ⟨[⟨"title", "Title", false⟩, ⟨"dueDate", "Due Date", false⟩],
        [⟨"priority", "Priority", false⟩, ⟨"entityId", "Linked To", false⟩]⟩ = [] ∧
    (findModule sampleModules (.str "task")).map (fun m => m.defaultColumns)
      = some ["title", "dueDate"] ∧
    (taskList sampleIds asciiCase (runTaskPlan pagingStore) sampleModules [] (.oid 100) (some [])
        (.obj [("columnFor", .str "task"), ("page", .str "1"), ("limit", .str "5")])).reply
      = .failure :=
  ⟨by with_unfolding_all rfl, by with_unfolding_all rfl, by with_unfolding_all rfl,
    by with_unfolding_all rfl⟩

/-- C19, amended: for a module of the registry with a non-empty `manageColumns`
list and a user with no stored preference entry for it, the column-name read
reports every column of the module with `isChecked = false`, the default columns
under `defaultFields` and the others under `customFields`, each in registry
order, so the selection it reports is empty. The default columns are what the
preferences are seeded with: for a user whose preferences were seeded from the
registry, the selection reported is the module's columns that are among its
`defaultColumns`, in registry order. -/
theorem columns_without_preference (modules : List ModuleDescriptor)
    (manageColumns : List Preference) (columnFor : Value) (m : ModuleDescriptor)
    (ht : columnFor.truthy = true) (hm : findModule modules columnFor = some m)
    (hne : m.manageColumns ≠ []) :
    (findPreference manageColumns columnFor = none →
      ∃ data, getColumnNames modules manageColumns columnFor = .success data ∧
        data.defaultFields
          = (m.manageColumns.filter (fun c => includes m.defaultColumns c.name)).map
              (fun c => ⟨c.name, c.label, false⟩) ∧
        data.customFields
          = (m.manageColumns.filter (fun c => !includes m.defaultColumns c.name)).map
              (fun c => ⟨c.name, c.label, false⟩) ∧
        checkedColumns data = []) ∧
    (∃ data, getColumnNames modules (seedColumns modules) columnFor = .success data ∧
      checkedColumns data
        = (m.manageColumns.map (fun c => c.name)).filter
            (fun n => includes m.defaultColumns n)) := by
  constructor
  · intro hp
    refine ⟨_, getColumnNames_success modules manageColumns columnFor m ht hm hne, ?_⟩
    rw [hp, columnFieldsLoop_eq]
    exact ⟨rfl, rfl, checked_of_none _ _⟩
  · refine ⟨_, getColumnNames_success modules (seedColumns modules) columnFor m ht hm hne, ?_⟩
    rw [findPreference_seedColumns, hm, columnFieldsLoop_eq]
    exact checked_of_seeded _ _

/-- Witness for C19: the task module of the sample registry and a user without
preferences. -/
theorem columns_without_preference_witness :
    ∃ data, getColumnNames sampleModules [] (.str "task") = .success data ∧
      data.defaultFields = [⟨"title", "Title", false⟩, ⟨"dueDate", "Due Date", false⟩] ∧
      data.customFields = [⟨"priority", "Priority", false⟩, ⟨"entityId", "Linked To", false⟩] ∧
      checkedColumns data = [] :=
  (columns_without_preference sampleModules [] (.str "task")
    ⟨"task",
      [ ⟨"title", "Title", "string", none⟩, ⟨"dueDate", "Due Date", "date", none⟩,
        ⟨"priority", "Priority", "string", none⟩, ⟨"entityId", "Linked To", "string", none⟩ ],
      ["title", "dueDate"]⟩ rfl (by with_unfolding_all rfl) (by simp)).1 rfl

theorem findPreference_setColumns (manageColumns : List Preference) (name : String)
    (columns : List String) :
    findPreference (setColumns manageColumns name columns) (.str name)
      = (findPreference manageColumns (.str name)).map
          (fun p => ⟨p.moduleName, columns⟩) := by
  unfold findPreference
  induction manageColumns with
  | nil => rfl
  | cons p ps ih =>
    unfold setColumns
    by_cases h : p.moduleName = name
    · simp [h, List.find?_cons, beq_str_str]
    · simp only [h, if_false, List.find?_cons, beq_str_str, decide_False]
      exact ih

/-- C20, as stated, fails: a reset call for the task module that carries no
`columns` payload is answered with status 400 and writes nothing, so the stored
columns stay `priority` and do not become the default columns; the same holds on
the client route. -/
theorem reset_columns_counterexample :
    updateTaskColumns (fun _ => none) sampleModules [⟨"task", ["priority"]⟩]
        (.obj [("isReset", .bool true), ("columnFor", .str "task")])
      = (.rejected 400 "REQUIRE_FIELD_MISSING", [⟨"task", ["priority"]⟩]) ∧
    (findModule sampleModules (.str "task")).map (fun m => m.defaultColumns)
      = some ["title", "dueDate"] ∧
    updateClientColumns (fun _ => none) sampleModules [⟨"client", ["name"]⟩] (.oid 100)
        (.obj [("isReset", .bool true)])
      = (.rejected 400 "", [⟨"client", ["name"]⟩]) :=
  ⟨by with_unfolding_all rfl, by with_unfolding_all rfl, by with_unfolding_all rfl⟩

/-- C20, amended: a column update with `isReset = true` that carries a truthy
`columns` payload (an empty array is one), for a module that the route accepts and
the registry holds, is answered with success and writes the module's
`defaultColumns` to the caller's entry for that module, whatever the payload
contains; this holds on the task route and on the client route. A call whose
`columns` payload is absent or falsy is answered with status 400 and writes
nothing. -/
theorem reset_writes_defaults (cast : Value → Option (List String))
    (modules : List ModuleDescriptor) (manageColumns : List Preference)
    (fs : List (String × Value)) :
    (∀ (columnFor : String) (m : ModuleDescriptor),
      hasField fs "isReset" = true → (lookupField fs "isReset").truthy = true →
      (lookupField fs "columns").truthy = true →
      lookupField fs "columnFor" = .str columnFor → columnFor ∈ taskModuleNames →
      findModule modules (.str columnFor) = some m →
      updateTaskColumns cast modules manageColumns (.obj fs)
        = (.success (), setColumns manageColumns columnFor m.defaultColumns) ∧
      ∀ p, findPreference manageColumns (.str columnFor) = some p →
        findPreference (setColumns manageColumns columnFor m.defaultColumns) (.str columnFor)
          = some ⟨p.moduleName, m.defaultColumns⟩) ∧
    (∀ (userId : Value) (m : ModuleDescriptor),
      userId.truthy = true →
      hasField fs "isReset" = true → (lookupField fs "isReset").truthy = true →
      (lookupField fs "columns").truthy = true →
      findModule modules (.str "client") = some m →
      updateClientColumns cast modules manageColumns userId (.obj fs)
        = (.success (), setColumns manageColumns "client" m.defaultColumns) ∧
      ∀ p, findPreference manageColumns (.str "client") = some p →
        findPreference (setColumns manageColumns "client" m.defaultColumns) (.str "client")
          = some ⟨p.moduleName, m.defaultColumns⟩) ∧
    ((lookupField fs "columns").truthy = false →
      updateTaskColumns cast modules manageColumns (.obj fs)
        = (.rejected 400 "REQUIRE_FIELD_MISSING", manageColumns) ∧
      ∀ userId, userId.truthy = true →
        updateClientColumns cast modules manageColumns userId (.obj fs)
          = (.rejected 400 "", manageColumns)) := by
  refine ⟨?_, ?_, ?_⟩
  · intro columnFor m h1 h2 h3 h4 h5 h6
    have ht : (Value.str columnFor).truthy = true := by
      simp only [taskModuleNames, List.mem_cons, List.mem_singleton, List.not_mem_nil,
        or_false] at h5
      rcases h5 with rfl | rfl | rfl | rfl | rfl | rfl <;> decide
    have hc : taskModuleNames.contains columnFor = true := by
      simpa using h5
    constructor
    · unfold updateTaskColumns
      simp only [Value.hasOwnProperty, prop_obj, h1, h2, h3, h4, ht, hc, h6, Bool.not_true,
        Bool.or_self, Bool.false_eq_true, if_false, if_true, Option.map_some']
    · intro p hp
      rw [findPreference_setColumns, hp]
      rfl
  · intro userId m h0 h1 h2 h3 h6
    constructor
    · unfold updateClientColumns
      simp only [Value.hasOwnProperty, prop_obj, h0, h1, h2, h3, h6, Bool.not_true,
        Bool.or_self, Bool.false_eq_true, if_false, if_true, Option.map_some']
    · intro p hp
      rw [findPreference_setColumns, hp]
      rfl
  · intro h3
    constructor
    · unfold updateTaskColumns
      simp [h3]
    · intro userId h0
      unfold updateClientColumns
      simp [h0, h3]

/-- Witness for C20: a reset of the task columns that carries an empty array. -/
theorem reset_writes_defaults_witness :
    updateTaskColumns (fun _ => none) sampleModules [⟨"task", ["priority"]⟩]
        (.obj [("isReset", .bool true), ("columns", .arr []), ("columnFor", .str "task")])
      = (.success (), setColumns [⟨"task", ["priority"]⟩] "task" ["title", "dueDate"]) :=
  ((reset_writes_defaults (fun _ => none) sampleModules [⟨"task", ["priority"]⟩]
    [("isReset", .bool true), ("columns", .arr []), ("columnFor", .str "task")]).1 "task"
    ⟨"task",
      [ ⟨"title", "Title", "string", none⟩, ⟨"dueDate", "Due Date", "date", none⟩,
        ⟨"priority", "Priority", "string", none⟩, ⟨"entityId", "Linked To", "string", none⟩ ],
      ["title", "dueDate"]⟩ rfl rfl rfl rfl (by decide) (by with_unfolding_all rfl)).1

/-! ## The lookback of `getLastOverdueList` -/

theorem stampQuery_stampQuery (fs : List (String × Value)) (a b c d : String) :
    stampQuery (stampQuery fs a b) c d = stampQuery fs c d := by
  unfold stampQuery
  induction fs with
  | nil => simp [assignField]
  | cons kv fs ih =>
    obtain ⟨k, v⟩ := kv
    by_cases hm : k = "month"
    · subst hm
      simp [assignField, assignField_assignField]
    · by_cases hy : k = "year"
      · subst hy
        simp [assignField, assignField_assignField]
      · simp only [assignField, hm, hy, if_false, List.cons.injEq, true_and]
        exact ih

theorem monthParam_valid (d : CalendarDate) (h : d.month < 12) :
    monthParam (.valid d) = twoDigits (d.month + 1) := by
  obtain ⟨y, m, dd⟩ := d
  simp only at h
  interval_cases m <;> with_unfolding_all rfl

/-- C16 (the code departs from the claim): when no overdue record matches the query
in any month, `getLastOverdueList` never returns: whatever number of calls it is
given, it is still running, each call finding no rows and calling itself for the
month before. No bound on the number of steps ends the recursion, and no empty
result is returned. -/
theorem lookback_never_returns_when_empty (refs : String → String) (db : Db)
    (fs : List (String × Value))
    (hnone : ∀ month year, overdueRows refs db (.obj (stampQuery fs month year)) = some [])
    (steps : Nat) (date : DateValue) :
    getLastOverdueList refs db steps date (.obj fs) = .unfinished := by
  induction steps generalizing date fs with
  | zero => rfl
  | succ n ih =>
    unfold getLastOverdueList
    have h1 : overdueRows refs db (lookbackQuery date fs) = some [] := hnone _ _
    have h2 := ih (stampQuery fs (monthParam (setPreviousMonth date))
      (yearParam (setPreviousMonth date)))
      (fun month year => by rw [stampQuery_stampQuery]; exact hnone month year)
      (setPreviousMonth date)
    simp only [h1]
    unfold lookbackQuery
    rw [h2]

/-- Witness for C16: an empty overdues collection, 15 March 2024, four hundred
calls. -/
theorem lookback_never_returns_when_empty_witness :
    getLastOverdueList overdueRefs (fun _ => []) 400 (.valid ⟨2024, 2, 15⟩)
      (.obj [("clientId", .oid 7)]) = .unfinished :=
  lookback_never_returns_when_empty overdueRefs (fun _ => []) [("clientId", .oid 7)]
    (fun _ _ => rfl) 400 (.valid ⟨2024, 2, 15⟩)
theorem before_earliest_of_year (c : CalendarDate) (h : -271820 ≤ c.year) :
    c.before earliestDate = false := by
  unfold CalendarDate.before earliestDate
  have h1 : ¬ c.year < -271821 := by omega
  have h2 : ¬ c.year = -271821 := by omega
  simp [h1, h2]

theorem before_earliest_of_december (y : Int) (dd : Nat) (h : -271821 ≤ y) :
    (CalendarDate.mk y 11 dd).before earliestDate = false := by
  unfold CalendarDate.before earliestDate
  have h1 : ¬ y < -271821 := by omega
  simp [h1]

theorem lookbackQuery_of_day (d : CalendarDate) (fs : List (String × Value))
    (hm : d.month < 12) (hy : -271820 ≤ d.year)
    (hd : d.day ≤ daysInMonth (if d.month = 0 then d.year - 1 else d.year)
      (if d.month = 0 then 11 else d.month - 1)) :
    lookbackQuery (.valid d) fs =
      .obj (stampQuery fs (twoDigits (if d.month = 0 then 12 else d.month))
        (toString (if d.month = 0 then d.year - 1 else d.year))) := by
  have hp : previousMonth d = ⟨if d.month = 0 then d.year - 1 else d.year,
      if d.month = 0 then 11 else d.month - 1, d.day⟩ := by
    unfold previousMonth
    simp only [hd, if_true]
  have hb : (previousMonth d).before earliestDate = false := by
    rw [hp]
    by_cases h0 : d.month = 0
    · simp only [h0, if_true]
      exact before_earliest_of_december _ _ (by omega)
    · simp only [h0, if_false]
      exact before_earliest_of_year _ hy
  have hs : setPreviousMonth (.valid d) = .valid (previousMonth d) := by
    simp [setPreviousMonth, hb]
  unfold lookbackQuery
  have hlt : (previousMonth d).month < 12 := by
    rw [hp]
    show (if d.month = 0 then 11 else d.month - 1) < 12
    split <;> omega
  rw [hs, monthParam_valid _ hlt, hp]
  simp only [yearParam]
  by_cases h0 : d.month = 0
  · simp [h0]
  · have : d.month - 1 + 1 = d.month := by omega
    simp [h0, this]

/-- C18 (the code departs from the claim): the first query of `getLastOverdueList`
names the month before the month of `d`, in two digits, and its year, whenever
that month has the day of `d`; but `setMonth` keeps the day of the month, and a
day that the month before does not have runs over into the month after it. For
31 March 2024 the first query names month `03` of 2024, the month of `d` itself,
not `02`; for 31 May 2023 it names `05`. -/
theorem lookback_first_query_day_overflow :
    (∀ (d : CalendarDate) (fs : List (String × Value)),
      d.month < 12 → -271820 ≤ d.year →
      d.day ≤ daysInMonth (if d.month = 0 then d.year - 1 else d.year)
        (if d.month = 0 then 11 else d.month - 1) →
      lookbackQuery (.valid d) fs =
        .obj (stampQuery fs (twoDigits (if d.month = 0 then 12 else d.month))
          (toString (if d.month = 0 then d.year - 1 else d.year)))) ∧
    lookbackQuery (.valid ⟨2024, 2, 31⟩) [("clientId", .oid 7)]
      = .obj [("clientId", .oid 7), ("month", .str "03"), ("year", .str "2024")] ∧
    lookbackQuery (.valid ⟨2023, 4, 31⟩) [("clientId", .oid 7)]
      = .obj [("clientId", .oid 7), ("month", .str "05"), ("year", .str "2023")] :=
  ⟨fun d fs hm hy hd => lookbackQuery_of_day d fs hm hy hd, by with_unfolding_all rfl,
    by with_unfolding_all rfl⟩

/-- Witness for C18: 15 January 2024, whose first query names December 2023. -/
theorem lookback_first_query_day_overflow_witness :
    lookbackQuery (.valid ⟨2024, 0, 15⟩) [("clientId", .oid 7)] =
      .obj (stampQuery [("clientId", .oid 7)] (twoDigits 12) (toString (2024 - 1 : Int))) :=
  lookback_first_query_day_overflow.1 ⟨2024, 0, 15⟩ [("clientId", .oid 7)] (by decide)
    (by decide) (by decide)
theorem daysInMonth_bounds (y : Int) (m : Nat) :
    28 ≤ daysInMonth y m ∧ daysInMonth y m ≤ 31 := by
  unfold daysInMonth
  split
  · split <;> omega
  · split <;> omega

theorem previousMonth_cases (d : CalendarDate) (hm : d.month < 12) (h1 : 1 ≤ d.day)
    (h31 : d.day ≤ 31) :
    (previousMonth d).month < 12 ∧ 1 ≤ (previousMonth d).day ∧ (previousMonth d).day ≤ 31 ∧
    ((monthIndex (previousMonth d) = monthIndex d - 1 ∧ (previousMonth d).day = d.day) ∨
      (monthIndex (previousMonth d) = monthIndex d ∧ (previousMonth d).day ≤ 3)) := by
  obtain ⟨y, m, dd⟩ := d
  simp only at hm h1 h31
  by_cases h0 : m = 0
  · subst h0
    have hp : previousMonth ⟨y, 0, dd⟩ = ⟨y - 1, 11, dd⟩ := by
      simp [previousMonth, daysInMonth, h31]
    rw [hp]
    simp only [monthIndex]
    refine ⟨?_, ?_, ?_, Or.inl ⟨?_, ?_⟩⟩ <;> (first | omega | simp)
  · obtain ⟨hb1, hb2⟩ := daysInMonth_bounds y (m - 1)
    by_cases hd : dd ≤ daysInMonth y (m - 1)
    · have hp : previousMonth ⟨y, m, dd⟩ = ⟨y, m - 1, dd⟩ := by
        simp [previousMonth, h0, hd]
      rw [hp]
      simp only [monthIndex]
      refine ⟨?_, ?_, ?_, Or.inl ⟨?_, ?_⟩⟩ <;> (first | omega | simp)
    · have hp : previousMonth ⟨y, m, dd⟩ = ⟨y, m - 1 + 1, dd - daysInMonth y (m - 1)⟩ := by
        simp [previousMonth, h0, hd]
      rw [hp]
      simp only [monthIndex]
      refine ⟨?_, ?_, ?_, Or.inr ⟨?_, ?_⟩⟩ <;> omega

theorem previousMonth_of_short_day (d : CalendarDate) (hm : d.month < 12) (h28 : d.day ≤ 28) :
    (previousMonth d).month < 12 ∧ (previousMonth d).day = d.day ∧
    monthIndex (previousMonth d) = monthIndex d - 1 := by
  obtain ⟨y, m, dd⟩ := d
  simp only at hm h28
  by_cases h0 : m = 0
  · subst h0
    have hp : previousMonth ⟨y, 0, dd⟩ = ⟨y - 1, 11, dd⟩ := by
      have : dd ≤ 31 := by omega
      simp [previousMonth, daysInMonth, this]
    rw [hp]
    simp only [monthIndex]
    refine ⟨?_, ?_, ?_⟩ <;> (first | omega | simp)
  · obtain ⟨hb1, hb2⟩ := daysInMonth_bounds y (m - 1)
    have hd : dd ≤ daysInMonth y (m - 1) := by omega
    have hp : previousMonth ⟨y, m, dd⟩ = ⟨y, m - 1, dd⟩ := by
      simp [previousMonth, h0, hd]
    rw [hp]
    simp only [monthIndex]
    refine ⟨?_, ?_, ?_⟩ <;> (first | omega | simp)

theorem setPreviousMonth_valid (d : CalendarDate) (hm : (previousMonth d).month < 12)
    (hr : -271820 * 12 ≤ monthIndex (previousMonth d)) :
    setPreviousMonth (.valid d) = .valid (previousMonth d) := by
  have hy : -271820 ≤ (previousMonth d).year := by
    unfold monthIndex at hr
    omega
  simp [setPreviousMonth, before_earliest_of_year _ hy]

theorem rowsOfMonth_index (refs : String → String) (db : Db) (fs : List (String × Value))
    (c : CalendarDate) (h : c.month < 12) :
    rowsOfMonth refs db fs (monthIndex c)
      = overdueRows refs db
          (.obj (stampQuery fs (monthParam (.valid c)) (yearParam (.valid c)))) := by
  unfold rowsOfMonth monthIndex
  have h1 : ((c.year * 12 + (c.month : Int)) % 12).toNat = c.month := by omega
  have h2 : (c.year * 12 + (c.month : Int)) / 12 = c.year := by omega
  rw [h1, h2, monthParam_valid c h]
  rfl

theorem rowsOfMonth_stampQuery (refs : String → String) (db : Db)
    (fs : List (String × Value)) (a b : String) (i : Int) :
    rowsOfMonth refs db (stampQuery fs a b) i = rowsOfMonth refs db fs i := by
  unfold rowsOfMonth
  rw [stampQuery_stampQuery]

theorem lookback_step (refs : String → String) (db : Db) (n : Nat) (d : CalendarDate)
    (fs : List (String × Value)) (hm : (previousMonth d).month < 12)
    (hr : -271820 * 12 ≤ monthIndex (previousMonth d)) :
    (∀ o os, rowsOfMonth refs db fs (monthIndex (previousMonth d)) = some (o :: os) →
      getLastOverdueList refs db (n + 1) (.valid d) (.obj fs) = .rows (o :: os)) ∧
    (∀ o os, rowsOfMonth refs db fs (monthIndex (previousMonth d)) = some [] →
      getLastOverdueList refs db n (.valid (previousMonth d))
        (.obj (stampQuery fs (monthParam (.valid (previousMonth d)))
          (yearParam (.valid (previousMonth d))))) = .rows (o :: os) →
      getLastOverdueList refs db (n + 1) (.valid d) (.obj fs) = .rows (o :: os)) := by
  have hs := setPreviousMonth_valid d hm hr
  have hq : lookbackQuery (.valid d) fs
      = .obj (stampQuery fs (monthParam (.valid (previousMonth d)))
          (yearParam (.valid (previousMonth d)))) := by
    unfold lookbackQuery
    rw [hs]
  constructor
  · intro o os h
    rw [rowsOfMonth_index refs db fs _ hm, ← hq] at h
    unfold getLastOverdueList
    simp only [h]
  · intro o os h hrec
    rw [rowsOfMonth_index refs db fs _ hm, ← hq] at h
    unfold getLastOverdueList
    simp only [h, hs]
    rw [hq, hrec]
theorem lookback_from_short_day (refs : String → String) (db : Db) (o : Value)
    (os : List Value) :
    ∀ (k : Nat) (d : CalendarDate) (fs : List (String × Value)),
      d.month < 12 → d.day ≤ 28 →
      -271820 * 12 ≤ monthIndex d - ((k : Int) + 1) →
      (∀ j : Nat, 1 ≤ j → j < k + 1 → rowsOfMonth refs db fs (monthIndex d - j) = some []) →
      rowsOfMonth refs db fs (monthIndex d - ((k : Int) + 1)) = some (o :: os) →
      ∀ n, k + 1 ≤ n → getLastOverdueList refs db n (.valid d) (.obj fs) = .rows (o :: os) := by
  intro k
  induction k with
  | zero =>
    intro d fs hm h28 hr _ hfound n hn
    obtain ⟨hm1, _, hidx⟩ := previousMonth_of_short_day d hm h28
    obtain ⟨n1, rfl⟩ : ∃ n1, n = n1 + 1 := ⟨n - 1, by omega⟩
    have hr1 : -271820 * 12 ≤ monthIndex (previousMonth d) := by
      rw [hidx]
      simpa using hr
    refine (lookback_step refs db n1 d fs hm1 hr1).1 o os ?_
    rw [hidx]
    simpa using hfound
  | succ k ih =>
    intro d fs hm h28 hr hempty hfound n hn
    obtain ⟨hm1, hday, hidx⟩ := previousMonth_of_short_day d hm h28
    obtain ⟨n1, rfl⟩ : ∃ n1, n = n1 + 1 := ⟨n - 1, by omega⟩
    have hr1 : -271820 * 12 ≤ monthIndex (previousMonth d) := by
      rw [hidx]
      push_cast at hr
      omega
    refine (lookback_step refs db n1 d fs hm1 hr1).2 o os ?_ ?_
    · rw [hidx]
      simpa using hempty 1 (by omega) (by omega)
    · apply ih (previousMonth d) _ hm1 (by omega)
      · rw [hidx]
        push_cast at hr
        omega
      · intro j hj1 hj2
        rw [rowsOfMonth_stampQuery, hidx]
        have := hempty (j + 1) (by omega) (by omega)
        push_cast at this
        rw [show monthIndex d - 1 - (j : Int) = monthIndex d - ((j : Int) + 1) by omega]
        exact this
      · rw [rowsOfMonth_stampQuery, hidx]
        push_cast at hfound
        rw [show monthIndex d - 1 - ((k : Int) + 1) = monthIndex d - ((k : Int) + 1 + 1) by omega]
        exact hfound
      · omega

theorem lookback_from_any_day (refs : String → String) (db : Db) (o : Value)
    (os : List Value) :
    ∀ (k : Nat) (d : CalendarDate) (fs : List (String × Value)),
      d.month < 12 → 1 ≤ d.day → d.day ≤ 31 →
      -271820 * 12 ≤ monthIndex d - ((k : Int) + 1) →
      (∀ j : Nat, j < k + 1 → rowsOfMonth refs db fs (monthIndex d - j) = some []) →
      rowsOfMonth refs db fs (monthIndex d - ((k : Int) + 1)) = some (o :: os) →
      ∀ n, k + 2 ≤ n → getLastOverdueList refs db n (.valid d) (.obj fs) = .rows (o :: os) := by
  intro k
  induction k with
  | zero =>
    intro d fs hm h1 h31 hr hempty hfound n hn
    obtain ⟨hm1, hd1, hd31, hcase⟩ := previousMonth_cases d hm h1 h31
    obtain ⟨n1, rfl⟩ : ∃ n1, n = n1 + 1 := ⟨n - 1, by omega⟩
    rcases hcase with ⟨hidx, _⟩ | ⟨hidx, hd3⟩
    · have hr1 : -271820 * 12 ≤ monthIndex (previousMonth d) := by
        rw [hidx]
        simpa using hr
      refine (lookback_step refs db n1 d fs hm1 hr1).1 o os ?_
      rw [hidx]
      simpa using hfound
    · have hr1 : -271820 * 12 ≤ monthIndex (previousMonth d) := by
        rw [hidx]
        push_cast at hr
        omega
      refine (lookback_step refs db n1 d fs hm1 hr1).2 o os ?_ ?_
      · rw [hidx]
        simpa using hempty 0 (by omega)
      · apply lookback_from_short_day refs db o os 0 (previousMonth d) _ hm1 (by omega)
        · rw [hidx]
          exact hr
        · intro j hj1 hj2
          omega
        · rw [rowsOfMonth_stampQuery, hidx]
          exact hfound
        · omega
  | succ k ih =>
    intro d fs hm h1 h31 hr hempty hfound n hn
    obtain ⟨hm1, hd1, hd31, hcase⟩ := previousMonth_cases d hm h1 h31
    obtain ⟨n1, rfl⟩ : ∃ n1, n = n1 + 1 := ⟨n - 1, by omega⟩
    have hr1 : -271820 * 12 ≤ monthIndex (previousMonth d) := by
      rcases hcase with ⟨hidx, _⟩ | ⟨hidx, _⟩ <;> rw [hidx] <;> push_cast at hr <;> omega
    rcases hcase with ⟨hidx, _⟩ | ⟨hidx, hd3⟩
    · refine (lookback_step refs db n1 d fs hm1 hr1).2 o os ?_ ?_
      · rw [hidx]
        simpa using hempty 1 (by omega)
      · apply ih (previousMonth d) _ hm1 hd1 hd31
        · rw [hidx]
          push_cast at hr
          omega
        · intro j hj
          rw [rowsOfMonth_stampQuery, hidx]
          have := hempty (j + 1) (by omega)
          push_cast at this
          rw [show monthIndex d - 1 - (j : Int) = monthIndex d - ((j : Int) + 1) by omega]
          exact this
        · rw [rowsOfMonth_stampQuery, hidx]
          push_cast at hfound
          rw [show monthIndex d - 1 - ((k : Int) + 1) = monthIndex d - ((k : Int) + 1 + 1)
            by omega]
          exact hfound
        · omega
    · refine (lookback_step refs db n1 d fs hm1 hr1).2 o os ?_ ?_
      · rw [hidx]
        simpa using hempty 0 (by omega)
      · apply lookback_from_short_day refs db o os (k + 1) (previousMonth d) _ hm1 (by omega)
        · rw [hidx]
          exact hr
        · intro j hj1 hj2
          rw [rowsOfMonth_stampQuery, hidx]
          exact hempty j hj2
        · rw [rowsOfMonth_stampQuery, hidx]
          exact hfound
        · omega
/-- C17: let `d` be a calendar date and let the month of `d` and the `k - 1` months
before it hold no row that matches the query, while the month `k` months before
`d` holds the rows `found` (`k` at least 1, that month not before the year
-271820, which is within what a `Date` can hold). Then `getLastOverdueList`
returns, within `k + 1` calls, exactly the rows `found` of that month, the most
recent earlier month that has rows; the result is never empty. -/
theorem lookback_returns_latest_month (refs : String → String) (db : Db) (d : CalendarDate)
    (fs : List (String × Value)) (k : Nat) (found : List Value)
    (hm : d.month < 12) (h1 : 1 ≤ d.day) (hd : d.day ≤ daysInMonth d.year d.month)
    (hk : 1 ≤ k) (hr : -271820 * 12 ≤ monthIndex d - (k : Int))
    (hempty : ∀ j : Nat, j < k → rowsOfMonth refs db fs (monthIndex d - (j : Int)) = some [])
    (hfound : rowsOfMonth refs db fs (monthIndex d - (k : Int)) = some found)
    (hne : found ≠ []) :
    ∀ n, k + 1 ≤ n → getLastOverdueList refs db n (.valid d) (.obj fs) = .rows found := by
  obtain ⟨k1, rfl⟩ : ∃ k1, k = k1 + 1 := ⟨k - 1, by omega⟩
  obtain ⟨o, os, rfl⟩ : ∃ o os, found = o :: os := by
    cases found with
    | nil => exact absurd rfl hne
    | cons o os => exact ⟨o, os, rfl⟩
  have h31 : d.day ≤ 31 := le_trans hd (daysInMonth_bounds d.year d.month).2
  intro n hn
  push_cast at hr hfound
  exact lookback_from_any_day refs db o os k1 d fs hm h1 h31 hr hempty hfound n (by omega)

set_option maxRecDepth 8000 in
/-- Witness for C17: one overdue record, of January 2024, looked for from 31 March
2024: neither March nor February has a row, and the rows of January come back
within three calls. -/
theorem lookback_returns_latest_month_witness :
    getLastOverdueList overdueRefs januaryStore 3 (.valid ⟨2024, 2, 31⟩)
        (.obj [("clientId", .oid 7)])
      = .rows [.obj [("_id", .oid 10), ("clientId", .null),
          ("debtorId", .obj [("_id", .oid 1), ("entityName", .str "Acme")]),
          ("month", .str "01"), ("year", .str "2024"), ("status", .str "PENDING")]] :=
  lookback_returns_latest_month overdueRefs januaryStore ⟨2024, 2, 31⟩ [("clientId", .oid 7)] 2
    _ (by decide) (by decide) (by decide) (by decide) (by decide)
    (fun j hj => by interval_cases j <;> with_unfolding_all rfl)
    (by with_unfolding_all rfl) (by simp) 3 (by decide)

/-! ## Column preferences: reading -/

theorem selects_iff (taskColumn : Option Preference) (name : String) :
    selects taskColumn name = true ↔ ∃ p, taskColumn = some p ∧ name ∈ p.columns := by
  cases taskColumn with
  | none => simp [selects]
  | some p => simp [selects, includes]

theorem findPreference_some (manageColumns : List Preference) (columnFor : Value)
    (p : Preference) (h : findPreference manageColumns columnFor = some p) :
    p ∈ manageColumns ∧ Value.str p.moduleName = columnFor := by
  unfold findPreference at h
  have hb : Value.beq (.str p.moduleName) columnFor = true :=
    List.find?_some (p := fun i : Preference => Value.beq (.str i.moduleName) columnFor) h
  exact ⟨List.mem_of_find?_eq_some h, (Value.beq_iff _ _).mp hb⟩

theorem findPreference_of_mem (manageColumns : List Preference) (columnFor : Value)
    (p : Preference) (hn : (manageColumns.map (fun q => q.moduleName)).Nodup)
    (hp : p ∈ manageColumns) (hc : Value.str p.moduleName = columnFor) :
    findPreference manageColumns columnFor = some p := by
  cases h : findPreference manageColumns columnFor with
  | none =>
    unfold findPreference at h
    have := List.find?_eq_none.mp h p hp
    simp [hc, Value.beq_refl] at this
  | some q =>
    obtain ⟨hq, hqc⟩ := findPreference_some manageColumns columnFor q h
    have hname : q.moduleName = p.moduleName := by
      rw [← hc] at hqc
      exact Value.str.inj hqc
    rw [List.inj_on_of_nodup_map hn hq hp hname]

set_option maxRecDepth 8000 in
/-- C28, as stated, fails: a user with two preference entries for the task module,
the first without columns and the second with `title`, has an entry for the
module whose columns contain `title`, and the column-name read reports `title`
with `isChecked = false`: the handler reads the first entry only. -/
theorem column_checked_first_entry_counterexample :
    getColumnNames sampleModules [⟨"task", []⟩, ⟨"task", ["title"]⟩] (.str "task")
      = .success
          ⟨[⟨"title", "Title", false⟩, ⟨"dueDate", "Due Date", false⟩],
           [⟨"priority", "Priority", false⟩, ⟨"entityId", "Linked To", false⟩]⟩ ∧
    (∃ p ∈ ([⟨"task", []⟩, ⟨"task", ["title"]⟩] : List Preference),
      Value.str p.moduleName = .str "task" ∧ "title" ∈ p.columns) :=
  ⟨by with_unfolding_all rfl, ⟨"task", ["title"]⟩, by simp, rfl, by simp⟩

/-- C28, amended: for a module of the registry with a non-empty `manageColumns` list
and any user, the column-name read answers with the registry columns split in
two: `defaultFields` holds, in registry order, the columns whose name is among
the module's `defaultColumns`, and `customFields` holds, in registry order, the
others, so that the two lists together are a rearrangement of the registry
columns, each taken once. The flag `isChecked` of a column is true exactly when
the first preference entry that the user has for the module holds its name;
for a user with one entry per module, that is exactly when the user has a
preference entry for the module whose columns contain the name. -/
theorem column_name_partition (modules : List ModuleDescriptor)
    (manageColumns : List Preference) (columnFor : Value) (m : ModuleDescriptor)
    (ht : columnFor.truthy = true) (hm : findModule modules columnFor = some m)
    (hne : m.manageColumns ≠ []) :
    ∃ data, getColumnNames modules manageColumns columnFor = .success data ∧
      data.defaultFields
        = (m.manageColumns.filter (fun c => includes m.defaultColumns c.name)).map
            (fun c => ⟨c.name, c.label,
              selects (findPreference manageColumns columnFor) c.name⟩) ∧
      data.customFields
        = (m.manageColumns.filter (fun c => !includes m.defaultColumns c.name)).map
            (fun c => ⟨c.name, c.label,
              selects (findPreference manageColumns columnFor) c.name⟩) ∧
      (data.defaultFields ++ data.customFields).Perm
        (m.manageColumns.map (fun c => ⟨c.name, c.label,
          selects (findPreference manageColumns columnFor) c.name⟩)) ∧
      (∀ name, selects (findPreference manageColumns columnFor) name = true ↔
        ∃ p, findPreference manageColumns columnFor = some p ∧ name ∈ p.columns) ∧
      ((manageColumns.map (fun q => q.moduleName)).Nodup →
        ∀ name, selects (findPreference manageColumns columnFor) name = true ↔
          ∃ p ∈ manageColumns, Value.str p.moduleName = columnFor ∧ name ∈ p.columns) := by
  refine ⟨_, getColumnNames_success modules manageColumns columnFor m ht hm hne, ?_⟩
  rw [columnFieldsLoop_eq]
  refine ⟨rfl, rfl, ?_, fun name => selects_iff _ name, ?_⟩
  · simp only [List.nil_append, ← List.map_append]
    exact (List.filter_append_perm _ _).map _
  · intro hn name
    rw [selects_iff]
    constructor
    · rintro ⟨p, hp, hc⟩
      obtain ⟨h1, h2⟩ := findPreference_some manageColumns columnFor p hp
      exact ⟨p, h1, h2, hc⟩
    · rintro ⟨p, hp, hc, hcol⟩
      exact ⟨p, findPreference_of_mem manageColumns columnFor p hn hp hc, hcol⟩

/-- Witness for C28: the task module of the sample registry and a user who
selected `dueDate` and `priority`. -/
theorem column_name_partition_witness :
    ∃ data, getColumnNames sampleModules [⟨"task", ["dueDate", "priority"]⟩] (.str "task")
        = .success data ∧
      data.defaultFields = [⟨"title", "Title", false⟩, ⟨"dueDate", "Due Date", true⟩] ∧
      data.customFields = [⟨"priority", "Priority", true⟩, ⟨"entityId", "Linked To", false⟩] := by
  obtain ⟨data, h1, h2, h3, -⟩ :=
    column_name_partition sampleModules [⟨"task", ["dueDate", "priority"]⟩] (.str "task")
      ⟨"task",
        [ ⟨"title", "Title", "string", none⟩, ⟨"dueDate", "Due Date", "date", none⟩,
          ⟨"priority", "Priority", "string", none⟩, ⟨"entityId", "Linked To", "string", none⟩ ],
        ["title", "dueDate"]⟩ rfl (by with_unfolding_all rfl) (by simp)
  exact ⟨data, h1, by rw [h2]; with_unfolding_all rfl, by rw [h3]; with_unfolding_all rfl⟩

/-! ## Column preferences: writing -/

theorem updateTaskColumns_replace (cast : Value → Option (List String))
    (modules : List ModuleDescriptor) (manageColumns : List Preference)
    (fs : List (String × Value)) (columnFor : String) (cols : List String)
    (h1 : hasField fs "isReset" = true) (h2 : (lookupField fs "isReset").truthy = false)
    (h3 : (lookupField fs "columns").truthy = true)
    (h4 : lookupField fs "columnFor" = .str columnFor) (h5 : columnFor ∈ taskModuleNames)
    (h6 : cast (lookupField fs "columns") = some cols) :
    updateTaskColumns cast modules manageColumns (.obj fs)
      = (.success (), setColumns manageColumns columnFor cols) := by
  have ht : (Value.str columnFor).truthy = true := by
    simp only [taskModuleNames, List.mem_cons, List.mem_singleton, List.not_mem_nil,
      or_false] at h5
    rcases h5 with rfl | rfl | rfl | rfl | rfl | rfl <;> decide
  have hc : taskModuleNames.contains columnFor = true := by
    simpa using h5
  unfold updateTaskColumns
  simp only [Value.hasOwnProperty, prop_obj, h1, h2, h3, h4, ht, hc, h6, Bool.not_true,
    Bool.or_self, Bool.false_eq_true, if_false, if_true]

theorem setColumns_of_none (manageColumns : List Preference) (name : String)
    (columns : List String) (h : findPreference manageColumns (.str name) = none) :
    setColumns manageColumns name columns = manageColumns := by
  unfold findPreference at h
  induction manageColumns with
  | nil => rfl
  | cons p ps ih =>
    simp only [List.find?_cons, beq_str_str] at h
    by_cases hp : p.moduleName = name
    · simp [hp] at h
    · simp only [hp, decide_False] at h
      simp [setColumns, hp, ih h]

theorem setColumns_others (manageColumns : List Preference) (name : String)
    (columns : List String) :
    (setColumns manageColumns name columns).filter (fun q => !decide (q.moduleName = name))
        = manageColumns.filter (fun q => !decide (q.moduleName = name)) ∧
    (setColumns manageColumns name columns).map (fun q => q.moduleName)
        = manageColumns.map (fun q => q.moduleName) := by
  induction manageColumns with
  | nil => exact ⟨rfl, rfl⟩
  | cons p ps ih =>
    by_cases hp : p.moduleName = name
    · simp [setColumns, hp, List.filter_cons]
    · simp [setColumns, hp, List.filter_cons, ih.1, ih.2]

theorem checkedColumns_map (f : String → Bool) (l1 l2 : List ColumnDescriptor) :
    checkedColumns ⟨l1.map (fun c => ⟨c.name, c.label, f c.name⟩),
        l2.map (fun c => ⟨c.name, c.label, f c.name⟩)⟩
      = ((l1 ++ l2).filter (fun c => f c.name)).map (fun c => c.name) := by
  unfold checkedColumns
  simp only [← List.map_append, List.filter_map, List.map_map]
  rfl

set_option maxRecDepth 8000 in
/-- C21, as stated, fails: after an update of the task columns to `dueDate`, `title`
(in that order) the column-name read reports the selection `title`, `dueDate`, in
registry order; and for a user with no entry for the task module the update is
answered with success but stores nothing, so that the read reports no column as
selected. -/
theorem column_round_trip_counterexample :
    updateTaskColumns castStrings sampleModules [⟨"task", ["title"]⟩, ⟨"overdue", ["month"]⟩]
        (.obj [("isReset", .bool false), ("columns", .arr [.str "dueDate", .str "title"]),
          ("columnFor", .str "task")])
      = (.success (), [⟨"task", ["dueDate", "title"]⟩, ⟨"overdue", ["month"]⟩]) ∧
    getColumnNames sampleModules [⟨"task", ["dueDate", "title"]⟩, ⟨"overdue", ["month"]⟩]
        (.str "task")
      = .success ⟨[⟨"title", "Title", true⟩, ⟨"dueDate", "Due Date", true⟩],
          [⟨"priority", "Priority", false⟩, ⟨"entityId", "Linked To", false⟩]⟩ ∧
    checkedColumns ⟨[⟨"title", "Title", true⟩, ⟨"dueDate", "Due Date", true⟩],
        [⟨"priority", "Priority", false⟩, ⟨"entityId", "Linked To", false⟩]⟩
      = ["title", "dueDate"] ∧
    updateTaskColumns castStrings sampleModules [⟨"overdue", ["month"]⟩]
        (.obj [("isReset", .bool false), ("columns", .arr [.str "dueDate", .str "title"]),
          ("columnFor", .str "task")])
      = (.success (), [⟨"overdue", ["month"]⟩]) ∧
    getColumnNames sampleModules [⟨"overdue", ["month"]⟩] (.str "task")
      = .success ⟨[⟨"title", "Title", false⟩, ⟨"dueDate", "Due Date", false⟩],
          [⟨"priority", "Priority", false⟩, ⟨"entityId", "Linked To", false⟩]⟩ :=
  ⟨by with_unfolding_all rfl, by with_unfolding_all rfl, by with_unfolding_all rfl,
    by with_unfolding_all rfl, by with_unfolding_all rfl⟩

/-- C21, amended: for a user who has a preference entry for an accepted module, a
column update with `isReset = false` whose `columns` payload the storage layer
takes as the list `cols` stores exactly `cols`, order preserved, in the user's
entry for that module (the first one), and changes no entry of any other module:
the entries of the other modules, and the module names of all entries, in order,
are as before. A column-name read after it marks as selected the registry columns
of the module whose names occur in `cols`, in the order of the answer (default
columns first, each group in registry order). For a user without an entry for the
module the update stores nothing. -/
theorem column_update_round_trip (cast : Value → Option (List String))
    (modules : List ModuleDescriptor) (manageColumns : List Preference)
    (fs : List (String × Value)) (columnFor : String) (cols : List String)
    (h1 : hasField fs "isReset" = true) (h2 : (lookupField fs "isReset").truthy = false)
    (h3 : (lookupField fs "columns").truthy = true)
    (h4 : lookupField fs "columnFor" = .str columnFor) (h5 : columnFor ∈ taskModuleNames)
    (h6 : cast (lookupField fs "columns") = some cols) :
    updateTaskColumns cast modules manageColumns (.obj fs)
      = (.success (), setColumns manageColumns columnFor cols) ∧
    (∀ p, findPreference manageColumns (.str columnFor) = some p →
      findPreference (setColumns manageColumns columnFor cols) (.str columnFor)
        = some ⟨p.moduleName, cols⟩) ∧
    (findPreference manageColumns (.str columnFor) = none →
      setColumns manageColumns columnFor cols = manageColumns) ∧
    (setColumns manageColumns columnFor cols).filter (fun q => !decide (q.moduleName = columnFor))
      = manageColumns.filter (fun q => !decide (q.moduleName = columnFor)) ∧
    (setColumns manageColumns columnFor cols).map (fun q => q.moduleName)
      = manageColumns.map (fun q => q.moduleName) ∧
    (∀ m p, findModule modules (.str columnFor) = some m → m.manageColumns ≠ [] →
      findPreference manageColumns (.str columnFor) = some p →
      ∃ data, getColumnNames modules (setColumns manageColumns columnFor cols) (.str columnFor)
          = .success data ∧
        checkedColumns data
          = ((m.manageColumns.filter (fun c => includes m.defaultColumns c.name) ++
              m.manageColumns.filter (fun c => !includes m.defaultColumns c.name)).filter
                (fun c => includes cols c.name)).map (fun c => c.name)) := by
  have ht : (Value.str columnFor).truthy = true := by
    simp only [taskModuleNames, List.mem_cons, List.mem_singleton, List.not_mem_nil,
      or_false] at h5
    rcases h5 with rfl | rfl | rfl | rfl | rfl | rfl <;> decide
  refine ⟨updateTaskColumns_replace cast modules manageColumns fs columnFor cols h1 h2 h3 h4 h5
      h6, ?_, setColumns_of_none manageColumns columnFor cols,
    (setColumns_others manageColumns columnFor cols).1,
    (setColumns_others manageColumns columnFor cols).2, ?_⟩
  · intro p hp
    rw [findPreference_setColumns, hp]
    rfl
  · intro m p hm hne hp
    refine ⟨_, getColumnNames_success modules _ (.str columnFor) m ht hm hne, ?_⟩
    rw [findPreference_setColumns, hp, columnFieldsLoop_eq]
    exact checkedColumns_map (fun n => includes cols n) _ _

/-- Witness for C21: the task columns of a user are replaced by `dueDate`, `title`. -/
theorem column_update_round_trip_witness :
    updateTaskColumns castStrings sampleModules [⟨"task", ["title"]⟩, ⟨"overdue", ["month"]⟩]
        (.obj [("isReset", .bool false), ("columns", .arr [.str "dueDate", .str "title"]),
          ("columnFor", .str "task")])
      = (.success (),
          setColumns [⟨"task", ["title"]⟩, ⟨"overdue", ["month"]⟩] "task" ["dueDate", "title"]) :=
  (column_update_round_trip castStrings sampleModules
    [⟨"task", ["title"]⟩, ⟨"overdue", ["month"]⟩]
    [("isReset", .bool false), ("columns", .arr [.str "dueDate", .str "title"]),
      ("columnFor", .str "task")] "task" ["dueDate", "title"] rfl rfl rfl rfl (by decide)
    rfl).1
/-! ## Modules missing from the registry -/

theorem taskList_unknown_module (generate : Value → Nat) (ops : CaseOps)
    (exec : Option (List Stage × Value) → Option (List Value))
    (modules : List ModuleDescriptor) (manageColumns : List Preference) (userId : Value)
    (accessTypes : Option (List String)) (query : Value)
    (h : findModule modules (query.prop "columnFor") = none) :
    (∃ code, (taskList generate ops exec modules manageColumns userId accessTypes query).reply
      = .rejected 400 code) ∧
    (taskList generate ops exec modules manageColumns userId accessTypes query).modules = modules ∧
    (taskList generate ops exec modules manageColumns userId accessTypes query).manageColumns
      = manageColumns := by
  unfold taskList
  by_cases ht : (query.prop "columnFor").truthy = true
  · simp [ht, h]
  · simp only [Bool.not_eq_true] at ht
    simp [ht]

theorem getColumnNames_unknown_module (modules : List ModuleDescriptor)
    (manageColumns : List Preference) (columnFor : Value)
    (h : findModule modules columnFor = none) :
    ∃ code, getColumnNames modules manageColumns columnFor = .rejected 400 code := by
  unfold getColumnNames
  by_cases ht : columnFor.truthy = true
  · simp only [ht, Bool.not_true, Bool.false_eq_true, if_false, h]
    exact ⟨_, rfl⟩
  · simp only [Bool.not_eq_true] at ht
    simp only [ht, Bool.not_false, if_true]
    exact ⟨_, rfl⟩

theorem updateTaskColumns_not_accepted (cast : Value → Option (List String))
    (modules : List ModuleDescriptor) (manageColumns : List Preference) (body : Value)
    (h : ∀ name ∈ taskModuleNames, body.prop "columnFor" ≠ .str name) :
    ∃ code, updateTaskColumns cast modules manageColumns body
      = (.rejected 400 code, manageColumns) := by
  unfold updateTaskColumns
  split
  · exact ⟨_, rfl⟩
  · split
    · rename_i columnFor hc
      by_cases hin : taskModuleNames.contains columnFor = true
      · exact absurd hc (h columnFor (by simpa using hin))
      · simp only [hin, if_false]
        exact ⟨_, rfl⟩
    · exact ⟨_, rfl⟩

/-- C22, as stated, fails on the update route: with a registry that holds no
module, a reset of the task columns is answered with status 500, and an update
with `isReset = false` is answered with success and carried out. -/
theorem unknown_module_counterexample :
    findModule [] (.str "task") = none ∧
    updateTaskColumns castStrings [] [⟨"task", ["priority"]⟩]
        (.obj [("isReset", .bool true), ("columns", .arr []), ("columnFor", .str "task")])
      = (.failure, [⟨"task", ["priority"]⟩]) ∧
    updateTaskColumns castStrings [] [⟨"task", ["priority"]⟩]
        (.obj [("isReset", .bool false), ("columns", .arr [.str "title"]),
          ("columnFor", .str "task")])
      = (.success (), [⟨"task", ["title"]⟩]) :=
  ⟨rfl, by with_unfolding_all rfl, by with_unfolding_all rfl⟩

/-- C22, amended: a task column-read or list request whose `columnFor` names no
module of the registry is answered with status 400, and the list handler then
leaves the registry and the caller's columns as they were. A column update is
checked against the names the route accepts, not against the registry: it is
answered with status 400 when its `columnFor` is none of them, and an update with
`isReset = false` for an accepted name is carried out whatever the registry
holds. -/
theorem unknown_module_rejected (generate : Value → Nat) (modules : List ModuleDescriptor)
    (manageColumns : List Preference) :
    (∀ columnFor, findModule modules columnFor = none →
      ∃ code, getColumnNames modules manageColumns columnFor = .rejected 400 code) ∧
    (∀ (ops : CaseOps) (exec : Option (List Stage × Value) → Option (List Value))
        (userId : Value) (accessTypes : Option (List String)) (query : Value),
      findModule modules (query.prop "columnFor") = none →
      (∃ code, (taskList generate ops exec modules manageColumns userId accessTypes query).reply
        = .rejected 400 code) ∧
      (taskList generate ops exec modules manageColumns userId accessTypes query).modules = modules ∧
      (taskList generate ops exec modules manageColumns userId accessTypes query).manageColumns
        = manageColumns) ∧
    (∀ (cast : Value → Option (List String)) (body : Value),
      (∀ name ∈ taskModuleNames, body.prop "columnFor" ≠ .str name) →
      ∃ code, updateTaskColumns cast modules manageColumns body
        = (.rejected 400 code, manageColumns)) ∧
    (∀ (cast : Value → Option (List String)) (fs : List (String × Value))
        (columnFor : String) (cols : List String),
      hasField fs "isReset" = true → (lookupField fs "isReset").truthy = false →
      (lookupField fs "columns").truthy = true →
      lookupField fs "columnFor" = .str columnFor → columnFor ∈ taskModuleNames →
      cast (lookupField fs "columns") = some cols →
      updateTaskColumns cast modules manageColumns (.obj fs)
        = (.success (), setColumns manageColumns columnFor cols)) :=
  ⟨fun columnFor h => getColumnNames_unknown_module modules manageColumns columnFor h,
   fun ops exec userId accessTypes query h =>
    taskList_unknown_module generate ops exec modules manageColumns userId accessTypes query h,
   fun cast body h => updateTaskColumns_not_accepted cast modules manageColumns body h,
   fun cast fs columnFor cols h1 h2 h3 h4 h5 h6 =>
    updateTaskColumns_replace cast modules manageColumns fs columnFor cols h1 h2 h3 h4 h5 h6⟩

/-- Witness for C22: a column read for a module that the sample registry does not
hold. -/
theorem unknown_module_rejected_witness :
    ∃ code, getColumnNames sampleModules [⟨"task", ["title"]⟩] (.str "claim-task")
      = .rejected 400 code :=
  (unknown_module_rejected sampleIds sampleModules [⟨"task", ["title"]⟩]).1 (.str "claim-task")
    (by with_unfolding_all rfl)

/-! ## Shaping of the task list rows -/

theorem shapeTask_assignee_array (ops : CaseOps) (columns : List String)
    (fs : List (String × Value)) (xs : List Value) (row : Value)
    (hc : includes columns "assigneeId" = true) (ha : lookupField fs "assigneeId" = .arr xs)
    (hr : shapeTask ops columns (.obj fs) = some row) :
    row.prop "assigneeId" = .str "" := by
  unfold shapeTask at hr
  obtain ⟨fs1, hA, hr⟩ := Option.bind_eq_some.mp hr
  have h1 : lookupField fs1 "assigneeId" = .arr xs := by
    split at hA
    · split at hA
      · split at hA
        · simp only [Option.some.injEq] at hA
          rw [← hA, lookupField_assignField]
          simpa using ha
        · simp only [Option.some.injEq] at hA
          rw [← hA]
          exact ha
      · exact absurd hA (by simp)
    · simp only [Option.some.injEq] at hA
      rw [← hA]
      exact ha
  have hname : ((Value.arr xs).prop "name").truthy = false := rfl
  simp only [hc, if_true, h1, hname, Bool.and_false, Bool.false_eq_true, if_false] at hr
  by_cases he : includes columns "entityId" = true <;>
  by_cases hb : includes columns "createdById" = true <;>
  simp only [he, hb, if_true, if_false, Bool.false_eq_true] at hr
  · split at hr
    · exact absurd hr (by simp)
    · exact absurd hr (by simp)
    · rw [← Option.some.inj hr]
      simp [lookupField_assignField]
  · rw [← Option.some.inj hr]
    simp [lookupField_assignField]
  · split at hr
    · exact absurd hr (by simp)
    · exact absurd hr (by simp)
    · rw [← Option.some.inj hr]
      simp [lookupField_assignField]
  · rw [← Option.some.inj hr]
    simp [lookupField_assignField]

set_option maxRecDepth 8000 in
/-- C24 (the code departs from the claim): the handler shapes `assigneeId` as
`task.assigneeId && task.assigneeId.name ? task.assigneeId.name : ''`, and an
array has no property `name`, so a row whose `assigneeId` is an array is shaped to
the empty string whatever the array holds. Both branches of the plan leave an
array there: for a task assigned to the user Bob the restricted plan gives the
array of the joined user records and the full-access plan the array of their
names, and in both cases an execution that runs the stages of the plan gives a
row with `assigneeId = ""`, not `"Bob"`. The call `Task.aggregate(query)` as
Mongoose answers it refuses the object it is handed, and the handler answers
with status 500: no row with the name either. -/
theorem assignee_name_lost_in_list :
    (∀ (ops : CaseOps) (columns : List String) (fs : List (String × Value)) (xs : List Value)
        (row : Value),
      includes columns "assigneeId" = true → lookupField fs "assigneeId" = .arr xs →
      shapeTask ops columns (.obj fs) = some row → row.prop "assigneeId" = .str "") ∧
    (aggregationQuery sampleIds asciiCase ["title", "assigneeId", "isCompleted"]
        (.obj [("columnFor", .str "task"), ("page", .str "1"), ("limit", .str "5")])
        true false (.oid 100)).bind (fun plan => aggregate assigneeStore "tasks" plan.1)
      = some [.obj [("_id", .oid 40), ("title", .str "Call"),
          ("assigneeId", .arr [.obj [("_id", .oid 100), ("name", .str "Bob")]])]] ∧
    (aggregationQuery sampleIds asciiCase ["title", "assigneeId", "isCompleted"]
        (.obj [("columnFor", .str "task"), ("page", .str "1"), ("limit", .str "5")])
        true true (.oid 100)).bind (fun plan => aggregate assigneeStore "tasks" plan.1)
      = some [.obj [("_id", .oid 40), ("title", .str "Call"),
          ("assigneeId", .arr [.str "Bob"])]] ∧
    (∀ accessTypes, accessTypes = some [] ∨ accessTypes = some ["full-access"] →
      (taskList sampleIds asciiCase (runTaskPlan assigneeStore) taskRegistry
          [⟨"task", ["title", "assigneeId"]⟩] (.oid 100) accessTypes
          (.obj [("columnFor", .str "task"), ("page", .str "1"), ("limit", .str "5")])).reply
        = .success
            ⟨[.obj [("_id", .oid 40), ("title", .str "Call"), ("assigneeId", .str "")]],
             [isCompletedHeader, ⟨"title", "Title", "string", none⟩,
              ⟨"assigneeId", "Assignee", "string", none⟩],
             .num 0, some 1, some 5, some 0⟩) ∧
    (∀ accessTypes, accessTypes = some [] ∨ accessTypes = some ["full-access"] →
      (taskList sampleIds asciiCase taskAggregate taskRegistry
          [⟨"task", ["title", "assigneeId"]⟩] (.oid 100) accessTypes
          (.obj [("columnFor", .str "task"), ("page", .str "1"), ("limit", .str "5")])).reply
        = .failure) := by
  refine ⟨shapeTask_assignee_array, by with_unfolding_all rfl, by with_unfolding_all rfl, ?_, ?_⟩
  · rintro accessTypes (rfl | rfl) <;> with_unfolding_all rfl
  · rintro accessTypes (rfl | rfl) <;> with_unfolding_all rfl

/-- Witness for C24: a row whose `assigneeId` is the array with the record of Bob. -/
theorem assignee_name_lost_in_list_witness :
    (Value.obj [("_id", .oid 40),
        ("assigneeId", .str "")]).prop "assigneeId" = .str "" :=
  assignee_name_lost_in_list.1 asciiCase ["assigneeId"]
    [("_id", .oid 40), ("assigneeId", .arr [.obj [("_id", .oid 100), ("name", .str "Bob")]])]
    [.obj [("_id", .oid 100), ("name", .str "Bob")]] _ rfl rfl rfl
theorem detailPriority_keeps (ops : CaseOps) (fs fs1 : List (String × Value)) (k : String)
    (hk : k ≠ "priority") (h : detailPriority ops fs = some fs1) :
    lookupField fs1 k = lookupField fs k := by
  unfold detailPriority at h
  split at h
  · split at h
    · split at h
      · rw [← Option.some.inj h, lookupField_assignField]
        simp [Ne.symm hk]
      · rw [← Option.some.inj h]
    · exact absurd h (by simp)
  · rw [← Option.some.inj h]

theorem taskDetails_dangling_assignee (ops : CaseOps) (isValid : Value → Bool) (db : Db)
    (taskId id : Value) (task : List (String × Value))
    (hid : castObjectId taskId = some id) (ht : findById db "tasks" id = .obj task)
    (ha : (lookupField task "assigneeId").truthy = true)
    (hu : findById db "users" (lookupField task "assigneeId") = .null) :
    taskDetails ops isValid db taskId = .failure ∨
      ∃ code, taskDetails ops isValid db taskId = .rejected 400 code := by
  unfold taskDetails
  split
  · exact Or.inr ⟨_, rfl⟩
  · left
    simp only [hid, Option.map_some', ht]
    cases hp : detailPriority ops
        (["__v", "isDeleted", "createdAt", "updatedAt"].foldl eraseField task) with
    | none => rfl
    | some fs1 =>
      have hk : lookupField fs1 "assigneeId" = lookupField task "assigneeId" := by
        rw [detailPriority_keeps ops _ fs1 "assigneeId" (by decide) hp]
        simp [List.foldl, lookupField_eraseField]
      have hn : detailAssignee db fs1 = none := by
        unfold detailAssignee
        rw [hk, hu]
        simp [ha]
      simp [hn]

set_option maxRecDepth 8000 in
/-- C23 (the code departs from the claim): for a task that is assigned to a user
that does not exist and linked to a client that does not exist, the row of the
task list has `entityId = { _id: undefined, value: undefined, type: 'client' }`,
not the empty string: the join leaves empty arrays under `name` and `_id`, and
an empty array is truthy (this for an execution that runs the stages of the
plan; the call `Task.aggregate(query)` as Mongoose answers it refuses the object
it is handed, and the list is answered with status 500). The task details
handler answers such a task with status 500: it reads `user.name` from the
user it did not find. In general the details of a task whose assignee does not
exist are never answered with success. -/
theorem dangling_reference_not_empty :
    (∀ (ops : CaseOps) (isValid : Value → Bool) (db : Db) (taskId id : Value)
        (task : List (String × Value)),
      castObjectId taskId = some id → findById db "tasks" id = .obj task →
      (lookupField task "assigneeId").truthy = true →
      findById db "users" (lookupField task "assigneeId") = .null →
      taskDetails ops isValid db taskId = .failure ∨
        ∃ code, taskDetails ops isValid db taskId = .rejected 400 code) ∧
    (taskList sampleIds asciiCase taskAggregate taskRegistry
        [⟨"task", ["title", "entityId", "assigneeId"]⟩] (.oid 101) (some [])
        (.obj [("columnFor", .str "task"), ("page", .str "1"), ("limit", .str "5")])).reply
      = .failure ∧
    (taskList sampleIds asciiCase (runTaskPlan danglingStore) taskRegistry
        [⟨"task", ["title", "entityId", "assigneeId"]⟩] (.oid 101) (some [])
        (.obj [("columnFor", .str "task"), ("page", .str "1"), ("limit", .str "5")])).reply
      = .success
          ⟨[.obj [("_id", .oid 40), ("title", .str "Call"),
              ("entityId", .obj [("_id", .undefined), ("value", .undefined),
                ("type", .str "client")]),
              ("assigneeId", .str "")]],
           [isCompletedHeader, ⟨"title", "Title", "string", none⟩,
            ⟨"assigneeId", "Assignee", "string", none⟩,
            ⟨"entityId", "Linked To", "string", some entityRequest⟩],
           .num 0, some 1, some 5, some 0⟩ ∧
    taskDetails asciiCase (fun _ => true) danglingStore (.oid 40) = .failure :=
  ⟨taskDetails_dangling_assignee, by with_unfolding_all rfl, by with_unfolding_all rfl,
    by with_unfolding_all rfl⟩

/-- Witness for C23: the details of the task of the sample store. -/
theorem dangling_reference_not_empty_witness :
    taskDetails asciiCase (fun _ => true) danglingStore (.oid 40) = .failure ∨
      ∃ code, taskDetails asciiCase (fun _ => true) danglingStore (.oid 40)
        = .rejected 400 code :=
  dangling_reference_not_empty.1 asciiCase (fun _ => true) danglingStore (.oid 40) (.oid 40)
    [("_id", .oid 40), ("title", .str "Call"), ("assigneeType", .str "user"),
      ("assigneeId", .oid 101), ("entityType", .str "client"), ("entityId", .oid 9),
      ("isDeleted", .bool false)] rfl (by with_unfolding_all rfl) rfl
    (by with_unfolding_all rfl)

/-! ## The insurer list -/

theorem truthy_str (s : String) : (Value.str s).truthy = true ↔ s ≠ "" := by
  simp [Value.truthy]

theorem insurerPlan_sorting_address (columns : List String) (query : Value) (s : String)
    (hs : query.prop "sortBy" = .str s) (ha : s ∈ addressFields)
    (ho : (query.prop "sortOrder").truthy = true) :
    (insurerPlan columns query).sorting
      = some [(s, query.prop "sortOrder"),
          ("address." ++ s, .num (sortDirection (query.prop "sortOrder")))] := by
  simp only [addressFields, List.mem_cons, List.mem_singleton, List.not_mem_nil,
    or_false] at ha
  rcases ha with rfl | rfl | rfl | rfl | rfl | rfl <;>
  simp [insurerPlan, insurerSortingOptions, hs, ho, truthy_str, addressFields, assignField,
    Value.jsToString, beq_str_str] <;>
  with_unfolding_all rfl

theorem insurerPlan_sorting_plain (columns : List String) (query : Value) (s : String)
    (hs : query.prop "sortBy" = .str s) (hne : s ≠ "") (ha : s ∉ addressFields)
    (ho : (query.prop "sortOrder").truthy = true) :
    (insurerPlan columns query).sorting
      = some (if s = "__proto__" then []
          else [(s, .num (sortDirection (query.prop "sortOrder")))]) := by
  have hany : addressFields.any (fun a => Value.beq (.str a) (.str s)) = false := by
    simp only [addressFields, List.mem_cons, List.mem_singleton, List.not_mem_nil, or_false,
      not_or] at ha
    obtain ⟨h1, h2, h3, h4, h5, h6⟩ := ha
    simp [addressFields, beq_str_str, Ne.symm h1, Ne.symm h2, Ne.symm h3, Ne.symm h4,
      Ne.symm h5, Ne.symm h6]
  by_cases hp : s = "__proto__"
  · subst hp
    simp [insurerPlan, insurerSortingOptions, hs, ho, truthy_str, hany, Value.jsToString,
      setProperty_nil]
  · simp [insurerPlan, insurerSortingOptions, hs, ho, truthy_str, hne, hany,
      Value.jsToString, setProperty_nil, setProperty_same, hp]

set_option maxRecDepth 8000 in
/-- C29 (the code departs from the claim): for a `sortBy` that is no address field the
`$sort` object has the single key `sortBy` with the direction -1 or 1 (and no
key at all for the name `__proto__`, which no assignment makes a property). For an
address field it has two keys: the assignment of line 432 has already stored the
`sortOrder` of the request under `sortBy` itself, and the direction is then
stored under `address.` followed by `sortBy`. With `sortBy = city` and
`sortOrder = desc` the object is `{ city: 'desc', 'address.city': -1 }`, which is
no sort specification, and the list is answered with status 500. -/
theorem insurer_sort_by_address_field :
    (∀ (columns : List String) (query : Value) (s : String),
      query.prop "sortBy" = .str s → s ∈ addressFields →
      (query.prop "sortOrder").truthy = true →
      (insurerPlan columns query).sorting
        = some [(s, query.prop "sortOrder"),
            ("address." ++ s, .num (sortDirection (query.prop "sortOrder")))]) ∧
    (∀ (columns : List String) (query : Value) (s : String),
      query.prop "sortBy" = .str s → s ≠ "" → s ∉ addressFields →
      (query.prop "sortOrder").truthy = true →
      (insurerPlan columns query).sorting
        = some (if s = "__proto__" then []
            else [(s, .num (sortDirection (query.prop "sortOrder")))])) ∧
    (insurerPlan ["name", "city", "address"]
        (.obj [("page", .str "1"), ("limit", .str "5"), ("sortBy", .str "city"),
          ("sortOrder", .str "desc")])).sorting
      = some [("city", .str "desc"), ("address.city", .num (-1))] ∧
    (insurerPlan ["name", "city", "address"]
        (.obj [("page", .str "1"), ("limit", .str "5"), ("sortBy", .str "city"),
          ("sortOrder", .str "desc")])).stages = none ∧
    (insurerList (runInsurerPlan insurerStore) insurerRegistry [⟨"insurer", ["name", "city"]⟩]
        (.obj [("page", .str "1"), ("limit", .str "5"), ("sortBy", .str "city"),
          ("sortOrder", .str "desc")])).reply = .failure :=
  ⟨insurerPlan_sorting_address, insurerPlan_sorting_plain, by with_unfolding_all rfl,
    by with_unfolding_all rfl, by with_unfolding_all rfl⟩

/-- Witness for C29: a request sorted by `state`, ascending. -/
theorem insurer_sort_by_address_field_witness :
    (insurerPlan ["name", "address"]
        (.obj [("sortBy", .str "state"), ("sortOrder", .str "asc")])).sorting
      = some [("state", (Value.obj [("sortBy", .str "state"),
            ("sortOrder", .str "asc")]).prop "sortOrder"),
          ("address." ++ "state", .num (sortDirection ((Value.obj [("sortBy", .str "state"),
            ("sortOrder", .str "asc")]).prop "sortOrder")))] :=
  insurer_sort_by_address_field.1 ["name", "address"]
    (.obj [("sortBy", .str "state"), ("sortOrder", .str "asc")]) "state" rfl (by decide) rfl
/-! ## What the list handlers write to -/

theorem pushColumn_of_none (manageColumns : List Preference) (columnFor : Value) (x : String)
    (h : findPreference manageColumns columnFor = none) :
    pushColumn manageColumns columnFor x = manageColumns := by
  unfold findPreference at h
  induction manageColumns with
  | nil => rfl
  | cons p ps ih =>
    simp only [List.find?_cons] at h
    cases hb : Value.beq (.str p.moduleName) columnFor
    · simp only [hb] at h
      simp [pushColumn, hb, ih h]
    · simp [hb] at h

theorem findPreference_pushColumn (manageColumns : List Preference) (columnFor : Value)
    (x : String) :
    findPreference (pushColumn manageColumns columnFor x) columnFor
      = (findPreference manageColumns columnFor).map
          (fun p => ⟨p.moduleName, p.columns ++ [x]⟩) := by
  unfold findPreference
  induction manageColumns with
  | nil => rfl
  | cons p ps ih =>
    cases hb : Value.beq (.str p.moduleName) columnFor
    · simp only [pushColumn, hb, Bool.false_eq_true, if_false, List.find?_cons]
      exact ih
    · simp [pushColumn, hb, List.find?_cons]

theorem pushColumn_others (manageColumns : List Preference) (columnFor : Value) (x : String) :
    (pushColumn manageColumns columnFor x).filter
        (fun q => !Value.beq (.str q.moduleName) columnFor)
      = manageColumns.filter (fun q => !Value.beq (.str q.moduleName) columnFor) ∧
    (pushColumn manageColumns columnFor x).map (fun q => q.moduleName)
      = manageColumns.map (fun q => q.moduleName) := by
  induction manageColumns with
  | nil => exact ⟨rfl, rfl⟩
  | cons p ps ih =>
    cases hb : Value.beq (.str p.moduleName) columnFor
    · simp [pushColumn, hb, List.filter_cons, ih.1, ih.2]
    · simp [pushColumn, hb, List.filter_cons]

theorem taskList_refused (generate : Value → Nat) (ops : CaseOps)
    (modules : List ModuleDescriptor) (manageColumns : List Preference) (userId : Value)
    (accessTypes : Option (List String)) (query : Value) :
    (taskList generate ops taskAggregate modules manageColumns userId accessTypes query).modules
        = modules ∧
    ((taskList generate ops taskAggregate modules manageColumns userId accessTypes
          query).manageColumns = manageColumns ∨
      (taskList generate ops taskAggregate modules manageColumns userId accessTypes
          query).manageColumns
        = pushColumn manageColumns (query.prop "columnFor") "isCompleted") ∧
    (∀ m, (query.prop "columnFor").truthy = true →
      findModule modules (query.prop "columnFor") = some m → m.manageColumns ≠ [] →
      (taskList generate ops taskAggregate modules manageColumns userId accessTypes
          query).manageColumns
        = pushColumn manageColumns (query.prop "columnFor") "isCompleted" ∧
      (taskList generate ops taskAggregate modules manageColumns userId accessTypes
          query).reply = .failure) := by
  unfold taskList taskAggregate
  split
  · rename_i ht
    refine ⟨rfl, Or.inl rfl, fun m h => ?_⟩
    rw [h] at ht
    exact absurd ht (by simp)
  · split
    · rename_i hm
      refine ⟨rfl, Or.inl rfl, fun m _ h => ?_⟩
      rw [h] at hm
      exact absurd hm (by simp)
    · rename_i m hm
      split
      · rename_i he
        refine ⟨rfl, Or.inl rfl, fun m2 _ h hne => ?_⟩
        rw [hm] at h
        cases h
        exact absurd (List.isEmpty_iff.mp he) hne
      · split
        · rename_i hp
          exact ⟨rfl, Or.inl rfl, fun _ _ _ _ =>
            ⟨(pushColumn_of_none manageColumns _ "isCompleted" hp).symm, rfl⟩⟩
        · exact ⟨rfl, Or.inr rfl, fun _ _ _ _ => ⟨rfl, rfl⟩⟩

theorem insurerList_writes (exec : InsurerPlan → Option (List Value))
    (modules : List ModuleDescriptor) (manageColumns : List Preference) (query : Value) :
    (insurerList exec modules manageColumns query).modules = modules ∧
    (insurerList exec modules manageColumns query).manageColumns
      = pushColumn manageColumns (.str "insurer") "address" := by
  unfold insurerList
  split
  · rename_i h
    exact ⟨rfl, (pushColumn_of_none manageColumns _ "address" h).symm⟩
  · simp only
    split
    · split
      · split <;> exact ⟨rfl, rfl⟩
      · exact ⟨rfl, rfl⟩
    · exact ⟨rfl, rfl⟩

set_option maxRecDepth 8000 in
/-- C26, as stated, fails: after the task list handler ran for a caller whose task
columns are `title` and `entityId`, the caller's column list is `title`,
`entityId`, `isCompleted`; after the insurer list handler ran for a caller whose
columns are `name` and `city`, the caller's column list is `name`, `city`,
`address`. -/
theorem list_request_writes_counterexample :
    (taskList sampleIds asciiCase taskAggregate taskRegistry
        [⟨"task", ["title", "entityId"]⟩] (.oid 100) (some ["full-access"])
        (.obj [("columnFor", .str "task"), ("page", .str "1"), ("limit", .str "5")])).manageColumns
      = [⟨"task", ["title", "entityId", "isCompleted"]⟩] ∧
    (insurerList (runInsurerPlan insurerStore) insurerRegistry [⟨"insurer", ["name", "city"]⟩]
        (.obj [("page", .str "1"), ("limit", .str "5")])).manageColumns
      = [⟨"insurer", ["name", "city", "address"]⟩] :=
  ⟨by with_unfolding_all rfl, by with_unfolding_all rfl⟩

/-- C26, amended: handling a list request leaves the module registry as it was, and
changes the caller's column preference, as the request holds it, in one place.
The task list handler appends `isCompleted` to the caller's column list for the
module, once it has found the module with a non-empty column list, and the
insurer list handler appends `address` to the caller's column list for the
insurer module. Appending leaves the earlier columns in place and in order, and
leaves the entries of other modules as they were. (The task list handler is
taken with the `Task.aggregate` call as Mongoose answers it: the statements
behind that call are not reached.) -/
theorem list_request_writes (generate : Value → Nat) (modules : List ModuleDescriptor)
    (manageColumns : List Preference) (query : Value) :
    (∀ (ops : CaseOps) (userId : Value) (accessTypes : Option (List String)),
      (taskList generate ops taskAggregate modules manageColumns userId accessTypes
          query).modules = modules ∧
      ((taskList generate ops taskAggregate modules manageColumns userId accessTypes
            query).manageColumns = manageColumns ∨
        (taskList generate ops taskAggregate modules manageColumns userId accessTypes
            query).manageColumns
          = pushColumn manageColumns (query.prop "columnFor") "isCompleted") ∧
      (∀ m, (query.prop "columnFor").truthy = true →
        findModule modules (query.prop "columnFor") = some m → m.manageColumns ≠ [] →
        (taskList generate ops taskAggregate modules manageColumns userId accessTypes
            query).manageColumns
          = pushColumn manageColumns (query.prop "columnFor") "isCompleted" ∧
        (taskList generate ops taskAggregate modules manageColumns userId accessTypes
            query).reply = .failure)) ∧
    (∀ (exec : InsurerPlan → Option (List Value)),
      (insurerList exec modules manageColumns query).modules = modules ∧
      (insurerList exec modules manageColumns query).manageColumns
        = pushColumn manageColumns (.str "insurer") "address") ∧
    (∀ (columnFor : Value) (x : String),
      findPreference (pushColumn manageColumns columnFor x) columnFor
        = (findPreference manageColumns columnFor).map
            (fun p => ⟨p.moduleName, p.columns ++ [x]⟩) ∧
      (pushColumn manageColumns columnFor x).filter
          (fun q => !Value.beq (.str q.moduleName) columnFor)
        = manageColumns.filter (fun q => !Value.beq (.str q.moduleName) columnFor) ∧
      (pushColumn manageColumns columnFor x).map (fun q => q.moduleName)
        = manageColumns.map (fun q => q.moduleName)) :=
  ⟨fun ops userId accessTypes =>
      taskList_refused generate ops modules manageColumns userId accessTypes query,
   fun exec => insurerList_writes exec modules manageColumns query,
   fun columnFor x => ⟨findPreference_pushColumn manageColumns columnFor x,
      (pushColumn_others manageColumns columnFor x).1,
      (pushColumn_others manageColumns columnFor x).2⟩⟩

set_option maxRecDepth 8000 in
/-- Witness for C26: the task list of the sample registry for a caller whose task
columns are `title` and `entityId`. -/
theorem list_request_writes_witness :
    (taskList sampleIds asciiCase taskAggregate taskRegistry
        [⟨"task", ["title", "entityId"]⟩] (.oid 100) (some ["full-access"])
        (.obj [("columnFor", .str "task"), ("page", .str "1"), ("limit", .str "5")])).manageColumns
      = pushColumn [⟨"task", ["title", "entityId"]⟩]
          ((Value.obj [("columnFor", .str "task"), ("page", .str "1"),
            ("limit", .str "5")]).prop "columnFor") "isCompleted" ∧
    (taskList sampleIds asciiCase taskAggregate taskRegistry
        [⟨"task", ["title", "entityId"]⟩] (.oid 100) (some ["full-access"])
        (.obj [("columnFor", .str "task"), ("page", .str "1"), ("limit", .str "5")])).reply
      = .failure :=
  ((list_request_writes sampleIds taskRegistry [⟨"task", ["title", "entityId"]⟩]
    (.obj [("columnFor", .str "task"), ("page", .str "1"), ("limit", .str "5")])).1
    asciiCase (.oid 100) (some ["full-access"])).2.2
    ⟨"task",
      [ ⟨"title", "Title", "string", none⟩, ⟨"assigneeId", "Assignee", "string", none⟩,
        ⟨"entityId", "Linked To", "string", none⟩,
        ⟨"createdById", "Created By", "string", none⟩ ],
      ["title", "assigneeId"]⟩ rfl (by with_unfolding_all rfl) (by simp)

/-! ## The rows of the client user list -/

theorem yesNo_false (fs : List (String × Value)) (k : String)
    (h : lookupField fs k = .bool false) : yesNo fs k = fs := by
  simp [yesNo, h, Value.truthy]

set_option maxRecDepth 8000 in
/-- C25 (the code departs from the claim): the flag is rewritten only inside
`if (user.isDecisionMaker && user.isDecisionMaker.length !== 0)`, so a flag that
is `false` is left as the boolean `false` and never becomes `"No"`; and the rows
are shaped at all only when the column `name` or `hasPortalAccess` is selected,
so that with the column `isDecisionMaker` alone a flag that is `true` stays the
boolean `true`. -/
theorem yes_no_flags_not_shaped :
    (∀ (fs : List (String × Value)) (k : String),
      lookupField fs k = .bool false → yesNo fs k = fs) ∧
    (∀ (columns : List String) (descriptors : List ColumnDescriptor)
        (first : List (String × Value)) (rest rows : List Value),
      checkForLink columns descriptors = false →
      lookupField first "paginatedResult" = .arr rows →
      clientUserDocs columns descriptors (.obj first :: rest) = some rows) ∧
    clientUserDocs ["name", "isDecisionMaker"] clientUserColumns
        [.obj [("paginatedResult", .arr
            [ .obj [("_id", .oid 1), ("name", .str "Ann"), ("isDecisionMaker", .bool false)],
              .obj [("_id", .oid 2), ("name", .str "Ben"), ("isDecisionMaker", .bool true)] ]),
          ("totalCount", .arr [.obj [("count", .num 2)]])]]
      = some
          [ .obj [("_id", .oid 1), ("name", .obj [("id", .oid 1), ("value", .str "Ann")]),
              ("isDecisionMaker", .bool false)],
            .obj [("_id", .oid 2), ("name", .obj [("id", .oid 2), ("value", .str "Ben")]),
              ("isDecisionMaker", .str "Yes")] ] ∧
    clientUserDocs ["isDecisionMaker"] clientUserColumns
        [.obj [("paginatedResult", .arr [.obj [("_id", .oid 2), ("isDecisionMaker", .bool true)]]),
          ("totalCount", .arr [.obj [("count", .num 1)]])]]
      = some [.obj [("_id", .oid 2), ("isDecisionMaker", .bool true)]] := by
  refine ⟨yesNo_false, ?_, by with_unfolding_all rfl, by with_unfolding_all rfl⟩
  intro columns descriptors first rest rows hc hp
  simp [clientUserDocs, hp, hc]

/-- Witness for C25: a row whose flag `isDecisionMaker` is `false`. -/
theorem yes_no_flags_not_shaped_witness :
    yesNo [("_id", .oid 1), ("isDecisionMaker", .bool false)] "isDecisionMaker"
      = [("_id", .oid 1), ("isDecisionMaker", .bool false)] :=
  yes_no_flags_not_shaped.1 [("_id", .oid 1), ("isDecisionMaker", .bool false)]
    "isDecisionMaker" rfl

/-! ## The drawer of a populated overdue record -/

theorem drawerValue_debtor (ops : CaseOps) (fs gs : List (String × Value))
    (h : lookupField fs "debtorId" = .obj gs) :
    drawerValue ops (.obj fs) "debtorId" = some (lookupField gs "name") := by
  simp [drawerValue, h, Value.truthy]

set_option maxRecDepth 8000 in
/-- C27 (the code departs from the claim): for each of `insurerId`, `clientId` and
`debtorId` the drawer reads the property `name` of the populated record. A
debtor carries its name under `entityName`, so for an overdue record populated
with the debtor Acme the triple `Debtor Name` has the value `undefined`, while
the triples of the client and of the insurer have their names. -/
theorem drawer_debtor_name_missing :
    (∀ (ops : CaseOps) (fs gs : List (String × Value)),
      lookupField fs "debtorId" = .obj gs →
      drawerValue ops (.obj fs) "debtorId" = some (lookupField gs "name")) ∧
    overdueRows overdueRefs drawerStore (.obj [("month", .str "01"), ("year", .str "2024")])
      = some [.obj [("_id", .oid 10),
          ("clientId", .obj [("_id", .oid 7), ("name", .str "Client Co")]),
          ("debtorId", .obj [("_id", .oid 1), ("entityName", .str "Acme")]),
          ("insurerId", .obj [("_id", .oid 3), ("name", .str "Insure Ltd")]),
          ("month", .str "01"), ("year", .str "2024"), ("status", .str "PENDING")]] ∧
    getDrawerDetails asciiCase
        (.obj [("_id", .oid 10),
          ("clientId", .obj [("_id", .oid 7), ("name", .str "Client Co")]),
          ("debtorId", .obj [("_id", .oid 1), ("entityName", .str "Acme")]),
          ("insurerId", .obj [("_id", .oid 3), ("name", .str "Insure Ltd")]),
          ("month", .str "01"), ("year", .str "2024"), ("status", .str "PENDING")])
      = some
          [ ⟨"Status", .str "Pending", "status"⟩, ⟨"Month-Year", .str "Jan-2024", "string"⟩,
            ⟨"Client Name", .str "Client Co", "string"⟩,
            ⟨"Debtor Name", .undefined, "string"⟩,
            ⟨"Insurer Name", .str "Insure Ltd", "string"⟩ ] :=
  ⟨drawerValue_debtor, by with_unfolding_all rfl, by with_unfolding_all rfl⟩

/-- Witness for C27: the populated debtor Acme. -/
theorem drawer_debtor_name_missing_witness :
    drawerValue asciiCase
        (.obj [("_id", .oid 10),
          ("debtorId", .obj [("_id", .oid 1), ("entityName", .str "Acme")])]) "debtorId"
      = some (lookupField [("_id", .oid 1), ("entityName", .str "Acme")] "name") :=
  drawer_debtor_name_missing.1 asciiCase
    [("_id", .oid 10), ("debtorId", .obj [("_id", .oid 1), ("entityName", .str "Acme")])]
    [("_id", .oid 1), ("entityName", .str "Acme")] rfl

/-! ## The base match of the document list of a debtor -/

theorem keyPath_entityRefId : keyPath "entityRefId" = ["entityRefId"] := by
  with_unfolding_all rfl

theorem objectIdOfString_is_oid (s : String) (entity : Value)
    (h : objectIdOfString s = some entity) : ∃ n, entity = .oid n := by
  unfold objectIdOfString at h
  split at h
  · exact ⟨_, (Option.some.inj h).symm⟩
  · split at h
    · exact ⟨_, (Option.some.inj h).symm⟩
    · exact absurd h (by simp)

theorem objectId_is_oid (generate : Value → Nat) (x entity : Value)
    (h : objectId generate x = some entity) : ∃ n, entity = .oid n := by
  cases x with
  | str s => exact objectIdOfString_is_oid s entity h
  | arr xs => exact absurd h (by simp [objectId])
  | obj fs => exact absurd h (by simp [objectId])
  | bool b => exact absurd h (by simp [objectId])
  | _ => exact ⟨_, (Option.some.inj h).symm⟩

theorem queryEq_oid (r : Nat) (w : Value) : queryEq (.oid r) w = Value.beq (.oid r) w := by
  cases w <;> rfl

theorem filterQuery_mem (q : Value) :
    ∀ (l out : List Value), filterQuery q l = some out → ∀ a ∈ out, a ∈ l := by
  intro l
  induction l with
  | nil =>
    intro out h a ha
    simp [filterQuery] at h
    subst h
    exact ha
  | cons d ds ih =>
    intro out h a ha
    simp only [filterQuery] at h
    split at h
    · rename_i b rest hb hrest
      simp only [Option.some.injEq] at h
      subst h
      split at ha
      · rcases List.mem_cons.mp ha with rfl | ha
        · exact List.mem_cons_self _ _
        · exact List.mem_cons_of_mem _ (ih rest hrest a ha)
      · exact List.mem_cons_of_mem _ (ih rest hrest a ha)
    · simp at h

theorem documentDebtorQuery_shape (generate : Value → Nat) (db : Db) (entityId userId query : Value)
    (h : documentDebtorQuery generate db entityId userId = some query) :
    ∃ (e c u : Nat) (applications : List Value),
      objectId generate entityId = some (.oid e) ∧
      find db "applications" (.obj [("debtorId", .oid e)]) = some applications ∧
      query = .obj [("$and", .arr
        [ .obj [("entityRefId", .oid e)],
          .obj [("entityRefId", .obj [("$in", .arr (applications.map (fun i => i.prop "_id")))])],
          .obj [("$or", .arr
            [ .obj [("uploadByType", .str "client-user"), ("uploadById", .oid c)],
              .obj [("uploadByType", .str "user"), ("isPublic", .bool true)],
              .obj [("uploadByType", .str "user"), ("uploadById", .oid u)] ])] ])] := by
  unfold documentDebtorQuery at h
  obtain ⟨entity, he, h⟩ := Option.bind_eq_some.mp h
  obtain ⟨applications, ha, h⟩ := Option.bind_eq_some.mp h
  split at h
  · obtain ⟨clientId, hc, h⟩ := Option.bind_eq_some.mp h
    obtain ⟨user, hu, h⟩ := Option.map_eq_some'.mp h
    obtain ⟨e, rfl⟩ := objectId_is_oid generate _ _ he
    obtain ⟨c, rfl⟩ := objectId_is_oid generate _ _ hc
    obtain ⟨u, rfl⟩ := objectId_is_oid generate _ _ hu
    exact ⟨e, c, u, applications, he, ha, h.symm⟩
  · simp at h

theorem debtor_match_value (fs : List (String × Value)) (e c u r : Nat) (ids : List Value)
    (hr : lookupField fs "entityRefId" = .oid r)
    (hn : Value.beq (.oid r) (.oid e) = true → ∀ x ∈ ids, Value.beq (.oid r) x = false) :
    matchesQuery (.obj [("$and", .arr
        [ .obj [("entityRefId", .oid e)],
          .obj [("entityRefId", .obj [("$in", .arr ids)])],
          .obj [("$or", .arr
            [ .obj [("uploadByType", .str "client-user"), ("uploadById", .oid c)],
              .obj [("uploadByType", .str "user"), ("isPublic", .bool true)],
              .obj [("uploadByType", .str "user"), ("uploadById", .oid u)] ])] ])]) (.obj fs)
      = some false := by
  have hop : ∀ v, isOperatorObject (.obj [("$in", v)]) = true := fun _ => by
    with_unfolding_all rfl
  simp [matchesQuery, matchesValue, matchesFields, matchesEntry, matchesAll, matchesAny,
    keyPath_entityRefId, getPath, Value.step, hr, queryOps, hop, queryEq_oid]
  intro hA x hx hbx
  have := hn hA x hx
  simp [hbx] at this

set_option maxRecDepth 8000 in
/-- C30 (the code departs from the claim): the base match built for
`documentFor = "debtor"` is the conjunction of `entityRefId = E`, of
`entityRefId in applicationIds` and of the visibility alternatives. When no
application of the debtor has the id `E`, no document whose `entityRefId` is an
id satisfies it: neither a document of the debtor nor a document of one of its
applications. In a store with the debtor 5, its application 20 and one public
user-uploaded document of each, the match selects no document. -/
theorem document_debtor_match_unsatisfiable (generate : Value → Nat) :
    (∀ (db : Db) (entityId userId query : Value) (fs : List (String × Value)) (r : Nat),
      documentDebtorQuery generate db entityId userId = some query →
      lookupField fs "entityRefId" = .oid r →
      (∀ a ∈ db "applications", some (a.prop "_id") ≠ objectId generate entityId) →
      matchesQuery query (.obj fs) = some false) ∧
    documentDebtorQuery sampleIds documentStore (.oid 5) (.oid 2)
      = some (.obj [("$and", .arr
          [ .obj [("entityRefId", .oid 5)],
            .obj [("entityRefId", .obj [("$in", .arr [.oid 20])])],
            .obj [("$or", .arr
              [ .obj [("uploadByType", .str "client-user"), ("uploadById", .oid 7)],
                .obj [("uploadByType", .str "user"), ("isPublic", .bool true)],
                .obj [("uploadByType", .str "user"), ("uploadById", .oid 2)] ])] ])]) ∧
    (documentDebtorQuery sampleIds documentStore (.oid 5) (.oid 2)).bind
        (fun query => filterQuery query (documentStore "documents")) = some [] := by
  refine ⟨?_, by with_unfolding_all rfl, by with_unfolding_all rfl⟩
  intro db entityId userId query fs r hq hr hno
  obtain ⟨e, c, u, applications, he, ha, rfl⟩ := documentDebtorQuery_shape generate db entityId userId query hq
  refine debtor_match_value fs e c u r _ hr ?_
  intro hA x hx
  have hre : (Value.oid r) = .oid e := (Value.beq_iff _ _).mp hA
  obtain ⟨a, hmem, rfl⟩ := List.mem_map.mp hx
  have hdb : a ∈ db "applications" := filterQuery_mem _ _ _ ha a hmem
  have := hno a hdb
  rw [he, ← hre] at this
  exact (Value.beq_false_iff _ _).mpr (fun h => this (by rw [h]))

/-- Witness for C30: the public document 30 of the debtor 5, whose only
application is 20. -/
theorem document_debtor_match_unsatisfiable_witness :
    matchesQuery
        (.obj [("$and", .arr
          [ .obj [("entityRefId", .oid 5)],
            .obj [("entityRefId", .obj [("$in", .arr [.oid 20])])],
            .obj [("$or", .arr
              [ .obj [("uploadByType", .str "client-user"), ("uploadById", .oid 7)],
                .obj [("uploadByType", .str "user"), ("isPublic", .bool true)],
                .obj [("uploadByType", .str "user"), ("uploadById", .oid 2)] ])] ])])
        (.obj [("_id", .oid 30), ("entityRefId", .oid 5), ("uploadByType", .str "user"),
          ("uploadById", .oid 2), ("isPublic", .bool true)]) = some false :=
  (document_debtor_match_unsatisfiable sampleIds).1 documentStore (.oid 5) (.oid 2) _
    [("_id", .oid 30), ("entityRefId", .oid 5), ("uploadByType", .str "user"),
      ("uploadById", .oid 2), ("isPublic", .bool true)] 5
    (by with_unfolding_all rfl) (by with_unfolding_all rfl)
    (by
      intro a ha
      have : a = .obj [("_id", .oid 20), ("debtorId", .oid 5)] := by
        simpa [documentStore] using ha
      subst this
      intro h
      have h2 : some (Value.oid 20) = some (Value.oid 5) := by with_unfolding_all exact h
      simp at h2)

end Trad
